import Mathlib

/-! # CollisionAndAttack: the simulation core of `game.js`

A shallow embedding of the simulation part of `src/game.js` (entity classes `Unit` and
`Bunker`, target search, collision resolution and the per-frame `gameLoop`), followed by the
properties proved about it.

Modelling conventions.

* JavaScript numbers are modelled by exact rationals `ℚ`.
* `Math.hypot` is a library function of the host; every function that calls it takes it as the
  parameter `hypot`.  `hypotQ` is a computable instance that is exact whenever the sum of squares
  is the square of a rational, and rounds down otherwise; `hypotUp` is a second one, which rounds
  up to a multiple of `2^-52` and returns at (1, 1) the double that `Math.hypot(1, 1)` returns.
  Statements that are meant for every pair of positions assume of `hypot` at most that it is
  non-negative and zero only at (0, 0).
* `Math.random` is the parameter `random` (the value returned by the `k`-th call) together with
  the call counter `rngCalls` of the state.
* Objects are records in the list `gameObjects`; an object reference (`targetUnit`, the elements
  of `selectedUnits`) is the `id` of the referenced object.  Ids are handed out from the counter
  `nextId`, which stands for the random suffix of the JavaScript id strings.  An id that is no
  longer in the population denotes an object that the death sweep removed, whose health is
  `<= 0`.
* `Unit` and `Bunker` objects share one record type with the tag `type`; the fields of the other
  class are inert.  The presentation-only field `color` is left out; the only effect of its
  initialisation, the failure of the constructors for an unknown player, is kept (`Unit.new`,
  `Bunker.new`).
-/

namespace CollisionAndAttack

/-! ## Constants -/

def MAP_WIDTH : ℚ := 1000
def MAP_HEIGHT : ℚ := 700
def TARGET_ACQUISITION_RANGE_FACTOR : ℚ := 3 / 2
def BUNKER_SPAWN_COOLDOWN : ℚ := 1500
def ATTACK_EFFECT_DURATION : ℚ := 100
def SPARK_BURST_DURATION : ℚ := 150

/-! ## Data model -/

/-- The `type` field of a game object. -/
inductive EntityType
  | unit
  | bunker
  deriving DecidableEq, Repr

/-- The `commandState` field of a unit. -/
inductive CommandState
  | idle
  | moving
  | attacking
  | attackMoving
  deriving DecidableEq, Repr

/-- One entry of the `players` table. -/
structure PlayerState where
  supplyCap : ℚ
  currentSupply : ℚ
  deriving DecidableEq, Repr

/-- The `players` table: `none` stands for `undefined`. -/
abbrev Players := Int → Option PlayerState

/-- The table `players` as declared in the source (ids 1 to 4, cap 5, supply 0). -/
def players : Players := fun id =>
  if 1 ≤ id ∧ id ≤ 4 then some { supplyCap := 5, currentSupply := 0 } else none

/-- A game object, `Unit` or `Bunker`. -/
structure Entity where
  id : Nat
  type : EntityType
  x : ℚ
  y : ℚ
  size : ℚ
  playerId : Int
  maxHealth : ℚ
  health : ℚ
  targetX : ℚ
  targetY : ℚ
  speed : ℚ
  supplyCost : ℚ
  attackDamage : ℚ
  attackRange : ℚ
  attackCooldown : ℚ
  lastAttackTime : ℚ
  targetUnit : Option Nat
  targetAcquisitionRange : ℚ
  commandState : CommandState
  aMoveTargetX : ℚ
  aMoveTargetY : ℚ
  rallyPoint : ℚ × ℚ
  spawnCooldown : ℚ
  lastSpawnTime : ℚ

/-- An entry of `attackEffects`. -/
inductive AttackEffect
  | laser (startX startY endX endY timestamp : ℚ)
  | burst (x y timestamp : ℚ)
  deriving DecidableEq, Repr

/-- The mutable globals of the simulation. -/
structure Game where
  gameObjects : List Entity
  players : Players
  selectedUnits : List Nat
  currentPlayerId : Int
  isAMoveMode : Bool
  attackEffects : List AttackEffect
  nextId : Nat
  rngCalls : Nat

/-- Apply `f` to the object at index `i`. -/
def Game.modifyObj (g : Game) (i : Nat) (f : Entity → Entity) : Game :=
  { g with gameObjects := g.gameObjects.modify f i }

/-- Index of the object a reference `id` points to (the length of the list when absent). -/
def indexOfId (objs : List Entity) (id : Nat) : Nat :=
  objs.findIdx (fun e => decide (e.id = id))

/-- The test `ref.health <= 0` for a reference: a removed object is dead. -/
def refDead (objs : List Entity) (id : Nat) : Bool :=
  match objs[indexOfId objs id]? with
  | some t => decide (t.health ≤ 0)
  | none => true

/-! ## Numeric helpers -/

/-- Square root of a rational, exact on squares of rationals, rounded down on the numerator
scale otherwise. -/
def sqrtQ (q : ℚ) : ℚ :=
  (Nat.sqrt (q.num.toNat * q.den) : ℚ) / (q.den : ℚ)

/-- A computable instance of `Math.hypot`. -/
def hypotQ (a b : ℚ) : ℚ := sqrtQ (a * a + b * b)

/-! ## Constructors -/

/-- Field initialisation of `new Bunker(x, y, playerId, size)`. -/
def Bunker.init (x y : ℚ) (playerId : Int) (id : Nat) (size : ℚ) : Entity :=
  { id := id, type := .bunker, x := x, y := y, size := size, playerId := playerId,
    maxHealth := 500, health := 500,
    targetX := 0, targetY := 0, speed := 0, supplyCost := 0, attackDamage := 0,
    attackRange := 0, attackCooldown := 0, lastAttackTime := 0, targetUnit := none,
    targetAcquisitionRange := 0, commandState := .idle, aMoveTargetX := 0, aMoveTargetY := 0,
    rallyPoint := (MAP_WIDTH / 2, MAP_HEIGHT / 2),
    spawnCooldown := BUNKER_SPAWN_COOLDOWN, lastSpawnTime := 0 }

/-- The constructor `new Bunker(x, y, playerId, size)`: `none` is the `TypeError` raised by
`players[playerId].color` for an unknown player. -/
def Bunker.new (ps : Players) (x y : ℚ) (playerId : Int) (id : Nat) (size : ℚ) :
    Option Entity :=
  (ps playerId).map (fun _ => Bunker.init x y playerId id size)

/-- Field initialisation of `new Unit(x, y, playerId, size, speed)`. -/
def Unit.init (x y : ℚ) (playerId : Int) (id : Nat) (size speed : ℚ) : Entity :=
  { id := id, type := .unit, x := x, y := y, size := size, playerId := playerId,
    maxHealth := 100, health := 100,
    targetX := x, targetY := y, speed := speed, supplyCost := 1, attackDamage := 10,
    attackRange := 100, attackCooldown := 1000, lastAttackTime := 0, targetUnit := none,
    targetAcquisitionRange := 100 * TARGET_ACQUISITION_RANGE_FACTOR,
    commandState := .idle, aMoveTargetX := x, aMoveTargetY := y,
    rallyPoint := (0, 0), spawnCooldown := 0, lastSpawnTime := 0 }

/-- The constructor `new Unit(x, y, playerId, size, speed)`: `none` is the `TypeError` raised by
`players[playerId].color` for an unknown player. -/
def Unit.new (ps : Players) (x y : ℚ) (playerId : Int) (id : Nat) (size speed : ℚ) :
    Option Entity :=
  (ps playerId).map (fun _ => Unit.init x y playerId id size speed)

/-! ## Entity methods -/

/-- The method `Bunker.takeDamage`. -/
def Bunker.takeDamage (e : Entity) (damageAmount : ℚ) : Entity :=
  let e1 := { e with health := e.health - damageAmount }
  if e1.health < 0 then { e1 with health := 0 } else e1

/-- The method `Unit.takeDamage`. -/
def Unit.takeDamage (e : Entity) (damageAmount : ℚ) : Entity :=
  let e1 := { e with health := e.health - damageAmount }
  if e1.health < 0 then { e1 with health := 0 } else e1

/-- The call `target.takeDamage(d)`, dispatched on the class of the target. -/
def Entity.takeDamage (e : Entity) (damageAmount : ℚ) : Entity :=
  match e.type with
  | .unit => Unit.takeDamage e damageAmount
  | .bunker => Bunker.takeDamage e damageAmount

/-- The method `Unit.performMovement`. -/
def Unit.performMovement (hypot : ℚ → ℚ → ℚ) (u : Entity) : Entity :=
  if u.x = u.targetX ∧ u.y = u.targetY then u
  else
    let dx := u.targetX - u.x
    let dy := u.targetY - u.y
    let distance := hypot dx dy
    let finalX := if distance ≤ u.speed then u.targetX else u.x + (dx / distance) * u.speed
    let finalY := if distance ≤ u.speed then u.targetY else u.y + (dy / distance) * u.speed
    let halfSize := u.size / 2
    { u with
      x := max halfSize (min (MAP_WIDTH - halfSize) finalX)
      y := max halfSize (min (MAP_HEIGHT - halfSize) finalY) }

/-- The method `Unit.moveTo`. -/
def Unit.moveTo (u : Entity) (targetX targetY : ℚ) : Entity :=
  { u with commandState := .moving, targetUnit := none, targetX := targetX, targetY := targetY,
           aMoveTargetX := targetX, aMoveTargetY := targetY }

/-- The method `Unit.attackMoveTo`. -/
def Unit.attackMoveTo (u : Entity) (targetX targetY : ℚ) : Entity :=
  { u with commandState := .attackMoving, targetUnit := none, aMoveTargetX := targetX,
           aMoveTargetY := targetY, targetX := targetX, targetY := targetY }

/-- The method `Unit.attackUnit`; the argument is the reference to the target. -/
def Unit.attackUnit (u : Entity) (target : Nat) : Entity :=
  { u with commandState := .attacking, targetUnit := some target }

/-- The function `findNearestEnemyInRange`. -/
def findNearestEnemyInRange (unit : Entity) (range : ℚ) (allGameObjects : List Entity) :
    Option Entity :=
  (allGameObjects.foldl
    (fun (acc : Option Entity × ℚ) otherObj =>
      if unit.id = otherObj.id ∨ otherObj.health ≤ 0 ∨ otherObj.playerId = unit.playerId then acc
      else
        let dx := otherObj.x - unit.x
        let dy := otherObj.y - unit.y
        let distanceSq := dx * dx + dy * dy
        let combinedHalfSizes := unit.size / 2 + otherObj.size / 2
        let effectiveRange := range + combinedHalfSizes
        let effectiveRangeSq := effectiveRange * effectiveRange
        if distanceSq ≤ effectiveRangeSq ∧ distanceSq < acc.2 then (some otherObj, distanceSq)
        else acc)
    (none, range * range)).1

/-- The method `Unit.handleCombat`; `i` is the index of `this`, `target` the reference. -/
def Unit.handleCombat (hypot : ℚ → ℚ → ℚ) (now : ℚ) (i : Nat) (target : Nat) (g : Game) :
    Game :=
  let t := indexOfId g.gameObjects target
  match g.gameObjects[i]?, g.gameObjects[t]? with
  | some self, some tgt =>
    let dx := tgt.x - self.x
    let dy := tgt.y - self.y
    let distanceToTarget := hypot dx dy
    let combinedHalfSizes := self.size / 2 + tgt.size / 2
    let effectiveAttackRange := self.attackRange + combinedHalfSizes
    if distanceToTarget ≤ effectiveAttackRange then
      let g1 := g.modifyObj i (fun u => { u with targetX := u.x, targetY := u.y })
      let timeSinceLastAttack := now - self.lastAttackTime
      if timeSinceLastAttack ≥ self.attackCooldown then
        let g2 := g1.modifyObj t (fun e => e.takeDamage self.attackDamage)
        let g3 := g2.modifyObj i (fun u => { u with lastAttackTime := now })
        { g3 with attackEffects := g3.attackEffects ++
            [AttackEffect.laser self.x self.y tgt.x tgt.y now, AttackEffect.burst tgt.x tgt.y now] }
      else g1
    else
      let g1 := g.modifyObj i (fun u => { u with targetX := tgt.x, targetY := tgt.y })
      g1.modifyObj i (Unit.performMovement hypot)
  | _, _ => g

/-- The assignment `targetUnit = null` followed by the fall-back from `attacking` to `idle`. -/
def clearTarget (e : Entity) : Entity :=
  { e with targetUnit := none,
           commandState := if e.commandState = .attacking then .idle else e.commandState }

/-- The arrival test that follows `performMovement` in `Unit.update`. -/
def arriveAt (tx ty : ℚ) (u : Entity) : Entity :=
  if u.x = tx ∧ u.y = ty then { u with commandState := .idle } else u

/-- The method `Unit.update`, for the object at index `i` of `gameObjects`. -/
def Unit.update (hypot : ℚ → ℚ → ℚ) (now : ℚ) (i : Nat) (g : Game) : Game :=
  match g.gameObjects[i]? with
  | none => g
  | some self0 =>
    if self0.health ≤ 0 then g.modifyObj i (fun u => { u with commandState := .idle })
    else
      let stale : Bool := match self0.targetUnit with
        | some tid => refDead g.gameObjects tid
        | none => false
      let self := if stale then clearTarget self0 else self0
      let g1 := if stale then g.modifyObj i clearTarget else g
      match self.commandState with
      | .idle => g1
      | .moving =>
        g1.modifyObj i (fun u =>
          let u1 := Unit.performMovement hypot { u with targetUnit := none }
          arriveAt u1.targetX u1.targetY u1)
      | .attacking =>
        match self.targetUnit with
        | none => g1.modifyObj i (fun u => { u with commandState := .idle })
        | some tid => Unit.handleCombat hypot now i tid g1
      | .attackMoving =>
        match self.targetUnit with
        | some tid => Unit.handleCombat hypot now i tid g1
        | none =>
          match findNearestEnemyInRange self self.targetAcquisitionRange g1.gameObjects with
          | some enemy =>
            Unit.handleCombat hypot now i enemy.id
              (g1.modifyObj i (fun u => { u with targetUnit := some enemy.id }))
          | none =>
            g1.modifyObj i (fun u =>
              let u1 := Unit.performMovement hypot
                { u with targetX := u.aMoveTargetX, targetY := u.aMoveTargetY }
              arriveAt u1.aMoveTargetX u1.aMoveTargetY u1)

/-- The method `Bunker.update`, for the object at index `i` of `gameObjects`, with
`allGameObjects = gameObjects` and `playersState = players` as in `gameLoop`. -/
def Bunker.update (hypot : ℚ → ℚ → ℚ) (now : ℚ) (i : Nat) (g : Game) : Game :=
  match g.gameObjects[i]? with
  | none => g
  | some self =>
    if self.health ≤ 0 then g
    else
      match g.players self.playerId with
      | none => g
      | some playerState =>
        let timeSinceLastSpawn := now - self.lastSpawnTime
        if timeSinceLastSpawn ≥ self.spawnCooldown then
          let restart := g.modifyObj i (fun b => { b with lastSpawnTime := now })
          if playerState.currentSupply < playerState.supplyCap then
            let spawnOffset := self.size / 2 + 20
            let spawnX := self.x + spawnOffset
            let spawnY := self.y
            let blocked := g.gameObjects.any (fun obj =>
              decide (obj.health > 0 ∧ hypot (obj.x - spawnX) (obj.y - spawnY) < obj.size / 2 + 15))
            if !blocked then
              let newUnit := Unit.init spawnX spawnY self.playerId g.nextId 30 2
              { restart with
                gameObjects := restart.gameObjects ++
                  [Unit.attackMoveTo newUnit self.rallyPoint.1 self.rallyPoint.2]
                players := Function.update g.players self.playerId
                  (some { playerState with
                    currentSupply := playerState.currentSupply + newUnit.supplyCost })
                nextId := g.nextId + 1 }
            else restart
          else restart
        else g

/-- The function `checkUnitCollision`. -/
def checkUnitCollision (objA objB : Entity) : Bool :=
  if objA.id = objB.id ∨ objA.health ≤ 0 ∨ objB.health ≤ 0 then false
  else
    let halfSizeA := objA.size / 2
    let leftA := objA.x - halfSizeA
    let rightA := objA.x + halfSizeA
    let topA := objA.y - halfSizeA
    let bottomA := objA.y + halfSizeA
    let halfSizeB := objB.size / 2
    let leftB := objB.x - halfSizeB
    let rightB := objB.x + halfSizeB
    let topB := objB.y - halfSizeB
    let bottomB := objB.y + halfSizeB
    decide (leftA < rightB ∧ rightA > leftB ∧ topA < bottomB ∧ bottomA > topB)

def PUSH_FACTOR : ℚ := 1 / 2
def BUNKER_PUSH_FACTOR : ℚ := 1 / 10

/-- The jitter `obj.x += (Math.random() - 0.5) * 0.2; obj.y += ...` of a unit; a bunker is left
alone and draws no random numbers. -/
def jitterObj (random : Nat → ℚ) (i : Nat) (g : Game) : Game :=
  match g.gameObjects[i]? with
  | some obj =>
    if obj.type = .unit then
      { g.modifyObj i (fun o =>
          { o with x := o.x + (random g.rngCalls - 1 / 2) * (1 / 5),
                   y := o.y + (random (g.rngCalls + 1) - 1 / 2) * (1 / 5) }) with
        rngCalls := g.rngCalls + 2 }
    else g
  | none => g

/-- The body of the inner loop of `resolveUnitCollisions` for the index pair `(i, j)`. -/
def resolvePair (hypot : ℚ → ℚ → ℚ) (random : Nat → ℚ) (g : Game) (ij : Nat × Nat) : Game :=
  match g.gameObjects[ij.1]?, g.gameObjects[ij.2]? with
  | some objA, some objB =>
    if objA.health ≤ 0 ∨ objB.health ≤ 0 ∨ (objA.type = .bunker ∧ objB.type = .bunker) then g
    else if checkUnitCollision objA objB then
      let dx := objB.x - objA.x
      let dy := objB.y - objA.y
      let distance0 := hypot dx dy
      let distance := if distance0 = 0 then 1 / 10 else distance0
      let g1 := if distance0 = 0 then jitterObj random ij.2 (jitterObj random ij.1 g) else g
      let overlap := (objA.size / 2 + objB.size / 2) - distance
      if overlap > 0 then
        let separationX := dx / distance
        let separationY := dy / distance
        let pushA := if objA.type = .bunker then BUNKER_PUSH_FACTOR else PUSH_FACTOR
        let pushB := if objB.type = .bunker then BUNKER_PUSH_FACTOR else PUSH_FACTOR
        let totalPush := overlap
        let massRatioA := pushB / (pushA + pushB)
        let massRatioB := pushA / (pushA + pushB)
        let g2 := if objA.type = .unit then
            g1.modifyObj ij.1 (fun a =>
              { a with x := a.x - separationX * totalPush * massRatioA,
                       y := a.y - separationY * totalPush * massRatioA })
          else g1
        if objB.type = .unit then
          g2.modifyObj ij.2 (fun b =>
            { b with x := b.x + separationX * totalPush * massRatioB,
                     y := b.y + separationY * totalPush * massRatioB })
        else g2
      else g1
    else g
  | _, _ => g

/-- The index pairs `(i, j)`, `i < j < n`, in the order of the two nested loops. -/
def collisionPairs (n : Nat) : List (Nat × Nat) :=
  (List.range n).flatMap (fun i => (List.range' (i + 1) (n - (i + 1))).map (fun j => (i, j)))

/-- The function `resolveUnitCollisions`. -/
def resolveUnitCollisions (hypot : ℚ → ℚ → ℚ) (random : Nat → ℚ) (g : Game) : Game :=
  (collisionPairs g.gameObjects.length).foldl (resolvePair hypot random) g

/-! ## Setup and player control -/

/-- The function `switchPlayer` (the button highlighting is not part of the state). -/
def switchPlayer (newPlayerId : Int) (g : Game) : Game :=
  if newPlayerId < 1 ∨ newPlayerId > 4 then g
  else { g with currentPlayerId := newPlayerId, isAMoveMode := false, selectedUnits := [] }

/-- The globals as initialised when the script is loaded. -/
def initialGame : Game :=
  { gameObjects := [], players := players, selectedUnits := [], currentPlayerId := 1,
    isAMoveMode := false, attackEffects := [], nextId := 0, rngCalls := 0 }

/-- The function `setupGame`; `none` is the `TypeError` of a `Bunker` constructor. -/
def setupGame (g : Game) : Option Game :=
  let ps : Players := fun id => (g.players id).map (fun p => { p with currentSupply := 0 })
  let cornerPadding : ℚ := 80
  (Bunker.new ps cornerPadding cornerPadding 1 g.nextId 80).bind fun b1 =>
  (Bunker.new ps (MAP_WIDTH - cornerPadding) cornerPadding 2 (g.nextId + 1) 80).bind fun b2 =>
  (Bunker.new ps cornerPadding (MAP_HEIGHT - cornerPadding) 3 (g.nextId + 2) 80).bind fun b3 =>
  (Bunker.new ps (MAP_WIDTH - cornerPadding) (MAP_HEIGHT - cornerPadding) 4 (g.nextId + 3) 80).bind
    fun b4 =>
  some (switchPlayer 1
    { g with gameObjects := [b1, b2, b3, b4], selectedUnits := [], players := ps,
             nextId := g.nextId + 4 })

/-! ## The game loop -/

/-- The callback of the first `forEach` of `gameLoop`: dispatch on the class of the object. -/
def updateObj (hypot : ℚ → ℚ → ℚ) (now : ℚ) (g : Game) (i : Nat) : Game :=
  match g.gameObjects[i]? with
  | none => g
  | some obj =>
    match obj.type with
    | .bunker => Bunker.update hypot now i g
    | .unit => Unit.update hypot now i g

/-- Step 1 of `gameLoop`.  `forEach` visits the indices below the length the array had when the
loop started, so objects pushed during the loop are not visited. -/
def updatePass (hypot : ℚ → ℚ → ℚ) (now : ℚ) (g : Game) : Game :=
  (List.range g.gameObjects.length).foldl (updateObj hypot now) g

/-- The clamp of one object in the "safety clamp after collisions". -/
def clampObj (obj : Entity) : Entity :=
  if obj.type = .unit then
    let halfSize := obj.size / 2
    let x1 := max halfSize (min (MAP_WIDTH - halfSize) obj.x)
    { obj with x := x1, y := max halfSize (min (MAP_HEIGHT - halfSize) obj.y) }
  else obj

/-- The safety clamp of `gameLoop`. -/
def safetyClamp (g : Game) : Game :=
  { g with gameObjects := g.gameObjects.map clampObj }

/-- The callback of the death loop of `gameLoop` for the object at index `i` (the push onto
`livingObjects` is the filter in `deathSweep`). -/
def deathStep (g : Game) (i : Nat) : Game :=
  match g.gameObjects[i]? with
  | none => g
  | some obj =>
    if obj.health > 0 then g
    else
      let g1 : Game := if obj.type = .unit then
          { g with
            players := match g.players obj.playerId with
              | some playerState => Function.update g.players obj.playerId
                  (some { playerState with
                    currentSupply := max 0 (playerState.currentSupply - obj.supplyCost) })
              | none => g.players
            selectedUnits := g.selectedUnits.filter (fun sel => decide (sel ≠ obj.id)) }
        else g
      { g1 with gameObjects := g1.gameObjects.map (fun attacker =>
          if attacker.targetUnit = some obj.id then clearTarget attacker else attacker) }

/-- Step 3 of `gameLoop`: deaths, supply update and target clean-up. -/
def deathSweep (g : Game) : Game :=
  let g1 := (List.range g.gameObjects.length).foldl deathStep g
  let livingObjects := g1.gameObjects.filter (fun obj => decide (obj.health > 0))
  { g1 with gameObjects := livingObjects.map (fun obj =>
      match obj.targetUnit with
      | some tid => if refDead livingObjects tid then clearTarget obj else obj
      | none => obj) }

/-- The state change of `drawAttackEffects`: expired effects are spliced out. -/
def drawAttackEffects (now : ℚ) (g : Game) : Game :=
  { g with attackEffects := g.attackEffects.filter (fun effect =>
      match effect with
      | .laser _ _ _ _ timestamp => decide (¬ (now - timestamp > ATTACK_EFFECT_DURATION))
      | .burst _ _ timestamp => decide (¬ (now - timestamp > SPARK_BURST_DURATION))) }

/-- The function `gameLoop`, one frame at time `now` (drawing left out). -/
def gameLoop (hypot : ℚ → ℚ → ℚ) (random : Nat → ℚ) (now : ℚ) (g : Game) : Game :=
  drawAttackEffects now (deathSweep (safetyClamp (resolveUnitCollisions hypot random
    (updatePass hypot now g))))

/-! ## Relations between the states of one object -/

/-- The fields that no method assigns after construction agree. -/
structure Static (e e' : Entity) : Prop where
  id : e'.id = e.id
  type : e'.type = e.type
  size : e'.size = e.size
  playerId : e'.playerId = e.playerId
  maxHealth : e'.maxHealth = e.maxHealth
  speed : e'.speed = e.speed
  supplyCost : e'.supplyCost = e.supplyCost
  attackDamage : e'.attackDamage = e.attackDamage
  attackRange : e'.attackRange = e.attackRange
  attackCooldown : e'.attackCooldown = e.attackCooldown
  targetAcquisitionRange : e'.targetAcquisitionRange = e.targetAcquisitionRange
  spawnCooldown : e'.spawnCooldown = e.spawnCooldown

/-- Health after one `takeDamage(d)`. -/
def damageHealth (h d : ℚ) : ℚ := if h - d < 0 then 0 else h - d

/-- Health `h'` results from health `h` by a sequence of hits whose amounts satisfy `P`. -/
def Hits (P : ℚ → Prop) (h h' : ℚ) : Prop :=
  ∃ ds : List ℚ, (∀ d ∈ ds, P d) ∧ h' = ds.foldl damageHealth h

/-- State `e'` of an object results from state `e` by method calls: static fields agree and
health went through hits with amounts satisfying `P`. -/
def Evolve (P : ℚ → Prop) (e e' : Entity) : Prop :=
  Static e e' ∧ Hits P e.health e'.health

/-- Only the health of the object differs. -/
def OnlyHealth (e e' : Entity) : Prop := e' = { e with health := e'.health }

/-- Relation between the states of the object at index `k` before and after one update of the
object at index `i`: the updated object evolves, the others are at most hit. -/
def StepRel (P : ℚ → Prop) (i k : Nat) (e e' : Entity) : Prop :=
  Evolve P e e' ∧ (k ≠ i → OnlyHealth e e')

/-- Index-wise relation between two populations of the same length. -/
def ObjRel (R : Nat → Entity → Entity → Prop) (l l' : List Entity) : Prop :=
  l'.length = l.length ∧ ∀ k e, l[k]? = some e → ∃ e', l'[k]? = some e' ∧ R k e e'

/-- A function on objects that assigns neither a static field nor `health`. -/
def Benign (f : Entity → Entity) : Prop :=
  ∀ e, Static e (f e) ∧ (f e).health = e.health

/-- The effect on the globals of one `Unit.update` of the object at index `i`: only
`gameObjects` and `attackEffects` change, and the objects are related by `StepRel`. -/
structure UnitStep (P : ℚ → Prop) (i : Nat) (g g' : Game) : Prop where
  players : g'.players = g.players
  selectedUnits : g'.selectedUnits = g.selectedUnits
  currentPlayerId : g'.currentPlayerId = g.currentPlayerId
  isAMoveMode : g'.isAMoveMode = g.isAMoveMode
  nextId : g'.nextId = g.nextId
  rngCalls : g'.rngCalls = g.rngCalls
  objs : ObjRel (StepRel P i) g.gameObjects g'.gameObjects

/-! ## Supply accounting and health bounds -/

/-- The object is a unit owned by player `id`. -/
def ownedUnit (id : Int) (e : Entity) : Bool := decide (e.type = .unit ∧ e.playerId = id)

/-- Sum of `supplyCost` over the units of the population owned by player `id`. -/
def supplyOf (id : Int) (objs : List Entity) : ℚ :=
  ((objs.filter (ownedUnit id)).map (fun e => e.supplyCost)).sum

/-- Bounds on the supply of every player. -/
def SupplyBounds (g : Game) : Prop :=
  ∀ id ps, g.players id = some ps → 0 ≤ ps.currentSupply ∧ ps.currentSupply ≤ ps.supplyCap

/-- The supply invariant, for a population `objs` and a player table `ps`: every unit costs 1,
caps are natural numbers, and the supply of each player is within its cap and equals the cost
of the player's units in `objs`. -/
structure SupplyInvOn (objs : List Entity) (ps : Players) : Prop where
  cost : ∀ e ∈ objs, e.type = .unit → e.supplyCost = 1
  cap : ∀ id p, ps id = some p → ∃ n : ℕ, p.supplyCap = n
  le : ∀ id p, ps id = some p → p.currentSupply ≤ p.supplyCap
  supply : ∀ id p, ps id = some p → p.currentSupply = supplyOf id objs

/-- The supply invariant of a state. -/
def SupplyInv (g : Game) : Prop := SupplyInvOn g.gameObjects g.players

/-- The health invariant: health within `[0, maxHealth]` for every object, and no unit deals
negative damage. -/
def HealthInv (objs : List Entity) : Prop :=
  ∀ e ∈ objs, 0 ≤ e.health ∧ e.health ≤ e.maxHealth ∧ (e.type = .unit → 0 ≤ e.attackDamage)

/-- The unit a bunker in state `self` spawns under the reference `id`: constructed at the spawn
point and sent to the rally point by `attackMoveTo`. -/
def spawnedUnit (self : Entity) (id : Nat) : Entity :=
  Unit.attackMoveTo (Unit.init (self.x + (self.size / 2 + 20)) self.y self.playerId id 30 2)
    self.rallyPoint.1 self.rallyPoint.2

/-- Some live object is closer than `size / 2 + 15` to the spawn point of the bunker `self`. -/
def spawnBlocked (hypot : ℚ → ℚ → ℚ) (self : Entity) (objs : List Entity) : Bool :=
  objs.any (fun obj =>
    decide (obj.health > 0 ∧
      hypot (obj.x - (self.x + (self.size / 2 + 20))) (obj.y - self.y) < obj.size / 2 + 15))

/-- The state after a successful spawn by the bunker `self` at index `i`. -/
def spawnResult (now : ℚ) (i : Nat) (self : Entity) (playerState : PlayerState) (g : Game) :
    Game :=
  { g with
    gameObjects := g.gameObjects.modify (fun b => { b with lastSpawnTime := now }) i ++
      [spawnedUnit self g.nextId]
    players := Function.update g.players self.playerId
      (some { playerState with currentSupply := playerState.currentSupply + 1 })
    nextId := g.nextId + 1 }

/-- The players are untouched and every object evolved. -/
structure Frame (P : ℚ → Prop) (g g' : Game) : Prop where
  players : g'.players = g.players
  objs : ObjRel (fun _ => Evolve P) g.gameObjects g'.gameObjects

/-- The state after the first `k` callbacks of the update pass of `gameLoop`. -/
def updatePrefix (hypot : ℚ → ℚ → ℚ) (now : ℚ) (k : Nat) (g : Game) : Game :=
  (List.range k).foldl (updateObj hypot now) g

/-- The population as the death loop accounts for it after `k` callbacks: the living among the
first `k` objects, and all the others. -/
def livePrefix (k : Nat) (objs : List Entity) : List Entity :=
  (objs.take k).filter (fun obj => decide (obj.health > 0)) ++ objs.drop k

/-- The state after the first `k` callbacks of the death loop of `gameLoop`. -/
def deathPrefix (k : Nat) (g : Game) : Game :=
  (List.range k).foldl deathStep g

/-- The last loop of the death sweep, on one object of the surviving population. -/
def cleanTarget (livingObjects : List Entity) (obj : Entity) : Entity :=
  match obj.targetUnit with
  | some tid => if refDead livingObjects tid then clearTarget obj else obj
  | none => obj

/-- The player table after the death loop has accounted for the dead object `obj`. -/
def supplyAfterDeath (ps : Players) (obj : Entity) : Players :=
  if obj.type = .unit then
    match ps obj.playerId with
    | some playerState => Function.update ps obj.playerId
        (some { playerState with
          currentSupply := max 0 (playerState.currentSupply - obj.supplyCost) })
    | none => ps
  else ps

/-! ## Commands and reachable states -/

/-- The state `setupGame` produces from the freshly loaded globals. -/
def setupState : Game :=
  { gameObjects :=
      [Bunker.init 80 80 1 0 80, Bunker.init (MAP_WIDTH - 80) 80 2 1 80,
       Bunker.init 80 (MAP_HEIGHT - 80) 3 2 80,
       Bunker.init (MAP_WIDTH - 80) (MAP_HEIGHT - 80) 4 3 80]
    players := fun id => (players id).map (fun p => { p with currentSupply := 0 })
    selectedUnits := []
    currentPlayerId := 1
    isAMoveMode := false
    attackEffects := []
    nextId := 4
    rngCalls := 0 }

/-- A state change made by the input handlers between two frames: a command to the unit at
index `i` (`moveTo`, `attackMoveTo`, `attackUnit`), a new rally point for the bunker at index
`i`, or a player switch. -/
inductive Command
  | moveTo (i : Nat) (x y : ℚ)
  | attackMoveTo (i : Nat) (x y : ℚ)
  | attackUnit (i : Nat) (target : Nat)
  | setRallyPoint (i : Nat) (x y : ℚ)
  | switchPlayer (newPlayerId : Int)

/-- The effect of a command.  The handlers send unit commands to objects with
`type === 'unit'` and rally points to objects with `type === 'bunker'`. -/
def Command.apply (c : Command) (g : Game) : Game :=
  match c with
  | .moveTo i x y =>
    g.modifyObj i (fun u => if u.type = .unit then Unit.moveTo u x y else u)
  | .attackMoveTo i x y =>
    g.modifyObj i (fun u => if u.type = .unit then Unit.attackMoveTo u x y else u)
  | .attackUnit i target =>
    g.modifyObj i (fun u => if u.type = .unit then Unit.attackUnit u target else u)
  | .setRallyPoint i x y =>
    g.modifyObj i (fun b => if b.type = .bunker then { b with rallyPoint := (x, y) } else b)
  | .switchPlayer newPlayerId => CollisionAndAttack.switchPlayer newPlayerId g

/-- The states of a game: the state after `setupGame`, and every state reached from it by
frames of `gameLoop` (for any `Math.hypot`, random numbers and time) and by commands. -/
inductive Reachable : Game → Prop
  | setup : Reachable setupState
  | tick (hypot : ℚ → ℚ → ℚ) (random : Nat → ℚ) (now : ℚ) {g : Game} :
      Reachable g → Reachable (gameLoop hypot random now g)
  | command (c : Command) {g : Game} : Reachable g → Reachable (c.apply g)

/-! ## Scenarios -/

/-- The `moving` case of `Unit.update` on the unit itself. -/
def moveStep (hypot : ℚ → ℚ → ℚ) (u : Entity) : Entity :=
  let u1 := Unit.performMovement hypot { u with targetUnit := none }
  arriveAt u1.targetX u1.targetY u1

/-- Scenario A: a unit created at (0, 0) with the constructor defaults (size 30, speed 2),
alone in the population, after `moveTo(10, 0)`. -/
def scenarioA : Game :=
  { initialGame with gameObjects := [Unit.moveTo (Unit.init 0 0 1 0 30 2) 10 0] }

/-- Scenario A moved into the arena: the unit is created at `(x0, y0)` and sent to
`(x0 + 10, y0)`. -/
def scenarioAAt (x0 y0 : ℚ) : Game :=
  { initialGame with
    gameObjects := [Unit.moveTo (Unit.init x0 y0 1 0 30 2) (x0 + 10) y0] }

/-- Position and command state of the object at index `i`. -/
def posState (g : Game) (i : Nat) : Option (ℚ × ℚ × CommandState) :=
  g.gameObjects[i]?.map (fun u => (u.x, u.y, u.commandState))

/-- The unit of scenario A after its first update: held at (15, 15) by the clamp, on its way
to (10, 0). -/
structure HeldAtCorner (u : Entity) : Prop where
  x : u.x = 15
  y : u.y = 15
  targetX : u.targetX = 10
  targetY : u.targetY = 0
  size : u.size = 30
  speed : u.speed = 2
  commandState : u.commandState = .moving
  health : 0 < u.health
  targetUnit : u.targetUnit = none

/-- A unit of size 30 and speed 2 moving along the line `y = y0` from `x = a` to `x = b`. -/
structure OnAxis (a b y0 : ℚ) (u : Entity) : Prop where
  x : u.x = a
  y : u.y = y0
  targetX : u.targetX = b
  targetY : u.targetY = y0
  size : u.size = 30
  speed : u.speed = 2
  commandState : u.commandState = .moving
  health : 0 < u.health
  targetUnit : u.targetUnit = none

/-- Scenario B: the bunker of player 1 of `setupGame`, alone in the population, with the
player table of the source (cap 5, supply 0). -/
def scenarioB : Game :=
  { initialGame with gameObjects := [Bunker.init 80 80 1 0 80], nextId := 1 }

/-- Scenario C, the attacker: a unit of player 1 at (100, 100) with the constructor defaults
(attack range 100, size 30, damage 10, cooldown 1000). -/
def attackerC : Entity := Unit.init 100 100 1 0 30 2

/-- Scenario C, the target: a unit of player 2 at (220, 100), 120 away from the attacker. -/
def targetC : Entity := Unit.init 220 100 2 1 30 2

/-- Scenario C: attacker and target alone in the population. -/
def scenarioC : Game :=
  { initialGame with gameObjects := [attackerC, targetC], nextId := 2 }

/-! ## Invariants of the single objects -/

/-- What makes a property `Q` of single objects an invariant of the game loop, relative to a
property `P` of damage amounts: `Q` survives every evolution whose hits satisfy `P`, the
`attackDamage` of a unit with `Q` satisfies `P`, and spawned units have `Q`. -/
structure EntityInvariant (P : ℚ → Prop) (Q : Entity → Prop) : Prop where
  evolve : ∀ e e', Evolve P e e' → Q e → Q e'
  attack : ∀ e, Q e → e.type = .unit → P e.attackDamage
  spawn : ∀ self id, Q (spawnedUnit self id)

/-- Health is a whole multiple of 10, and a unit deals damage 10. -/
def TenFold (e : Entity) : Prop :=
  (∃ n : ℕ, e.health = n * 10) ∧ (e.type = .unit → e.attackDamage = 10)

/-! ## Attack log -/

/-- The object at index `i` is still there with the same `lastAttackTime` and
`attackCooldown`. -/
def KeepsAttacker (i : Nat) (g g' : Game) : Prop :=
  ∀ e, g.gameObjects[i]? = some e → ∃ e', g'.gameObjects[i]? = some e' ∧
    e'.lastAttackTime = e.lastAttackTime ∧ e'.attackCooldown = e.attackCooldown

/-- No attack effect was pushed and the attacker at index `i` keeps its attack timer. -/
def Quiet (i : Nat) (g g' : Game) : Prop :=
  g'.attackEffects = g.attackEffects ∧ KeepsAttacker i g g'

/-- Attack effects were pushed, which the attacker at index `i` does exactly when it calls
`takeDamage`: the cooldown had elapsed and `lastAttackTime` is now `now`. -/
def Fired (now : ℚ) (i : Nat) (g g' : Game) : Prop :=
  g.attackEffects.length < g'.attackEffects.length ∧
  ∀ e, g.gameObjects[i]? = some e → now - e.lastAttackTime ≥ e.attackCooldown ∧
    ∃ e', g'.gameObjects[i]? = some e' ∧ e'.lastAttackTime = now ∧
      e'.attackCooldown = e.attackCooldown

/-- A function on objects that assigns neither `lastAttackTime` nor `attackCooldown`. -/
def KeepsTimer (f : Entity → Entity) : Prop :=
  ∀ e, (f e).lastAttackTime = e.lastAttackTime ∧ (f e).attackCooldown = e.attackCooldown

/-- The fall-through of the `attackMoving` case of `Unit.update` on the unit itself: head for
the remembered attack-move target, one movement step, arrival test. -/
def attackMoveStep (hypot : ℚ → ℚ → ℚ) (u : Entity) : Entity :=
  let u1 := Unit.performMovement hypot
    { u with targetX := u.aMoveTargetX, targetY := u.aMoveTargetY }
  arriveAt u1.aMoveTargetX u1.aMoveTargetY u1

/-- The object at index `i` is still there with the same `targetUnit` and `commandState`. -/
def KeepsCommand (i : Nat) (g g' : Game) : Prop :=
  ∀ e, g.gameObjects[i]? = some e → ∃ e', g'.gameObjects[i]? = some e' ∧
    e'.targetUnit = e.targetUnit ∧ e'.commandState = e.commandState

/-- A unit of player 1 created at (100, 100) and sent to (200, 100) by `attackMoveTo`. -/
def attackMover : Entity := Unit.attackMoveTo (Unit.init 100 100 1 0 30 2) 200 100

/-- The attack-moving unit alone in the population. -/
def scenarioAttackMove : Game :=
  { initialGame with gameObjects := [attackMover], nextId := 1 }

/-- The bunker of player 1 of `setupGame` and, 100 to the right of its spawn point, a unit of
player 2 on an attack-move to the centre of the map. -/
def scenarioSpawnSeen : Game :=
  { initialGame with
    gameObjects := [Bunker.init 80 80 1 0 80,
                    Unit.attackMoveTo (Unit.init 240 80 2 1 30 2) 500 350]
    nextId := 2 }

/-- A sequence of `Unit.update` calls of the object at index `i`, one for each time of the
list. -/
def runUpdates (hypot : ℚ → ℚ → ℚ) (i : Nat) (times : List ℚ) (g : Game) : Game :=
  times.foldl (fun g now => Unit.update hypot now i g) g

/-- The unit at index `i` rests at `(x, y)`: alive, `idle`, at that position. -/
def RestsAt (x y : ℚ) (i : Nat) (g : Game) : Prop :=
  ∃ u, g.gameObjects[i]? = some u ∧ 0 < u.health ∧ u.commandState = .idle ∧ u.x = x ∧ u.y = y

/-- The pre-clamp position `(finalX, finalY)` computed by `Unit.performMovement` for a unit
that is not at its movement target. -/
def preClamp (hypot : ℚ → ℚ → ℚ) (u : Entity) : ℚ × ℚ :=
  let dx := u.targetX - u.x
  let dy := u.targetY - u.y
  let distance := hypot dx dy
  if distance ≤ u.speed then (u.targetX, u.targetY)
  else (u.x + (dx / distance) * u.speed, u.y + (dy / distance) * u.speed)

/-- The box of a unit of the given size is inside the arena. -/
def InArena (e : Entity) : Prop :=
  e.size / 2 ≤ e.x ∧ e.x ≤ MAP_WIDTH - e.size / 2 ∧
    e.size / 2 ≤ e.y ∧ e.y ≤ MAP_HEIGHT - e.size / 2

/-- A unit of player 1 created at (0, 0) with the constructor defaults, alone in the
population. -/
def scenarioCorner : Game :=
  { initialGame with gameObjects := [Unit.init 0 0 1 0 30 2], nextId := 1 }

/-- The effect of the death loop of `gameLoop` on one object once the objects `visited` have had
their callback: the target is cleared when one of them is dead and has the id it refers to. -/
def clearedBy (visited : List Entity) (e : Entity) : Entity :=
  match e.targetUnit with
  | some tid =>
    if visited.any (fun t => decide (t.id = tid) && decide (¬ t.health > 0)) then clearTarget e
    else e
  | none => e

/-- Scenario E: two units of size 30, 10 apart, alone in the population. -/
def scenarioE : Game :=
  { initialGame with
    gameObjects := [Unit.init 100 100 1 0 30 2, Unit.init 110 100 2 1 30 2], nextId := 2 }

/-- A unit of size 30 at (100, 100). -/
def unitNearBunker : Entity := Unit.init 100 100 1 0 30 2

/-- A bunker of size 80 whose centre is 10 to the right of the centre of `unitNearBunker`. -/
def bunkerNearUnit : Entity := Bunker.init 110 100 1 1 80

/-- The unit and the bunker alone in the population, the unit first. -/
def scenarioUnitBunker : Game :=
  { initialGame with gameObjects := [unitNearBunker, bunkerNearUnit], nextId := 2 }

/-- Two units of size 30 whose centres coincide at (100, 100), alone in the population. -/
def scenarioCoincident : Game :=
  { initialGame with
    gameObjects := [Unit.init 100 100 1 0 30 2, Unit.init 100 100 2 1 30 2], nextId := 2 }

/-- The overlap of two bodies, `max(0, sum of half-sizes - centre distance)`. -/
def pairOverlap (hypot : ℚ → ℚ → ℚ) (a b : Entity) : ℚ :=
  max 0 (a.size / 2 + b.size / 2 - hypot (b.x - a.x) (b.y - a.y))

/-- No pair of live bodies that are not both bunkers overlaps more in `g'` than in `g`. -/
def OverlapNotIncreased (hypot : ℚ → ℚ → ℚ) (g g' : Game) : Prop :=
  ∀ (i j : Nat) (a b a' b' : Entity), i ≠ j →
    g.gameObjects[i]? = some a → g.gameObjects[j]? = some b →
    g'.gameObjects[i]? = some a' → g'.gameObjects[j]? = some b' →
    0 < a.health → 0 < b.health → ¬ (a.type = .bunker ∧ b.type = .bunker) →
    pairOverlap hypot a' b' ≤ pairOverlap hypot a b

/-- Three units of size 30 in a row, at x = 100, 130 and 140: the first two touch, the last two
overlap by 20. -/
def scenarioThree : Game :=
  { initialGame with
    gameObjects := [Unit.init 100 100 1 0 30 2, Unit.init 130 100 1 1 30 2,
      Unit.init 140 100 1 2 30 2],
    nextId := 3 }

/-- The push weight of a participant of a collision: `pushA` and `pushB` of
`resolveUnitCollisions`, `BUNKER_PUSH_FACTOR` for a bunker and `PUSH_FACTOR` otherwise. -/
def pushWeight (e : Entity) : ℚ :=
  if e.type = .bunker then BUNKER_PUSH_FACTOR else PUSH_FACTOR

/-- A division that is flagged when its divisor is zero: `none` marks the zero divisor. -/
def checkedDiv (a b : ℚ) : Option ℚ :=
  if b = 0 then none else some (a / b)

/-- The method `Unit.performMovement` with the divisions `dx / distance` and `dy / distance`
checked where they are evaluated: `none` when one of them has a zero divisor. -/
def Unit.performMovementChecked (hypot : ℚ → ℚ → ℚ) (u : Entity) : Option Entity :=
  if u.x = u.targetX ∧ u.y = u.targetY then some u
  else
    let dx := u.targetX - u.x
    let dy := u.targetY - u.y
    let distance := hypot dx dy
    let halfSize := u.size / 2
    if distance ≤ u.speed then
      some { u with
        x := max halfSize (min (MAP_WIDTH - halfSize) u.targetX)
        y := max halfSize (min (MAP_HEIGHT - halfSize) u.targetY) }
    else
      (checkedDiv dx distance).bind fun qx =>
      (checkedDiv dy distance).bind fun qy =>
        some { u with
          x := max halfSize (min (MAP_WIDTH - halfSize) (u.x + qx * u.speed))
          y := max halfSize (min (MAP_HEIGHT - halfSize) (u.y + qy * u.speed)) }

/-- The body of the inner loop of `resolveUnitCollisions` with the divisions by `distance` and
by `pushA + pushB` checked where they are evaluated: `none` when one of them has a zero
divisor. -/
def resolvePairChecked (hypot : ℚ → ℚ → ℚ) (random : Nat → ℚ) (g : Game) (ij : Nat × Nat) :
    Option Game :=
  match g.gameObjects[ij.1]?, g.gameObjects[ij.2]? with
  | some objA, some objB =>
    if objA.health ≤ 0 ∨ objB.health ≤ 0 ∨ (objA.type = .bunker ∧ objB.type = .bunker) then
      some g
    else if checkUnitCollision objA objB then
      let dx := objB.x - objA.x
      let dy := objB.y - objA.y
      let distance0 := hypot dx dy
      let distance := if distance0 = 0 then 1 / 10 else distance0
      let g1 := if distance0 = 0 then jitterObj random ij.2 (jitterObj random ij.1 g) else g
      let overlap := (objA.size / 2 + objB.size / 2) - distance
      if overlap > 0 then
        (checkedDiv dx distance).bind fun separationX =>
        (checkedDiv dy distance).bind fun separationY =>
        let pushA := if objA.type = .bunker then BUNKER_PUSH_FACTOR else PUSH_FACTOR
        let pushB := if objB.type = .bunker then BUNKER_PUSH_FACTOR else PUSH_FACTOR
        let totalPush := overlap
        (checkedDiv pushB (pushA + pushB)).bind fun massRatioA =>
        (checkedDiv pushA (pushA + pushB)).bind fun massRatioB =>
        let g2 := if objA.type = .unit then
            g1.modifyObj ij.1 (fun a =>
              { a with x := a.x - separationX * totalPush * massRatioA,
                       y := a.y - separationY * totalPush * massRatioA })
          else g1
        some (if objB.type = .unit then
          g2.modifyObj ij.2 (fun b =>
            { b with x := b.x + separationX * totalPush * massRatioB,
                     y := b.y + separationY * totalPush * massRatioB })
        else g2)
      else some g1
    else some g
  | _, _ => some g

/-- The function `resolveUnitCollisions` with its divisions checked. -/
def resolveUnitCollisionsChecked (hypot : ℚ → ℚ → ℚ) (random : Nat → ℚ) (g : Game) :
    Option Game :=
  (collisionPairs g.gameObjects.length).foldlM (resolvePairChecked hypot random) g

/-- A unit of size 30 at (100, 100) that has been ordered to (400, 500), with a negative
speed. -/
def backwardMover : Entity :=
  { Unit.moveTo (Unit.init 100 100 1 0 30 2) 400 500 with speed := -3 }

/-- The quantity `distanceSq` of `findNearestEnemyInRange`: the squared distance between the
centres of `unit` and `otherObj`. -/
def distanceSq (unit otherObj : Entity) : ℚ :=
  (otherObj.x - unit.x) * (otherObj.x - unit.x) + (otherObj.y - unit.y) * (otherObj.y - unit.y)

/-- The body of the loop of `findNearestEnemyInRange`, on the pair
`(nearestEnemy, minDistanceSq)`. -/
def nearestStep (unit : Entity) (range : ℚ) (acc : Option Entity × ℚ) (otherObj : Entity) :
    Option Entity × ℚ :=
  if unit.id = otherObj.id ∨ otherObj.health ≤ 0 ∨ otherObj.playerId = unit.playerId then acc
  else
    let dx := otherObj.x - unit.x
    let dy := otherObj.y - unit.y
    let distanceSq := dx * dx + dy * dy
    let combinedHalfSizes := unit.size / 2 + otherObj.size / 2
    let effectiveRange := range + combinedHalfSizes
    let effectiveRangeSq := effectiveRange * effectiveRange
    if distanceSq ≤ effectiveRangeSq ∧ distanceSq < acc.2 then (some otherObj, distanceSq)
    else acc

/-- The entities the search is stated for: not the unit itself, alive, of another owner, and
with a squared centre distance strictly below `range * range`. -/
def EnemyInRange (unit : Entity) (range : ℚ) (o : Entity) : Prop :=
  unit.id ≠ o.id ∧ 0 < o.health ∧ o.playerId ≠ unit.playerId ∧
    distanceSq unit o < range * range

/-- What the loop of `findNearestEnemyInRange` has established after the objects `l`: the
pair `(nearestEnemy, minDistanceSq)` is `(null, range * range)` and no object of `l` is an
enemy in range, or it is the first object of `l` that is nearest among the enemies in range,
with its squared distance. -/
def NearestSoFar (unit : Entity) (range : ℚ) (l : List Entity) (acc : Option Entity × ℚ) :
    Prop :=
  acc.2 ≤ range * range ∧
  (acc.1 = none → acc.2 = range * range ∧ ∀ o ∈ l, ¬ EnemyInRange unit range o) ∧
  (∀ e, acc.1 = some e → ∃ k : Nat, l[k]? = some e ∧ EnemyInRange unit range e ∧
    distanceSq unit e = acc.2 ∧
    (∀ o ∈ l, EnemyInRange unit range o → acc.2 ≤ distanceSq unit o) ∧
    (∀ (k2 : Nat) (o : Entity), k2 < k → l[k2]? = some o → EnemyInRange unit range o →
      acc.2 < distanceSq unit o))

/-- A unit of player 1 at (100, 100). -/
def searcher : Entity := Unit.init 100 100 1 0 30 2

/-- The searcher itself, a unit of its own player 50 away, and two enemy units that are both
120 away. -/
def searchPopulation : List Entity :=
  [searcher, Unit.init 150 100 1 1 30 2, Unit.init 220 100 2 2 30 2, Unit.init 100 220 2 3 30 2]

/-- The target of scenario C with only 5 health left, less than the attacker's `attackDamage`
of 10. -/
def weakTarget : Entity := { targetC with health := 5 }

/-- Scenario C with the weakened target. -/
def scenarioWeakTarget : Game :=
  { initialGame with gameObjects := [attackerC, weakTarget], nextId := 2 }

/-- The method `Unit.handleCombat` together with the calls of `takeDamage` it makes: the
second component has the entry `(t, damageAmount)` exactly where the source calls
`this.targetUnit.takeDamage(this.attackDamage)`, `t` being the index of the target. -/
def Unit.handleCombatLogged (hypot : ℚ → ℚ → ℚ) (now : ℚ) (i : Nat) (target : Nat) (g : Game) :
    Game × List (Nat × ℚ) :=
  let t := indexOfId g.gameObjects target
  match g.gameObjects[i]?, g.gameObjects[t]? with
  | some self, some tgt =>
    let dx := tgt.x - self.x
    let dy := tgt.y - self.y
    let distanceToTarget := hypot dx dy
    let combinedHalfSizes := self.size / 2 + tgt.size / 2
    let effectiveAttackRange := self.attackRange + combinedHalfSizes
    if distanceToTarget ≤ effectiveAttackRange then
      let g1 := g.modifyObj i (fun u => { u with targetX := u.x, targetY := u.y })
      let timeSinceLastAttack := now - self.lastAttackTime
      if timeSinceLastAttack ≥ self.attackCooldown then
        let g2 := g1.modifyObj t (fun e => e.takeDamage self.attackDamage)
        let g3 := g2.modifyObj i (fun u => { u with lastAttackTime := now })
        ({ g3 with attackEffects := g3.attackEffects ++
            [AttackEffect.laser self.x self.y tgt.x tgt.y now,
             AttackEffect.burst tgt.x tgt.y now] },
         [(t, self.attackDamage)])
      else (g1, [])
    else
      let g1 := g.modifyObj i (fun u => { u with targetX := tgt.x, targetY := tgt.y })
      (g1.modifyObj i (Unit.performMovement hypot), [])
  | _, _ => (g, [])

/-- The method `Unit.update` together with the calls of `takeDamage` it makes (all of them
are made by `handleCombat`). -/
def Unit.updateLogged (hypot : ℚ → ℚ → ℚ) (now : ℚ) (i : Nat) (g : Game) :
    Game × List (Nat × ℚ) :=
  match g.gameObjects[i]? with
  | none => (g, [])
  | some self0 =>
    if self0.health ≤ 0 then (g.modifyObj i (fun u => { u with commandState := .idle }), [])
    else
      let stale : Bool := match self0.targetUnit with
        | some tid => refDead g.gameObjects tid
        | none => false
      let self := if stale then clearTarget self0 else self0
      let g1 := if stale then g.modifyObj i clearTarget else g
      match self.commandState with
      | .idle => (g1, [])
      | .moving =>
        (g1.modifyObj i (fun u =>
          let u1 := Unit.performMovement hypot { u with targetUnit := none }
          arriveAt u1.targetX u1.targetY u1), [])
      | .attacking =>
        match self.targetUnit with
        | none => (g1.modifyObj i (fun u => { u with commandState := .idle }), [])
        | some tid => Unit.handleCombatLogged hypot now i tid g1
      | .attackMoving =>
        match self.targetUnit with
        | some tid => Unit.handleCombatLogged hypot now i tid g1
        | none =>
          match findNearestEnemyInRange self self.targetAcquisitionRange g1.gameObjects with
          | some enemy =>
            Unit.handleCombatLogged hypot now i enemy.id
              (g1.modifyObj i (fun u => { u with targetUnit := some enemy.id }))
          | none =>
            (g1.modifyObj i (fun u =>
              let u1 := Unit.performMovement hypot
                { u with targetX := u.aMoveTargetX, targetY := u.aMoveTargetY }
              arriveAt u1.aMoveTargetX u1.aMoveTargetY u1), [])

/-- The health of the object at index `k`, if there is one. -/
def healthAt (g : Game) (k : Nat) : Option ℚ :=
  (g.gameObjects[k]?).map (fun e => e.health)

/-- The attack timer `(lastAttackTime, attackCooldown, attackDamage)` of the object at index
`k`, if there is one. -/
def timerAt (g : Game) (k : Nat) : Option (ℚ × ℚ × ℚ) :=
  (g.gameObjects[k]?).map (fun e => (e.lastAttackTime, e.attackCooldown, e.attackDamage))

/-- What one logged `Unit.update` of the object at index `i` at time `now` does to healths
and to the attack timer of that object.  Either no `takeDamage` was called: then no health
changed and the timer is as before.  Or exactly one call `(t, d)` was made: then the cooldown
had elapsed, `d` is the `attackDamage` of the object, its `lastAttackTime` is now `now`, the
health `h` of the object at index `t` has become `damageHealth h d`, and no other health
changed. -/
def DamageStep (now : ℚ) (i : Nat) (g : Game) (r : Game × List (Nat × ℚ)) : Prop :=
  (r.2 = [] ∧ (∀ k, healthAt r.1 k = healthAt g k) ∧ timerAt r.1 i = timerAt g i) ∨
  (∃ (t : Nat) (last cool dmg : ℚ), r.2 = [(t, dmg)] ∧
    timerAt g i = some (last, cool, dmg) ∧ now - last ≥ cool ∧
    timerAt r.1 i = some (now, cool, dmg) ∧
    healthAt r.1 t = (healthAt g t).map (fun h => damageHealth h dmg) ∧
    healthAt g t ≠ none ∧
    ∀ k, k ≠ t → healthAt r.1 k = healthAt g k)

/-- A sequence of `Unit.update` calls, each given by its time and the index of the updated
object; the result is the list of the times at which the update of the attacker at index `i`
called `takeDamage`, and the final state. -/
def damageRun (hypot : ℚ → ℚ → ℚ) (i : Nat) : List (ℚ × Nat) → Game → List ℚ × Game
  | [], g => ([], g)
  | (now, j) :: rest, g =>
    let r0 := Unit.updateLogged hypot now j g
    let r := damageRun hypot i rest r0.1
    (if j = i ∧ r0.2 ≠ [] then now :: r.1 else r.1, r.2)

/-- A function on objects that assigns neither `health` nor any field of the attack timer. -/
def KeepsCombat (f : Entity → Entity) : Prop :=
  ∀ e, (f e).health = e.health ∧ (f e).lastAttackTime = e.lastAttackTime ∧
    (f e).attackCooldown = e.attackCooldown ∧ (f e).attackDamage = e.attackDamage

/-- State `b` of an object has the class of state `b0`, and, for a bunker, its position, size,
owner and rally point: what the spawn of a unit reads from a bunker. -/
def SpawnData (b0 b : Entity) : Prop :=
  b.type = b0.type ∧
  (b0.type = .bunker → b.x = b0.x ∧ b.y = b0.y ∧ b.size = b0.size ∧
    b.playerId = b0.playerId ∧ b.rallyPoint = b0.rallyPoint)

/-- State `G` during the update pass that started in state `g`: the objects of `g` are still
there, bunkers with their spawn data; `nextId` has advanced by the number of appended objects;
and the object appended at index `k` is the unit that a bunker of `g` spawns under the
reference `g.nextId + (k - g.gameObjects.length)`, up to its health. -/
def DuringPass (g G : Game) : Prop :=
  g.gameObjects.length ≤ G.gameObjects.length ∧
  G.nextId = g.nextId + (G.gameObjects.length - g.gameObjects.length) ∧
  (∀ (k : Nat) (b0 : Entity), g.gameObjects[k]? = some b0 →
    ∃ b, G.gameObjects[k]? = some b ∧ SpawnData b0 b) ∧
  (∀ (k : Nat) (e : Entity), g.gameObjects.length ≤ k → G.gameObjects[k]? = some e →
    ∃ (i : Nat) (b0 : Entity), g.gameObjects[i]? = some b0 ∧ b0.type = .bunker ∧
      OnlyHealth (spawnedUnit b0 (g.nextId + (k - g.gameObjects.length))) e)

/-- The square root of a non-negative rational, rounded up to a multiple of `2^-52 / den`
(exact on squares of such multiples). -/
def sqrtUp (q : ℚ) : ℚ :=
  let n := q.num.toNat * q.den * 2 ^ 104
  let s := Nat.sqrt n
  ((if s * s = n then s else s + 1 : Nat) : ℚ) / ((q.den : ℚ) * 2 ^ 52)

/-- A second computable instance of `Math.hypot`, which rounds up where `hypotQ` rounds down.
At (1, 1) its value is the IEEE double `1.4142135623730951`. -/
def hypotUp (a b : ℚ) : ℚ := sqrtUp (a * a + b * b)

/-- The IEEE double `1.4142135623730951`, the value of `Math.hypot(1, 1)`; it is greater than
the square root of 2. -/
def ROOT_TWO_UP : ℚ := 6369051672525773 / 4503599627370496

/-- A unit of size `ROOT_TWO_UP` at (100, 100). -/
def snugUnitA : Entity := Unit.init 100 100 1 0 ROOT_TWO_UP 2

/-- A unit of size `ROOT_TWO_UP` at (101, 101). -/
def snugUnitB : Entity := Unit.init 101 101 2 1 ROOT_TWO_UP 2

/-- A bunker of size `ROOT_TWO_UP` at (101, 101). -/
def snugBunker : Entity := Bunker.init 101 101 2 1 ROOT_TWO_UP

/-- The two units `snugUnitA` and `snugUnitB` alone in the population. -/
def scenarioSnugUnits : Game :=
  { initialGame with gameObjects := [snugUnitA, snugUnitB], nextId := 2 }

/-- The unit `snugUnitA` and the bunker `snugBunker` alone in the population. -/
def scenarioSnugBunker : Game :=
  { initialGame with gameObjects := [snugUnitA, snugBunker], nextId := 2 }
/-- A unit of size 30 and speed 2 at (100, 100) that has been ordered to (200, 200), along a
diagonal. -/
def diagonalMover : Entity := Unit.moveTo (Unit.init 100 100 1 0 30 2) 200 200

/-- A unit of size 30 and speed 2 at (100, 100) that has been ordered to (200, 100), along the
x axis. -/
def axisMover : Entity := Unit.moveTo (Unit.init 100 100 1 0 30 2) 200 100

/-- Two units of size 30 at (100, 100) and (101, 101), alone in the population. -/
def scenarioDiagonal : Game :=
  { initialGame with
    gameObjects := [Unit.init 100 100 1 0 30 2, Unit.init 101 101 2 1 30 2], nextId := 2 }

/-! # Theorems -/

/-! ## Basic facts about the relations -/

theorem Static.static_refl (e : Entity) : Static e e :=
  ⟨rfl, rfl, rfl, rfl, rfl, rfl, rfl, rfl, rfl, rfl, rfl, rfl⟩

theorem Static.static_trans {a b c : Entity} (h1 : Static a b) (h2 : Static b c) : Static a c :=
  ⟨h2.id.trans h1.id, h2.type.trans h1.type, h2.size.trans h1.size,
   h2.playerId.trans h1.playerId, h2.maxHealth.trans h1.maxHealth, h2.speed.trans h1.speed,
   h2.supplyCost.trans h1.supplyCost, h2.attackDamage.trans h1.attackDamage,
   h2.attackRange.trans h1.attackRange, h2.attackCooldown.trans h1.attackCooldown,
   h2.targetAcquisitionRange.trans h1.targetAcquisitionRange,
   h2.spawnCooldown.trans h1.spawnCooldown⟩

theorem Hits.hits_refl (P : ℚ → Prop) (h : ℚ) : Hits P h h :=
  ⟨[], by simp, rfl⟩

theorem Hits.single {P : ℚ → Prop} (h : ℚ) {d : ℚ} (hd : P d) : Hits P h (damageHealth h d) :=
  ⟨[d], by simpa using hd, rfl⟩

theorem Hits.hits_trans {P : ℚ → Prop} {a b c : ℚ} (h1 : Hits P a b) (h2 : Hits P b c) :
    Hits P a c := by
  obtain ⟨ds1, hP1, rfl⟩ := h1
  obtain ⟨ds2, hP2, rfl⟩ := h2
  refine ⟨ds1 ++ ds2, ?_, by simp⟩
  intro d hd
  rcases List.mem_append.1 hd with h | h
  · exact hP1 d h
  · exact hP2 d h

theorem damageHealth_eq_max (h d : ℚ) : damageHealth h d = max 0 (h - d) := by
  unfold damageHealth
  split_ifs with hlt
  · exact (max_eq_left hlt.le).symm
  · exact (max_eq_right (not_lt.1 hlt)).symm

theorem damageHealth_bounds {h d : ℚ} (hh : 0 ≤ h) (hd : 0 ≤ d) :
    0 ≤ damageHealth h d ∧ damageHealth h d ≤ h := by
  rw [damageHealth_eq_max]
  exact ⟨le_max_left _ _, max_le hh (by linarith)⟩

theorem Hits.hits_bounds {h h' : ℚ} (hh : 0 ≤ h) (hits : Hits (fun d => 0 ≤ d) h h') :
    0 ≤ h' ∧ h' ≤ h := by
  obtain ⟨ds, hP, rfl⟩ := hits
  induction ds using List.reverseRecOn with
  | nil => simp [hh]
  | append_singleton ds d ih =>
    have ih1 := ih (fun x hx => hP x (List.mem_append_left _ hx))
    have hd : 0 ≤ d := hP d (by simp)
    rw [List.foldl_append]
    simp only [List.foldl_cons, List.foldl_nil]
    have := damageHealth_bounds ih1.1 hd
    exact ⟨this.1, this.2.trans ih1.2⟩

theorem Unit.unit_takeDamage_eq (e : Entity) (d : ℚ) :
    Unit.takeDamage e d = { e with health := damageHealth e.health d } := by
  unfold Unit.takeDamage damageHealth
  simp only
  split_ifs <;> rfl

theorem Bunker.bunker_takeDamage_eq (e : Entity) (d : ℚ) :
    Bunker.takeDamage e d = { e with health := damageHealth e.health d } := by
  unfold Bunker.takeDamage damageHealth
  simp only
  split_ifs <;> rfl

theorem Entity.entity_takeDamage_eq (e : Entity) (d : ℚ) :
    e.takeDamage d = { e with health := damageHealth e.health d } := by
  unfold Entity.takeDamage
  split
  · exact Unit.unit_takeDamage_eq e d
  · exact Bunker.bunker_takeDamage_eq e d

theorem Evolve.evolve_refl (P : ℚ → Prop) (e : Entity) : Evolve P e e :=
  ⟨Static.static_refl e, Hits.hits_refl P _⟩

theorem Evolve.evolve_trans {P : ℚ → Prop} {a b c : Entity} (h1 : Evolve P a b) (h2 : Evolve P b c) :
    Evolve P a c :=
  ⟨h1.1.static_trans h2.1, h1.2.hits_trans h2.2⟩

theorem Evolve.keep {P : ℚ → Prop} {e e' : Entity} (hs : Static e e')
    (hh : e'.health = e.health) : Evolve P e e' :=
  ⟨hs, by rw [hh]; exact Hits.hits_refl P _⟩

theorem Evolve.evolve_damage {P : ℚ → Prop} (e : Entity) {d : ℚ} (hd : P d) :
    Evolve P e (e.takeDamage d) := by
  rw [Entity.entity_takeDamage_eq]
  exact ⟨⟨rfl, rfl, rfl, rfl, rfl, rfl, rfl, rfl, rfl, rfl, rfl, rfl⟩, Hits.single _ hd⟩

theorem OnlyHealth.onlyHealth_refl (e : Entity) : OnlyHealth e e := rfl

theorem OnlyHealth.onlyHealth_trans {a b c : Entity} (h1 : OnlyHealth a b) (h2 : OnlyHealth b c) :
    OnlyHealth a c := by
  unfold OnlyHealth at *
  rw [h2, h1]

theorem OnlyHealth.onlyHealth_damage (e : Entity) (d : ℚ) : OnlyHealth e (e.takeDamage d) := by
  rw [Entity.entity_takeDamage_eq]
  rfl

theorem StepRel.stepRel_refl (P : ℚ → Prop) (i k : Nat) (e : Entity) : StepRel P i k e e :=
  ⟨Evolve.evolve_refl P e, fun _ => OnlyHealth.onlyHealth_refl e⟩

theorem StepRel.stepRel_trans {P : ℚ → Prop} {i k : Nat} {a b c : Entity} (h1 : StepRel P i k a b)
    (h2 : StepRel P i k b c) : StepRel P i k a c :=
  ⟨h1.1.evolve_trans h2.1, fun hk => (h1.2 hk).onlyHealth_trans (h2.2 hk)⟩

/-! ## Index-wise relations between populations -/

theorem ObjRel.objRel_refl {R : Nat → Entity → Entity → Prop} (hR : ∀ k e, R k e e)
    (l : List Entity) : ObjRel R l l :=
  ⟨rfl, fun k e h => ⟨e, h, hR k e⟩⟩

theorem ObjRel.objRel_trans {R : Nat → Entity → Entity → Prop} {l1 l2 l3 : List Entity}
    (h1 : ObjRel R l1 l2) (h2 : ObjRel R l2 l3)
    (hR : ∀ k a b c, R k a b → R k b c → R k a c) : ObjRel R l1 l3 := by
  refine ⟨h2.1.trans h1.1, fun k e he => ?_⟩
  obtain ⟨e2, he2, r12⟩ := h1.2 k e he
  obtain ⟨e3, he3, r23⟩ := h2.2 k e2 he2
  exact ⟨e3, he3, hR k e e2 e3 r12 r23⟩

theorem ObjRel.modify {R : Nat → Entity → Entity → Prop} (hR : ∀ k e, R k e e)
    (f : Entity → Entity) (i : Nat) (hf : ∀ e, R i e (f e)) (l : List Entity) :
    ObjRel R l (l.modify f i) := by
  refine ⟨by simp, fun k e he => ?_⟩
  by_cases hk : i = k
  · subst hk
    exact ⟨f e, by simp [List.getElem?_modify, he], hf e⟩
  · exact ⟨e, by simp [List.getElem?_modify, hk, he], hR k e⟩

theorem ObjRel.mono {R R' : Nat → Entity → Entity → Prop}
    (h : ∀ k e e', R k e e' → R' k e e') {l l' : List Entity} (hl : ObjRel R l l') :
    ObjRel R' l l' :=
  ⟨hl.1, fun k e he => by
    obtain ⟨e', he', r⟩ := hl.2 k e he
    exact ⟨e', he', h k e e' r⟩⟩

theorem ObjRel.forall_mem {R : Nat → Entity → Entity → Prop} {l l' : List Entity}
    (hl : ObjRel R l l') {e' : Entity} (he' : e' ∈ l') : ∃ k e, l[k]? = some e ∧ R k e e' := by
  obtain ⟨k, hk, rfl⟩ := List.getElem_of_mem he'
  have hk' : k < l.length := hl.1 ▸ hk
  obtain ⟨e2, he2, r⟩ := hl.2 k l[k] (List.getElem?_eq_getElem hk')
  rw [List.getElem?_eq_getElem hk] at he2
  cases he2
  exact ⟨k, l[k], List.getElem?_eq_getElem hk', r⟩

/-! ## Frame lemmas for the methods of `Unit` -/

theorem Benign.comp {f h : Entity → Entity} (hf : Benign f) (hh : Benign h) :
    Benign (fun e => f (h e)) := fun e =>
  ⟨(hh e).1.static_trans (hf (h e)).1, ((hf (h e)).2).trans (hh e).2⟩

theorem Benign.evolve {f : Entity → Entity} (hf : Benign f) (P : ℚ → Prop) (e : Entity) :
    Evolve P e (f e) :=
  Evolve.keep (hf e).1 (hf e).2

theorem benign_performMovement (hypot : ℚ → ℚ → ℚ) : Benign (Unit.performMovement hypot) := by
  intro e
  unfold Unit.performMovement
  split_ifs
  · exact ⟨Static.static_refl e, rfl⟩
  · exact ⟨⟨rfl, rfl, rfl, rfl, rfl, rfl, rfl, rfl, rfl, rfl, rfl, rfl⟩, rfl⟩

theorem benign_arriveAt (tx ty : ℚ) : Benign (arriveAt tx ty) := by
  intro e
  unfold arriveAt
  split_ifs
  · exact ⟨⟨rfl, rfl, rfl, rfl, rfl, rfl, rfl, rfl, rfl, rfl, rfl, rfl⟩, rfl⟩
  · exact ⟨Static.static_refl e, rfl⟩

theorem benign_clearTarget : Benign clearTarget := fun _ =>
  ⟨⟨rfl, rfl, rfl, rfl, rfl, rfl, rfl, rfl, rfl, rfl, rfl, rfl⟩, rfl⟩

theorem benign_moveStep (hypot : ℚ → ℚ → ℚ) : Benign (fun u =>
    let u1 := Unit.performMovement hypot { u with targetUnit := none }
    arriveAt u1.targetX u1.targetY u1) := by
  intro e
  have h1 : Benign (fun u : Entity => { u with targetUnit := none }) := fun _ =>
    ⟨⟨rfl, rfl, rfl, rfl, rfl, rfl, rfl, rfl, rfl, rfl, rfl, rfl⟩, rfl⟩
  have h2 := (benign_performMovement hypot).comp h1 e
  have h3 := benign_arriveAt
    (Unit.performMovement hypot { e with targetUnit := none }).targetX
    (Unit.performMovement hypot { e with targetUnit := none }).targetY
    (Unit.performMovement hypot { e with targetUnit := none })
  exact ⟨h2.1.static_trans h3.1, h3.2.trans h2.2⟩

theorem benign_attackMoveStep (hypot : ℚ → ℚ → ℚ) : Benign (fun u =>
    let u1 := Unit.performMovement hypot
      { u with targetX := u.aMoveTargetX, targetY := u.aMoveTargetY }
    arriveAt u1.aMoveTargetX u1.aMoveTargetY u1) := by
  intro e
  have h1 : Benign (fun u : Entity =>
      { u with targetX := u.aMoveTargetX, targetY := u.aMoveTargetY }) := fun _ =>
    ⟨⟨rfl, rfl, rfl, rfl, rfl, rfl, rfl, rfl, rfl, rfl, rfl, rfl⟩, rfl⟩
  have h2 := (benign_performMovement hypot).comp h1 e
  have h3 := benign_arriveAt
    (Unit.performMovement hypot
      { e with targetX := e.aMoveTargetX, targetY := e.aMoveTargetY }).aMoveTargetX
    (Unit.performMovement hypot
      { e with targetX := e.aMoveTargetX, targetY := e.aMoveTargetY }).aMoveTargetY
    (Unit.performMovement hypot
      { e with targetX := e.aMoveTargetX, targetY := e.aMoveTargetY })
  exact ⟨h2.1.static_trans h3.1, h3.2.trans h2.2⟩

/-! ## One `Unit.update` as a step on the globals -/

theorem UnitStep.unitStep_refl (P : ℚ → Prop) (i : Nat) (g : Game) : UnitStep P i g g :=
  ⟨rfl, rfl, rfl, rfl, rfl, rfl, ObjRel.objRel_refl (StepRel.stepRel_refl P i) _⟩

theorem UnitStep.unitStep_trans {P : ℚ → Prop} {i : Nat} {g1 g2 g3 : Game} (h1 : UnitStep P i g1 g2)
    (h2 : UnitStep P i g2 g3) : UnitStep P i g1 g3 :=
  ⟨h2.players.trans h1.players, h2.selectedUnits.trans h1.selectedUnits,
   h2.currentPlayerId.trans h1.currentPlayerId, h2.isAMoveMode.trans h1.isAMoveMode,
   h2.nextId.trans h1.nextId, h2.rngCalls.trans h1.rngCalls,
   ObjRel.objRel_trans h1.objs h2.objs (fun _ _ _ _ hab hbc => StepRel.stepRel_trans hab hbc)⟩

theorem UnitStep.modifySelf (P : ℚ → Prop) (i : Nat) (g : Game) {f : Entity → Entity}
    (hf : Benign f) : UnitStep P i g (g.modifyObj i f) :=
  ⟨rfl, rfl, rfl, rfl, rfl, rfl,
   ObjRel.modify (StepRel.stepRel_refl P i) f i (fun e => ⟨hf.evolve P e, fun h => absurd rfl h⟩) _⟩

theorem UnitStep.unitStep_damage {P : ℚ → Prop} (i : Nat) (g : Game) (t : Nat) {d : ℚ} (hd : P d) :
    UnitStep P i g (g.modifyObj t (fun e => e.takeDamage d)) :=
  ⟨rfl, rfl, rfl, rfl, rfl, rfl,
   ObjRel.modify (StepRel.stepRel_refl P i) _ t
     (fun e => ⟨Evolve.evolve_damage e hd, fun _ => OnlyHealth.onlyHealth_damage e d⟩) _⟩

theorem UnitStep.effects (P : ℚ → Prop) (i : Nat) (g : Game) (fx : List AttackEffect) :
    UnitStep P i g { g with attackEffects := fx } :=
  ⟨rfl, rfl, rfl, rfl, rfl, rfl, ObjRel.objRel_refl (StepRel.stepRel_refl P i) _⟩

theorem Unit.handleCombat_step (P : ℚ → Prop) (hypot : ℚ → ℚ → ℚ) (now : ℚ) (i target : Nat)
    (g : Game) (hP : ∀ e, g.gameObjects[i]? = some e → P e.attackDamage) :
    UnitStep P i g (Unit.handleCombat hypot now i target g) := by
  unfold Unit.handleCombat
  simp only
  split
  · rename_i self tgt hself htgt
    have hd := hP self hself
    have hset1 : Benign (fun u : Entity => { u with targetX := u.x, targetY := u.y }) :=
      fun _ => ⟨⟨rfl, rfl, rfl, rfl, rfl, rfl, rfl, rfl, rfl, rfl, rfl, rfl⟩, rfl⟩
    have hset2 : Benign (fun u : Entity => { u with lastAttackTime := now }) :=
      fun _ => ⟨⟨rfl, rfl, rfl, rfl, rfl, rfl, rfl, rfl, rfl, rfl, rfl, rfl⟩, rfl⟩
    have hset3 : Benign (fun u : Entity => { u with targetX := tgt.x, targetY := tgt.y }) :=
      fun _ => ⟨⟨rfl, rfl, rfl, rfl, rfl, rfl, rfl, rfl, rfl, rfl, rfl, rfl⟩, rfl⟩
    split_ifs
    · exact (((UnitStep.modifySelf P i g hset1).unitStep_trans
        (UnitStep.unitStep_damage i _ _ hd)).unitStep_trans
        (UnitStep.modifySelf P i _ hset2)).unitStep_trans (UnitStep.effects P i _ _)
    · exact UnitStep.modifySelf P i g hset1
    · exact (UnitStep.modifySelf P i g hset3).unitStep_trans
        (UnitStep.modifySelf P i _ (benign_performMovement hypot))
  · exact UnitStep.unitStep_refl P i g

theorem UnitStep.attackDamage_at {P : ℚ → Prop} {i : Nat} {g g' : Game} (h : UnitStep P i g g')
    (hP : ∀ e, g.gameObjects[i]? = some e → P e.attackDamage) :
    ∀ e, g'.gameObjects[i]? = some e → P e.attackDamage := by
  intro e' he'
  have hlt : i < g'.gameObjects.length := by
    by_contra hcon
    rw [List.getElem?_eq_none (not_lt.1 hcon)] at he'
    cases he'
  rw [h.objs.1] at hlt
  obtain ⟨e2, he2, r⟩ := h.objs.2 i _ (List.getElem?_eq_getElem hlt)
  rw [he'] at he2
  cases he2
  rw [r.1.1.attackDamage]
  exact hP _ (List.getElem?_eq_getElem hlt)

theorem Unit.update_step (P : ℚ → Prop) (hypot : ℚ → ℚ → ℚ) (now : ℚ) (i : Nat) (g : Game)
    (hP : ∀ e, g.gameObjects[i]? = some e → P e.attackDamage) :
    UnitStep P i g (Unit.update hypot now i g) := by
  unfold Unit.update
  split
  · exact UnitStep.unitStep_refl P i g
  · rename_i self0 hself0
    have hidle : Benign (fun u : Entity => { u with commandState := CommandState.idle }) :=
      fun _ => ⟨⟨rfl, rfl, rfl, rfl, rfl, rfl, rfl, rfl, rfl, rfl, rfl, rfl⟩, rfl⟩
    split_ifs with hdead
    · exact UnitStep.modifySelf P i g hidle
    · simp only
      generalize hst : (match self0.targetUnit with
        | some tid => refDead g.gameObjects tid
        | none => false) = stale
      have hg1 : UnitStep P i g (if stale = true then g.modifyObj i clearTarget else g) := by
        split_ifs
        · exact UnitStep.modifySelf P i g benign_clearTarget
        · exact UnitStep.unitStep_refl P i g
      have hP1 := hg1.attackDamage_at hP
      generalize (if stale = true then g.modifyObj i clearTarget else g) = g1 at hg1 hP1 ⊢
      generalize (if stale = true then clearTarget self0 else self0) = self
      split
      · exact hg1
      · exact hg1.unitStep_trans (UnitStep.modifySelf P i g1 (benign_moveStep hypot))
      · split
        · exact hg1.unitStep_trans (UnitStep.modifySelf P i g1 hidle)
        · exact hg1.unitStep_trans (Unit.handleCombat_step P hypot now i _ g1 hP1)
      · split
        · exact hg1.unitStep_trans (Unit.handleCombat_step P hypot now i _ g1 hP1)
        · split
          · rename_i enemy _
            have hset : Benign (fun u : Entity => { u with targetUnit := some enemy.id }) :=
              fun _ => ⟨⟨rfl, rfl, rfl, rfl, rfl, rfl, rfl, rfl, rfl, rfl, rfl, rfl⟩, rfl⟩
            have h2 := UnitStep.modifySelf P i g1 hset
            exact hg1.unitStep_trans (h2.unitStep_trans
              (Unit.handleCombat_step P hypot now i _ _ ((hg1.unitStep_trans h2).attackDamage_at hP)))
          · exact hg1.unitStep_trans (UnitStep.modifySelf P i g1 (benign_attackMoveStep hypot))

/-! ## Consequences of the relations for the invariants -/

theorem ObjRel.forall₂ {R : Nat → Entity → Entity → Prop} {Q : Entity → Entity → Prop}
    (h : ∀ k e e', R k e e' → Q e e') {l l' : List Entity} (hl : ObjRel R l l') :
    List.Forall₂ Q l l' := by
  rw [List.forall₂_iff_get]
  refine ⟨hl.1.symm, fun k h1 h2 => ?_⟩
  obtain ⟨e', he', r⟩ := hl.2 k (l.get ⟨k, h1⟩) (by simp [List.getElem?_eq_getElem h1])
  have : l'.get ⟨k, h2⟩ = e' := by
    rw [List.getElem?_eq_getElem h2] at he'
    simpa using he'
  rw [this]
  exact h k _ _ r

theorem ObjRel.objRel_map {R : Nat → Entity → Entity → Prop} (f : Entity → Entity)
    (hf : ∀ k e, R k e (f e)) (l : List Entity) : ObjRel R l (l.map f) := by
  refine ⟨by simp, fun k e he => ⟨f e, by simp [he], hf k e⟩⟩

theorem supplyOf_nil (id : Int) : supplyOf id [] = 0 := by
  simp [supplyOf]

theorem supplyOf_cons (id : Int) (e : Entity) (l : List Entity) :
    supplyOf id (e :: l) = (if ownedUnit id e = true then e.supplyCost else 0) + supplyOf id l := by
  unfold supplyOf
  by_cases h : ownedUnit id e = true
  · simp [List.filter_cons, h]
  · simp [List.filter_cons, h]

theorem supplyOf_append (id : Int) (l1 l2 : List Entity) :
    supplyOf id (l1 ++ l2) = supplyOf id l1 + supplyOf id l2 := by
  simp [supplyOf]

theorem ownedUnit_static {e e' : Entity} (h : Static e e') (id : Int) :
    ownedUnit id e' = ownedUnit id e := by
  simp [ownedUnit, h.type, h.playerId]

theorem supplyOf_forall₂ (id : Int) {l l' : List Entity}
    (h : List.Forall₂ Static l l') : supplyOf id l' = supplyOf id l := by
  induction h with
  | nil => rfl
  | cons hab _ ih =>
    rw [supplyOf_cons, supplyOf_cons, ih, ownedUnit_static hab, hab.supplyCost]

theorem supplyOf_evolved (P : ℚ → Prop) (id : Int) {l l' : List Entity}
    (h : ObjRel (fun _ => Evolve P) l l') : supplyOf id l' = supplyOf id l :=
  supplyOf_forall₂ id (h.forall₂ (fun _ _ _ r => r.1))

theorem supplyOf_nonneg (id : Int) {l : List Entity}
    (hcost : ∀ e ∈ l, e.type = .unit → e.supplyCost = 1) : 0 ≤ supplyOf id l := by
  induction l with
  | nil => simp [supplyOf_nil]
  | cons e l ih =>
    rw [supplyOf_cons]
    have h1 := ih (fun x hx => hcost x (List.mem_cons_of_mem _ hx))
    split_ifs with ho
    · have : e.type = .unit := by
        simp [ownedUnit] at ho
        exact ho.1
      rw [hcost e (List.mem_cons_self _ _) this]
      linarith
    · linarith

theorem supplyOf_eq_count (id : Int) {l : List Entity}
    (hcost : ∀ e ∈ l, e.type = .unit → e.supplyCost = 1) :
    supplyOf id l = ((l.filter (ownedUnit id)).length : ℚ) := by
  induction l with
  | nil => simp [supplyOf_nil]
  | cons e l ih =>
    rw [supplyOf_cons, ih (fun x hx => hcost x (List.mem_cons_of_mem _ hx))]
    by_cases ho : ownedUnit id e = true
    · have : e.type = .unit := by
        simp [ownedUnit] at ho
        exact ho.1
      rw [hcost e (List.mem_cons_self _ _) this]
      simp [List.filter_cons, ho]
      ring
    · simp [List.filter_cons, ho]

theorem SupplyInvOn.supplyInvOn_bounds {objs : List Entity} {ps : Players} (h : SupplyInvOn objs ps)
    (id : Int) (p : PlayerState) (hp : ps id = some p) :
    0 ≤ p.currentSupply ∧ p.currentSupply ≤ p.supplyCap :=
  ⟨by rw [h.supply id p hp]; exact supplyOf_nonneg id h.cost, h.le id p hp⟩

theorem SupplyInvOn.supplyInvOn_evolved {P : ℚ → Prop} {objs objs' : List Entity} {ps : Players}
    (h : SupplyInvOn objs ps) (hr : ObjRel (fun _ => Evolve P) objs objs') :
    SupplyInvOn objs' ps := by
  refine ⟨fun e' he' ht => ?_, h.cap, h.le, fun id p hp => ?_⟩
  · obtain ⟨k, e, hk, r⟩ := hr.forall_mem he'
    rw [r.1.supplyCost]
    exact h.cost e (List.getElem?_mem hk) (r.1.type ▸ ht)
  · rw [supplyOf_evolved P id hr]
    exact h.supply id p hp

theorem HealthInv.healthInv_evolved {objs objs' : List Entity} (h : HealthInv objs)
    (hr : ObjRel (fun _ => Evolve (fun d => 0 ≤ d)) objs objs') : HealthInv objs' := by
  intro e' he'
  obtain ⟨k, e, hk, r⟩ := hr.forall_mem he'
  obtain ⟨h0, h1, h2⟩ := h e (List.getElem?_mem hk)
  have hb := Hits.hits_bounds h0 r.2
  refine ⟨hb.1, ?_, fun ht => ?_⟩
  · rw [r.1.maxHealth]
    exact hb.2.trans h1
  · rw [r.1.attackDamage]
    exact h2 (r.1.type ▸ ht)

theorem UnitStep.unitStep_evolved {P : ℚ → Prop} {i : Nat} {g g' : Game} (h : UnitStep P i g g') :
    ObjRel (fun _ => Evolve P) g.gameObjects g'.gameObjects :=
  h.objs.mono (fun _ _ _ r => r.1)

/-! ## The three outcomes of `Bunker.update` -/

theorem Bunker.update_cases (hypot : ℚ → ℚ → ℚ) (now : ℚ) (i : Nat) (g : Game) :
    Bunker.update hypot now i g = g ∨
    (∃ self playerState, g.gameObjects[i]? = some self ∧ 0 < self.health ∧
      g.players self.playerId = some playerState ∧
      now - self.lastSpawnTime ≥ self.spawnCooldown ∧
      (playerState.currentSupply < playerState.supplyCap →
        spawnBlocked hypot self g.gameObjects = true) ∧
      Bunker.update hypot now i g = g.modifyObj i (fun b => { b with lastSpawnTime := now })) ∨
    (∃ self playerState, g.gameObjects[i]? = some self ∧ 0 < self.health ∧
      g.players self.playerId = some playerState ∧
      now - self.lastSpawnTime ≥ self.spawnCooldown ∧
      playerState.currentSupply < playerState.supplyCap ∧
      spawnBlocked hypot self g.gameObjects = false ∧
      Bunker.update hypot now i g = spawnResult now i self playerState g) := by
  unfold Bunker.update
  split
  · exact Or.inl rfl
  · rename_i self hself
    split_ifs with hdead
    · exact Or.inl rfl
    · split
      · exact Or.inl rfl
      · rename_i playerState hps
        simp only
        by_cases hcool : now - self.lastSpawnTime ≥ self.spawnCooldown
        · rw [if_pos hcool]
          by_cases hsup : playerState.currentSupply < playerState.supplyCap
          · rw [if_pos hsup]
            by_cases hb : spawnBlocked hypot self g.gameObjects = true
            · refine Or.inr (Or.inl ⟨self, playerState, hself, not_le.1 hdead, hps, hcool,
                fun _ => hb, ?_⟩)
              unfold spawnBlocked at hb
              simp only [hb, Bool.not_true]
              rfl
            · have hb' : spawnBlocked hypot self g.gameObjects = false := by
                simpa using hb
              refine Or.inr (Or.inr ⟨self, playerState, hself, not_le.1 hdead, hps, hcool,
                hsup, hb', ?_⟩)
              unfold spawnBlocked at hb'
              simp only [hb', Bool.not_false]
              rfl
          · rw [if_neg hsup]
            exact Or.inr (Or.inl ⟨self, playerState, hself, not_le.1 hdead, hps, hcool,
              fun h => absurd h hsup, rfl⟩)
        · rw [if_neg hcool]
          exact Or.inl rfl

/-! ## `Bunker.update` preserves the invariants -/

theorem benign_setLastSpawnTime (now : ℚ) :
    Benign (fun b : Entity => { b with lastSpawnTime := now }) :=
  fun _ => ⟨⟨rfl, rfl, rfl, rfl, rfl, rfl, rfl, rfl, rfl, rfl, rfl, rfl⟩, rfl⟩

theorem evolved_modify_benign (P : ℚ → Prop) {f : Entity → Entity} (hf : Benign f) (i : Nat)
    (l : List Entity) : ObjRel (fun _ => Evolve P) l (l.modify f i) :=
  ObjRel.modify (fun _ e => Evolve.evolve_refl P e) f i (fun e => hf.evolve P e) l

theorem supplyOf_singleton (id : Int) (u : Entity) :
    supplyOf id [u] = if ownedUnit id u = true then u.supplyCost else 0 := by
  rw [supplyOf_cons, supplyOf_nil, add_zero]

theorem spawnResult_supplyInv (now : ℚ) (i : Nat) (self : Entity) (playerState : PlayerState)
    (g : Game) (hps : g.players self.playerId = some playerState)
    (hsup : playerState.currentSupply < playerState.supplyCap) (h : SupplyInv g) :
    SupplyInv (spawnResult now i self playerState g) := by
  have hmod : SupplyInvOn
      (g.gameObjects.modify (fun b => { b with lastSpawnTime := now }) i) g.players :=
    h.supplyInvOn_evolved (evolved_modify_benign (fun _ => True) (benign_setLastSpawnTime now) i _)
  have hu1 : (spawnedUnit self g.nextId).type = EntityType.unit := rfl
  have hu2 : (spawnedUnit self g.nextId).playerId = self.playerId := rfl
  have hu3 : (spawnedUnit self g.nextId).supplyCost = 1 := rfl
  refine ⟨fun e he ht => ?_, fun id p hp => ?_, fun id p hp => ?_, fun id p hp => ?_⟩
  · rcases List.mem_append.1 he with he | he
    · exact hmod.cost e he ht
    · rw [List.mem_singleton.1 he]
      exact hu3
  · by_cases hid : id = self.playerId
    · subst hid
      simp only [spawnResult, Function.update_same, Option.some.injEq] at hp
      subst hp
      exact h.cap _ playerState hps
    · simp only [spawnResult, Function.update_noteq hid] at hp
      exact h.cap _ _ hp
  · by_cases hid : id = self.playerId
    · subst hid
      simp only [spawnResult, Function.update_same, Option.some.injEq] at hp
      subst hp
      obtain ⟨n, hn⟩ := h.cap _ _ hps
      have hcs := h.supply _ _ hps
      rw [supplyOf_eq_count _ h.cost] at hcs
      simp only
      rw [hn, hcs] at hsup ⊢
      have : (List.filter (ownedUnit self.playerId) g.gameObjects).length < n := by
        exact_mod_cast hsup
      exact_mod_cast this
    · simp only [spawnResult, Function.update_noteq hid] at hp
      exact h.le _ _ hp
  · show p.currentSupply = supplyOf id (_ ++ [spawnedUnit self g.nextId])
    rw [supplyOf_append, supplyOf_singleton]
    by_cases hid : id = self.playerId
    · subst hid
      simp only [spawnResult, Function.update_same, Option.some.injEq] at hp
      subst hp
      have ho : ownedUnit self.playerId (spawnedUnit self g.nextId) = true := by
        simp [ownedUnit, hu1, hu2]
      rw [if_pos ho, hu3, ← hmod.supply _ _ hps]
    · simp only [spawnResult, Function.update_noteq hid] at hp
      have ho : ¬ ownedUnit id (spawnedUnit self g.nextId) = true := by
        simp [ownedUnit, hu1, hu2]
        exact fun h => hid h.symm
      rw [if_neg ho, add_zero]
      exact hmod.supply _ _ hp

theorem Bunker.update_supplyInv (hypot : ℚ → ℚ → ℚ) (now : ℚ) (i : Nat) (g : Game)
    (h : SupplyInv g) : SupplyInv (Bunker.update hypot now i g) := by
  rcases Bunker.update_cases hypot now i g with hc | ⟨_, _, _, _, _, _, _, hc⟩ |
    ⟨self, ps, _, _, hps, _, hsup, _, hc⟩
  · rw [hc]
    exact h
  · rw [hc]
    exact h.supplyInvOn_evolved (evolved_modify_benign (fun _ => True) (benign_setLastSpawnTime now) i _)
  · rw [hc]
    exact spawnResult_supplyInv now i self ps g hps hsup h

theorem Bunker.update_healthInv (hypot : ℚ → ℚ → ℚ) (now : ℚ) (i : Nat) (g : Game)
    (h : HealthInv g.gameObjects) : HealthInv (Bunker.update hypot now i g).gameObjects := by
  have hmod : HealthInv (g.gameObjects.modify (fun b => { b with lastSpawnTime := now }) i) :=
    h.healthInv_evolved (evolved_modify_benign _ (benign_setLastSpawnTime now) i _)
  rcases Bunker.update_cases hypot now i g with hc | ⟨_, _, _, _, _, _, _, hc⟩ |
    ⟨self, ps, _, _, _, _, _, _, hc⟩
  · rw [hc]
    exact h
  · rw [hc]
    exact hmod
  · rw [hc]
    intro e he
    rcases List.mem_append.1 he with he | he
    · exact hmod e he
    · rw [List.mem_singleton.1 he]
      refine ⟨?_, ?_, fun _ => ?_⟩ <;> norm_num [spawnedUnit, Unit.attackMoveTo, Unit.init]

/-! ## Frames -/

theorem Frame.frame_refl (P : ℚ → Prop) (g : Game) : Frame P g g :=
  ⟨rfl, ObjRel.objRel_refl (fun _ e => Evolve.evolve_refl P e) _⟩

theorem Frame.frame_trans {P : ℚ → Prop} {g1 g2 g3 : Game} (h1 : Frame P g1 g2)
    (h2 : Frame P g2 g3) : Frame P g1 g3 :=
  ⟨h2.players.trans h1.players,
   ObjRel.objRel_trans h1.objs h2.objs (fun _ _ _ _ hab hbc => Evolve.evolve_trans hab hbc)⟩

theorem Frame.modifyObj (P : ℚ → Prop) (g : Game) (i : Nat) {f : Entity → Entity}
    (hf : Benign f) : Frame P g (g.modifyObj i f) :=
  ⟨rfl, evolved_modify_benign P hf i _⟩

theorem Frame.frame_map (P : ℚ → Prop) (g : Game) {f : Entity → Entity} (hf : Benign f) :
    Frame P g { g with gameObjects := g.gameObjects.map f } :=
  ⟨rfl, ObjRel.objRel_map f (fun _ e => hf.evolve P e) _⟩

theorem UnitStep.unitStep_frame {P : ℚ → Prop} {i : Nat} {g g' : Game} (h : UnitStep P i g g') :
    Frame P g g' :=
  ⟨h.players, h.unitStep_evolved⟩

theorem Frame.foldl {P : ℚ → Prop} {α : Type} (f : Game → α → Game)
    (hf : ∀ g a, Frame P g (f g a)) (l : List α) (g : Game) : Frame P g (l.foldl f g) := by
  induction l generalizing g with
  | nil => exact Frame.frame_refl P g
  | cons a l ih => exact (hf g a).frame_trans (ih (f g a))

theorem SupplyInv.supplyInv_frame {P : ℚ → Prop} {g g' : Game} (h : SupplyInv g) (hf : Frame P g g') :
    SupplyInv g' := by
  have := h.supplyInvOn_evolved hf.objs
  unfold SupplyInv
  rw [hf.players]
  exact this

theorem HealthInv.healthInv_frame {g g' : Game} (h : HealthInv g.gameObjects)
    (hf : Frame (fun d => 0 ≤ d) g g') : HealthInv g'.gameObjects :=
  h.healthInv_evolved hf.objs

/-! ## The update pass preserves the invariant -/

theorem updateObj_supplyInv (hypot : ℚ → ℚ → ℚ) (now : ℚ) (g : Game) (i : Nat)
    (h : SupplyInv g) : SupplyInv (updateObj hypot now g i) := by
  unfold updateObj
  split
  · exact h
  · split
    · exact Bunker.update_supplyInv hypot now i g h
    · exact h.supplyInv_frame (Unit.update_step (fun _ => True) hypot now i g (fun _ _ => trivial)).unitStep_frame

theorem updateObj_healthInv (hypot : ℚ → ℚ → ℚ) (now : ℚ) (g : Game) (i : Nat)
    (h : HealthInv g.gameObjects) : HealthInv (updateObj hypot now g i).gameObjects := by
  unfold updateObj
  split
  · exact h
  · rename_i obj hobj
    split
    · exact Bunker.update_healthInv hypot now i g h
    · rename_i htype
      refine HealthInv.healthInv_frame h (Unit.update_step _ hypot now i g (fun e he => ?_)).unitStep_frame
      rw [hobj] at he
      cases he
      exact (h obj (List.getElem?_mem hobj)).2.2 htype

theorem updatePrefix_succ (hypot : ℚ → ℚ → ℚ) (now : ℚ) (k : Nat) (g : Game) :
    updatePrefix hypot now (k + 1) g = updateObj hypot now (updatePrefix hypot now k g) k := by
  simp [updatePrefix, List.range_succ]

theorem updatePrefix_supplyInv (hypot : ℚ → ℚ → ℚ) (now : ℚ) (k : Nat) (g : Game)
    (h : SupplyInv g) : SupplyInv (updatePrefix hypot now k g) := by
  induction k with
  | zero => exact h
  | succ k ih =>
    rw [updatePrefix_succ]
    exact updateObj_supplyInv hypot now _ k ih

theorem updatePrefix_healthInv (hypot : ℚ → ℚ → ℚ) (now : ℚ) (k : Nat) (g : Game)
    (h : HealthInv g.gameObjects) : HealthInv (updatePrefix hypot now k g).gameObjects := by
  induction k with
  | zero => exact h
  | succ k ih =>
    rw [updatePrefix_succ]
    exact updateObj_healthInv hypot now _ k ih

theorem updatePass_eq_updatePrefix (hypot : ℚ → ℚ → ℚ) (now : ℚ) (g : Game) :
    updatePass hypot now g = updatePrefix hypot now g.gameObjects.length g := rfl

/-! ## Collision resolution and the safety clamp are frames -/

theorem jitterObj_frame (P : ℚ → Prop) (random : Nat → ℚ) (i : Nat) (g : Game) :
    Frame P g (jitterObj random i g) := by
  unfold jitterObj
  split
  · split_ifs
    · refine ⟨rfl, ?_⟩
      have hadd : ∀ (a b : ℚ),
          Benign (fun o : Entity => { o with x := o.x + a, y := o.y + b }) :=
        fun _ _ _ => ⟨⟨rfl, rfl, rfl, rfl, rfl, rfl, rfl, rfl, rfl, rfl, rfl, rfl⟩, rfl⟩
      exact evolved_modify_benign P (hadd _ _) i _
    · exact Frame.frame_refl P g
  · exact Frame.frame_refl P g

theorem resolvePair_frame (P : ℚ → Prop) (hypot : ℚ → ℚ → ℚ) (random : Nat → ℚ) (g : Game)
    (ij : Nat × Nat) : Frame P g (resolvePair hypot random g ij) := by
  unfold resolvePair
  split
  · have hj : Frame P g (jitterObj random ij.2 (jitterObj random ij.1 g)) :=
      (jitterObj_frame P random ij.1 g).frame_trans (jitterObj_frame P random ij.2 _)
    have hadd : ∀ (a b : ℚ), Benign (fun o : Entity => { o with x := o.x + a, y := o.y + b }) :=
      fun _ _ _ => ⟨⟨rfl, rfl, rfl, rfl, rfl, rfl, rfl, rfl, rfl, rfl, rfl, rfl⟩, rfl⟩
    have hsub : ∀ (a b : ℚ), Benign (fun o : Entity => { o with x := o.x - a, y := o.y - b }) :=
      fun _ _ _ => ⟨⟨rfl, rfl, rfl, rfl, rfl, rfl, rfl, rfl, rfl, rfl, rfl, rfl⟩, rfl⟩
    have hout : ∀ g0, Frame P g g0 → ∀ a b c d : ℚ,
        Frame P g (g0.modifyObj ij.1 (fun o => { o with x := o.x - a, y := o.y - b })) ∧
        Frame P g (g0.modifyObj ij.2 (fun o => { o with x := o.x + c, y := o.y + d })) ∧
        Frame P g ((g0.modifyObj ij.1 (fun o => { o with x := o.x - a, y := o.y - b })).modifyObj
          ij.2 (fun o => { o with x := o.x + c, y := o.y + d })) :=
      fun g0 h0 a b c d =>
        ⟨h0.frame_trans (Frame.modifyObj P _ _ (hsub a b)), h0.frame_trans (Frame.modifyObj P _ _ (hadd c d)),
         h0.frame_trans ((Frame.modifyObj P _ _ (hsub a b)).frame_trans (Frame.modifyObj P _ _ (hadd c d)))⟩
    simp only
    split_ifs
    all_goals first
      | exact Frame.frame_refl P g
      | exact hj
      | exact (hout _ hj _ _ 0 0).1
      | exact (hout _ hj 0 0 _ _).2.1
      | exact (hout _ hj _ _ _ _).2.2
      | exact (hout _ (Frame.frame_refl P g) _ _ 0 0).1
      | exact (hout _ (Frame.frame_refl P g) 0 0 _ _).2.1
      | exact (hout _ (Frame.frame_refl P g) _ _ _ _).2.2
  · exact Frame.frame_refl P g

theorem resolveUnitCollisions_frame (P : ℚ → Prop) (hypot : ℚ → ℚ → ℚ) (random : Nat → ℚ)
    (g : Game) : Frame P g (resolveUnitCollisions hypot random g) :=
  Frame.foldl _ (resolvePair_frame P hypot random) _ g

theorem benign_clampObj : Benign clampObj := by
  intro e
  unfold clampObj
  split_ifs
  · exact ⟨⟨rfl, rfl, rfl, rfl, rfl, rfl, rfl, rfl, rfl, rfl, rfl, rfl⟩, rfl⟩
  · exact ⟨Static.static_refl e, rfl⟩

theorem safetyClamp_frame (P : ℚ → Prop) (g : Game) : Frame P g (safetyClamp g) :=
  Frame.frame_map P g benign_clampObj

/-! ## The death sweep -/

theorem deathStep_objs (g : Game) (i : Nat) :
    ∃ f, Benign f ∧ (deathStep g i).gameObjects = g.gameObjects.map f := by
  have hid : Benign (fun e : Entity => e) := fun e => ⟨Static.static_refl e, rfl⟩
  unfold deathStep
  split
  · exact ⟨fun e => e, hid, by simp⟩
  · rename_i obj _
    split_ifs
    · exact ⟨fun e => e, hid, by simp⟩
    all_goals
      refine ⟨fun attacker =>
        if attacker.targetUnit = some obj.id then clearTarget attacker else attacker, ?_, rfl⟩
      intro e
      show Static e (if _ then _ else _) ∧ (if _ then _ else _ : Entity).health = e.health
      split_ifs
      · exact benign_clearTarget e
      · exact ⟨Static.static_refl e, rfl⟩

theorem deathStep_length (g : Game) (i : Nat) :
    (deathStep g i).gameObjects.length = g.gameObjects.length := by
  obtain ⟨f, _, hf⟩ := deathStep_objs g i
  rw [hf, List.length_map]

theorem deathStep_alive (g : Game) (i : Nat) (obj : Entity) (hobj : g.gameObjects[i]? = some obj)
    (h : obj.health > 0) : deathStep g i = g := by
  unfold deathStep
  rw [hobj]
  simp only [h, if_true]

theorem deathStep_players_dead (g : Game) (i : Nat) (obj : Entity)
    (hobj : g.gameObjects[i]? = some obj) (h : ¬ obj.health > 0) :
    (deathStep g i).players =
      if obj.type = .unit then
        match g.players obj.playerId with
        | some playerState => Function.update g.players obj.playerId
            (some { playerState with
              currentSupply := max 0 (playerState.currentSupply - obj.supplyCost) })
        | none => g.players
      else g.players := by
  unfold deathStep
  rw [hobj]
  simp only [h, if_false]
  split_ifs <;> rfl

theorem livePrefix_zero (l : List Entity) : livePrefix 0 l = l := by
  simp [livePrefix]

theorem livePrefix_length (l : List Entity) :
    livePrefix l.length l = l.filter (fun obj => decide (obj.health > 0)) := by
  simp [livePrefix]

theorem livePrefix_map (k : Nat) (l : List Entity) {f : Entity → Entity} (hf : Benign f) :
    livePrefix k (l.map f) = (livePrefix k l).map f := by
  unfold livePrefix
  rw [← List.map_take, ← List.map_drop, List.map_append, List.filter_map]
  congr 2
  apply List.filter_congr
  intro x _
  simp [Function.comp, (hf x).2]

theorem livePrefix_split (k : Nat) (l : List Entity) (obj : Entity) (hobj : l[k]? = some obj) :
    livePrefix k l =
      (l.take k).filter (fun o => decide (o.health > 0)) ++ obj :: l.drop (k + 1) ∧
    livePrefix (k + 1) l =
      (l.take k).filter (fun o => decide (o.health > 0)) ++
        ((if obj.health > 0 then [obj] else []) ++ l.drop (k + 1)) := by
  have hk : k < l.length := by
    by_contra hcon
    rw [List.getElem?_eq_none (not_lt.1 hcon)] at hobj
    cases hobj
  have hget : l[k] = obj := by
    rw [List.getElem?_eq_getElem hk] at hobj
    exact Option.some.inj hobj
  have hdrop : l.drop k = obj :: l.drop (k + 1) := by
    rw [← hget]
    exact List.drop_eq_getElem_cons hk
  have htake : l.take (k + 1) = l.take k ++ [obj] := by
    rw [List.take_succ, hobj]
    rfl
  unfold livePrefix
  refine ⟨by rw [hdrop], ?_⟩
  rw [htake, List.filter_append]
  by_cases hh : obj.health > 0
  · simp [List.filter_cons, hh]
  · simp [List.filter_cons, hh]

theorem SupplyInvOn.remove {A B : List Entity} {obj : Entity} {ps : Players}
    (h : SupplyInvOn (A ++ obj :: B) ps) : SupplyInvOn (A ++ B) (supplyAfterDeath ps obj) := by
  have hcostAB : ∀ e ∈ A ++ B, e.type = .unit → e.supplyCost = 1 := by
    intro e he
    apply h.cost
    rcases List.mem_append.1 he with he | he
    · exact List.mem_append_left _ he
    · exact List.mem_append_right _ (List.mem_cons_of_mem _ he)
  have hsplit : ∀ id, supplyOf id (A ++ obj :: B) =
      supplyOf id (A ++ B) + (if ownedUnit id obj = true then obj.supplyCost else 0) := by
    intro id
    rw [supplyOf_append, supplyOf_cons, supplyOf_append]
    ring
  have hsame : ∀ id p, ps id = some p → ownedUnit id obj = false →
      p.currentSupply = supplyOf id (A ++ B) := by
    intro id p hp ho
    have := h.supply id p hp
    rw [hsplit, ho] at this
    simpa using this
  unfold supplyAfterDeath
  by_cases ht : obj.type = .unit
  · rw [if_pos ht]
    have hc : obj.supplyCost = 1 := h.cost obj (List.mem_append_right _ (List.mem_cons_self _ _)) ht
    cases hps : ps obj.playerId with
    | none =>
      dsimp only
      refine ⟨hcostAB, h.cap, h.le, fun id p hp => hsame id p hp ?_⟩
      simp only [ownedUnit, decide_eq_false_iff_not, not_and]
      intro _ hid
      rw [hid, hp] at hps
      cases hps
    | some p0 =>
      have hown : ownedUnit obj.playerId obj = true := by simp [ownedUnit, ht]
      have hs0 := h.supply _ _ hps
      rw [hsplit, if_pos hown, hc] at hs0
      have hnn := supplyOf_nonneg obj.playerId hcostAB
      have hmax : max 0 (p0.currentSupply - obj.supplyCost) = supplyOf obj.playerId (A ++ B) := by
        rw [hc, hs0]
        simpa using hnn
      dsimp only
      refine ⟨hcostAB, fun id p hp => ?_, fun id p hp => ?_, fun id p hp => ?_⟩
      · by_cases hid : id = obj.playerId
        · subst hid
          simp only [Function.update_same, Option.some.injEq] at hp
          subst hp
          exact h.cap _ p0 hps
        · simp only [Function.update_noteq hid] at hp
          exact h.cap _ _ hp
      · by_cases hid : id = obj.playerId
        · subst hid
          simp only [Function.update_same, Option.some.injEq] at hp
          subst hp
          simp only
          rw [hmax]
          have := h.le _ p0 hps
          linarith
        · simp only [Function.update_noteq hid] at hp
          exact h.le _ _ hp
      · by_cases hid : id = obj.playerId
        · subst hid
          simp only [Function.update_same, Option.some.injEq] at hp
          subst hp
          exact hmax
        · simp only [Function.update_noteq hid] at hp
          refine hsame id p hp ?_
          simp only [ownedUnit, decide_eq_false_iff_not, not_and]
          exact fun _ h' => hid h'.symm
  · rw [if_neg ht]
    refine ⟨hcostAB, h.cap, h.le, fun id p hp => hsame id p hp ?_⟩
    simp only [ownedUnit, decide_eq_false_iff_not, not_and]
    exact fun h' => absurd h' ht

theorem SupplyInvOn.supplyInvOn_map {l : List Entity} {ps : Players} (h : SupplyInvOn l ps)
    {f : Entity → Entity} (hf : Benign f) : SupplyInvOn (l.map f) ps :=
  h.supplyInvOn_evolved (ObjRel.objRel_map f (fun _ e => hf.evolve (fun _ => True) e) l)

theorem deathStep_sweepInv (g : Game) (k : Nat) (hk : k < g.gameObjects.length)
    (h : SupplyInvOn (livePrefix k g.gameObjects) g.players) :
    SupplyInvOn (livePrefix (k + 1) (deathStep g k).gameObjects) (deathStep g k).players := by
  have hobj : g.gameObjects[k]? = some g.gameObjects[k] := List.getElem?_eq_getElem hk
  obtain ⟨h1, h2⟩ := livePrefix_split k g.gameObjects _ hobj
  by_cases halive : g.gameObjects[k].health > 0
  · rw [deathStep_alive g k _ hobj halive, h2, if_pos halive]
    rw [h1] at h
    simpa using h
  · obtain ⟨f, hf, hobjs⟩ := deathStep_objs g k
    rw [hobjs, livePrefix_map _ _ hf, deathStep_players_dead g k _ hobj halive]
    apply SupplyInvOn.supplyInvOn_map _ hf
    rw [h2, if_neg halive]
    rw [h1] at h
    simpa using h.remove

theorem deathPrefix_succ (k : Nat) (g : Game) :
    deathPrefix (k + 1) g = deathStep (deathPrefix k g) k := by
  simp [deathPrefix, List.range_succ]

theorem deathPrefix_length (k : Nat) (g : Game) :
    (deathPrefix k g).gameObjects.length = g.gameObjects.length := by
  induction k with
  | zero => rfl
  | succ k ih => rw [deathPrefix_succ, deathStep_length, ih]

theorem deathPrefix_sweepInv (k : Nat) (g : Game) (hk : k ≤ g.gameObjects.length)
    (h : SupplyInv g) :
    SupplyInvOn (livePrefix k (deathPrefix k g).gameObjects) (deathPrefix k g).players := by
  induction k with
  | zero =>
    rw [livePrefix_zero]
    exact h
  | succ k ih =>
    rw [deathPrefix_succ]
    exact deathStep_sweepInv _ k (by rw [deathPrefix_length]; omega) (ih (by omega))

theorem deathPrefix_objs (k : Nat) (g : Game) :
    ∃ f, Benign f ∧ (deathPrefix k g).gameObjects = g.gameObjects.map f := by
  induction k with
  | zero => exact ⟨fun e => e, fun e => ⟨Static.static_refl e, rfl⟩, by simp [deathPrefix]⟩
  | succ k ih =>
    obtain ⟨f1, hf1, h1⟩ := ih
    obtain ⟨f2, hf2, h2⟩ := deathStep_objs (deathPrefix k g) k
    refine ⟨fun e => f2 (f1 e), hf2.comp hf1, ?_⟩
    rw [deathPrefix_succ, h2, h1, List.map_map]
    rfl

theorem benign_cleanTarget (l : List Entity) : Benign (cleanTarget l) := by
  intro e
  unfold cleanTarget
  split
  · split_ifs
    · exact benign_clearTarget e
    · exact ⟨Static.static_refl e, rfl⟩
  · exact ⟨Static.static_refl e, rfl⟩

theorem deathSweep_objs (g : Game) :
    (deathSweep g).gameObjects =
      ((deathPrefix g.gameObjects.length g).gameObjects.filter
        (fun obj => decide (obj.health > 0))).map
        (cleanTarget ((deathPrefix g.gameObjects.length g).gameObjects.filter
          (fun obj => decide (obj.health > 0)))) := rfl

theorem deathSweep_players (g : Game) :
    (deathSweep g).players = (deathPrefix g.gameObjects.length g).players := rfl

theorem deathSweep_supplyInv (g : Game) (h : SupplyInv g) : SupplyInv (deathSweep g) := by
  have h1 := deathPrefix_sweepInv g.gameObjects.length g le_rfl h
  have h2 := livePrefix_length (deathPrefix g.gameObjects.length g).gameObjects
  rw [deathPrefix_length] at h2
  rw [h2] at h1
  unfold SupplyInv
  rw [deathSweep_objs, deathSweep_players]
  exact h1.supplyInvOn_map (benign_cleanTarget _)

theorem deathSweep_alive (g : Game) : ∀ e ∈ (deathSweep g).gameObjects, 0 < e.health := by
  intro e he
  rw [deathSweep_objs] at he
  obtain ⟨e0, he0, rfl⟩ := List.mem_map.1 he
  rw [(benign_cleanTarget _ e0).2]
  simpa using (List.mem_filter.1 he0).2

theorem deathSweep_healthInv (g : Game) (h : HealthInv g.gameObjects) :
    HealthInv (deathSweep g).gameObjects := by
  obtain ⟨f, hf, hobjs⟩ := deathPrefix_objs g.gameObjects.length g
  have h1 : HealthInv (deathPrefix g.gameObjects.length g).gameObjects := by
    rw [hobjs]
    exact h.healthInv_evolved (ObjRel.objRel_map f (fun _ e => hf.evolve _ e) _)
  intro e he
  rw [deathSweep_objs] at he
  obtain ⟨e0, he0, rfl⟩ := List.mem_map.1 he
  have hb := benign_cleanTarget
    ((deathPrefix g.gameObjects.length g).gameObjects.filter
      (fun obj => decide (obj.health > 0))) e0
  obtain ⟨a, b, c⟩ := h1 e0 (List.mem_filter.1 he0).1
  rw [hb.2, hb.1.maxHealth, hb.1.type, hb.1.attackDamage]
  exact ⟨a, b, c⟩

theorem drawAttackEffects_frame (P : ℚ → Prop) (now : ℚ) (g : Game) :
    Frame P g (drawAttackEffects now g) :=
  ⟨rfl, ObjRel.objRel_refl (fun _ e => Evolve.evolve_refl P e) _⟩

theorem gameLoop_supplyInv (hypot : ℚ → ℚ → ℚ) (random : Nat → ℚ) (now : ℚ) (g : Game)
    (h : SupplyInv g) : SupplyInv (gameLoop hypot random now g) := by
  unfold gameLoop
  have h1 := updatePrefix_supplyInv hypot now g.gameObjects.length g h
  rw [← updatePass_eq_updatePrefix] at h1
  have h2 := h1.supplyInv_frame (resolveUnitCollisions_frame (fun _ => True) hypot random _)
  have h3 := h2.supplyInv_frame (safetyClamp_frame (fun _ => True) _)
  exact (deathSweep_supplyInv _ h3).supplyInv_frame (drawAttackEffects_frame (fun _ => True) now _)

theorem gameLoop_healthInv (hypot : ℚ → ℚ → ℚ) (random : Nat → ℚ) (now : ℚ) (g : Game)
    (h : HealthInv g.gameObjects) : HealthInv (gameLoop hypot random now g).gameObjects := by
  unfold gameLoop
  have h1 := updatePrefix_healthInv hypot now g.gameObjects.length g h
  rw [← updatePass_eq_updatePrefix] at h1
  have h2 := HealthInv.healthInv_frame h1 (resolveUnitCollisions_frame _ hypot random _)
  have h3 := HealthInv.healthInv_frame h2 (safetyClamp_frame _ _)
  exact deathSweep_healthInv _ h3

theorem gameLoop_alive (hypot : ℚ → ℚ → ℚ) (random : Nat → ℚ) (now : ℚ) (g : Game) :
    ∀ e ∈ (gameLoop hypot random now g).gameObjects, 0 < e.health :=
  deathSweep_alive _

/-! ## Reachable states satisfy the invariants -/

theorem setupGame_initialGame : setupGame initialGame = some setupState := by
  rfl

theorem setupState_supplyInv : SupplyInv setupState := by
  have hp : ∀ id p, setupState.players id = some p → p.supplyCap = 5 ∧ p.currentSupply = 0 := by
    intro id p hp
    simp only [setupState, players] at hp
    split_ifs at hp
    · simp only [Option.map_some', Option.some.injEq] at hp
      subst hp
      exact ⟨rfl, rfl⟩
    · simp at hp
  refine ⟨fun e he ht => ?_, fun id p h => ?_, fun id p h => ?_, fun id p h => ?_⟩
  · simp only [setupState, List.mem_cons, List.mem_singleton, List.not_mem_nil, or_false] at he
    rcases he with rfl | rfl | rfl | rfl <;> simp [Bunker.init] at ht
  · exact ⟨5, by rw [(hp id p h).1]; norm_num⟩
  · rw [(hp id p h).1, (hp id p h).2]
    norm_num
  · rw [(hp id p h).2]
    simp [setupState, supplyOf, ownedUnit, Bunker.init]

theorem setupState_healthInv : HealthInv setupState.gameObjects := by
  intro e he
  simp only [setupState, List.mem_cons, List.mem_singleton, List.not_mem_nil, or_false] at he
  rcases he with rfl | rfl | rfl | rfl <;> norm_num [Bunker.init]

theorem Command.apply_frame (P : ℚ → Prop) (c : Command) (g : Game) :
    Frame P g (c.apply g) := by
  have hite : ∀ (q : Entity → Prop) [DecidablePred q] (f : Entity → Entity), Benign f →
      Benign (fun u => if q u then f u else u) := by
    intro q _ f hf e
    show Static e (if _ then _ else _) ∧ (if _ then _ else _ : Entity).health = e.health
    split_ifs
    · exact hf e
    · exact ⟨Static.static_refl e, rfl⟩
  cases c with
  | moveTo i x y =>
    exact Frame.modifyObj P g i (hite _ (fun u => Unit.moveTo u x y)
      (fun _ => ⟨⟨rfl, rfl, rfl, rfl, rfl, rfl, rfl, rfl, rfl, rfl, rfl, rfl⟩, rfl⟩))
  | attackMoveTo i x y =>
    exact Frame.modifyObj P g i (hite _ (fun u => Unit.attackMoveTo u x y)
      (fun _ => ⟨⟨rfl, rfl, rfl, rfl, rfl, rfl, rfl, rfl, rfl, rfl, rfl, rfl⟩, rfl⟩))
  | attackUnit i target =>
    exact Frame.modifyObj P g i (hite _ (fun u => Unit.attackUnit u target)
      (fun _ => ⟨⟨rfl, rfl, rfl, rfl, rfl, rfl, rfl, rfl, rfl, rfl, rfl, rfl⟩, rfl⟩))
  | setRallyPoint i x y =>
    exact Frame.modifyObj P g i (hite _ (fun b => { b with rallyPoint := (x, y) })
      (fun _ => ⟨⟨rfl, rfl, rfl, rfl, rfl, rfl, rfl, rfl, rfl, rfl, rfl, rfl⟩, rfl⟩))
  | switchPlayer newPlayerId =>
    show Frame P g (CollisionAndAttack.switchPlayer newPlayerId g)
    unfold CollisionAndAttack.switchPlayer
    split_ifs
    · exact Frame.frame_refl P g
    · exact ⟨rfl, ObjRel.objRel_refl (fun _ e => Evolve.evolve_refl P e) _⟩

theorem Reachable.supplyInv {g : Game} (h : Reachable g) : SupplyInv g := by
  induction h with
  | setup => exact setupState_supplyInv
  | tick hypot random now _ ih => exact gameLoop_supplyInv hypot random now _ ih
  | command c _ ih => exact ih.supplyInv_frame (Command.apply_frame (fun _ => True) c _)

theorem Reachable.healthInv {g : Game} (h : Reachable g) : HealthInv g.gameObjects := by
  induction h with
  | setup => exact setupState_healthInv
  | tick hypot random now _ ih => exact gameLoop_healthInv hypot random now _ ih
  | command c _ ih => exact HealthInv.healthInv_frame ih (Command.apply_frame _ c _)

/-! ## Claims C1 to C3: supply and health invariants -/

/-- Claim C1: in every state reached from `setupGame` by frames of the game loop and commands
(a tick boundary), every player has `0 <= currentSupply <= supplyCap`; the same holds after the
first `k` callbacks of the update pass of a frame started there, for every `k`, and after a
`Bunker.update` of any object in such a state. -/
theorem C1_supply_bounds (g : Game) (hg : Reachable g) (hypot : ℚ → ℚ → ℚ) (now : ℚ)
    (k i : Nat) :
    SupplyBounds g ∧ SupplyBounds (updatePrefix hypot now k g) ∧
      SupplyBounds (Bunker.update hypot now i (updatePrefix hypot now k g)) := by
  have h0 := hg.supplyInv
  have h1 := updatePrefix_supplyInv hypot now k g h0
  have h2 := Bunker.update_supplyInv hypot now i _ h1
  exact ⟨fun id p hp => h0.supplyInvOn_bounds id p hp, fun id p hp => h1.supplyInvOn_bounds id p hp,
    fun id p hp => h2.supplyInvOn_bounds id p hp⟩

/-- Witness of claim C1 at the state after `setupGame`, first callback of a frame at time
1500. -/
theorem C1_supply_bounds_witness :
    Reachable setupState ∧
    (SupplyBounds setupState ∧ SupplyBounds (updatePrefix hypotQ 1500 1 setupState) ∧
      SupplyBounds (Bunker.update hypotQ 1500 0 (updatePrefix hypotQ 1500 1 setupState))) :=
  ⟨Reachable.setup, C1_supply_bounds setupState Reachable.setup hypotQ 1500 1 0⟩

/-- Claim C2: at the end of every frame of the game loop run from a reachable state, the
`currentSupply` of each player equals the sum of `supplyCost` over the units of the population
owned by that player, and every object of the population has `health > 0`. -/
theorem C2_supply_is_cost_of_live_units (g : Game) (hg : Reachable g) (hypot : ℚ → ℚ → ℚ)
    (random : Nat → ℚ) (now : ℚ) :
    (∀ id ps, (gameLoop hypot random now g).players id = some ps →
      ps.currentSupply = supplyOf id (gameLoop hypot random now g).gameObjects) ∧
    (∀ e ∈ (gameLoop hypot random now g).gameObjects, 0 < e.health) :=
  ⟨(gameLoop_supplyInv hypot random now g hg.supplyInv).supply,
   gameLoop_alive hypot random now g⟩

/-- Witness of claim C2 at the state after `setupGame`, for a frame at time 1500. -/
theorem C2_supply_is_cost_of_live_units_witness :
    Reachable setupState ∧
    ((∀ id ps, (gameLoop hypotQ (fun _ => 0) 1500 setupState).players id = some ps →
      ps.currentSupply = supplyOf id (gameLoop hypotQ (fun _ => 0) 1500 setupState).gameObjects) ∧
    (∀ e ∈ (gameLoop hypotQ (fun _ => 0) 1500 setupState).gameObjects, 0 < e.health)) :=
  ⟨Reachable.setup,
   C2_supply_is_cost_of_live_units setupState Reachable.setup hypotQ (fun _ => 0) 1500⟩

/-- Claim C3: for an entity with `0 <= health <= maxHealth` and a damage amount `d >= 0`,
`takeDamage(d)` of either class leaves `health = max(0, health - d)`, so health stays in
`[0, maxHealth]`; and a frame of the game loop preserves `0 <= health <= maxHealth` for every
object of a population in which no unit has a negative `attackDamage`. -/
theorem C3_health_bounds (e : Entity) (d : ℚ) (h0 : 0 ≤ e.health) (h1 : e.health ≤ e.maxHealth)
    (hd : 0 ≤ d) (hypot : ℚ → ℚ → ℚ) (random : Nat → ℚ) (now : ℚ) (g : Game)
    (hg : HealthInv g.gameObjects) :
    ((Unit.takeDamage e d).health = max 0 (e.health - d) ∧
      (Bunker.takeDamage e d).health = max 0 (e.health - d) ∧
      (e.takeDamage d).health = max 0 (e.health - d) ∧
      (e.takeDamage d).maxHealth = e.maxHealth ∧
      0 ≤ (e.takeDamage d).health ∧ (e.takeDamage d).health ≤ (e.takeDamage d).maxHealth) ∧
    HealthInv (gameLoop hypot random now g).gameObjects := by
  refine ⟨⟨?_, ?_, ?_, ?_, ?_, ?_⟩, gameLoop_healthInv hypot random now g hg⟩
  · rw [Unit.unit_takeDamage_eq]
    exact damageHealth_eq_max _ _
  · rw [Bunker.bunker_takeDamage_eq]
    exact damageHealth_eq_max _ _
  · rw [Entity.entity_takeDamage_eq]
    exact damageHealth_eq_max _ _
  · rw [Entity.entity_takeDamage_eq]
  · rw [Entity.entity_takeDamage_eq]
    exact (damageHealth_bounds h0 hd).1
  · rw [Entity.entity_takeDamage_eq]
    exact (damageHealth_bounds h0 hd).2.trans h1

/-- Witness of claim C3: a fresh unit hit by 10, and a frame from the state after
`setupGame`. -/
theorem C3_health_bounds_witness :
    (0 ≤ (Unit.init 0 0 1 0 30 2).health ∧
      (Unit.init 0 0 1 0 30 2).health ≤ (Unit.init 0 0 1 0 30 2).maxHealth ∧ (0 : ℚ) ≤ 10 ∧
      HealthInv setupState.gameObjects) ∧
    (((Unit.takeDamage (Unit.init 0 0 1 0 30 2) 10).health =
        max 0 ((Unit.init 0 0 1 0 30 2).health - 10) ∧
      (Bunker.takeDamage (Unit.init 0 0 1 0 30 2) 10).health =
        max 0 ((Unit.init 0 0 1 0 30 2).health - 10) ∧
      ((Unit.init 0 0 1 0 30 2).takeDamage 10).health =
        max 0 ((Unit.init 0 0 1 0 30 2).health - 10) ∧
      ((Unit.init 0 0 1 0 30 2).takeDamage 10).maxHealth = (Unit.init 0 0 1 0 30 2).maxHealth ∧
      0 ≤ ((Unit.init 0 0 1 0 30 2).takeDamage 10).health ∧
      ((Unit.init 0 0 1 0 30 2).takeDamage 10).health ≤
        ((Unit.init 0 0 1 0 30 2).takeDamage 10).maxHealth) ∧
    HealthInv (gameLoop hypotQ (fun _ => 0) 1500 setupState).gameObjects) :=
  ⟨⟨by norm_num [Unit.init], by norm_num [Unit.init], by norm_num, setupState_healthInv⟩,
   C3_health_bounds (Unit.init 0 0 1 0 30 2) 10 (by norm_num [Unit.init])
    (by norm_num [Unit.init]) (by norm_num) hypotQ (fun _ => 0) 1500 setupState
    setupState_healthInv⟩

/-! ## Claim C4: the nearest-enemy search and the effective range -/

/-- Claim C4, evaluation of the code at the failing input: a unit of size 30 at (100, 100)
searches with range 150; the only other object is a live enemy unit of size 30 at (260, 100).
The centre distance is 160, and 160 minus the half-sizes 15 + 15 is 130, within range, yet
`findNearestEnemyInRange` returns `null`. -/
theorem C4_effective_range_not_used :
    findNearestEnemyInRange (Unit.init 100 100 1 0 30 2) 150
        [Unit.init 100 100 1 0 30 2, Unit.init 260 100 2 1 30 2] = none ∧
      (Unit.init 260 100 2 1 30 2).health > 0 ∧
      (Unit.init 260 100 2 1 30 2).playerId ≠ (Unit.init 100 100 1 0 30 2).playerId ∧
      ((160 : ℚ) * 160 =
          ((Unit.init 260 100 2 1 30 2).x - (Unit.init 100 100 1 0 30 2).x) *
            ((Unit.init 260 100 2 1 30 2).x - (Unit.init 100 100 1 0 30 2).x) +
          ((Unit.init 260 100 2 1 30 2).y - (Unit.init 100 100 1 0 30 2).y) *
            ((Unit.init 260 100 2 1 30 2).y - (Unit.init 100 100 1 0 30 2).y)) ∧
      (160 : ℚ) - ((Unit.init 100 100 1 0 30 2).size / 2 + (Unit.init 260 100 2 1 30 2).size / 2)
        ≤ 150 := by
  refine ⟨?_, ?_, ?_, ?_, ?_⟩
  · norm_num [findNearestEnemyInRange, Unit.init]
  · norm_num [Unit.init]
  · norm_num [Unit.init]
  · norm_num [Unit.init]
  · norm_num [Unit.init]

/-! ## Numeric helpers -/

theorem clamp_low {lo hi v : ℚ} (h : v ≤ lo) (hlh : lo ≤ hi) : max lo (min hi v) = lo := by
  rw [min_eq_right (h.trans hlh), max_eq_left h]

theorem clamp_mid {lo hi v : ℚ} (h1 : lo ≤ v) (h2 : v ≤ hi) : max lo (min hi v) = v := by
  rw [min_eq_right h2, max_eq_right h1]

theorem sqrtQ_mul_self (d : ℚ) (hd : 0 ≤ d) : sqrtQ (d * d) = d := by
  unfold sqrtQ
  rw [Rat.mul_self_num, Rat.mul_self_den]
  have hn : 0 ≤ d.num := Rat.num_nonneg.2 hd
  obtain ⟨n, hn'⟩ := Int.eq_ofNat_of_zero_le hn
  have h1 : (d.num * d.num).toNat * (d.den * d.den) = (n * d.den) * (n * d.den) := by
    rw [hn']
    have : ((n : ℤ) * (n : ℤ)).toNat = n * n := by
      rw [← Int.natCast_mul]
      exact Int.toNat_natCast _
    rw [this]
    ring
  rw [h1, Nat.sqrt_eq]
  have hden : (d.den : ℚ) ≠ 0 := by exact_mod_cast d.den_nz
  have hd' : d = (n : ℚ) / (d.den : ℚ) := by
    have := (Rat.num_div_den d).symm
    rw [hn'] at this
    simpa using this
  push_cast
  rw [mul_div_mul_right _ _ hden]
  exact hd'.symm

theorem hypotQ_of_sq {a b d : ℚ} (hd : 0 ≤ d) (h : a * a + b * b = d * d) : hypotQ a b = d := by
  unfold hypotQ
  rw [h]
  exact sqrtQ_mul_self d hd

theorem hypotQ_axis (t : ℚ) (ht : 0 ≤ t) : hypotQ t 0 = t :=
  hypotQ_of_sq ht (by ring)

/-! ## Dispatch of `Unit.update` -/

theorem getElem?_modifyObj_self (g : Game) (i : Nat) (f : Entity → Entity) :
    (g.modifyObj i f).gameObjects[i]? = (g.gameObjects[i]?).map f := by
  simp [Game.modifyObj, List.getElem?_modify]

theorem getElem?_modifyObj_ne (g : Game) {i k : Nat} (f : Entity → Entity) (h : i ≠ k) :
    (g.modifyObj i f).gameObjects[k]? = g.gameObjects[k]? := by
  simp [Game.modifyObj, List.getElem?_modify, h]

theorem update_moving (hypot : ℚ → ℚ → ℚ) (now : ℚ) (i : Nat) (g : Game) (u : Entity)
    (h : g.gameObjects[i]? = some u) (halive : 0 < u.health) (htu : u.targetUnit = none)
    (hcs : u.commandState = .moving) :
    Unit.update hypot now i g = g.modifyObj i (moveStep hypot) := by
  unfold Unit.update
  rw [h]
  simp only [not_le.2 halive, if_false, htu, hcs, Bool.false_eq_true]
  rfl

theorem update_idle (hypot : ℚ → ℚ → ℚ) (now : ℚ) (i : Nat) (g : Game) (u : Entity)
    (h : g.gameObjects[i]? = some u) (halive : 0 < u.health) (htu : u.targetUnit = none)
    (hcs : u.commandState = .idle) :
    Unit.update hypot now i g = g := by
  unfold Unit.update
  rw [h]
  simp only [not_le.2 halive, if_false, htu, hcs, Bool.false_eq_true]

/-! ## The movement step -/

theorem performMovement_eq (hypot : ℚ → ℚ → ℚ) (u : Entity) :
    Unit.performMovement hypot u =
      { u with x := (Unit.performMovement hypot u).x, y := (Unit.performMovement hypot u).y } := by
  unfold Unit.performMovement
  split_ifs <;> rfl

theorem performMovement_x (hypot : ℚ → ℚ → ℚ) (u : Entity)
    (hne : ¬ (u.x = u.targetX ∧ u.y = u.targetY)) :
    (Unit.performMovement hypot u).x =
      max (u.size / 2) (min (MAP_WIDTH - u.size / 2)
        (if hypot (u.targetX - u.x) (u.targetY - u.y) ≤ u.speed then u.targetX
         else u.x + (u.targetX - u.x) / hypot (u.targetX - u.x) (u.targetY - u.y) * u.speed)) := by
  unfold Unit.performMovement
  rw [if_neg hne]

theorem performMovement_y (hypot : ℚ → ℚ → ℚ) (u : Entity)
    (hne : ¬ (u.x = u.targetX ∧ u.y = u.targetY)) :
    (Unit.performMovement hypot u).y =
      max (u.size / 2) (min (MAP_HEIGHT - u.size / 2)
        (if hypot (u.targetX - u.x) (u.targetY - u.y) ≤ u.speed then u.targetY
         else u.y + (u.targetY - u.y) / hypot (u.targetX - u.x) (u.targetY - u.y) * u.speed)) := by
  unfold Unit.performMovement
  rw [if_neg hne]

theorem performMovement_keeps (hypot : ℚ → ℚ → ℚ) (u : Entity) :
    (Unit.performMovement hypot u).targetX = u.targetX ∧
    (Unit.performMovement hypot u).targetY = u.targetY ∧
    (Unit.performMovement hypot u).targetUnit = u.targetUnit ∧
    (Unit.performMovement hypot u).commandState = u.commandState ∧
    (Unit.performMovement hypot u).aMoveTargetX = u.aMoveTargetX ∧
    (Unit.performMovement hypot u).aMoveTargetY = u.aMoveTargetY ∧
    (Unit.performMovement hypot u).lastAttackTime = u.lastAttackTime := by
  unfold Unit.performMovement
  split_ifs <;> exact ⟨rfl, rfl, rfl, rfl, rfl, rfl, rfl⟩

theorem moveStep_fields (hypot : ℚ → ℚ → ℚ) (u : Entity) :
    (moveStep hypot u).x = (Unit.performMovement hypot { u with targetUnit := none }).x ∧
    (moveStep hypot u).y = (Unit.performMovement hypot { u with targetUnit := none }).y ∧
    (moveStep hypot u).targetX = u.targetX ∧ (moveStep hypot u).targetY = u.targetY ∧
    (moveStep hypot u).size = u.size ∧ (moveStep hypot u).speed = u.speed ∧
    (moveStep hypot u).health = u.health ∧ (moveStep hypot u).targetUnit = none ∧
    (moveStep hypot u).commandState =
      (if (Unit.performMovement hypot { u with targetUnit := none }).x = u.targetX ∧
          (Unit.performMovement hypot { u with targetUnit := none }).y = u.targetY
        then .idle else u.commandState) := by
  obtain ⟨k1, k2, k3, k4, _, _, _⟩ :=
    performMovement_keeps hypot { u with targetUnit := none }
  obtain ⟨hs, hh⟩ := benign_performMovement hypot { u with targetUnit := none }
  have hsz := hs.size
  have hsp := hs.speed
  unfold moveStep arriveAt
  generalize Unit.performMovement hypot { u with targetUnit := none } = v at *
  simp only at k1 k2 k3 k4 hsz hsp hh
  simp only [k1, k2]
  split_ifs
  · exact ⟨rfl, rfl, rfl, rfl, hsz, hsp, hh, k3, rfl⟩
  · exact ⟨rfl, rfl, k1, k2, hsz, hsp, hh, k3, k4⟩

/-! ## Scenario A -/

theorem moveStep_corner (hypot : ℚ → ℚ → ℚ) (u : Entity)
    (hpos : (u.x = 0 ∧ u.y = 0) ∨ (u.x = 15 ∧ u.y = 15))
    (htx : u.targetX = 10) (hty : u.targetY = 0) (hsize : u.size = 30) (hspeed : u.speed = 2)
    (hcs : u.commandState = .moving) (hh : 0 < u.health) :
    HeldAtCorner (moveStep hypot u) := by
  obtain ⟨f1, f2, f3, f4, f5, f6, f7, f8, f9⟩ := moveStep_fields hypot u
  have hne : ¬ (({ u with targetUnit := none } : Entity).x =
      ({ u with targetUnit := none } : Entity).targetX ∧
      ({ u with targetUnit := none } : Entity).y =
      ({ u with targetUnit := none } : Entity).targetY) := by
    show ¬ (u.x = u.targetX ∧ u.y = u.targetY)
    rw [htx, hty]
    rintro ⟨h1, h2⟩
    rcases hpos with ⟨a, _⟩ | ⟨a, _⟩ <;> rw [a] at h1 <;> norm_num at h1
  have hx := performMovement_x hypot _ hne
  have hy := performMovement_y hypot _ hne
  have hx15 : (Unit.performMovement hypot { u with targetUnit := none }).x = 15 := by
    rw [hx]
    show max (u.size / 2) (min (MAP_WIDTH - u.size / 2)
      (if hypot (u.targetX - u.x) (u.targetY - u.y) ≤ u.speed then u.targetX
       else u.x + (u.targetX - u.x) / hypot (u.targetX - u.x) (u.targetY - u.y) * u.speed)) = 15
    rw [htx, hty, hsize, hspeed]
    have e1 : (30 : ℚ) / 2 = 15 := by norm_num
    rw [e1]
    unfold MAP_WIDTH
    apply clamp_low _ (by norm_num)
    split_ifs with hd
    · norm_num
    · have hd2 : 2 < hypot (10 - u.x) (0 - u.y) := not_le.1 hd
      have hd0 : 0 < hypot (10 - u.x) (0 - u.y) := by linarith
      rcases hpos with ⟨a, _⟩ | ⟨a, _⟩
      · rw [a] at hd2 hd0 ⊢
        rw [zero_add, div_mul_eq_mul_div, div_le_iff₀ hd0]
        nlinarith
      · rw [a] at hd2 hd0 ⊢
        have : (10 - 15 : ℚ) / hypot (10 - 15) (0 - u.y) * 2 ≤ 0 := by
          rw [div_mul_eq_mul_div, div_le_iff₀ hd0]
          nlinarith
        linarith
  have hy15 : (Unit.performMovement hypot { u with targetUnit := none }).y = 15 := by
    rw [hy]
    show max (u.size / 2) (min (MAP_HEIGHT - u.size / 2)
      (if hypot (u.targetX - u.x) (u.targetY - u.y) ≤ u.speed then u.targetY
       else u.y + (u.targetY - u.y) / hypot (u.targetX - u.x) (u.targetY - u.y) * u.speed)) = 15
    rw [htx, hty, hsize, hspeed]
    have e1 : (30 : ℚ) / 2 = 15 := by norm_num
    rw [e1]
    unfold MAP_HEIGHT
    apply clamp_low _ (by norm_num)
    split_ifs with hd
    · norm_num
    · have hd2 : 2 < hypot (10 - u.x) (0 - u.y) := not_le.1 hd
      have hd0 : 0 < hypot (10 - u.x) (0 - u.y) := by linarith
      rcases hpos with ⟨_, b⟩ | ⟨_, b⟩
      · rw [b] at hd2 hd0 ⊢
        norm_num
      · rw [b] at hd2 hd0 ⊢
        have : (0 - 15 : ℚ) / hypot (10 - u.x) (0 - 15) * 2 ≤ 0 := by
          rw [div_mul_eq_mul_div, div_le_iff₀ hd0]
          nlinarith
        linarith
  refine ⟨f1.trans hx15, f2.trans hy15, f3.trans htx, f4.trans hty, f5.trans hsize,
    f6.trans hspeed, ?_, f7 ▸ hh, f8⟩
  rw [f9, hx15, htx, if_neg (by norm_num), hcs]

theorem scenarioA_held (hypot : ℚ → ℚ → ℚ) (now : ℚ) (n : Nat) :
    ∃ u, ((Unit.update hypot now 0)^[n + 1] scenarioA).gameObjects = [u] ∧ HeldAtCorner u := by
  induction n with
  | zero =>
    refine ⟨moveStep hypot (Unit.moveTo (Unit.init 0 0 1 0 30 2) 10 0), ?_, ?_⟩
    · rw [Function.iterate_one, update_moving hypot now 0 scenarioA
        (Unit.moveTo (Unit.init 0 0 1 0 30 2) 10 0) rfl
        (by norm_num [Unit.moveTo, Unit.init]) rfl rfl]
      rfl
    · exact moveStep_corner hypot _ (Or.inl ⟨rfl, rfl⟩) rfl rfl rfl rfl rfl
        (by norm_num [Unit.moveTo, Unit.init])
  | succ n ih =>
    obtain ⟨u, hu, hheld⟩ := ih
    refine ⟨moveStep hypot u, ?_, ?_⟩
    · rw [Function.iterate_succ_apply', update_moving hypot now 0 _ u (by rw [hu]; rfl)
        hheld.health hheld.targetUnit hheld.commandState]
      show List.modify _ 0 ((Unit.update hypot now 0)^[n + 1] scenarioA).gameObjects = _
      rw [hu]
      rfl
    · exact moveStep_corner hypot u (Or.inr ⟨hheld.x, hheld.y⟩) hheld.targetX hheld.targetY
        hheld.size hheld.speed hheld.commandState hheld.health

/-- Claim C5, counterexample: the unit of scenario A (created at (0, 0), size 30, speed 2,
`moveTo(10, 0)`) is at (15, 15) in state `moving` after 5 calls of `Unit.update`, not at
(10, 0) in state `idle`. -/
theorem C5_counterexample :
    posState ((Unit.update hypotQ 0 0)^[5] scenarioA) 0 = some (15, 15, CommandState.moving) := by
  obtain ⟨u, hu, hheld⟩ := scenarioA_held hypotQ 0 4
  simp only [posState, hu, List.getElem?_cons_zero, Option.map_some', hheld.x, hheld.y,
    hheld.commandState]

theorem onAxis_step (hypot : ℚ → ℚ → ℚ) {a b y0 : ℚ} {u : Entity} (h : OnAxis a b y0 u)
    (hfar : 2 < b - a) (hd : hypot (b - a) 0 = b - a) (hx1 : 15 ≤ a + 2) (hx2 : a + 2 ≤ 985)
    (hy1 : 15 ≤ y0) (hy2 : y0 ≤ 685) : OnAxis (a + 2) b y0 (moveStep hypot u) := by
  obtain ⟨f1, f2, f3, f4, f5, f6, f7, f8, f9⟩ := moveStep_fields hypot u
  have hne : ¬ (({ u with targetUnit := none } : Entity).x =
      ({ u with targetUnit := none } : Entity).targetX ∧
      ({ u with targetUnit := none } : Entity).y =
      ({ u with targetUnit := none } : Entity).targetY) := by
    show ¬ (u.x = u.targetX ∧ u.y = u.targetY)
    rw [h.x, h.targetX]
    rintro ⟨h1, _⟩
    rw [h1] at hfar
    linarith
  have hx := performMovement_x hypot _ hne
  have hy := performMovement_y hypot _ hne
  have hpos : (0 : ℚ) < b - a := by linarith
  have hxv : (Unit.performMovement hypot { u with targetUnit := none }).x = a + 2 := by
    rw [hx]
    show max (u.size / 2) (min (MAP_WIDTH - u.size / 2)
      (if hypot (u.targetX - u.x) (u.targetY - u.y) ≤ u.speed then u.targetX
       else u.x + (u.targetX - u.x) / hypot (u.targetX - u.x) (u.targetY - u.y) * u.speed)) = _
    rw [h.targetX, h.targetY, h.x, h.y, h.size, h.speed, sub_self, hd, if_neg (not_le.2 hfar),
      div_self hpos.ne', one_mul]
    unfold MAP_WIDTH
    exact clamp_mid (by linarith) (by linarith)
  have hyv : (Unit.performMovement hypot { u with targetUnit := none }).y = y0 := by
    rw [hy]
    show max (u.size / 2) (min (MAP_HEIGHT - u.size / 2)
      (if hypot (u.targetX - u.x) (u.targetY - u.y) ≤ u.speed then u.targetY
       else u.y + (u.targetY - u.y) / hypot (u.targetX - u.x) (u.targetY - u.y) * u.speed)) = _
    rw [h.targetX, h.targetY, h.x, h.y, h.size, h.speed, sub_self, hd, if_neg (not_le.2 hfar),
      zero_div, zero_mul, add_zero]
    unfold MAP_HEIGHT
    exact clamp_mid (by linarith) (by linarith)
  refine ⟨f1.trans hxv, f2.trans hyv, f3.trans h.targetX, f4.trans h.targetY, f5.trans h.size,
    f6.trans h.speed, ?_, f7 ▸ h.health, f8⟩
  rw [f9, hxv, h.targetX, if_neg, h.commandState]
  rintro ⟨h1, _⟩
  linarith

theorem onAxis_arrive (hypot : ℚ → ℚ → ℚ) {a b y0 : ℚ} {u : Entity} (h : OnAxis a b y0 u)
    (hpos : 0 < b - a) (hnear : b - a ≤ 2) (hd : hypot (b - a) 0 = b - a) (hx1 : 15 ≤ b)
    (hx2 : b ≤ 985) (hy1 : 15 ≤ y0) (hy2 : y0 ≤ 685) :
    (moveStep hypot u).x = b ∧ (moveStep hypot u).y = y0 ∧
      (moveStep hypot u).commandState = .idle := by
  obtain ⟨f1, f2, f3, f4, f5, f6, f7, f8, f9⟩ := moveStep_fields hypot u
  have hne : ¬ (({ u with targetUnit := none } : Entity).x =
      ({ u with targetUnit := none } : Entity).targetX ∧
      ({ u with targetUnit := none } : Entity).y =
      ({ u with targetUnit := none } : Entity).targetY) := by
    show ¬ (u.x = u.targetX ∧ u.y = u.targetY)
    rw [h.x, h.targetX]
    rintro ⟨h1, _⟩
    rw [h1] at hpos
    linarith
  have hx := performMovement_x hypot _ hne
  have hy := performMovement_y hypot _ hne
  have hxv : (Unit.performMovement hypot { u with targetUnit := none }).x = b := by
    rw [hx]
    show max (u.size / 2) (min (MAP_WIDTH - u.size / 2)
      (if hypot (u.targetX - u.x) (u.targetY - u.y) ≤ u.speed then u.targetX
       else u.x + (u.targetX - u.x) / hypot (u.targetX - u.x) (u.targetY - u.y) * u.speed)) = _
    rw [h.targetX, h.targetY, h.x, h.y, h.size, h.speed, sub_self, hd, if_pos hnear]
    unfold MAP_WIDTH
    exact clamp_mid (by linarith) (by linarith)
  have hyv : (Unit.performMovement hypot { u with targetUnit := none }).y = y0 := by
    rw [hy]
    show max (u.size / 2) (min (MAP_HEIGHT - u.size / 2)
      (if hypot (u.targetX - u.x) (u.targetY - u.y) ≤ u.speed then u.targetY
       else u.y + (u.targetY - u.y) / hypot (u.targetX - u.x) (u.targetY - u.y) * u.speed)) = _
    rw [h.targetX, h.targetY, h.x, h.y, h.size, h.speed, sub_self, hd, if_pos hnear]
    unfold MAP_HEIGHT
    exact clamp_mid (by linarith) (by linarith)
  refine ⟨f1.trans hxv, f2.trans hyv, ?_⟩
  rw [f9, hxv, hyv, h.targetX, h.targetY, if_pos ⟨rfl, rfl⟩]

theorem update_single_moving (hypot : ℚ → ℚ → ℚ) (now : ℚ) (g : Game) (u : Entity)
    (hg : g.gameObjects = [u]) (halive : 0 < u.health) (htu : u.targetUnit = none)
    (hcs : u.commandState = .moving) :
    (Unit.update hypot now 0 g).gameObjects = [moveStep hypot u] := by
  rw [update_moving hypot now 0 g u (by rw [hg]; rfl) halive htu hcs]
  show List.modify _ 0 g.gameObjects = _
  rw [hg]
  rfl

theorem iterate_five {α : Type} (f : α → α) (x : α) : f^[5] x = f (f (f (f (f x)))) := rfl

/-- Claim C5, amended: for a unit created at `(x0, y0)` with the constructor defaults (size
30, speed 2), alone in the population, whose box stays inside the arena on the way
(`15 <= x0`, `x0 + 10 <= 985`, `15 <= y0 <= 685`), and given `moveTo(x0 + 10, y0)`: after 5
calls of `Unit.update` its position is exactly `(x0 + 10, y0)` and its `commandState` is
`idle` (`Math.hypot` being exact on the axis). -/
theorem C5_scenarioA_inside_arena (hypot : ℚ → ℚ → ℚ) (now x0 y0 : ℚ)
    (hhyp : ∀ t : ℚ, 0 ≤ t → hypot t 0 = t) (hx1 : 15 ≤ x0) (hx2 : x0 + 10 ≤ 985)
    (hy1 : 15 ≤ y0) (hy2 : y0 ≤ 685) :
    posState ((Unit.update hypot now 0)^[5] (scenarioAAt x0 y0)) 0 =
      some (x0 + 10, y0, CommandState.idle) := by
  have h0 : OnAxis x0 (x0 + 10) y0 (Unit.moveTo (Unit.init x0 y0 1 0 30 2) (x0 + 10) y0) :=
    ⟨rfl, rfl, rfl, rfl, rfl, rfl, rfl, by norm_num [Unit.moveTo, Unit.init], rfl⟩
  have g1 := update_single_moving hypot now (scenarioAAt x0 y0) _ rfl h0.health h0.targetUnit
    h0.commandState
  have h1 := onAxis_step hypot h0 (by linarith) (hhyp _ (by linarith)) (by linarith)
    (by linarith) hy1 hy2
  have g2 := update_single_moving hypot now _ _ g1 h1.health h1.targetUnit h1.commandState
  have h2 := onAxis_step hypot h1 (by linarith) (hhyp _ (by linarith)) (by linarith)
    (by linarith) hy1 hy2
  have g3 := update_single_moving hypot now _ _ g2 h2.health h2.targetUnit h2.commandState
  have h3 := onAxis_step hypot h2 (by linarith) (hhyp _ (by linarith)) (by linarith)
    (by linarith) hy1 hy2
  have g4 := update_single_moving hypot now _ _ g3 h3.health h3.targetUnit h3.commandState
  have h4 := onAxis_step hypot h3 (by linarith) (hhyp _ (by linarith)) (by linarith)
    (by linarith) hy1 hy2
  have g5 := update_single_moving hypot now _ _ g4 h4.health h4.targetUnit h4.commandState
  obtain ⟨a1, a2, a3⟩ := onAxis_arrive hypot h4 (by linarith) (by linarith)
    (hhyp _ (by linarith)) (by linarith) (by linarith) hy1 hy2
  rw [iterate_five]
  unfold posState
  rw [g5]
  simp only [List.getElem?_cons_zero, Option.map_some', a1, a2, a3]

/-- Witness of the amended claim C5: the unit is created at (100, 100) and sent to
(110, 100). -/
theorem C5_scenarioA_inside_arena_witness :
    ((∀ t : ℚ, 0 ≤ t → hypotQ t 0 = t) ∧ (15 : ℚ) ≤ 100 ∧ (100 : ℚ) + 10 ≤ 985 ∧
      (15 : ℚ) ≤ 100 ∧ (100 : ℚ) ≤ 685) ∧
    posState ((Unit.update hypotQ 0 0)^[5] (scenarioAAt 100 100)) 0 =
      some (100 + 10, 100, CommandState.idle) :=
  ⟨⟨hypotQ_axis, by norm_num, by norm_num, by norm_num, by norm_num⟩,
   C5_scenarioA_inside_arena hypotQ 0 100 100 hypotQ_axis (by norm_num) (by norm_num)
    (by norm_num) (by norm_num)⟩

/-! ## `Bunker.update`: spawn, restart of the cooldown, wait -/

theorem bunker_update_spawn (hypot : ℚ → ℚ → ℚ) (now : ℚ) (i : Nat) (g : Game)
    (self : Entity) (ps : PlayerState) (hself : g.gameObjects[i]? = some self)
    (halive : 0 < self.health) (hps : g.players self.playerId = some ps)
    (hcool : now - self.lastSpawnTime ≥ self.spawnCooldown)
    (hsup : ps.currentSupply < ps.supplyCap)
    (hfree : spawnBlocked hypot self g.gameObjects = false) :
    Bunker.update hypot now i g = spawnResult now i self ps g := by
  unfold Bunker.update
  rw [hself]
  simp only [not_le.2 halive, if_false, hps, hcool, if_true, hsup]
  unfold spawnBlocked at hfree
  simp only [hfree, Bool.not_false]
  rfl

theorem bunker_update_restart (hypot : ℚ → ℚ → ℚ) (now : ℚ) (i : Nat) (g : Game)
    (self : Entity) (ps : PlayerState) (hself : g.gameObjects[i]? = some self)
    (halive : 0 < self.health) (hps : g.players self.playerId = some ps)
    (hcool : now - self.lastSpawnTime ≥ self.spawnCooldown)
    (hno : ¬ ps.currentSupply < ps.supplyCap ∨ spawnBlocked hypot self g.gameObjects = true) :
    Bunker.update hypot now i g = g.modifyObj i (fun b => { b with lastSpawnTime := now }) := by
  unfold Bunker.update
  rw [hself]
  simp only [not_le.2 halive, if_false, hps, hcool, if_true]
  by_cases hsup : ps.currentSupply < ps.supplyCap
  · rcases hno with h | h
    · exact absurd hsup h
    · unfold spawnBlocked at h
      simp only [hsup, if_true, h, Bool.not_true]
      rfl
  · simp only [hsup, if_false]

theorem bunker_update_wait (hypot : ℚ → ℚ → ℚ) (now : ℚ) (i : Nat) (g : Game)
    (self : Entity) (hself : g.gameObjects[i]? = some self)
    (hcool : ¬ now - self.lastSpawnTime ≥ self.spawnCooldown) :
    Bunker.update hypot now i g = g := by
  unfold Bunker.update
  rw [hself]
  simp only [hcool, if_false]
  split_ifs
  · rfl
  · split <;> rfl

theorem spawnBlocked_eq_false (hypot : ℚ → ℚ → ℚ) (self : Entity) (objs : List Entity)
    (h : ∀ obj ∈ objs, 0 < obj.health →
      ¬ hypot (obj.x - (self.x + self.size / 2 + 20)) (obj.y - self.y) < obj.size / 2 + 15) :
    spawnBlocked hypot self objs = false := by
  unfold spawnBlocked
  rw [List.any_eq_false]
  intro obj hobj
  simp only [decide_eq_true_eq, not_and]
  intro hh
  have := h obj hobj hh
  rwa [add_assoc] at this

/-- Claim C10 (scenario B): for a live bunker at index `i` whose owner has
`currentSupply < supplyCap`, with `now - lastSpawnTime >= spawnCooldown` and no live object
closer than `size / 2 + 15` to the spawn point `(x + size / 2 + 20, y)`, `Bunker.update` appends
exactly one object to the population: a unit at the spawn point, owned by the bunker's player,
in state `attackMoving`, without target, with attack-move target and movement target at the
rally point and `supplyCost` 1; the owner's `currentSupply` grows by exactly 1, the other
players are untouched, and the bunker's `lastSpawnTime` is `now`. -/
theorem C10_bunker_spawns_one_unit (hypot : ℚ → ℚ → ℚ) (now : ℚ) (i : Nat) (g : Game)
    (self : Entity) (ps : PlayerState) (hself : g.gameObjects[i]? = some self)
    (halive : 0 < self.health) (hps : g.players self.playerId = some ps)
    (hsup : ps.currentSupply < ps.supplyCap)
    (hcool : now - self.lastSpawnTime ≥ self.spawnCooldown)
    (hfree : ∀ obj ∈ g.gameObjects, 0 < obj.health →
      ¬ hypot (obj.x - (self.x + self.size / 2 + 20)) (obj.y - self.y) < obj.size / 2 + 15) :
    ∃ newUnit : Entity,
      (Bunker.update hypot now i g).gameObjects =
        g.gameObjects.modify (fun b => { b with lastSpawnTime := now }) i ++ [newUnit] ∧
      newUnit.type = .unit ∧
      newUnit.x = self.x + self.size / 2 + 20 ∧ newUnit.y = self.y ∧
      newUnit.playerId = self.playerId ∧
      newUnit.commandState = .attackMoving ∧ newUnit.targetUnit = none ∧
      newUnit.aMoveTargetX = self.rallyPoint.1 ∧ newUnit.aMoveTargetY = self.rallyPoint.2 ∧
      newUnit.targetX = self.rallyPoint.1 ∧ newUnit.targetY = self.rallyPoint.2 ∧
      newUnit.supplyCost = 1 ∧
      (Bunker.update hypot now i g).players self.playerId =
        some { ps with currentSupply := ps.currentSupply + 1 } ∧
      (∀ id, id ≠ self.playerId → (Bunker.update hypot now i g).players id = g.players id) ∧
      (Bunker.update hypot now i g).gameObjects[i]? = some { self with lastSpawnTime := now } := by
  rw [bunker_update_spawn hypot now i g self ps hself halive hps hcool hsup
    (spawnBlocked_eq_false hypot self _ hfree)]
  refine ⟨spawnedUnit self g.nextId, rfl, rfl, ?_, rfl, rfl, rfl, rfl, rfl, rfl, rfl, rfl, rfl,
    ?_, ?_, ?_⟩
  · show self.x + (self.size / 2 + 20) = _
    ring
  · simp [spawnResult]
  · intro id hid
    simp [spawnResult, Function.update_noteq hid]
  · have hlt : i < g.gameObjects.length := by
      by_contra hcon
      rw [List.getElem?_eq_none (not_lt.1 hcon)] at hself
      cases hself
    show (List.modify _ i g.gameObjects ++ _)[i]? = _
    rw [List.getElem?_append_left (by simpa using hlt)]
    simp [List.getElem?_modify, hself]

/-- Witness of claim C10: scenario B at time 1500. -/
theorem C10_bunker_spawns_one_unit_witness :
    (scenarioB.gameObjects[0]? = some (Bunker.init 80 80 1 0 80) ∧
      0 < (Bunker.init 80 80 1 0 80).health ∧
      scenarioB.players (Bunker.init 80 80 1 0 80).playerId =
        some { supplyCap := 5, currentSupply := 0 } ∧
      (0 : ℚ) < 5 ∧
      (1500 : ℚ) - (Bunker.init 80 80 1 0 80).lastSpawnTime ≥
        (Bunker.init 80 80 1 0 80).spawnCooldown ∧
      (∀ obj ∈ scenarioB.gameObjects, 0 < obj.health →
        ¬ hypotQ (obj.x - ((Bunker.init 80 80 1 0 80).x + (Bunker.init 80 80 1 0 80).size / 2 + 20))
            (obj.y - (Bunker.init 80 80 1 0 80).y) < obj.size / 2 + 15)) ∧
    ∃ newUnit : Entity,
      (Bunker.update hypotQ 1500 0 scenarioB).gameObjects =
        scenarioB.gameObjects.modify (fun b => { b with lastSpawnTime := 1500 }) 0 ++ [newUnit] ∧
      newUnit.type = .unit ∧
      newUnit.x = (Bunker.init 80 80 1 0 80).x + (Bunker.init 80 80 1 0 80).size / 2 + 20 ∧
      newUnit.y = (Bunker.init 80 80 1 0 80).y ∧
      newUnit.playerId = (Bunker.init 80 80 1 0 80).playerId ∧
      newUnit.commandState = .attackMoving ∧ newUnit.targetUnit = none ∧
      newUnit.aMoveTargetX = (Bunker.init 80 80 1 0 80).rallyPoint.1 ∧
      newUnit.aMoveTargetY = (Bunker.init 80 80 1 0 80).rallyPoint.2 ∧
      newUnit.targetX = (Bunker.init 80 80 1 0 80).rallyPoint.1 ∧
      newUnit.targetY = (Bunker.init 80 80 1 0 80).rallyPoint.2 ∧
      newUnit.supplyCost = 1 ∧
      (Bunker.update hypotQ 1500 0 scenarioB).players (Bunker.init 80 80 1 0 80).playerId =
        some { ({ supplyCap := 5, currentSupply := 0 } : PlayerState) with
          currentSupply := ({ supplyCap := 5, currentSupply := 0 } : PlayerState).currentSupply + 1 } ∧
      (∀ id, id ≠ (Bunker.init 80 80 1 0 80).playerId →
        (Bunker.update hypotQ 1500 0 scenarioB).players id = scenarioB.players id) ∧
      (Bunker.update hypotQ 1500 0 scenarioB).gameObjects[0]? =
        some { Bunker.init 80 80 1 0 80 with lastSpawnTime := 1500 } := by
  have hfree : ∀ obj ∈ scenarioB.gameObjects, 0 < obj.health →
      ¬ hypotQ (obj.x - ((Bunker.init 80 80 1 0 80).x + (Bunker.init 80 80 1 0 80).size / 2 + 20))
          (obj.y - (Bunker.init 80 80 1 0 80).y) < obj.size / 2 + 15 := by
    intro obj hobj _
    simp only [scenarioB, List.mem_singleton] at hobj
    subst hobj
    have h60 : hypotQ (80 - (80 + 80 / 2 + 20)) (80 - 80) = 60 :=
      hypotQ_of_sq (by norm_num) (by norm_num)
    show ¬ hypotQ (80 - (80 + 80 / 2 + 20)) (80 - 80) < 80 / 2 + 15
    rw [h60]
    norm_num
  have hps : scenarioB.players (Bunker.init 80 80 1 0 80).playerId =
      some { supplyCap := 5, currentSupply := 0 } := rfl
  exact ⟨⟨rfl, by norm_num [Bunker.init], hps, by norm_num,
      by norm_num [Bunker.init, BUNKER_SPAWN_COOLDOWN], hfree⟩,
    C10_bunker_spawns_one_unit hypotQ 1500 0 scenarioB (Bunker.init 80 80 1 0 80)
      { supplyCap := 5, currentSupply := 0 } rfl (by norm_num [Bunker.init]) hps
      (by norm_num) (by norm_num [Bunker.init, BUNKER_SPAWN_COOLDOWN]) hfree⟩

theorem spawnBlocked_eq_true (hypot : ℚ → ℚ → ℚ) (self : Entity) (objs : List Entity)
    (h : ∃ obj ∈ objs, 0 < obj.health ∧
      hypot (obj.x - (self.x + self.size / 2 + 20)) (obj.y - self.y) < obj.size / 2 + 15) :
    spawnBlocked hypot self objs = true := by
  obtain ⟨obj, hobj, hh, hd⟩ := h
  unfold spawnBlocked
  rw [List.any_eq_true]
  refine ⟨obj, hobj, ?_⟩
  rw [add_assoc] at hd
  simp only [decide_eq_true_eq]
  exact ⟨hh, hd⟩

/-- Claim C11: for a live bunker at index `i` with a valid owner, whenever
`now - lastSpawnTime >= spawnCooldown` the bunker's `lastSpawnTime` is `now` after
`Bunker.update`, whether or not a unit was spawned; when moreover the owner's supply is at cap
or a live object obstructs the spawn point, the only change is that field (players and all other
objects are unchanged, the population keeps its length); and when
`now - lastSpawnTime < spawnCooldown` nothing changes. -/
theorem C11_spawn_cooldown_restarts (hypot : ℚ → ℚ → ℚ) (now : ℚ) (i : Nat) (g : Game)
    (self : Entity) (ps : PlayerState) (hself : g.gameObjects[i]? = some self)
    (halive : 0 < self.health) (hps : g.players self.playerId = some ps) :
    (now - self.lastSpawnTime ≥ self.spawnCooldown →
      (Bunker.update hypot now i g).gameObjects[i]? = some { self with lastSpawnTime := now } ∧
      ((¬ ps.currentSupply < ps.supplyCap ∨
        (∃ obj ∈ g.gameObjects, 0 < obj.health ∧
          hypot (obj.x - (self.x + self.size / 2 + 20)) (obj.y - self.y) < obj.size / 2 + 15)) →
        Bunker.update hypot now i g = g.modifyObj i (fun b => { b with lastSpawnTime := now }) ∧
        (Bunker.update hypot now i g).players = g.players ∧
        (Bunker.update hypot now i g).gameObjects.length = g.gameObjects.length ∧
        ∀ k, k ≠ i → (Bunker.update hypot now i g).gameObjects[k]? = g.gameObjects[k]?)) ∧
    (now - self.lastSpawnTime < self.spawnCooldown → Bunker.update hypot now i g = g) := by
  have hlt : i < g.gameObjects.length := by
    by_contra hcon
    rw [List.getElem?_eq_none (not_lt.1 hcon)] at hself
    cases hself
  have hrestart : ∀ hno : ¬ ps.currentSupply < ps.supplyCap ∨
      spawnBlocked hypot self g.gameObjects = true,
      Bunker.update hypot now i g = g.modifyObj i (fun b => { b with lastSpawnTime := now }) →
      (Bunker.update hypot now i g).gameObjects[i]? = some { self with lastSpawnTime := now } := by
    intro _ h
    rw [h, getElem?_modifyObj_self, hself]
    rfl
  refine ⟨fun hcool => ⟨?_, fun hno => ?_⟩, fun hwait => ?_⟩
  · by_cases hsup : ps.currentSupply < ps.supplyCap
    · by_cases hb : spawnBlocked hypot self g.gameObjects = true
      · exact hrestart (Or.inr hb)
          (bunker_update_restart hypot now i g self ps hself halive hps hcool (Or.inr hb))
      · rw [bunker_update_spawn hypot now i g self ps hself halive hps hcool hsup
          (by simpa using hb)]
        show (List.modify _ i g.gameObjects ++ _)[i]? = _
        rw [List.getElem?_append_left (by simpa using hlt)]
        simp [List.getElem?_modify, hself]
    · exact hrestart (Or.inl hsup)
        (bunker_update_restart hypot now i g self ps hself halive hps hcool (Or.inl hsup))
  · have hno' : ¬ ps.currentSupply < ps.supplyCap ∨
        spawnBlocked hypot self g.gameObjects = true := by
      rcases hno with h | h
      · exact Or.inl h
      · exact Or.inr (spawnBlocked_eq_true hypot self _ h)
    have heq := bunker_update_restart hypot now i g self ps hself halive hps hcool hno'
    refine ⟨heq, ?_, ?_, fun k hk => ?_⟩
    · rw [heq]
      rfl
    · rw [heq]
      simp [Game.modifyObj]
    · rw [heq]
      exact getElem?_modifyObj_ne g _ (Ne.symm hk)
  · exact bunker_update_wait hypot now i g self hself (not_le.2 hwait)

/-- Witness of claim C11: scenario B at time 1500. -/
theorem C11_spawn_cooldown_restarts_witness :
    (scenarioB.gameObjects[0]? = some (Bunker.init 80 80 1 0 80) ∧
      0 < (Bunker.init 80 80 1 0 80).health ∧
      scenarioB.players (Bunker.init 80 80 1 0 80).playerId =
        some { supplyCap := 5, currentSupply := 0 }) ∧
    ((1500 - (Bunker.init 80 80 1 0 80).lastSpawnTime ≥ (Bunker.init 80 80 1 0 80).spawnCooldown →
      (Bunker.update hypotQ 1500 0 scenarioB).gameObjects[0]? =
        some { Bunker.init 80 80 1 0 80 with lastSpawnTime := 1500 } ∧
      ((¬ ({ supplyCap := 5, currentSupply := 0 } : PlayerState).currentSupply <
            ({ supplyCap := 5, currentSupply := 0 } : PlayerState).supplyCap ∨
        (∃ obj ∈ scenarioB.gameObjects, 0 < obj.health ∧
          hypotQ (obj.x - ((Bunker.init 80 80 1 0 80).x + (Bunker.init 80 80 1 0 80).size / 2 + 20))
            (obj.y - (Bunker.init 80 80 1 0 80).y) < obj.size / 2 + 15)) →
        Bunker.update hypotQ 1500 0 scenarioB =
          scenarioB.modifyObj 0 (fun b => { b with lastSpawnTime := 1500 }) ∧
        (Bunker.update hypotQ 1500 0 scenarioB).players = scenarioB.players ∧
        (Bunker.update hypotQ 1500 0 scenarioB).gameObjects.length =
          scenarioB.gameObjects.length ∧
        ∀ k, k ≠ 0 →
          (Bunker.update hypotQ 1500 0 scenarioB).gameObjects[k]? = scenarioB.gameObjects[k]?)) ∧
    (1500 - (Bunker.init 80 80 1 0 80).lastSpawnTime < (Bunker.init 80 80 1 0 80).spawnCooldown →
      Bunker.update hypotQ 1500 0 scenarioB = scenarioB)) :=
  ⟨⟨rfl, by norm_num [Bunker.init], rfl⟩,
   C11_spawn_cooldown_restarts hypotQ 1500 0 scenarioB (Bunker.init 80 80 1 0 80)
    { supplyCap := 5, currentSupply := 0 } rfl (by norm_num [Bunker.init]) rfl⟩

/-! ## `Unit.handleCombat` in range -/

theorem getElem?_modifyObj (g : Game) (i k : Nat) (f : Entity → Entity) :
    (g.modifyObj i f).gameObjects[k]? =
      if i = k then (g.gameObjects[k]?).map f else g.gameObjects[k]? := by
  by_cases h : i = k
  · subst h
    rw [if_pos rfl, getElem?_modifyObj_self]
  · rw [if_neg h, getElem?_modifyObj_ne g f h]

theorem handleCombat_ready (hypot : ℚ → ℚ → ℚ) (now : ℚ) (i target : Nat) (g : Game)
    (self tgt : Entity) (hself : g.gameObjects[i]? = some self)
    (htgt : g.gameObjects[indexOfId g.gameObjects target]? = some tgt)
    (hin : hypot (tgt.x - self.x) (tgt.y - self.y) ≤
      self.attackRange + (self.size / 2 + tgt.size / 2))
    (hready : now - self.lastAttackTime ≥ self.attackCooldown) :
    Unit.handleCombat hypot now i target g =
      { (((g.modifyObj i (fun u => { u with targetX := u.x, targetY := u.y })).modifyObj
            (indexOfId g.gameObjects target) (fun e => e.takeDamage self.attackDamage)).modifyObj
            i (fun u => { u with lastAttackTime := now })) with
        attackEffects := g.attackEffects ++
          [AttackEffect.laser self.x self.y tgt.x tgt.y now,
           AttackEffect.burst tgt.x tgt.y now] } := by
  unfold Unit.handleCombat
  simp only [hself, htgt, hin, if_true, hready]
  rfl

theorem handleCombat_wait (hypot : ℚ → ℚ → ℚ) (now : ℚ) (i target : Nat) (g : Game)
    (self tgt : Entity) (hself : g.gameObjects[i]? = some self)
    (htgt : g.gameObjects[indexOfId g.gameObjects target]? = some tgt)
    (hin : hypot (tgt.x - self.x) (tgt.y - self.y) ≤
      self.attackRange + (self.size / 2 + tgt.size / 2))
    (hwait : ¬ now - self.lastAttackTime ≥ self.attackCooldown) :
    Unit.handleCombat hypot now i target g =
      g.modifyObj i (fun u => { u with targetX := u.x, targetY := u.y }) := by
  unfold Unit.handleCombat
  simp only [hself, htgt, hin, if_true, hwait, if_false]

theorem handleCombat_chase (hypot : ℚ → ℚ → ℚ) (now : ℚ) (i target : Nat) (g : Game)
    (self tgt : Entity) (hself : g.gameObjects[i]? = some self)
    (htgt : g.gameObjects[indexOfId g.gameObjects target]? = some tgt)
    (hout : ¬ hypot (tgt.x - self.x) (tgt.y - self.y) ≤
      self.attackRange + (self.size / 2 + tgt.size / 2)) :
    Unit.handleCombat hypot now i target g =
      (g.modifyObj i (fun u => { u with targetX := tgt.x, targetY := tgt.y })).modifyObj i
        (Unit.performMovement hypot) := by
  unfold Unit.handleCombat
  simp only [hself, htgt, hout, if_false]

theorem damageHealth_of_le {h d : ℚ} (hd : d ≤ h) : damageHealth h d = h - d := by
  unfold damageHealth
  rw [if_neg]
  linarith

/-! ## Invariants of the single objects through a frame -/

theorem entityInv_evolved {P : ℚ → Prop} {Q : Entity → Prop} (hQ : EntityInvariant P Q)
    {objs objs' : List Entity} (h : ∀ e ∈ objs, Q e)
    (hr : ObjRel (fun _ => Evolve P) objs objs') : ∀ e ∈ objs', Q e := by
  intro e' he'
  obtain ⟨k, e, hk, r⟩ := hr.forall_mem he'
  exact hQ.evolve e e' r (h e (List.getElem?_mem hk))

theorem entityInv_bunker_update {P : ℚ → Prop} {Q : Entity → Prop} (hQ : EntityInvariant P Q)
    (hypot : ℚ → ℚ → ℚ) (now : ℚ) (i : Nat) (g : Game) (h : ∀ e ∈ g.gameObjects, Q e) :
    ∀ e ∈ (Bunker.update hypot now i g).gameObjects, Q e := by
  have hmod : ∀ e ∈ g.gameObjects.modify (fun b => { b with lastSpawnTime := now }) i, Q e :=
    entityInv_evolved hQ h (evolved_modify_benign P (benign_setLastSpawnTime now) i _)
  rcases Bunker.update_cases hypot now i g with hc | ⟨_, _, _, _, _, _, _, hc⟩ |
    ⟨self, ps, _, _, _, _, _, _, hc⟩
  · rw [hc]
    exact h
  · rw [hc]
    exact hmod
  · rw [hc]
    intro e he
    rcases List.mem_append.1 he with he | he
    · exact hmod e he
    · rw [List.mem_singleton.1 he]
      exact hQ.spawn self g.nextId

theorem entityInv_updateObj {P : ℚ → Prop} {Q : Entity → Prop} (hQ : EntityInvariant P Q)
    (hypot : ℚ → ℚ → ℚ) (now : ℚ) (g : Game) (i : Nat) (h : ∀ e ∈ g.gameObjects, Q e) :
    ∀ e ∈ (updateObj hypot now g i).gameObjects, Q e := by
  unfold updateObj
  split
  · exact h
  · rename_i obj hobj
    split
    · exact entityInv_bunker_update hQ hypot now i g h
    · rename_i htype
      refine entityInv_evolved hQ h
        (Unit.update_step P hypot now i g (fun e he => ?_)).unitStep_evolved
      rw [hobj] at he
      cases he
      exact hQ.attack obj (h obj (List.getElem?_mem hobj)) htype

theorem entityInv_updatePrefix {P : ℚ → Prop} {Q : Entity → Prop} (hQ : EntityInvariant P Q)
    (hypot : ℚ → ℚ → ℚ) (now : ℚ) (k : Nat) (g : Game) (h : ∀ e ∈ g.gameObjects, Q e) :
    ∀ e ∈ (updatePrefix hypot now k g).gameObjects, Q e := by
  induction k with
  | zero => exact h
  | succ k ih =>
    rw [updatePrefix_succ]
    exact entityInv_updateObj hQ hypot now _ k ih

theorem entityInv_deathSweep {P : ℚ → Prop} {Q : Entity → Prop} (hQ : EntityInvariant P Q)
    (g : Game) (h : ∀ e ∈ g.gameObjects, Q e) : ∀ e ∈ (deathSweep g).gameObjects, Q e := by
  obtain ⟨f, hf, hobjs⟩ := deathPrefix_objs g.gameObjects.length g
  have h1 : ∀ e ∈ (deathPrefix g.gameObjects.length g).gameObjects, Q e := by
    rw [hobjs]
    exact entityInv_evolved hQ h (ObjRel.objRel_map f (fun _ e => hf.evolve P e) _)
  intro e he
  rw [deathSweep_objs] at he
  obtain ⟨e0, he0, rfl⟩ := List.mem_map.1 he
  exact hQ.evolve _ _ ((benign_cleanTarget _).evolve P e0) (h1 e0 (List.mem_filter.1 he0).1)

theorem entityInv_gameLoop {P : ℚ → Prop} {Q : Entity → Prop} (hQ : EntityInvariant P Q)
    (hypot : ℚ → ℚ → ℚ) (random : Nat → ℚ) (now : ℚ) (g : Game)
    (h : ∀ e ∈ g.gameObjects, Q e) : ∀ e ∈ (gameLoop hypot random now g).gameObjects, Q e := by
  unfold gameLoop
  have h1 := entityInv_updatePrefix hQ hypot now g.gameObjects.length g h
  rw [← updatePass_eq_updatePrefix] at h1
  have h2 := entityInv_evolved hQ h1 (resolveUnitCollisions_frame P hypot random _).objs
  have h3 := entityInv_evolved hQ h2 (safetyClamp_frame P _).objs
  exact entityInv_deathSweep hQ _ h3

theorem entityInv_reachable {P : ℚ → Prop} {Q : Entity → Prop} (hQ : EntityInvariant P Q)
    (h0 : ∀ e ∈ setupState.gameObjects, Q e) {g : Game} (h : Reachable g) :
    ∀ e ∈ g.gameObjects, Q e := by
  induction h with
  | setup => exact h0
  | tick hypot random now _ ih => exact entityInv_gameLoop hQ hypot random now _ ih
  | command c _ ih => exact entityInv_evolved hQ ih (Command.apply_frame P c _).objs

theorem tenFold_invariant : EntityInvariant (fun d => d = 10) TenFold := by
  refine ⟨fun e e' hev hq => ?_, fun e hq ht => hq.2 ht, fun self id => ?_⟩
  · refine ⟨?_, fun ht => hev.1.attackDamage ▸ hq.2 (hev.1.type ▸ ht)⟩
    obtain ⟨ds, hds, hfold⟩ := hev.2
    rw [hfold]
    have key : ∀ (l : List ℚ) (h : ℚ), (∀ d ∈ l, d = 10) → (∃ n : ℕ, h = n * 10) →
        ∃ n : ℕ, l.foldl damageHealth h = n * 10 := by
      intro l
      induction l with
      | nil => exact fun h _ hh => hh
      | cons d l ih =>
        intro h hl hh
        rw [List.foldl_cons]
        apply ih _ (fun x hx => hl x (List.mem_cons_of_mem _ hx))
        obtain ⟨n, hn⟩ := hh
        rw [hl d (List.mem_cons_self _ _), hn]
        rcases Nat.eq_zero_or_pos n with h0 | hpos
        · refine ⟨0, ?_⟩
          rw [h0]
          norm_num [damageHealth]
        · refine ⟨n - 1, ?_⟩
          have hn1 : (1 : ℚ) ≤ n := by exact_mod_cast hpos
          rw [damageHealth_of_le (by linarith), Nat.cast_sub hpos]
          push_cast
          ring
    exact key ds e.health hds hq.1
  · exact ⟨⟨10, by norm_num [spawnedUnit, Unit.attackMoveTo, Unit.init]⟩, fun _ => rfl⟩

theorem tenFold_reachable {g : Game} (h : Reachable g) (hypot : ℚ → ℚ → ℚ) (now : ℚ) (k : Nat) :
    ∀ e ∈ (updatePrefix hypot now k g).gameObjects, TenFold e := by
  apply entityInv_updatePrefix tenFold_invariant
  apply entityInv_reachable tenFold_invariant _ h
  intro e he
  simp only [setupState, List.mem_cons, List.mem_singleton, List.not_mem_nil, or_false] at he
  rcases he with rfl | rfl | rfl | rfl <;>
    exact ⟨⟨50, by norm_num [Bunker.init]⟩, fun ht => by simp [Bunker.init] at ht⟩

/-! ## The attack timer -/

theorem keepsAttacker_refl (i : Nat) (g : Game) : KeepsAttacker i g g :=
  fun e he => ⟨e, he, rfl, rfl⟩

theorem keepsAttacker_trans {i : Nat} {g1 g2 g3 : Game} (h1 : KeepsAttacker i g1 g2)
    (h2 : KeepsAttacker i g2 g3) : KeepsAttacker i g1 g3 := by
  intro e he
  obtain ⟨e2, he2, a, b⟩ := h1 e he
  obtain ⟨e3, he3, c, d⟩ := h2 e2 he2
  exact ⟨e3, he3, c.trans a, d.trans b⟩

theorem keepsAttacker_modifyObj (i k : Nat) (g : Game) {f : Entity → Entity}
    (hf : KeepsTimer f) : KeepsAttacker i g (g.modifyObj k f) := by
  intro e he
  rw [getElem?_modifyObj, he]
  split_ifs
  · exact ⟨f e, rfl, (hf e).1, (hf e).2⟩
  · exact ⟨e, rfl, rfl, rfl⟩

theorem quiet_refl (i : Nat) (g : Game) : Quiet i g g := ⟨rfl, keepsAttacker_refl i g⟩

theorem quiet_trans {i : Nat} {g1 g2 g3 : Game} (h1 : Quiet i g1 g2) (h2 : Quiet i g2 g3) :
    Quiet i g1 g3 :=
  ⟨h2.1.trans h1.1, keepsAttacker_trans h1.2 h2.2⟩

theorem quiet_modifyObj (i k : Nat) (g : Game) {f : Entity → Entity} (hf : KeepsTimer f) :
    Quiet i g (g.modifyObj k f) :=
  ⟨rfl, keepsAttacker_modifyObj i k g hf⟩

theorem quiet_then {now : ℚ} {i : Nat} {g1 g2 g3 : Game} (h1 : Quiet i g1 g2)
    (h2 : Quiet i g2 g3 ∨ Fired now i g2 g3) : Quiet i g1 g3 ∨ Fired now i g1 g3 := by
  rcases h2 with h2 | h2
  · exact Or.inl (quiet_trans h1 h2)
  · refine Or.inr ⟨by rw [← h1.1]; exact h2.1, fun e he => ?_⟩
    obtain ⟨e2, he2, a, b⟩ := h1.2 e he
    obtain ⟨hready, e3, he3, c, d⟩ := h2.2 e2 he2
    rw [a, b] at hready
    exact ⟨hready, e3, he3, c, d.trans b⟩

theorem keepsTimer_takeDamage (d : ℚ) : KeepsTimer (fun e => e.takeDamage d) := by
  intro e
  show (e.takeDamage d).lastAttackTime = _ ∧ (e.takeDamage d).attackCooldown = _
  rw [Entity.entity_takeDamage_eq]
  exact ⟨rfl, rfl⟩

theorem keepsTimer_performMovement (hypot : ℚ → ℚ → ℚ) :
    KeepsTimer (Unit.performMovement hypot) := fun e =>
  ⟨(performMovement_keeps hypot e).2.2.2.2.2.2, (benign_performMovement hypot e).1.attackCooldown⟩

theorem keepsTimer_clearTarget : KeepsTimer clearTarget := fun _ => ⟨rfl, rfl⟩

theorem keepsTimer_arriveAt (tx ty : ℚ) : KeepsTimer (arriveAt tx ty) := by
  intro e
  unfold arriveAt
  split_ifs <;> exact ⟨rfl, rfl⟩

theorem keepsTimer_moveStep (hypot : ℚ → ℚ → ℚ) : KeepsTimer (fun u =>
    let u1 := Unit.performMovement hypot { u with targetUnit := none }
    arriveAt u1.targetX u1.targetY u1) := by
  intro e
  have h2 := keepsTimer_performMovement hypot { e with targetUnit := none }
  have h3 := keepsTimer_arriveAt
    (Unit.performMovement hypot { e with targetUnit := none }).targetX
    (Unit.performMovement hypot { e with targetUnit := none }).targetY
    (Unit.performMovement hypot { e with targetUnit := none })
  exact ⟨h3.1.trans h2.1, h3.2.trans h2.2⟩

theorem keepsTimer_attackMoveStep (hypot : ℚ → ℚ → ℚ) : KeepsTimer (fun u =>
    let u1 := Unit.performMovement hypot
      { u with targetX := u.aMoveTargetX, targetY := u.aMoveTargetY }
    arriveAt u1.aMoveTargetX u1.aMoveTargetY u1) := by
  intro e
  have h2 := keepsTimer_performMovement hypot
    { e with targetX := e.aMoveTargetX, targetY := e.aMoveTargetY }
  have h3 := keepsTimer_arriveAt
    (Unit.performMovement hypot
      { e with targetX := e.aMoveTargetX, targetY := e.aMoveTargetY }).aMoveTargetX
    (Unit.performMovement hypot
      { e with targetX := e.aMoveTargetX, targetY := e.aMoveTargetY }).aMoveTargetY
    (Unit.performMovement hypot
      { e with targetX := e.aMoveTargetX, targetY := e.aMoveTargetY })
  exact ⟨h3.1.trans h2.1, h3.2.trans h2.2⟩

theorem handleCombat_attackStep (hypot : ℚ → ℚ → ℚ) (now : ℚ) (i target : Nat) (g : Game) :
    Quiet i g (Unit.handleCombat hypot now i target g) ∨
      Fired now i g (Unit.handleCombat hypot now i target g) := by
  unfold Unit.handleCombat
  simp only
  split
  · rename_i self tgt hself htgt
    have hset1 : KeepsTimer (fun u : Entity => { u with targetX := u.x, targetY := u.y }) :=
      fun _ => ⟨rfl, rfl⟩
    have hset3 : KeepsTimer (fun u : Entity => { u with targetX := tgt.x, targetY := tgt.y }) :=
      fun _ => ⟨rfl, rfl⟩
    split_ifs with hin hready
    · refine Or.inr ⟨?_, fun e he => ?_⟩
      · show g.attackEffects.length < (g.attackEffects ++ _).length
        simp
      · rw [hself] at he
        cases he
        refine ⟨hready, ?_⟩
        obtain ⟨e1, he1, _, b1⟩ := keepsAttacker_trans
          (keepsAttacker_modifyObj i i g hset1)
          (keepsAttacker_modifyObj i (indexOfId g.gameObjects target) _
            (keepsTimer_takeDamage self.attackDamage)) self hself
        refine ⟨{ e1 with lastAttackTime := now }, ?_, rfl, b1⟩
        show ((_ : Game).modifyObj i _).gameObjects[i]? = _
        rw [getElem?_modifyObj_self, he1]
        rfl
    · exact Or.inl (quiet_modifyObj i i g hset1)
    · exact Or.inl (quiet_trans (quiet_modifyObj i i g hset3)
        (quiet_modifyObj i i _ (keepsTimer_performMovement hypot)))
  · exact Or.inl (quiet_refl i g)

theorem update_attackStep (hypot : ℚ → ℚ → ℚ) (now : ℚ) (i : Nat) (g : Game) :
    Quiet i g (Unit.update hypot now i g) ∨ Fired now i g (Unit.update hypot now i g) := by
  unfold Unit.update
  split
  · exact Or.inl (quiet_refl i g)
  · rename_i self0 hself0
    have hidle : KeepsTimer (fun u : Entity => { u with commandState := CommandState.idle }) :=
      fun _ => ⟨rfl, rfl⟩
    split_ifs with hdead
    · exact Or.inl (quiet_modifyObj i i g hidle)
    · simp only
      generalize hst : (match self0.targetUnit with
        | some tid => refDead g.gameObjects tid
        | none => false) = stale
      have hg1 : Quiet i g (if stale = true then g.modifyObj i clearTarget else g) := by
        split_ifs
        · exact quiet_modifyObj i i g keepsTimer_clearTarget
        · exact quiet_refl i g
      generalize (if stale = true then g.modifyObj i clearTarget else g) = g1 at hg1 ⊢
      generalize (if stale = true then clearTarget self0 else self0) = self
      split
      · exact Or.inl hg1
      · exact Or.inl (quiet_trans hg1 (quiet_modifyObj i i g1 (keepsTimer_moveStep hypot)))
      · split
        · exact Or.inl (quiet_trans hg1 (quiet_modifyObj i i g1 hidle))
        · exact quiet_then hg1 (handleCombat_attackStep hypot now i _ g1)
      · split
        · exact quiet_then hg1 (handleCombat_attackStep hypot now i _ g1)
        · split
          · rename_i enemy _
            have hset : KeepsTimer (fun u : Entity => { u with targetUnit := some enemy.id }) :=
              fun _ => ⟨rfl, rfl⟩
            exact quiet_then (quiet_trans hg1 (quiet_modifyObj i i g1 hset))
              (handleCombat_attackStep hypot now i _ _)
          · exact Or.inl (quiet_trans hg1
              (quiet_modifyObj i i g1 (keepsTimer_attackMoveStep hypot)))

theorem update_other_keepsAttacker (hypot : ℚ → ℚ → ℚ) (now : ℚ) (i j : Nat) (g : Game)
    (hij : i ≠ j) : KeepsAttacker i g (Unit.update hypot now j g) := by
  intro e he
  obtain ⟨e', he', r⟩ := (Unit.update_step (fun _ => True) hypot now j g
    (fun _ _ => trivial)).objs.2 i e he
  have ho := r.2 hij
  refine ⟨e', he', ?_, ?_⟩
  · rw [ho]
  · rw [ho]

/-! ## The `attackMoving` case of `Unit.update` -/

theorem update_attackMoving_acquire (hypot : ℚ → ℚ → ℚ) (now : ℚ) (i : Nat) (g : Game)
    (u enemy : Entity) (h : g.gameObjects[i]? = some u) (halive : 0 < u.health)
    (htu : u.targetUnit = none) (hcs : u.commandState = .attackMoving)
    (hfind : findNearestEnemyInRange u u.targetAcquisitionRange g.gameObjects = some enemy) :
    Unit.update hypot now i g =
      Unit.handleCombat hypot now i enemy.id
        (g.modifyObj i (fun v => { v with targetUnit := some enemy.id })) := by
  unfold Unit.update
  rw [h]
  simp only [not_le.2 halive, if_false, htu, hcs, Bool.false_eq_true, hfind]

theorem update_attackMoving_advance (hypot : ℚ → ℚ → ℚ) (now : ℚ) (i : Nat) (g : Game)
    (u : Entity) (h : g.gameObjects[i]? = some u) (halive : 0 < u.health)
    (htu : u.targetUnit = none) (hcs : u.commandState = .attackMoving)
    (hfind : findNearestEnemyInRange u u.targetAcquisitionRange g.gameObjects = none) :
    Unit.update hypot now i g = g.modifyObj i (attackMoveStep hypot) := by
  unfold Unit.update
  rw [h]
  simp only [not_le.2 halive, if_false, htu, hcs, Bool.false_eq_true, hfind]
  rfl

theorem keepsCommand_modifyObj (i k : Nat) (g : Game) {f : Entity → Entity}
    (hf : ∀ e, (f e).targetUnit = e.targetUnit ∧ (f e).commandState = e.commandState) :
    KeepsCommand i g (g.modifyObj k f) := by
  intro e he
  rw [getElem?_modifyObj, he]
  split_ifs
  · exact ⟨f e, rfl, (hf e).1, (hf e).2⟩
  · exact ⟨e, rfl, rfl, rfl⟩

theorem keepsCommand_trans {i : Nat} {g1 g2 g3 : Game} (h1 : KeepsCommand i g1 g2)
    (h2 : KeepsCommand i g2 g3) : KeepsCommand i g1 g3 := by
  intro e he
  obtain ⟨e2, he2, a, b⟩ := h1 e he
  obtain ⟨e3, he3, c, d⟩ := h2 e2 he2
  exact ⟨e3, he3, c.trans a, d.trans b⟩

theorem handleCombat_keepsCommand (hypot : ℚ → ℚ → ℚ) (now : ℚ) (i target : Nat) (g : Game) :
    KeepsCommand i g (Unit.handleCombat hypot now i target g) := by
  unfold Unit.handleCombat
  simp only
  split
  · rename_i self tgt hself htgt
    have hset1 : ∀ e : Entity,
        ({ e with targetX := e.x, targetY := e.y } : Entity).targetUnit = e.targetUnit ∧
        ({ e with targetX := e.x, targetY := e.y } : Entity).commandState = e.commandState :=
      fun _ => ⟨rfl, rfl⟩
    have hset2 : ∀ e : Entity,
        ({ e with lastAttackTime := now } : Entity).targetUnit = e.targetUnit ∧
        ({ e with lastAttackTime := now } : Entity).commandState = e.commandState :=
      fun _ => ⟨rfl, rfl⟩
    have hset3 : ∀ e : Entity,
        ({ e with targetX := tgt.x, targetY := tgt.y } : Entity).targetUnit = e.targetUnit ∧
        ({ e with targetX := tgt.x, targetY := tgt.y } : Entity).commandState =
          e.commandState :=
      fun _ => ⟨rfl, rfl⟩
    have hdmg : ∀ e : Entity,
        (e.takeDamage self.attackDamage).targetUnit = e.targetUnit ∧
        (e.takeDamage self.attackDamage).commandState = e.commandState := by
      intro e
      rw [Entity.entity_takeDamage_eq]
      exact ⟨rfl, rfl⟩
    have hmove : ∀ e : Entity,
        (Unit.performMovement hypot e).targetUnit = e.targetUnit ∧
        (Unit.performMovement hypot e).commandState = e.commandState :=
      fun e => ⟨(performMovement_keeps hypot e).2.2.1, (performMovement_keeps hypot e).2.2.2.1⟩
    split_ifs
    · exact keepsCommand_trans (keepsCommand_trans (keepsCommand_modifyObj i i g hset1)
        (keepsCommand_modifyObj i _ _ hdmg)) (keepsCommand_modifyObj i i _ hset2)
    · exact keepsCommand_modifyObj i i g hset1
    · exact keepsCommand_trans (keepsCommand_modifyObj i i g hset3)
        (keepsCommand_modifyObj i i _ hmove)
  · exact fun e he => ⟨e, he, rfl, rfl⟩

theorem attackMoveStep_fields (hypot : ℚ → ℚ → ℚ) (u : Entity) :
    (attackMoveStep hypot u).targetX = u.aMoveTargetX ∧
    (attackMoveStep hypot u).targetY = u.aMoveTargetY ∧
    (attackMoveStep hypot u).x = (Unit.performMovement hypot
      { u with targetX := u.aMoveTargetX, targetY := u.aMoveTargetY }).x ∧
    (attackMoveStep hypot u).y = (Unit.performMovement hypot
      { u with targetX := u.aMoveTargetX, targetY := u.aMoveTargetY }).y ∧
    (attackMoveStep hypot u).aMoveTargetX = u.aMoveTargetX ∧
    (attackMoveStep hypot u).aMoveTargetY = u.aMoveTargetY ∧
    (attackMoveStep hypot u).targetUnit = u.targetUnit ∧
    (attackMoveStep hypot u).commandState =
      (if (attackMoveStep hypot u).x = u.aMoveTargetX ∧
          (attackMoveStep hypot u).y = u.aMoveTargetY then .idle else u.commandState) := by
  obtain ⟨k1, k2, k3, k4, k5, k6, _⟩ := performMovement_keeps hypot
    { u with targetX := u.aMoveTargetX, targetY := u.aMoveTargetY }
  unfold attackMoveStep arriveAt
  generalize Unit.performMovement hypot
    { u with targetX := u.aMoveTargetX, targetY := u.aMoveTargetY } = v at *
  simp only at k1 k2 k3 k4 k5 k6
  simp only [k5, k6]
  split_ifs with h
  · exact ⟨k1, k2, rfl, rfl, rfl, rfl, k3, rfl⟩
  · exact ⟨k1, k2, rfl, rfl, k5, k6, k3, k4⟩

/-- Claim C19: for a live unit at index `i` in state `attackMoving` without `targetUnit`.  If
`findNearestEnemyInRange(unit, targetAcquisitionRange, population)` returns an enemy,
`Unit.update` is `handleCombat` against that enemy in the state where `targetUnit` is the
enemy, and afterwards `targetUnit` is still the enemy and `commandState` is still
`attackMoving`.  If it returns none, the movement target becomes the remembered attack-move
target (whatever it was before), the position is that of one `performMovement` step toward it,
and `commandState` is `idle` if and only if the position then equals the attack-move target,
and `attackMoving` otherwise. -/
theorem C19_attack_move_dispatch (hypot : ℚ → ℚ → ℚ) (now : ℚ) (i : Nat) (g : Game)
    (u : Entity) (h : g.gameObjects[i]? = some u) (halive : 0 < u.health)
    (htu : u.targetUnit = none) (hcs : u.commandState = .attackMoving) :
    (∀ enemy, findNearestEnemyInRange u u.targetAcquisitionRange g.gameObjects = some enemy →
      Unit.update hypot now i g =
        Unit.handleCombat hypot now i enemy.id
          (g.modifyObj i (fun v => { v with targetUnit := some enemy.id })) ∧
      ∃ u', (Unit.update hypot now i g).gameObjects[i]? = some u' ∧
        u'.targetUnit = some enemy.id ∧ u'.commandState = .attackMoving) ∧
    (findNearestEnemyInRange u u.targetAcquisitionRange g.gameObjects = none →
      ∃ u', (Unit.update hypot now i g).gameObjects[i]? = some u' ∧
        u'.targetX = u.aMoveTargetX ∧ u'.targetY = u.aMoveTargetY ∧
        u'.x = (Unit.performMovement hypot
          { u with targetX := u.aMoveTargetX, targetY := u.aMoveTargetY }).x ∧
        u'.y = (Unit.performMovement hypot
          { u with targetX := u.aMoveTargetX, targetY := u.aMoveTargetY }).y ∧
        (u'.commandState = .idle ↔ (u'.x = u.aMoveTargetX ∧ u'.y = u.aMoveTargetY)) ∧
        (¬ (u'.x = u.aMoveTargetX ∧ u'.y = u.aMoveTargetY) →
          u'.commandState = .attackMoving)) := by
  refine ⟨fun enemy hfind => ?_, fun hfind => ?_⟩
  · have heq := update_attackMoving_acquire hypot now i g u enemy h halive htu hcs hfind
    refine ⟨heq, ?_⟩
    rw [heq]
    have h1 : (g.modifyObj i (fun v => { v with targetUnit := some enemy.id })).gameObjects[i]? =
        some { u with targetUnit := some enemy.id } := by
      rw [getElem?_modifyObj_self, h]
      rfl
    obtain ⟨u', hu', a, b⟩ := handleCombat_keepsCommand hypot now i enemy.id _ _ h1
    exact ⟨u', hu', a, b.trans hcs⟩
  · rw [update_attackMoving_advance hypot now i g u h halive htu hcs hfind]
    obtain ⟨f1, f2, f3, f4, _, _, _, f8⟩ := attackMoveStep_fields hypot u
    refine ⟨attackMoveStep hypot u, ?_, f1, f2, f3, f4, ?_, ?_⟩
    · rw [getElem?_modifyObj_self, h]
      rfl
    · rw [f8, hcs]
      split_ifs with harr
      · exact ⟨fun _ => harr, fun _ => rfl⟩
      · exact ⟨fun hc => (by cases hc), fun hc => absurd hc harr⟩
    · intro hne
      rw [f8, if_neg hne, hcs]

/-- Witness of claim C19: a unit sent from (100, 100) to (200, 100) by `attackMoveTo`, alone
in the population. -/
theorem C19_attack_move_dispatch_witness :
    (scenarioAttackMove.gameObjects[0]? = some attackMover ∧ 0 < attackMover.health ∧
      attackMover.targetUnit = none ∧ attackMover.commandState = .attackMoving) ∧
    ((∀ enemy, findNearestEnemyInRange attackMover attackMover.targetAcquisitionRange
        scenarioAttackMove.gameObjects = some enemy →
      Unit.update hypotQ 0 0 scenarioAttackMove =
        Unit.handleCombat hypotQ 0 0 enemy.id
          (scenarioAttackMove.modifyObj 0 (fun v => { v with targetUnit := some enemy.id })) ∧
      ∃ u', (Unit.update hypotQ 0 0 scenarioAttackMove).gameObjects[0]? = some u' ∧
        u'.targetUnit = some enemy.id ∧ u'.commandState = .attackMoving) ∧
    (findNearestEnemyInRange attackMover attackMover.targetAcquisitionRange
        scenarioAttackMove.gameObjects = none →
      ∃ u', (Unit.update hypotQ 0 0 scenarioAttackMove).gameObjects[0]? = some u' ∧
        u'.targetX = attackMover.aMoveTargetX ∧ u'.targetY = attackMover.aMoveTargetY ∧
        u'.x = (Unit.performMovement hypotQ
          { attackMover with targetX := attackMover.aMoveTargetX,
                             targetY := attackMover.aMoveTargetY }).x ∧
        u'.y = (Unit.performMovement hypotQ
          { attackMover with targetX := attackMover.aMoveTargetX,
                             targetY := attackMover.aMoveTargetY }).y ∧
        (u'.commandState = .idle ↔
          (u'.x = attackMover.aMoveTargetX ∧ u'.y = attackMover.aMoveTargetY)) ∧
        (¬ (u'.x = attackMover.aMoveTargetX ∧ u'.y = attackMover.aMoveTargetY) →
          u'.commandState = .attackMoving))) :=
  ⟨⟨rfl, by norm_num [attackMover, Unit.attackMoveTo, Unit.init], rfl, rfl⟩,
   C19_attack_move_dispatch hypotQ 0 0 scenarioAttackMove attackMover rfl
    (by norm_num [attackMover, Unit.attackMoveTo, Unit.init]) rfl rfl⟩

/-! ## Claim C6: units spawned during the update pass -/

theorem updateObj_bunker (hypot : ℚ → ℚ → ℚ) (now : ℚ) (g : Game) (i : Nat) (obj : Entity)
    (h : g.gameObjects[i]? = some obj) (ht : obj.type = .bunker) :
    updateObj hypot now g i = Bunker.update hypot now i g := by
  unfold updateObj
  rw [h]
  simp only [ht]

theorem updateObj_unit (hypot : ℚ → ℚ → ℚ) (now : ℚ) (g : Game) (i : Nat) (obj : Entity)
    (h : g.gameObjects[i]? = some obj) (ht : obj.type = .unit) :
    updateObj hypot now g i = Unit.update hypot now i g := by
  unfold updateObj
  rw [h]
  simp only [ht]

theorem scenarioB_spawn :
    Bunker.update hypotQ 1500 0 scenarioB =
      spawnResult 1500 0 (Bunker.init 80 80 1 0 80) { supplyCap := 5, currentSupply := 0 }
        scenarioB := by
  apply bunker_update_spawn hypotQ 1500 0 scenarioB (Bunker.init 80 80 1 0 80)
    { supplyCap := 5, currentSupply := 0 } rfl (by norm_num [Bunker.init]) rfl
    (by norm_num [Bunker.init, BUNKER_SPAWN_COOLDOWN]) (by norm_num)
  apply spawnBlocked_eq_false
  intro obj hobj _
  simp only [scenarioB, List.mem_singleton] at hobj
  subst hobj
  have h60 : hypotQ (80 - (80 + 80 / 2 + 20)) (80 - 80) = 60 :=
    hypotQ_of_sq (by norm_num) (by norm_num)
  show ¬ hypotQ (80 - (80 + 80 / 2 + 20)) (80 - 80) < 80 / 2 + 15
  rw [h60]
  norm_num

theorem updatePrefix_zero (hypot : ℚ → ℚ → ℚ) (now : ℚ) (g : Game) :
    updatePrefix hypot now 0 g = g := rfl

theorem scenarioB_pass :
    (updatePass hypotQ 1500 scenarioB).gameObjects[1]? =
      some (spawnedUnit (Bunker.init 80 80 1 0 80) 1) := by
  have hlen : scenarioB.gameObjects.length = 1 := rfl
  have hobjs : (spawnResult 1500 0 (Bunker.init 80 80 1 0 80)
      { supplyCap := 5, currentSupply := 0 } scenarioB).gameObjects =
      [{ Bunker.init 80 80 1 0 80 with lastSpawnTime := 1500 },
       spawnedUnit (Bunker.init 80 80 1 0 80) 1] := rfl
  rw [updatePass_eq_updatePrefix, hlen, updatePrefix_succ, updatePrefix_zero,
    updateObj_bunker hypotQ 1500 scenarioB 0 (Bunker.init 80 80 1 0 80) rfl rfl,
    scenarioB_spawn, hobjs]
  rfl

theorem scenarioSpawnSeen_spawn :
    Bunker.update hypotQ 1500 0 scenarioSpawnSeen =
      spawnResult 1500 0 (Bunker.init 80 80 1 0 80) { supplyCap := 5, currentSupply := 0 }
        scenarioSpawnSeen := by
  apply bunker_update_spawn hypotQ 1500 0 scenarioSpawnSeen (Bunker.init 80 80 1 0 80)
    { supplyCap := 5, currentSupply := 0 } rfl (by norm_num [Bunker.init]) rfl
    (by norm_num [Bunker.init, BUNKER_SPAWN_COOLDOWN]) (by norm_num)
  apply spawnBlocked_eq_false
  intro obj hobj _
  simp only [scenarioSpawnSeen, List.mem_cons, List.mem_singleton, List.not_mem_nil,
    or_false] at hobj
  rcases hobj with rfl | rfl
  · have h60 : hypotQ (80 - (80 + 80 / 2 + 20)) (80 - 80) = 60 :=
      hypotQ_of_sq (by norm_num) (by norm_num)
    show ¬ hypotQ (80 - (80 + 80 / 2 + 20)) (80 - 80) < 80 / 2 + 15
    rw [h60]
    norm_num
  · have h100 : hypotQ (240 - (80 + 80 / 2 + 20)) (80 - 80) = 100 :=
      hypotQ_of_sq (by norm_num) (by norm_num)
    show ¬ hypotQ (240 - (80 + 80 / 2 + 20)) (80 - 80) < 30 / 2 + 15
    rw [h100]
    norm_num

theorem scenarioSpawnSeen_find :
    findNearestEnemyInRange (Unit.attackMoveTo (Unit.init 240 80 2 1 30 2) 500 350)
      (Unit.attackMoveTo (Unit.init 240 80 2 1 30 2) 500 350).targetAcquisitionRange
      [{ Bunker.init 80 80 1 0 80 with lastSpawnTime := 1500 },
       Unit.attackMoveTo (Unit.init 240 80 2 1 30 2) 500 350,
       spawnedUnit (Bunker.init 80 80 1 0 80) 2] =
      some (spawnedUnit (Bunker.init 80 80 1 0 80) 2) := by
  norm_num [findNearestEnemyInRange, Unit.attackMoveTo, Unit.init, Bunker.init, spawnedUnit,
    TARGET_ACQUISITION_RANGE_FACTOR]

/-- Claim C6, counterexample: in the pass at time 1500 the bunker (index 0) spawns a unit,
which gets index 2, and the enemy unit at index 1, updated after the bunker in the same pass,
acquires that new unit as its `targetUnit`. -/
theorem C6_counterexample :
    ∃ attacker spawned : Entity,
      scenarioSpawnSeen.gameObjects.length = 2 ∧
      (updatePass hypotQ 1500 scenarioSpawnSeen).gameObjects[1]? = some attacker ∧
      (updatePass hypotQ 1500 scenarioSpawnSeen).gameObjects[2]? = some spawned ∧
      spawned.type = .unit ∧ attacker.targetUnit = some spawned.id := by
  have hlen : scenarioSpawnSeen.gameObjects.length = 2 := rfl
  have hp : updatePass hypotQ 1500 scenarioSpawnSeen =
      updateObj hypotQ 1500 (updateObj hypotQ 1500 scenarioSpawnSeen 0) 1 := by
    rw [updatePass_eq_updatePrefix, hlen, updatePrefix_succ, updatePrefix_succ,
      updatePrefix_zero]
  have hobjs : (spawnResult 1500 0 (Bunker.init 80 80 1 0 80)
      { supplyCap := 5, currentSupply := 0 } scenarioSpawnSeen).gameObjects =
      [{ Bunker.init 80 80 1 0 80 with lastSpawnTime := 1500 },
       Unit.attackMoveTo (Unit.init 240 80 2 1 30 2) 500 350,
       spawnedUnit (Bunker.init 80 80 1 0 80) 2] := rfl
  rw [hp, updateObj_bunker hypotQ 1500 scenarioSpawnSeen 0 (Bunker.init 80 80 1 0 80) rfl rfl,
    scenarioSpawnSeen_spawn,
    updateObj_unit hypotQ 1500 _ 1 (Unit.attackMoveTo (Unit.init 240 80 2 1 30 2) 500 350)
      (by rw [hobjs]; rfl) rfl,
    update_attackMoving_acquire hypotQ 1500 1 _
      (Unit.attackMoveTo (Unit.init 240 80 2 1 30 2) 500 350)
      (spawnedUnit (Bunker.init 80 80 1 0 80) 2) (by rw [hobjs]; rfl)
      (by norm_num [Unit.attackMoveTo, Unit.init]) rfl rfl
      (by rw [hobjs]; exact scenarioSpawnSeen_find)]
  have h1 : ((spawnResult 1500 0 (Bunker.init 80 80 1 0 80)
      { supplyCap := 5, currentSupply := 0 } scenarioSpawnSeen).modifyObj 1
      (fun v => { v with targetUnit := some (spawnedUnit (Bunker.init 80 80 1 0 80) 2).id })
      ).gameObjects[1]? =
      some { Unit.attackMoveTo (Unit.init 240 80 2 1 30 2) 500 350 with
        targetUnit := some (spawnedUnit (Bunker.init 80 80 1 0 80) 2).id } := by
    rw [getElem?_modifyObj_self, hobjs]
    rfl
  have h2 : ((spawnResult 1500 0 (Bunker.init 80 80 1 0 80)
      { supplyCap := 5, currentSupply := 0 } scenarioSpawnSeen).modifyObj 1
      (fun v => { v with targetUnit := some (spawnedUnit (Bunker.init 80 80 1 0 80) 2).id })
      ).gameObjects[2]? = some (spawnedUnit (Bunker.init 80 80 1 0 80) 2) := by
    rw [getElem?_modifyObj_ne _ _ (by decide), hobjs]
    rfl
  obtain ⟨attacker, ha, ht, _⟩ := handleCombat_keepsCommand hypotQ 1500 1
    (spawnedUnit (Bunker.init 80 80 1 0 80) 2).id _ _ h1
  obtain ⟨spawned, hs, r⟩ := (Unit.handleCombat_step (fun _ => True) hypotQ 1500 1
    (spawnedUnit (Bunker.init 80 80 1 0 80) 2).id _ (fun _ _ => trivial)).objs.2 2 _ h2
  refine ⟨attacker, spawned, rfl, ha, hs, r.1.1.type, ?_⟩
  rw [ht, r.1.1.id]

/-! ## Claim C16: arrival is idempotent -/

theorem update_idle_rests (hypot : ℚ → ℚ → ℚ) (now : ℚ) (i : Nat) (g : Game) (x y : ℚ)
    (h : RestsAt x y i g) : RestsAt x y i (Unit.update hypot now i g) := by
  obtain ⟨u, hu, halive, hcs, hx, hy⟩ := h
  unfold Unit.update
  rw [hu]
  simp only [not_le.2 halive, if_false]
  generalize (match u.targetUnit with
    | some tid => refDead g.gameObjects tid
    | none => false) = stale
  cases stale
  · simp only [Bool.false_eq_true, if_false, hcs]
    exact ⟨u, hu, halive, hcs, hx, hy⟩
  · have hc : (clearTarget u).commandState = .idle := by
      simp [clearTarget, hcs]
    simp only [if_true, hc]
    refine ⟨clearTarget u, ?_, halive, hc, hx, hy⟩
    rw [getElem?_modifyObj_self, hu]
    rfl

theorem moveStep_at_target (hypot : ℚ → ℚ → ℚ) (u : Entity) (hx : u.x = u.targetX)
    (hy : u.y = u.targetY) :
    (moveStep hypot u).x = u.x ∧ (moveStep hypot u).y = u.y ∧
      (moveStep hypot u).commandState = .idle ∧ (moveStep hypot u).health = u.health := by
  obtain ⟨f1, f2, _, _, _, _, f7, _, f9⟩ := moveStep_fields hypot u
  have hpm : Unit.performMovement hypot { u with targetUnit := none } =
      { u with targetUnit := none } := by
    unfold Unit.performMovement
    rw [if_pos]
    exact ⟨hx, hy⟩
  rw [hpm] at f1 f2 f9
  refine ⟨f1, f2, ?_, f7⟩
  rw [f9, if_pos]
  exact ⟨hx, hy⟩

theorem update_moving_arrived (hypot : ℚ → ℚ → ℚ) (now : ℚ) (i : Nat) (g : Game) (u : Entity)
    (hu : g.gameObjects[i]? = some u) (halive : 0 < u.health) (hcs : u.commandState = .moving)
    (hx : u.x = u.targetX) (hy : u.y = u.targetY) :
    RestsAt u.x u.y i (Unit.update hypot now i g) := by
  unfold Unit.update
  rw [hu]
  simp only [not_le.2 halive, if_false]
  generalize (match u.targetUnit with
    | some tid => refDead g.gameObjects tid
    | none => false) = stale
  cases stale
  · simp only [Bool.false_eq_true, if_false, hcs]
    obtain ⟨a, b, c, d⟩ := moveStep_at_target hypot u hx hy
    refine ⟨moveStep hypot u, ?_, d ▸ halive, c, a, b⟩
    rw [getElem?_modifyObj_self, hu]
    rfl
  · have hc : (clearTarget u).commandState = .moving := by
      simp [clearTarget, hcs]
    simp only [if_true, hc]
    obtain ⟨a, b, c, d⟩ := moveStep_at_target hypot (clearTarget u) hx hy
    refine ⟨moveStep hypot (clearTarget u), ?_, d ▸ halive, c, a, b⟩
    rw [getElem?_modifyObj_self, getElem?_modifyObj_self, hu]
    rfl

theorem runUpdates_rests (hypot : ℚ → ℚ → ℚ) (i : Nat) (times : List ℚ) (x y : ℚ) :
    ∀ g, RestsAt x y i g → RestsAt x y i (runUpdates hypot i times g) := by
  induction times with
  | nil => exact fun _ h => h
  | cons now rest ih =>
    intro g h
    exact ih _ (update_idle_rests hypot now i g x y h)

/-- Claim C16: a live unit at index `i` in state `idle` or `moving` whose position equals its
movement target.  After one `Unit.update`, and after any further sequence of `Unit.update`
calls of that unit (at any times, no command in between), the unit is alive at the same
position in state `idle`. -/
theorem C16_arrival_idempotent (hypot : ℚ → ℚ → ℚ) (now : ℚ) (times : List ℚ) (i : Nat)
    (g : Game) (u : Entity) (hu : g.gameObjects[i]? = some u) (halive : 0 < u.health)
    (hcs : u.commandState = .idle ∨ u.commandState = .moving)
    (hx : u.x = u.targetX) (hy : u.y = u.targetY) :
    ∃ u', (runUpdates hypot i times (Unit.update hypot now i g)).gameObjects[i]? = some u' ∧
      u'.x = u.x ∧ u'.y = u.y ∧ u'.commandState = .idle ∧ 0 < u'.health := by
  have h1 : RestsAt u.x u.y i (Unit.update hypot now i g) := by
    rcases hcs with hcs | hcs
    · exact update_idle_rests hypot now i g u.x u.y ⟨u, hu, halive, hcs, rfl, rfl⟩
    · exact update_moving_arrived hypot now i g u hu halive hcs hx hy
  obtain ⟨u', hu', a, b, c, d⟩ := runUpdates_rests hypot i times u.x u.y _ h1
  exact ⟨u', hu', c, d, b, a⟩

/-- Witness of claim C16: a unit that arrived at (110, 100), still in state `moving`, updated
at time 0 and then at times 16, 33 and 50. -/
theorem C16_arrival_idempotent_witness :
    ((scenarioAAt 100 100).modifyObj 0 (fun u => { u with x := 110 })).gameObjects[0]? =
        some { Unit.moveTo (Unit.init 100 100 1 0 30 2) (100 + 10) 100 with x := 110 } ∧
    ∃ u', (runUpdates hypotQ 0 [16, 33, 50] (Unit.update hypotQ 0 0
        ((scenarioAAt 100 100).modifyObj 0 (fun u => { u with x := 110 })))).gameObjects[0]? =
          some u' ∧
      u'.x = ({ Unit.moveTo (Unit.init 100 100 1 0 30 2) (100 + 10) 100 with x := 110 } : Entity).x ∧
      u'.y = ({ Unit.moveTo (Unit.init 100 100 1 0 30 2) (100 + 10) 100 with x := 110 } : Entity).y ∧
      u'.commandState = .idle ∧ 0 < u'.health :=
  ⟨rfl, C16_arrival_idempotent hypotQ 0 [16, 33, 50] 0 _ _ rfl
    (by norm_num [Unit.moveTo, Unit.init]) (Or.inr rfl)
    (by norm_num [Unit.moveTo, Unit.init]) rfl⟩

/-! ## Claim C20: the movement step -/

theorem performMovement_preClamp (hypot : ℚ → ℚ → ℚ) (u : Entity)
    (hne : ¬ (u.x = u.targetX ∧ u.y = u.targetY)) :
    (Unit.performMovement hypot u).x =
        max (u.size / 2) (min (MAP_WIDTH - u.size / 2) (preClamp hypot u).1) ∧
      (Unit.performMovement hypot u).y =
        max (u.size / 2) (min (MAP_HEIGHT - u.size / 2) (preClamp hypot u).2) := by
  rw [performMovement_x hypot u hne, performMovement_y hypot u hne]
  unfold preClamp
  simp only
  split_ifs <;> exact ⟨rfl, rfl⟩

/-! ## The death sweep, object by object -/

theorem clearTarget_idem (e : Entity) : clearTarget (clearTarget e) = clearTarget e := by
  unfold clearTarget
  cases hcs : e.commandState <;> simp [hcs]

theorem deathStep_objs_shape (g : Game) (i : Nat) :
    ∃ f : Entity → Entity, (∀ e, f e = e ∨ f e = clearTarget e) ∧
      (deathStep g i).gameObjects = g.gameObjects.map f := by
  unfold deathStep
  split
  · exact ⟨fun e => e, fun e => Or.inl rfl, by simp⟩
  · rename_i obj _
    split_ifs
    · exact ⟨fun e => e, fun e => Or.inl rfl, by simp⟩
    all_goals
      refine ⟨fun attacker =>
        if attacker.targetUnit = some obj.id then clearTarget attacker else attacker, ?_, rfl⟩
      intro e
      show (if _ then _ else _ : Entity) = e ∨ (if _ then _ else _ : Entity) = clearTarget e
      split_ifs
      · exact Or.inr rfl
      · exact Or.inl rfl

theorem deathPrefix_objs_shape (k : Nat) (g : Game) :
    ∃ f : Entity → Entity, (∀ e, f e = e ∨ f e = clearTarget e) ∧
      (deathPrefix k g).gameObjects = g.gameObjects.map f := by
  induction k with
  | zero => exact ⟨fun e => e, fun e => Or.inl rfl, by simp [deathPrefix]⟩
  | succ k ih =>
    obtain ⟨f1, hf1, h1⟩ := ih
    obtain ⟨f2, hf2, h2⟩ := deathStep_objs_shape (deathPrefix k g) k
    refine ⟨fun e => f2 (f1 e), fun e => ?_, ?_⟩
    · rcases hf1 e with a | a <;> rcases hf2 (f1 e) with b | b
      · exact Or.inl (b.trans a)
      · exact Or.inr (b.trans (by rw [a]))
      · exact Or.inr (b.trans a)
      · exact Or.inr (b.trans (by rw [a, clearTarget_idem]))
    · rw [deathPrefix_succ, h2, h1, List.map_map]
      rfl

theorem cleanTarget_shape (l : List Entity) (e : Entity) :
    cleanTarget l e = e ∨ cleanTarget l e = clearTarget e := by
  unfold cleanTarget
  split
  · split_ifs
    · exact Or.inr rfl
    · exact Or.inl rfl
  · exact Or.inl rfl

theorem deathSweep_objs_shape (g : Game) :
    ∃ G : Entity → Entity, (∀ e, G e = e ∨ G e = clearTarget e) ∧
      (deathSweep g).gameObjects =
        (g.gameObjects.filter (fun obj => decide (obj.health > 0))).map G := by
  obtain ⟨f, hf, hobjs⟩ := deathPrefix_objs_shape g.gameObjects.length g
  have hhealth : ∀ e, (f e).health = e.health := by
    intro e
    rcases hf e with a | a <;> rw [a]
    rfl
  refine ⟨fun e => cleanTarget ((deathPrefix g.gameObjects.length g).gameObjects.filter
      (fun obj => decide (obj.health > 0))) (f e), fun e => ?_, ?_⟩
  · rcases cleanTarget_shape ((deathPrefix g.gameObjects.length g).gameObjects.filter
        (fun obj => decide (obj.health > 0))) (f e) with b | b <;> rcases hf e with a | a
    · exact Or.inl (b.trans a)
    · exact Or.inr (b.trans a)
    · exact Or.inr (b.trans (by rw [a]))
    · exact Or.inr (b.trans (by rw [a, clearTarget_idem]))
  · rw [deathSweep_objs]
    have hL : (deathPrefix g.gameObjects.length g).gameObjects.filter
        (fun obj => decide (obj.health > 0)) =
        (g.gameObjects.filter (fun obj => decide (obj.health > 0))).map f := by
      rw [hobjs, List.filter_map]
      congr 1
      apply List.filter_congr
      intro x _
      simp [Function.comp, hhealth x]
    generalize (deathPrefix g.gameObjects.length g).gameObjects.filter
      (fun obj => decide (obj.health > 0)) = L at hL ⊢
    subst hL
    rw [List.map_map]
    rfl

/-! ## Claim C17: the safety clamp -/

theorem clampObj_inArena (e : Entity) (ht : e.type = .unit) (hs : e.size ≤ 700) :
    InArena (clampObj e) := by
  unfold clampObj InArena
  rw [if_pos ht]
  simp only [MAP_WIDTH, MAP_HEIGHT]
  refine ⟨le_max_left _ _, max_le (by linarith) (min_le_left _ _), le_max_left _ _,
    max_le (by linarith) (min_le_left _ _)⟩

/-- Claim C17: at the end of a frame of the game loop, every unit of the population with
`size <= 700` has `size/2 <= x <= 1000 - size/2` and `size/2 <= y <= 700 - size/2`, whatever
the update pass and the collision pass did. -/
theorem C17_units_inside_arena (hypot : ℚ → ℚ → ℚ) (random : Nat → ℚ) (now : ℚ) (g : Game)
    (e : Entity) (he : e ∈ (gameLoop hypot random now g).gameObjects) (ht : e.type = .unit)
    (hs : e.size ≤ 700) :
    e.size / 2 ≤ e.x ∧ e.x ≤ 1000 - e.size / 2 ∧ e.size / 2 ≤ e.y ∧ e.y ≤ 700 - e.size / 2 := by
  have he' : e ∈ (deathSweep (safetyClamp (resolveUnitCollisions hypot random
      (updatePass hypot now g)))).gameObjects := he
  obtain ⟨G, hG, hobjs⟩ := deathSweep_objs_shape (safetyClamp (resolveUnitCollisions hypot random
      (updatePass hypot now g)))
  rw [hobjs] at he'
  obtain ⟨e1, he1, rfl⟩ := List.mem_map.1 he'
  have he1' := (List.mem_filter.1 he1).1
  obtain ⟨e0, _, rfl⟩ := List.mem_map.1 (show e1 ∈ List.map clampObj _ from he1')
  have key : InArena (G (clampObj e0)) := by
    rcases hG (clampObj e0) with a | a
    · rw [a] at ht hs ⊢
      have ht0 : e0.type = .unit := by
        rw [← (benign_clampObj e0).1.type]
        exact ht
      exact clampObj_inArena e0 ht0 (by rw [← (benign_clampObj e0).1.size]; exact hs)
    · rw [a] at ht hs ⊢
      have ht0 : e0.type = .unit := by
        rw [← (benign_clampObj e0).1.type]
        exact ht
      exact clampObj_inArena e0 ht0 (by rw [← (benign_clampObj e0).1.size]; exact hs)
  unfold InArena MAP_WIDTH MAP_HEIGHT at key
  exact key

theorem deathPrefix_zero (g : Game) : deathPrefix 0 g = g := rfl

theorem scenarioCorner_frame :
    (gameLoop hypotQ (fun _ => 0) 0 scenarioCorner).gameObjects =
      [clampObj (Unit.init 0 0 1 0 30 2)] := by
  have hlen : scenarioCorner.gameObjects.length = 1 := rfl
  have halive : 0 < (Unit.init 0 0 1 0 30 2).health := by norm_num [Unit.init]
  have h1 : updatePass hypotQ 0 scenarioCorner = scenarioCorner := by
    rw [updatePass_eq_updatePrefix, hlen, updatePrefix_succ, updatePrefix_zero,
      updateObj_unit hypotQ 0 scenarioCorner 0 (Unit.init 0 0 1 0 30 2) rfl rfl,
      update_idle hypotQ 0 0 scenarioCorner (Unit.init 0 0 1 0 30 2) rfl halive rfl rfl]
  have hpairs : collisionPairs 1 = [] := by decide
  have h2 : resolveUnitCollisions hypotQ (fun _ => 0) scenarioCorner = scenarioCorner := by
    unfold resolveUnitCollisions
    rw [hlen, hpairs]
    rfl
  have h3 : (safetyClamp scenarioCorner).gameObjects = [clampObj (Unit.init 0 0 1 0 30 2)] := rfl
  have hlen3 : (safetyClamp scenarioCorner).gameObjects.length = 1 := by rw [h3]; rfl
  have halive3 : (clampObj (Unit.init 0 0 1 0 30 2)).health > 0 := by
    rw [(benign_clampObj _).2]
    exact halive
  have h4 : deathPrefix 1 (safetyClamp scenarioCorner) = safetyClamp scenarioCorner := by
    rw [deathPrefix_succ, deathPrefix_zero]
    exact deathStep_alive _ 0 (clampObj (Unit.init 0 0 1 0 30 2)) (by rw [h3]; rfl) halive3
  show (deathSweep (safetyClamp (resolveUnitCollisions hypotQ (fun _ => 0)
    (updatePass hypotQ 0 scenarioCorner)))).gameObjects = _
  rw [h1, h2, deathSweep_objs, hlen3, h4, h3]
  have hf : List.filter (fun obj : Entity => decide (obj.health > 0))
      [clampObj (Unit.init 0 0 1 0 30 2)] = [clampObj (Unit.init 0 0 1 0 30 2)] := by
    simp [List.filter_cons, halive3]
  rw [hf]
  rfl

/-- Witness of claim C17: the unit created at (0, 0) is inside the arena after one frame. -/
theorem C17_units_inside_arena_witness :
    (clampObj (Unit.init 0 0 1 0 30 2) ∈
        (gameLoop hypotQ (fun _ => 0) 0 scenarioCorner).gameObjects ∧
      (clampObj (Unit.init 0 0 1 0 30 2)).type = .unit ∧
      (clampObj (Unit.init 0 0 1 0 30 2)).size ≤ 700) ∧
    ((clampObj (Unit.init 0 0 1 0 30 2)).size / 2 ≤ (clampObj (Unit.init 0 0 1 0 30 2)).x ∧
      (clampObj (Unit.init 0 0 1 0 30 2)).x ≤ 1000 - (clampObj (Unit.init 0 0 1 0 30 2)).size / 2 ∧
      (clampObj (Unit.init 0 0 1 0 30 2)).size / 2 ≤ (clampObj (Unit.init 0 0 1 0 30 2)).y ∧
      (clampObj (Unit.init 0 0 1 0 30 2)).y ≤
        700 - (clampObj (Unit.init 0 0 1 0 30 2)).size / 2) := by
  have hm : clampObj (Unit.init 0 0 1 0 30 2) ∈
      (gameLoop hypotQ (fun _ => 0) 0 scenarioCorner).gameObjects := by
    rw [scenarioCorner_frame]
    exact List.mem_singleton.2 rfl
  have ht : (clampObj (Unit.init 0 0 1 0 30 2)).type = .unit := by
    rw [(benign_clampObj _).1.type]
    rfl
  have hs : (clampObj (Unit.init 0 0 1 0 30 2)).size ≤ 700 := by
    rw [(benign_clampObj _).1.size]
    norm_num [Unit.init]
  exact ⟨⟨hm, ht, hs⟩, C17_units_inside_arena hypotQ (fun _ => 0) 0 scenarioCorner _ hm ht hs⟩

/-! ## Claim C18: unknown player ids -/

/-- Claim C18, evaluation of the code at the failing input: the constructors `new Unit` and
`new Bunker` raise a `TypeError` for player id 5, and for every id outside 1..4, while the
sibling look-ups are guarded: for a state with the player table of the source,
`Bunker.update` of a bunker owned by such an id, `switchPlayer` with such an id and the death
loop's supply update for an object owned by such an id change nothing they should not. -/
theorem C18_constructors_raise_for_unknown_player :
    Unit.new players 0 0 5 0 30 2 = none ∧ Bunker.new players 0 0 5 0 80 = none ∧
    (∀ id : Int, id < 1 ∨ 4 < id → ∀ (x y : ℚ) (n : Nat) (size speed : ℚ),
      Unit.new players x y id n size speed = none ∧ Bunker.new players x y id n size = none) ∧
    (∀ (hypot : ℚ → ℚ → ℚ) (now : ℚ) (i : Nat) (g : Game) (self : Entity),
      g.players = players → g.gameObjects[i]? = some self →
      (self.playerId < 1 ∨ 4 < self.playerId) → Bunker.update hypot now i g = g) ∧
    (∀ (id : Int) (g : Game), id < 1 ∨ 4 < id → switchPlayer id g = g) ∧
    (∀ (i : Nat) (g : Game) (obj : Entity), g.players = players →
      g.gameObjects[i]? = some obj → (obj.playerId < 1 ∨ 4 < obj.playerId) →
      (deathStep g i).players = g.players) := by
  have hnone : ∀ id : Int, id < 1 ∨ 4 < id → players id = none := by
    intro id hid
    unfold players
    rw [if_neg]
    omega
  refine ⟨?_, ?_, fun id hid x y n size speed => ?_, fun hypot now i g self hp hself hid => ?_,
    fun id g hid => ?_, fun i g obj hp hobj hid => ?_⟩
  · simp [Unit.new, hnone 5 (by omega)]
  · simp [Bunker.new, hnone 5 (by omega)]
  · simp [Unit.new, Bunker.new, hnone id hid]
  · have hn : g.players self.playerId = none := by
      rw [hp]
      exact hnone self.playerId hid
    unfold Bunker.update
    rw [hself]
    simp only [hn]
    split_ifs <;> rfl
  · unfold switchPlayer
    rw [if_pos]
    omega
  · have hn : g.players obj.playerId = none := by
      rw [hp]
      exact hnone obj.playerId hid
    unfold deathStep
    rw [hobj]
    simp only [hn]
    split_ifs <;> rfl

theorem refDead_cons (a : Entity) (l : List Entity) (tid : Nat) :
    refDead (a :: l) tid = if a.id = tid then decide (a.health ≤ 0) else refDead l tid := by
  unfold refDead indexOfId
  rw [List.findIdx_cons]
  by_cases h : a.id = tid
  · simp [h]
  · simp [h]

theorem refDead_map (f : Entity → Entity) (hid : ∀ e, (f e).id = e.id)
    (hh : ∀ e, (f e).health = e.health) (l : List Entity) (tid : Nat) :
    refDead (l.map f) tid = refDead l tid := by
  induction l with
  | nil => rfl
  | cons a l ih => rw [List.map_cons, refDead_cons, refDead_cons, hid, hh, ih]

theorem refDead_of_absent (l : List Entity) (tid : Nat) (h : ∀ t ∈ l, t.id ≠ tid) :
    refDead l tid = true := by
  induction l with
  | nil => rfl
  | cons a l ih =>
    rw [refDead_cons, if_neg (h a (List.mem_cons_self a l))]
    exact ih (fun t ht => h t (List.mem_cons_of_mem a ht))

theorem absent_of_refDead (l : List Entity) (tid : Nat) (h : refDead l tid = true)
    (halive : ∀ t ∈ l, t.id = tid → t.health > 0) : ∀ t ∈ l, t.id ≠ tid := by
  induction l with
  | nil => intro t ht; cases ht
  | cons a l ih =>
    have ha := halive a (List.mem_cons_self a l)
    rw [refDead_cons] at h
    by_cases hid : a.id = tid
    · rw [if_pos hid] at h
      exact absurd (of_decide_eq_true h) (not_le.mpr (ha hid))
    · rw [if_neg hid] at h
      intro t ht
      rcases List.mem_cons.mp ht with rfl | ht
      · exact hid
      · exact ih h (fun t ht => halive t (List.mem_cons_of_mem a ht)) t ht

theorem clearedBy_id (l : List Entity) (e : Entity) : (clearedBy l e).id = e.id := by
  unfold clearedBy
  split
  · split_ifs <;> rfl
  · rfl

theorem clearedBy_health (l : List Entity) (e : Entity) : (clearedBy l e).health = e.health := by
  unfold clearedBy
  split
  · split_ifs <;> rfl
  · rfl

theorem clearedBy_nil (e : Entity) : clearedBy [] e = e := by
  unfold clearedBy
  split <;> simp

theorem clearedBy_snoc (l : List Entity) (o e : Entity) :
    clearedBy (l ++ [o]) e =
      if o.health > 0 then clearedBy l e
      else if (clearedBy l e).targetUnit = some o.id then clearTarget (clearedBy l e)
      else clearedBy l e := by
  unfold clearedBy
  cases htu : e.targetUnit with
  | none => simp [htu]
  | some tid =>
    simp only [List.any_append, List.any_cons, List.any_nil, Bool.or_false]
    by_cases hany : l.any (fun t => decide (t.id = tid) && decide (¬ t.health > 0)) = true
    · simp only [hany, Bool.true_or, if_true]
      have hn : (clearTarget e).targetUnit = none := rfl
      simp [hn]
    · simp only [hany, Bool.false_or]
      by_cases hh : o.health > 0
      · simp [hh]
      · by_cases hid : o.id = tid
        · simp [hh, hid, htu]
        · have hne : ¬ tid = o.id := fun h => hid h.symm
          simp [hh, hid, htu, hne]

theorem deathStep_objs_exact (g : Game) (i : Nat) (obj : Entity)
    (hobj : g.gameObjects[i]? = some obj) :
    (deathStep g i).gameObjects =
      if obj.health > 0 then g.gameObjects
      else g.gameObjects.map (fun attacker =>
        if attacker.targetUnit = some obj.id then clearTarget attacker else attacker) := by
  unfold deathStep
  rw [hobj]
  by_cases hh : obj.health > 0
  · simp only [hh, if_true]
  · simp only [hh, if_false]
    by_cases ht : obj.type = .unit
    · simp only [ht, if_true]
    · simp only [ht, if_false]

theorem deathPrefix_objs_exact (k : Nat) (g : Game) (hk : k ≤ g.gameObjects.length) :
    (deathPrefix k g).gameObjects = g.gameObjects.map (clearedBy (g.gameObjects.take k)) := by
  induction k with
  | zero =>
    rw [deathPrefix_zero, List.take_zero]
    rw [List.map_congr_left (fun e _ => clearedBy_nil e)]
    exact (List.map_id _).symm
  | succ k ih =>
    have hlt : k < g.gameObjects.length := by omega
    have ih := ih (by omega)
    have ho : g.gameObjects[k]? = some (g.gameObjects.get ⟨k, hlt⟩) := List.getElem?_eq_getElem hlt
    generalize g.gameObjects.get ⟨k, hlt⟩ = o at ho
    have hobj : (deathPrefix k g).gameObjects[k]? = some (clearedBy (g.gameObjects.take k) o) := by
      rw [ih, List.getElem?_map, ho]
      rfl
    have htake : g.gameObjects.take (k + 1) = g.gameObjects.take k ++ [o] := by
      rw [List.take_succ, ho]
      rfl
    rw [deathPrefix_succ, deathStep_objs_exact _ k _ hobj, clearedBy_health, clearedBy_id, htake, ih]
    by_cases hh : o.health > 0
    · rw [if_pos hh]
      refine List.map_congr_left (fun e _ => ?_)
      rw [clearedBy_snoc, if_pos hh]
    · rw [if_neg hh, List.map_map]
      refine List.map_congr_left (fun e _ => ?_)
      rw [clearedBy_snoc, if_neg hh]
      rfl

theorem deathSweep_objs_exact (g : Game) :
    ∃ L : List Entity,
      L = (g.gameObjects.filter (fun obj => decide (obj.health > 0))).map
        (clearedBy g.gameObjects) ∧
      (deathSweep g).gameObjects = L.map (cleanTarget L) := by
  refine ⟨_, ?_, deathSweep_objs g⟩
  rw [deathPrefix_objs_exact _ g (le_refl _), List.take_length, List.filter_map]
  congr 1
  apply List.filter_congr
  intro x _
  simp [Function.comp, clearedBy_health]

theorem cleanTarget_id (l : List Entity) (e : Entity) : (cleanTarget l e).id = e.id := by
  rcases cleanTarget_shape l e with h | h <;> rw [h]
  rfl

theorem cleanTarget_health (l : List Entity) (e : Entity) :
    (cleanTarget l e).health = e.health := by
  rcases cleanTarget_shape l e with h | h <;> rw [h]
  rfl

theorem cleanTarget_target (l : List Entity) (e : Entity) (tid : Nat)
    (h : (cleanTarget l e).targetUnit = some tid) : refDead l tid = false := by
  unfold cleanTarget at h
  cases htu : e.targetUnit with
  | none =>
    simp only [htu] at h
    cases h
  | some t =>
    simp only [htu] at h
    by_cases hd : refDead l t = true
    · rw [if_pos hd] at h
      cases h
    · rw [if_neg hd, htu] at h
      cases h
      simpa using hd

theorem clearedBy_none (l : List Entity) (e : Entity) (h : e.targetUnit = none) :
    clearedBy l e = e := by
  unfold clearedBy
  rw [h]

theorem cleanTarget_none (l : List Entity) (e : Entity) (h : e.targetUnit = none) :
    cleanTarget l e = e := by
  unfold cleanTarget
  rw [h]

theorem clearedBy_shape (l : List Entity) (e : Entity) :
    clearedBy l e = e ∨ clearedBy l e = clearTarget e := by
  unfold clearedBy
  split
  · split_ifs
    · exact Or.inr rfl
    · exact Or.inl rfl
  · exact Or.inl rfl

/-- The two clean-up loops of the death sweep clear the target of an object whose target is
dead, or absent, in the population before the sweep. -/
theorem sweep_clears (objs : List Entity) (e : Entity) (tid : Nat)
    (htu : e.targetUnit = some tid) (hdead : refDead objs tid = true) :
    cleanTarget ((objs.filter (fun obj => decide (obj.health > 0))).map (clearedBy objs))
      (clearedBy objs e) = clearTarget e := by
  by_cases hany : objs.any (fun t => decide (t.id = tid) && decide (¬ t.health > 0)) = true
  · have h1 : clearedBy objs e = clearTarget e := by
      unfold clearedBy
      rw [htu]
      simp only [hany, if_true]
    rw [h1]
    exact cleanTarget_none _ _ rfl
  · have h1 : clearedBy objs e = e := by
      unfold clearedBy
      rw [htu]
      simp only [hany]
      rfl
    have halive : ∀ t ∈ objs, t.id = tid → t.health > 0 := by
      intro t ht hid
      by_contra hh
      apply hany
      rw [List.any_eq_true]
      exact ⟨t, ht, by simp [hid, hh]⟩
    have habs := absent_of_refDead objs tid hdead halive
    have hL : refDead ((objs.filter (fun obj => decide (obj.health > 0))).map (clearedBy objs))
        tid = true := by
      apply refDead_of_absent
      intro t ht
      obtain ⟨s, hs, rfl⟩ := List.mem_map.mp ht
      rw [clearedBy_id]
      exact habs s (List.mem_of_mem_filter hs)
    rw [h1]
    unfold cleanTarget
    rw [htu]
    simp only [hL, if_true]

/-- C15: after the death sweep the population is the list of the objects that had `health > 0`
before it, in their order, each of them unchanged or with its target cleared by `clearTarget`.
An object whose target was dead (or no longer present) before the sweep has `targetUnit = none`,
its command state is idle if it was attacking and is kept otherwise; an object without a target
is unchanged. No object of the new population has a target that is dead in it. -/
theorem C15_death_sweep (g : Game) :
    List.Forall₂
      (fun e e' => (e' = e ∨ e' = clearTarget e) ∧
        (e.targetUnit = none → e' = e) ∧
        (∀ tid, e.targetUnit = some tid → refDead g.gameObjects tid = true →
          e'.targetUnit = none ∧
          e'.commandState = (if e.commandState = .attacking then .idle else e.commandState) ∧
          e' = clearTarget e))
      (g.gameObjects.filter (fun obj => decide (obj.health > 0)))
      (deathSweep g).gameObjects ∧
    (∀ e' ∈ (deathSweep g).gameObjects, ∀ tid, e'.targetUnit = some tid →
      refDead (deathSweep g).gameObjects tid = false) := by
  obtain ⟨L, hL, hobjs⟩ := deathSweep_objs_exact g
  constructor
  · have e1 : ∀ M : List Entity,
        M = (g.gameObjects.filter (fun obj => decide (obj.health > 0))).map
          (clearedBy g.gameObjects) →
        M.map (cleanTarget L) = (g.gameObjects.filter (fun obj => decide (obj.health > 0))).map
          (fun e => cleanTarget L (clearedBy g.gameObjects e)) := by
      intro M hM
      rw [hM, List.map_map]
      rfl
    rw [hobjs, e1 L hL, List.forall₂_map_right_iff, List.forall₂_same]
    intro e _
    have h3 : ∀ tid, e.targetUnit = some tid → refDead g.gameObjects tid = true →
        cleanTarget L (clearedBy g.gameObjects e) = clearTarget e := by
      intro tid htu hdead
      rw [hL]
      exact sweep_clears g.gameObjects e tid htu hdead
    refine ⟨?_, ?_, ?_⟩
    · rcases cleanTarget_shape L (clearedBy g.gameObjects e) with b | b <;>
        rcases clearedBy_shape g.gameObjects e with a | a
      · exact Or.inl (b.trans a)
      · exact Or.inr (b.trans a)
      · exact Or.inr (b.trans (by rw [a]))
      · exact Or.inr (b.trans (by rw [a, clearTarget_idem]))
    · intro hn
      rw [clearedBy_none _ _ hn, cleanTarget_none _ _ hn]
    · intro tid htu hdead
      refine ⟨?_, ?_, h3 tid htu hdead⟩
      · rw [h3 tid htu hdead]
        rfl
      · rw [h3 tid htu hdead]
        rfl
  · intro e' he' tid htu
    rw [hobjs] at he' ⊢
    obtain ⟨x, _, rfl⟩ := List.mem_map.mp he'
    rw [refDead_map (cleanTarget L) (cleanTarget_id L) (cleanTarget_health L)]
    exact cleanTarget_target L x tid htu

/-! ## Collision resolution, case by case -/

theorem checkUnitCollision_alive (a b : Entity) (h : checkUnitCollision a b = true) :
    0 < a.health ∧ 0 < b.health := by
  unfold checkUnitCollision at h
  split_ifs at h with hc
  push_neg at hc
  exact ⟨hc.2.1, hc.2.2⟩

theorem resolvePair_skip (hypot : ℚ → ℚ → ℚ) (random : Nat → ℚ) (g : Game) (i j : Nat)
    (a b : Entity) (ha : g.gameObjects[i]? = some a) (hb : g.gameObjects[j]? = some b)
    (h : checkUnitCollision a b = false ∨ (a.type = .bunker ∧ b.type = .bunker)) :
    resolvePair hypot random g (i, j) = g := by
  unfold resolvePair
  simp only [ha, hb]
  rcases h with h | h
  · simp only [h, Bool.false_eq_true, if_false, ite_self]
  · simp only [h, and_self, or_true, if_true]

theorem resolvePair_apart (hypot : ℚ → ℚ → ℚ) (random : Nat → ℚ) (g : Game) (i j : Nat)
    (a b : Entity) (ha : g.gameObjects[i]? = some a) (hb : g.gameObjects[j]? = some b)
    (hd0 : hypot (b.x - a.x) (b.y - a.y) ≠ 0)
    (hov : ¬ (a.size / 2 + b.size / 2 - hypot (b.x - a.x) (b.y - a.y) > 0)) :
    resolvePair hypot random g (i, j) = g := by
  unfold resolvePair
  simp only [ha, hb, hd0, if_false, hov]
  split_ifs <;> rfl

theorem resolvePair_push (hypot : ℚ → ℚ → ℚ) (random : Nat → ℚ) (g : Game) (i j : Nat)
    (a b : Entity) (d : ℚ) (ha : g.gameObjects[i]? = some a) (hb : g.gameObjects[j]? = some b)
    (hc : checkUnitCollision a b = true) (hbb : ¬ (a.type = .bunker ∧ b.type = .bunker))
    (hd : hypot (b.x - a.x) (b.y - a.y) = d) (hd0 : d ≠ 0)
    (hov : a.size / 2 + b.size / 2 - d > 0) :
    resolvePair hypot random g (i, j) =
      if b.type = .unit then
        (if a.type = .unit then
          g.modifyObj i (fun e =>
            { e with
              x := e.x - (b.x - a.x) / d * (a.size / 2 + b.size / 2 - d) *
                ((if b.type = .bunker then BUNKER_PUSH_FACTOR else PUSH_FACTOR) /
                  ((if a.type = .bunker then BUNKER_PUSH_FACTOR else PUSH_FACTOR) +
                    (if b.type = .bunker then BUNKER_PUSH_FACTOR else PUSH_FACTOR))),
              y := e.y - (b.y - a.y) / d * (a.size / 2 + b.size / 2 - d) *
                ((if b.type = .bunker then BUNKER_PUSH_FACTOR else PUSH_FACTOR) /
                  ((if a.type = .bunker then BUNKER_PUSH_FACTOR else PUSH_FACTOR) +
                    (if b.type = .bunker then BUNKER_PUSH_FACTOR else PUSH_FACTOR))) })
        else g).modifyObj j (fun e =>
            { e with
              x := e.x + (b.x - a.x) / d * (a.size / 2 + b.size / 2 - d) *
                ((if a.type = .bunker then BUNKER_PUSH_FACTOR else PUSH_FACTOR) /
                  ((if a.type = .bunker then BUNKER_PUSH_FACTOR else PUSH_FACTOR) +
                    (if b.type = .bunker then BUNKER_PUSH_FACTOR else PUSH_FACTOR))),
              y := e.y + (b.y - a.y) / d * (a.size / 2 + b.size / 2 - d) *
                ((if a.type = .bunker then BUNKER_PUSH_FACTOR else PUSH_FACTOR) /
                  ((if a.type = .bunker then BUNKER_PUSH_FACTOR else PUSH_FACTOR) +
                    (if b.type = .bunker then BUNKER_PUSH_FACTOR else PUSH_FACTOR))) })
      else
        (if a.type = .unit then
          g.modifyObj i (fun e =>
            { e with
              x := e.x - (b.x - a.x) / d * (a.size / 2 + b.size / 2 - d) *
                ((if b.type = .bunker then BUNKER_PUSH_FACTOR else PUSH_FACTOR) /
                  ((if a.type = .bunker then BUNKER_PUSH_FACTOR else PUSH_FACTOR) +
                    (if b.type = .bunker then BUNKER_PUSH_FACTOR else PUSH_FACTOR))),
              y := e.y - (b.y - a.y) / d * (a.size / 2 + b.size / 2 - d) *
                ((if b.type = .bunker then BUNKER_PUSH_FACTOR else PUSH_FACTOR) /
                  ((if a.type = .bunker then BUNKER_PUSH_FACTOR else PUSH_FACTOR) +
                    (if b.type = .bunker then BUNKER_PUSH_FACTOR else PUSH_FACTOR))) })
        else g) := by
  obtain ⟨hha, hhb⟩ := checkUnitCollision_alive a b hc
  unfold resolvePair
  simp only [ha, hb, hc, hd, hd0, if_false, hov, if_true, not_le.mpr hha, not_le.mpr hhb, hbb,
    or_self]

theorem collisionPairs_two : collisionPairs 2 = [(0, 1)] := by decide

theorem resolveUnitCollisions_two (hypot : ℚ → ℚ → ℚ) (random : Nat → ℚ) (g : Game)
    (h : g.gameObjects.length = 2) :
    resolveUnitCollisions hypot random g = resolvePair hypot random g (0, 1) := by
  unfold resolveUnitCollisions
  rw [h, collisionPairs_two]
  rfl

theorem modifyObj_pair (g : Game) (a b : Entity) (h : g.gameObjects = [a, b])
    (f k : Entity → Entity) :
    ((g.modifyObj 0 f).modifyObj 1 k).gameObjects = [f a, k b] ∧
    (g.modifyObj 0 f).gameObjects = [f a, b] ∧
    (g.modifyObj 1 k).gameObjects = [a, k b] := by
  simp [Game.modifyObj, h, List.modify]

theorem jitterObj_bunker (random : Nat → ℚ) (i : Nat) (G : Game) (k : Nat) (e : Entity)
    (hk : G.gameObjects[k]? = some e) (hb : e.type = .bunker) :
    (jitterObj random i G).gameObjects[k]? = some e := by
  unfold jitterObj
  split
  · rename_i obj hobj
    by_cases ht : obj.type = .unit
    · rw [if_pos ht]
      have hne : i ≠ k := by
        rintro rfl
        rw [hk] at hobj
        cases hobj
        rw [hb] at ht
        cases ht
      show (G.modifyObj i _).gameObjects[k]? = some e
      rw [getElem?_modifyObj_ne G _ hne]
      exact hk
    · rw [if_neg ht]
      exact hk
  · exact hk

theorem guarded_modify_bunker (g G : Game) (i k : Nat) (o e : Entity) (f : Entity → Entity)
    (ho : g.gameObjects[i]? = some o) (hk : g.gameObjects[k]? = some e)
    (hb : e.type = .bunker) (hG : G.gameObjects[k]? = some e) :
    (if o.type = .unit then G.modifyObj i f else G).gameObjects[k]? = some e := by
  by_cases ht : o.type = .unit
  · rw [if_pos ht]
    have hne : i ≠ k := by
      rintro rfl
      rw [hk] at ho
      cases ho
      rw [hb] at ht
      cases ht
    rw [getElem?_modifyObj_ne G _ hne]
    exact hG
  · rw [if_neg ht]
    exact hG

theorem resolvePair_bunker (hypot : ℚ → ℚ → ℚ) (random : Nat → ℚ) (g : Game) (ij : Nat × Nat)
    (k : Nat) (e : Entity) (hk : g.gameObjects[k]? = some e) (hb : e.type = .bunker) :
    (resolvePair hypot random g ij).gameObjects[k]? = some e := by
  unfold resolvePair
  split
  · rename_i objA objB hA hB
    have hg1 : ∀ (c : Prop) [Decidable c],
        (if c then jitterObj random ij.2 (jitterObj random ij.1 g) else g).gameObjects[k]? =
          some e := by
      intro c _
      split_ifs
      · exact jitterObj_bunker random _ _ k e (jitterObj_bunker random _ _ k e hk hb) hb
      · exact hk
    dsimp only
    by_cases h1 : objA.health ≤ 0 ∨ objB.health ≤ 0 ∨
        (objA.type = .bunker ∧ objB.type = .bunker)
    · rw [if_pos h1]
      exact hk
    · rw [if_neg h1]
      by_cases h2 : checkUnitCollision objA objB = true
      · rw [if_pos h2]
        by_cases h3 : objA.size / 2 + objB.size / 2 -
            (if hypot (objB.x - objA.x) (objB.y - objA.y) = 0 then 1 / 10
              else hypot (objB.x - objA.x) (objB.y - objA.y)) > 0
        · rw [if_pos h3]
          exact guarded_modify_bunker g _ ij.2 k objB e _ hB hk hb
            (guarded_modify_bunker g _ ij.1 k objA e _ hA hk hb (hg1 _))
        · rw [if_neg h3]
          exact hg1 _
      · rw [if_neg h2]
        exact hk
  · exact hk

theorem resolveUnitCollisions_bunker (hypot : ℚ → ℚ → ℚ) (random : Nat → ℚ) (g : Game)
    (k : Nat) (e : Entity) (hk : g.gameObjects[k]? = some e) (hb : e.type = .bunker) :
    (resolveUnitCollisions hypot random g).gameObjects[k]? = some e := by
  unfold resolveUnitCollisions
  generalize collisionPairs g.gameObjects.length = l
  induction l generalizing g with
  | nil => exact hk
  | cons ij l ih =>
    rw [List.foldl_cons]
    exact ih _ (resolvePair_bunker hypot random g ij k e hk hb)

theorem jitterObj_pair (random : Nat → ℚ) (g : Game) (a b : Entity)
    (hobjs : g.gameObjects = [a, b]) (hta : a.type = .unit) (htb : b.type = .unit) :
    (jitterObj random 1 (jitterObj random 0 g)).gameObjects =
      [{ a with x := a.x + (random g.rngCalls - 1 / 2) * (1 / 5),
                y := a.y + (random (g.rngCalls + 1) - 1 / 2) * (1 / 5) },
       { b with x := b.x + (random (g.rngCalls + 2) - 1 / 2) * (1 / 5),
                y := b.y + (random (g.rngCalls + 2 + 1) - 1 / 2) * (1 / 5) }] := by
  have h0 : g.gameObjects[0]? = some a := by rw [hobjs]; rfl
  have e1 : jitterObj random 0 g =
      { g.modifyObj 0 (fun o =>
          { o with x := o.x + (random g.rngCalls - 1 / 2) * (1 / 5),
                   y := o.y + (random (g.rngCalls + 1) - 1 / 2) * (1 / 5) }) with
        rngCalls := g.rngCalls + 2 } := by
    unfold jitterObj
    rw [h0]
    simp only [hta, if_true]
  have hobjs1 : (jitterObj random 0 g).gameObjects =
      [{ a with x := a.x + (random g.rngCalls - 1 / 2) * (1 / 5),
                y := a.y + (random (g.rngCalls + 1) - 1 / 2) * (1 / 5) }, b] := by
    rw [e1]
    exact (modifyObj_pair g a b hobjs _ (fun e => e)).2.1
  have hr1 : (jitterObj random 0 g).rngCalls = g.rngCalls + 2 := by rw [e1]
  have h1 : (jitterObj random 0 g).gameObjects[1]? = some b := by rw [hobjs1]; rfl
  generalize jitterObj random 0 g = g1 at hobjs1 hr1 h1
  have e2 : jitterObj random 1 g1 =
      { g1.modifyObj 1 (fun o =>
          { o with x := o.x + (random g1.rngCalls - 1 / 2) * (1 / 5),
                   y := o.y + (random (g1.rngCalls + 1) - 1 / 2) * (1 / 5) }) with
        rngCalls := g1.rngCalls + 2 } := by
    unfold jitterObj
    rw [h1]
    simp only [htb, if_true]
  rw [e2, ← hr1]
  exact (modifyObj_pair g1 _ b hobjs1 (fun e => e) _).2.2

/-- C14: two colliding units whose centres coincide, alone in the population (`Math.hypot`
returning 0 at (0, 0)): after the pass each unit is exactly where its own jitter put it. The
vector `dx, dy` is read before the jitter, so the separation direction is `0 / 0.1 = 0` on both
axes and the push that follows moves nothing. -/
theorem C14_coincident_units_not_pushed (hypot : ℚ → ℚ → ℚ) (random : Nat → ℚ) (g : Game)
    (a b : Entity) (hobjs : g.gameObjects = [a, b]) (hta : a.type = .unit)
    (htb : b.type = .unit) (hc : checkUnitCollision a b = true)
    (hx : b.x = a.x) (hy : b.y = a.y) (h0 : hypot 0 0 = 0) :
    (resolveUnitCollisions hypot random g).gameObjects =
      [{ a with x := a.x + (random g.rngCalls - 1 / 2) * (1 / 5),
                y := a.y + (random (g.rngCalls + 1) - 1 / 2) * (1 / 5) },
       { b with x := b.x + (random (g.rngCalls + 2) - 1 / 2) * (1 / 5),
                y := b.y + (random (g.rngCalls + 2 + 1) - 1 / 2) * (1 / 5) }] := by
  have hlen : g.gameObjects.length = 2 := by rw [hobjs]; rfl
  have hA : g.gameObjects[(0, 1).1]? = some a := by rw [hobjs]; rfl
  have hB : g.gameObjects[(0, 1).2]? = some b := by rw [hobjs]; rfl
  obtain ⟨hha, hhb⟩ := checkUnitCollision_alive a b hc
  have hdx : b.x - a.x = 0 := by rw [hx]; ring
  have hdy : b.y - a.y = 0 := by rw [hy]; ring
  have hjit := jitterObj_pair random g a b hobjs hta htb
  rw [resolveUnitCollisions_two hypot random g hlen]
  unfold resolvePair
  simp only [hA, hB, hc, hdx, hdy, h0, if_true, not_le.mpr hha, not_le.mpr hhb, hta, htb,
    reduceCtorEq, false_and, or_self, if_false, zero_div, zero_mul, sub_zero, add_zero]
  generalize jitterObj random 1 (jitterObj random 0 g) = g1 at hjit
  split_ifs
  · rw [(modifyObj_pair g1 _ _ hjit _ _).1]
    dsimp only
    rw [hta, htb]
  · rw [hjit, hta, htb]

/-- Two units of size 30 at the same point, jitter values 0, 1/4, 3/4 and 1/2: the units end up
at (99.9, 99.95) and (100.05, 100), 0.15 and 0.05 apart on the two axes, although they
overlap by 29.9. -/
theorem C14_coincident_units_not_pushed_witness :
    (resolveUnitCollisions hypotQ
        (fun n => if n = 0 then 0 else if n = 1 then 1 / 4 else if n = 2 then 3 / 4 else 1 / 2)
        scenarioCoincident).gameObjects =
      [{ Unit.init 100 100 1 0 30 2 with x := 100 + (0 - 1 / 2) * (1 / 5),
                                         y := 100 + (1 / 4 - 1 / 2) * (1 / 5) },
       { Unit.init 100 100 2 1 30 2 with x := 100 + (3 / 4 - 1 / 2) * (1 / 5),
                                         y := 100 + (1 / 2 - 1 / 2) * (1 / 5) }] :=
  C14_coincident_units_not_pushed hypotQ
    (fun n => if n = 0 then 0 else if n = 1 then 1 / 4 else if n = 2 then 3 / 4 else 1 / 2)
    scenarioCoincident (Unit.init 100 100 1 0 30 2) (Unit.init 100 100 2 1 30 2) rfl rfl rfl
    (by norm_num [checkUnitCollision, Unit.init]) rfl rfl (hypotQ_of_sq (le_refl 0) (by norm_num))

theorem pushed_apart_sq (px py qx qy d ov mA mB : ℚ) (hd : 0 < d) (hov : 0 ≤ ov)
    (hmA : 0 ≤ mA) (hmB : 0 ≤ mB) :
    (qx - px) ^ 2 + (qy - py) ^ 2 ≤
      (qx + (qx - px) / d * ov * mB - (px - (qx - px) / d * ov * mA)) ^ 2 +
        (qy + (qy - py) / d * ov * mB - (py - (qy - py) / d * ov * mA)) ^ 2 := by
  have hc : 0 ≤ ov * (mA + mB) / d :=
    div_nonneg (mul_nonneg hov (add_nonneg hmA hmB)) hd.le
  have hx : qx + (qx - px) / d * ov * mB - (px - (qx - px) / d * ov * mA) =
      (qx - px) * (1 + ov * (mA + mB) / d) := by
    field_simp
    ring
  have hy : qy + (qy - py) / d * ov * mB - (py - (qy - py) / d * ov * mA) =
      (qy - py) * (1 + ov * (mA + mB) / d) := by
    field_simp
    ring
  rw [hx, hy]
  generalize ov * (mA + mB) / d = c at hc
  have h1 : ((qx - px) * (1 + c)) ^ 2 + ((qy - py) * (1 + c)) ^ 2 =
      ((qx - px) ^ 2 + (qy - py) ^ 2) + ((qx - px) ^ 2 + (qy - py) ^ 2) * (c * (2 + c)) := by
    ring
  rw [h1]
  have h2 : 0 ≤ ((qx - px) ^ 2 + (qy - py) ^ 2) * (c * (2 + c)) :=
    mul_nonneg (add_nonneg (sq_nonneg _) (sq_nonneg _)) (mul_nonneg hc (by linarith))
  linarith

theorem overlap_le_of_sq_le {S D D' p q : ℚ} (hD' : 0 ≤ D') (h : D * D = p)
    (h' : D' * D' = q) (hpq : p ≤ q) : max 0 (S - D') ≤ max 0 (S - D) := by
  have hle : D ≤ D' := by
    by_contra hlt
    have := mul_self_lt_mul_self hD' (not_le.mp hlt)
    linarith
  exact max_le_max (le_refl 0) (by linarith)

theorem resolvePair_size (hypot : ℚ → ℚ → ℚ) (random : Nat → ℚ) (g : Game) (ij : Nat × Nat)
    (k : Nat) (e e' : Entity) (hk : g.gameObjects[k]? = some e)
    (hk' : (resolvePair hypot random g ij).gameObjects[k]? = some e') : e'.size = e.size := by
  obtain ⟨e2, he2, hev⟩ := (resolvePair_frame (fun _ => True) hypot random g ij).objs.2 k e hk
  rw [hk'] at he2
  cases he2
  exact hev.1.size

theorem resolvePair_sq_dist (hypot : ℚ → ℚ → ℚ) (random : Nat → ℚ) (g : Game) (i j : Nat)
    (a b a' b' : Entity) (hij : i ≠ j)
    (ha : g.gameObjects[i]? = some a) (hb : g.gameObjects[j]? = some b)
    (hnn : 0 ≤ hypot (b.x - a.x) (b.y - a.y))
    (hz : hypot (b.x - a.x) (b.y - a.y) = 0 → b.x - a.x = 0 ∧ b.y - a.y = 0)
    (ha' : (resolvePair hypot random g (i, j)).gameObjects[i]? = some a')
    (hb' : (resolvePair hypot random g (i, j)).gameObjects[j]? = some b') :
    (b.x - a.x) ^ 2 + (b.y - a.y) ^ 2 ≤ (b'.x - a'.x) ^ 2 + (b'.y - a'.y) ^ 2 := by
  have hsame : resolvePair hypot random g (i, j) = g →
      (b.x - a.x) ^ 2 + (b.y - a.y) ^ 2 ≤ (b'.x - a'.x) ^ 2 + (b'.y - a'.y) ^ 2 := by
    intro h
    rw [h, ha] at ha'
    rw [h, hb] at hb'
    cases ha'
    cases hb'
    exact le_refl _
  by_cases hskip : checkUnitCollision a b = false ∨ (a.type = .bunker ∧ b.type = .bunker)
  · exact hsame (resolvePair_skip hypot random g i j a b ha hb hskip)
  · have hc : checkUnitCollision a b = true := by
      cases h : checkUnitCollision a b
      · exact absurd (Or.inl h) hskip
      · rfl
    have hbb : ¬ (a.type = .bunker ∧ b.type = .bunker) := fun h => hskip (Or.inr h)
    by_cases hd0 : hypot (b.x - a.x) (b.y - a.y) = 0
    · obtain ⟨hx, hy⟩ := hz hd0
      rw [hx, hy]
      have h1 := sq_nonneg (b'.x - a'.x)
      have h2 := sq_nonneg (b'.y - a'.y)
      norm_num
      linarith
    · by_cases hov : a.size / 2 + b.size / 2 - hypot (b.x - a.x) (b.y - a.y) > 0
      · have hd : 0 < hypot (b.x - a.x) (b.y - a.y) := lt_of_le_of_ne hnn (Ne.symm hd0)
        have hr1 : (0 : ℚ) ≤ PUSH_FACTOR / (PUSH_FACTOR + PUSH_FACTOR) := by
          norm_num [PUSH_FACTOR]
        have hr2 : (0 : ℚ) ≤ BUNKER_PUSH_FACTOR / (PUSH_FACTOR + BUNKER_PUSH_FACTOR) := by
          norm_num [PUSH_FACTOR, BUNKER_PUSH_FACTOR]
        have hr3 : (0 : ℚ) ≤ BUNKER_PUSH_FACTOR / (BUNKER_PUSH_FACTOR + PUSH_FACTOR) := by
          norm_num [PUSH_FACTOR, BUNKER_PUSH_FACTOR]
        rw [resolvePair_push hypot random g i j a b _ ha hb hc hbb rfl hd0 hov] at ha' hb'
        generalize hypot (b.x - a.x) (b.y - a.y) = d at hd hov ha' hb'
        cases hta : a.type <;> cases htb : b.type
        · simp only [hta, htb, if_true, reduceCtorEq, if_false] at ha' hb'
          generalize PUSH_FACTOR / (PUSH_FACTOR + PUSH_FACTOR) = r at hr1 ha' hb'
          rw [getElem?_modifyObj_ne _ _ hij.symm, getElem?_modifyObj_self, ha] at ha'
          rw [getElem?_modifyObj_self, getElem?_modifyObj_ne _ _ hij, hb] at hb'
          cases ha'
          cases hb'
          exact pushed_apart_sq a.x a.y b.x b.y d _ r r hd hov.le hr1 hr1
        · simp only [hta, htb, if_true, reduceCtorEq, if_false] at ha' hb'
          generalize BUNKER_PUSH_FACTOR / (PUSH_FACTOR + BUNKER_PUSH_FACTOR) = r at hr2 ha' hb'
          rw [getElem?_modifyObj_self, ha] at ha'
          rw [getElem?_modifyObj_ne _ _ hij, hb] at hb'
          cases ha'
          cases hb'
          refine le_of_le_of_eq
            (pushed_apart_sq a.x a.y b.x b.y d _ r 0 hd hov.le hr2 (le_refl 0)) ?_
          dsimp only [Option.map]
          ring
        · simp only [hta, htb, if_true, reduceCtorEq, if_false] at ha' hb'
          generalize BUNKER_PUSH_FACTOR / (BUNKER_PUSH_FACTOR + PUSH_FACTOR) = r at hr3 ha' hb'
          rw [getElem?_modifyObj_ne _ _ hij.symm, ha] at ha'
          rw [getElem?_modifyObj_self, hb] at hb'
          cases ha'
          cases hb'
          refine le_of_le_of_eq
            (pushed_apart_sq a.x a.y b.x b.y d _ 0 r hd hov.le (le_refl 0) hr3) ?_
          dsimp only [Option.map]
          ring
        · exact absurd ⟨hta, htb⟩ hbb
      · exact hsame (resolvePair_apart hypot random g i j a b ha hb hd0 hov)

theorem collisionPairs_three : collisionPairs 3 = [(0, 1), (0, 2), (1, 2)] := by decide

theorem scenarioThree_pass :
    resolveUnitCollisions hypotQ (fun _ => 0) scenarioThree =
      (scenarioThree.modifyObj 1 (fun e => { e with x := e.x - 10, y := e.y - 0 })).modifyObj 2
        (fun e => { e with x := e.x + 10, y := e.y + 0 }) := by
  have hlen : scenarioThree.gameObjects.length = 3 := rfl
  have h01 : resolvePair hypotQ (fun _ => 0) scenarioThree (0, 1) = scenarioThree :=
    resolvePair_skip hypotQ _ scenarioThree 0 1 (Unit.init 100 100 1 0 30 2)
      (Unit.init 130 100 1 1 30 2) rfl rfl
      (Or.inl (by norm_num [checkUnitCollision, Unit.init]))
  have h02 : resolvePair hypotQ (fun _ => 0) scenarioThree (0, 2) = scenarioThree :=
    resolvePair_skip hypotQ _ scenarioThree 0 2 (Unit.init 100 100 1 0 30 2)
      (Unit.init 140 100 1 2 30 2) rfl rfl
      (Or.inl (by norm_num [checkUnitCollision, Unit.init]))
  have hd : hypotQ ((Unit.init 140 100 1 2 30 2).x - (Unit.init 130 100 1 1 30 2).x)
      ((Unit.init 140 100 1 2 30 2).y - (Unit.init 130 100 1 1 30 2).y) = 10 :=
    hypotQ_of_sq (by norm_num) (by norm_num [Unit.init])
  have h12 := resolvePair_push hypotQ (fun _ => 0) scenarioThree 1 2
    (Unit.init 130 100 1 1 30 2) (Unit.init 140 100 1 2 30 2) 10 rfl rfl
    (by norm_num [checkUnitCollision, Unit.init]) (by simp [Unit.init]) hd (by norm_num)
    (by norm_num [Unit.init])
  unfold resolveUnitCollisions
  rw [hlen, collisionPairs_three, List.foldl_cons, h01, List.foldl_cons, h02, List.foldl_cons,
    List.foldl_nil, h12]
  have hr : PUSH_FACTOR / (PUSH_FACTOR + PUSH_FACTOR) = 1 / 2 := by norm_num [PUSH_FACTOR]
  have ht1 : (Unit.init 130 100 1 1 30 2).type = .unit := rfl
  have ht2 : (Unit.init 140 100 1 2 30 2).type = .unit := rfl
  simp only [ht1, ht2, if_true, reduceCtorEq, if_false, hr]
  have e1 : ((Unit.init 140 100 1 2 30 2).x - (Unit.init 130 100 1 1 30 2).x) / 10 *
      ((Unit.init 130 100 1 1 30 2).size / 2 + (Unit.init 140 100 1 2 30 2).size / 2 - 10) *
      (1 / 2) = 10 := by norm_num [Unit.init]
  have e2 : ((Unit.init 140 100 1 2 30 2).y - (Unit.init 130 100 1 1 30 2).y) / 10 *
      ((Unit.init 130 100 1 1 30 2).size / 2 + (Unit.init 140 100 1 2 30 2).size / 2 - 10) *
      (1 / 2) = 0 := by norm_num [Unit.init]
  rw [e1, e2]

/-- C7, counterexample: three units of size 30 in a row at x = 100, 130, 140. The first two
touch (overlap 0) before the pass; resolving the pair of the last two moves the middle unit to
x = 120, so that after the pass the first two overlap by 10. -/
theorem C7_counterexample :
    ¬ OverlapNotIncreased hypotQ scenarioThree
        (resolveUnitCollisions hypotQ (fun _ => 0) scenarioThree) := by
  intro h
  have h0 : (resolveUnitCollisions hypotQ (fun _ => 0) scenarioThree).gameObjects[0]? =
      some (Unit.init 100 100 1 0 30 2) := by
    rw [scenarioThree_pass, getElem?_modifyObj_ne _ _ (by decide),
      getElem?_modifyObj_ne _ _ (by decide)]
    rfl
  have h1 : (resolveUnitCollisions hypotQ (fun _ => 0) scenarioThree).gameObjects[1]? =
      some { Unit.init 130 100 1 1 30 2 with x := 130 - 10, y := 100 - 0 } := by
    rw [scenarioThree_pass, getElem?_modifyObj_ne _ _ (by decide), getElem?_modifyObj_self]
    rfl
  have h2 := h 0 1 (Unit.init 100 100 1 0 30 2) (Unit.init 130 100 1 1 30 2) _ _ (by decide)
    rfl rfl h0 h1 (by norm_num [Unit.init]) (by norm_num [Unit.init]) (by simp [Unit.init])
  have a1 : hypotQ (130 - 10 - 100) (100 - 0 - 100) = 20 :=
    hypotQ_of_sq (by norm_num) (by norm_num)
  have a2 : hypotQ (130 - 100) (100 - 100) = 30 :=
    hypotQ_of_sq (by norm_num) (by norm_num)
  have h3 : max 0 ((30 : ℚ) / 2 + 30 / 2 - hypotQ (130 - 10 - 100) (100 - 0 - 100)) ≤
      max 0 ((30 : ℚ) / 2 + 30 / 2 - hypotQ (130 - 100) (100 - 100)) := h2
  rw [a1, a2] at h3
  norm_num at h3

theorem scenarioE_step :
    resolvePair hypotQ (fun _ => 0) scenarioE (0, 1) =
      (scenarioE.modifyObj 0 (fun e => { e with x := e.x - 10, y := e.y - 0 })).modifyObj 1
        (fun e => { e with x := e.x + 10, y := e.y + 0 }) := by
  have hd : hypotQ ((Unit.init 110 100 2 1 30 2).x - (Unit.init 100 100 1 0 30 2).x)
      ((Unit.init 110 100 2 1 30 2).y - (Unit.init 100 100 1 0 30 2).y) = 10 :=
    hypotQ_of_sq (by norm_num) (by norm_num [Unit.init])
  rw [resolvePair_push hypotQ (fun _ => 0) scenarioE 0 1
    (Unit.init 100 100 1 0 30 2) (Unit.init 110 100 2 1 30 2) 10 rfl rfl
    (by norm_num [checkUnitCollision, Unit.init]) (by simp [Unit.init]) hd (by norm_num)
    (by norm_num [Unit.init])]
  have hr : PUSH_FACTOR / (PUSH_FACTOR + PUSH_FACTOR) = 1 / 2 := by norm_num [PUSH_FACTOR]
  have ht1 : (Unit.init 100 100 1 0 30 2).type = .unit := rfl
  have ht2 : (Unit.init 110 100 2 1 30 2).type = .unit := rfl
  simp only [ht1, ht2, if_true, reduceCtorEq, if_false, hr]
  have e1 : ((Unit.init 110 100 2 1 30 2).x - (Unit.init 100 100 1 0 30 2).x) / 10 *
      ((Unit.init 100 100 1 0 30 2).size / 2 + (Unit.init 110 100 2 1 30 2).size / 2 - 10) *
      (1 / 2) = 10 := by norm_num [Unit.init]
  have e2 : ((Unit.init 110 100 2 1 30 2).y - (Unit.init 100 100 1 0 30 2).y) / 10 *
      ((Unit.init 100 100 1 0 30 2).size / 2 + (Unit.init 110 100 2 1 30 2).size / 2 - 10) *
      (1 / 2) = 0 := by norm_num [Unit.init]
  rw [e1, e2]

/-- C7, amended: for every population and every two distinct objects of it, the resolution of
that pair (one iteration of the inner loop of `resolveUnitCollisions`) keeps the sizes and does
not decrease the squared centre distance of the pair, so that it does not increase the overlap
`max(0, sum of half-sizes - centre distance)` of the pair, `Math.hypot` being non-negative,
zero only at (0, 0), and exact before and after the step. In a population of two objects the
pass is this one step. -/
theorem C7_pair_step_keeps_overlap (hypot : ℚ → ℚ → ℚ) (random : Nat → ℚ) (g : Game)
    (i j : Nat) (a b a' b' : Entity) (hij : i ≠ j)
    (ha : g.gameObjects[i]? = some a) (hb : g.gameObjects[j]? = some b)
    (hnn : 0 ≤ hypot (b.x - a.x) (b.y - a.y))
    (hz : hypot (b.x - a.x) (b.y - a.y) = 0 → b.x - a.x = 0 ∧ b.y - a.y = 0)
    (ha' : (resolvePair hypot random g (i, j)).gameObjects[i]? = some a')
    (hb' : (resolvePair hypot random g (i, j)).gameObjects[j]? = some b') :
    a'.size = a.size ∧ b'.size = b.size ∧
    (b.x - a.x) ^ 2 + (b.y - a.y) ^ 2 ≤ (b'.x - a'.x) ^ 2 + (b'.y - a'.y) ^ 2 ∧
    (0 ≤ hypot (b'.x - a'.x) (b'.y - a'.y) →
      hypot (b.x - a.x) (b.y - a.y) * hypot (b.x - a.x) (b.y - a.y) =
        (b.x - a.x) ^ 2 + (b.y - a.y) ^ 2 →
      hypot (b'.x - a'.x) (b'.y - a'.y) * hypot (b'.x - a'.x) (b'.y - a'.y) =
        (b'.x - a'.x) ^ 2 + (b'.y - a'.y) ^ 2 →
      pairOverlap hypot a' b' ≤ pairOverlap hypot a b) ∧
    (g.gameObjects.length = 2 → i = 0 → j = 1 →
      resolveUnitCollisions hypot random g = resolvePair hypot random g (i, j)) := by
  have hsa := resolvePair_size hypot random g (i, j) i a a' ha ha'
  have hsb := resolvePair_size hypot random g (i, j) j b b' hb hb'
  have hsq := resolvePair_sq_dist hypot random g i j a b a' b' hij ha hb hnn hz ha' hb'
  refine ⟨hsa, hsb, hsq, ?_, ?_⟩
  · intro hnn' hex hex'
    unfold pairOverlap
    rw [hsa, hsb]
    exact overlap_le_of_sq_le hnn' hex hex' hsq
  · intro hlen hi hj
    rw [hi, hj]
    exact resolveUnitCollisions_two hypot random g hlen

/-- Scenario E: the two units 10 apart are 30 apart after the step of their pair, which is the
whole pass; their overlap goes from 20 to 0. -/
theorem C7_pair_step_keeps_overlap_witness :
    ((110 : ℚ) - 100) ^ 2 + (100 - 100) ^ 2 ≤
      ((110 : ℚ) + 10 - (100 - 10)) ^ 2 + ((100 : ℚ) + 0 - (100 - 0)) ^ 2 :=
  (C7_pair_step_keeps_overlap hypotQ (fun _ => 0) scenarioE 0 1
    (Unit.init 100 100 1 0 30 2) (Unit.init 110 100 2 1 30 2)
    { Unit.init 100 100 1 0 30 2 with x := 100 - 10, y := 100 - 0 }
    { Unit.init 110 100 2 1 30 2 with x := 110 + 10, y := 100 + 0 }
    (by decide) rfl rfl
    (by
      rw [hypotQ_of_sq (by norm_num : (0 : ℚ) ≤ 10) (by norm_num [Unit.init])]
      norm_num)
    (by
      rw [hypotQ_of_sq (by norm_num : (0 : ℚ) ≤ 10) (by norm_num [Unit.init])]
      norm_num)
    (by
      rw [scenarioE_step, getElem?_modifyObj_ne _ _ (by decide), getElem?_modifyObj_self]
      rfl)
    (by
      rw [scenarioE_step, getElem?_modifyObj_self, getElem?_modifyObj_ne _ _ (by decide)]
      rfl)).2.2.1

theorem pushWeight_unit (e : Entity) (h : e.type = .unit) : pushWeight e = 1 / 2 := by
  unfold pushWeight
  rw [if_neg (by rw [h]; exact fun h2 => EntityType.noConfusion h2)]
  norm_num [PUSH_FACTOR]

theorem pushWeight_bunker (e : Entity) (h : e.type = .bunker) : pushWeight e = 1 / 10 := by
  unfold pushWeight
  rw [if_pos h]
  norm_num [BUNKER_PUSH_FACTOR]

theorem pushWeight_pos (e : Entity) : 0 < pushWeight e := by
  cases h : e.type
  · rw [pushWeight_unit e h]
    norm_num
  · rw [pushWeight_bunker e h]
    norm_num

/-- The objects at `i` and `j` after the push of a colliding pair. -/
theorem resolvePair_push_at (hypot : ℚ → ℚ → ℚ) (random : Nat → ℚ) (g : Game) (i j : Nat)
    (a b : Entity) (d : ℚ) (hij : i ≠ j)
    (ha : g.gameObjects[i]? = some a) (hb : g.gameObjects[j]? = some b)
    (hc : checkUnitCollision a b = true) (hbb : ¬ (a.type = .bunker ∧ b.type = .bunker))
    (hd : hypot (b.x - a.x) (b.y - a.y) = d) (hd0 : d ≠ 0)
    (hov : a.size / 2 + b.size / 2 - d > 0) :
    (resolvePair hypot random g (i, j)).gameObjects[i]? =
      some (if a.type = .unit then
        { a with
          x := a.x - (b.x - a.x) / d * (a.size / 2 + b.size / 2 - d) *
            (pushWeight b / (pushWeight a + pushWeight b)),
          y := a.y - (b.y - a.y) / d * (a.size / 2 + b.size / 2 - d) *
            (pushWeight b / (pushWeight a + pushWeight b)) }
        else a) ∧
    (resolvePair hypot random g (i, j)).gameObjects[j]? =
      some (if b.type = .unit then
        { b with
          x := b.x + (b.x - a.x) / d * (a.size / 2 + b.size / 2 - d) *
            (pushWeight a / (pushWeight a + pushWeight b)),
          y := b.y + (b.y - a.y) / d * (a.size / 2 + b.size / 2 - d) *
            (pushWeight a / (pushWeight a + pushWeight b)) }
        else b) := by
  rw [resolvePair_push hypot random g i j a b d ha hb hc hbb hd hd0 hov]
  unfold pushWeight
  have hu : ∀ e : Entity, ¬ e.type = .unit → e.type = .bunker := by
    intro e h
    cases h2 : e.type
    · exact absurd h2 h
    · rfl
  by_cases hta : a.type = .unit <;> by_cases htb : b.type = .unit
  · simp only [if_pos hta, if_pos htb]
    rw [getElem?_modifyObj_ne _ _ hij.symm, getElem?_modifyObj_self, ha,
      getElem?_modifyObj_self, getElem?_modifyObj_ne _ _ hij, hb]
    exact ⟨rfl, rfl⟩
  · simp only [if_pos hta, if_neg htb]
    rw [getElem?_modifyObj_self, ha, getElem?_modifyObj_ne _ _ hij, hb]
    exact ⟨rfl, rfl⟩
  · simp only [if_neg hta, if_pos htb]
    rw [getElem?_modifyObj_ne _ _ hij.symm, ha, getElem?_modifyObj_self, hb]
    exact ⟨rfl, rfl⟩
  · exact absurd ⟨hu a hta, hu b htb⟩ hbb

theorem checkedDiv_of_ne (a b : ℚ) (h : b ≠ 0) : checkedDiv a b = some (a / b) := by
  unfold checkedDiv
  rw [if_neg h]

theorem sqrtQ_eq_zero (q : ℚ) (h : sqrtQ q = 0) : q ≤ 0 := by
  unfold sqrtQ at h
  have hden : (q.den : ℚ) ≠ 0 := by exact_mod_cast q.den_nz
  rcases div_eq_zero_iff.mp h with h1 | h1
  · have h2 : Nat.sqrt (q.num.toNat * q.den) = 0 := by exact_mod_cast h1
    have h3 : q.num.toNat * q.den = 0 := Nat.sqrt_eq_zero.mp h2
    rcases Nat.mul_eq_zero.mp h3 with h4 | h4
    · have h5 : q.num ≤ 0 := Int.toNat_eq_zero.mp h4
      exact Rat.num_nonpos.mp h5
    · exact absurd h4 q.den_nz
  · exact absurd h1 hden

theorem hypotQ_eq_zero (p q : ℚ) (h : hypotQ p q = 0) : p = 0 ∧ q = 0 := by
  have h1 := sqrtQ_eq_zero _ h
  have hp := mul_self_nonneg p
  have hq := mul_self_nonneg q
  constructor
  · exact mul_self_eq_zero.mp (by linarith)
  · exact mul_self_eq_zero.mp (by linarith)

theorem performMovementChecked_eq (hypot : ℚ → ℚ → ℚ) (u : Entity)
    (hz : hypot (u.targetX - u.x) (u.targetY - u.y) = 0 →
      u.targetX - u.x = 0 ∧ u.targetY - u.y = 0) :
    Unit.performMovementChecked hypot u = some (Unit.performMovement hypot u) := by
  unfold Unit.performMovementChecked Unit.performMovement
  by_cases hthere : u.x = u.targetX ∧ u.y = u.targetY
  · rw [if_pos hthere, if_pos hthere]
  · rw [if_neg hthere, if_neg hthere]
    have hne : hypot (u.targetX - u.x) (u.targetY - u.y) ≠ 0 := by
      intro h0
      obtain ⟨hx, hy⟩ := hz h0
      exact hthere ⟨by linarith, by linarith⟩
    dsimp only
    by_cases hclose : hypot (u.targetX - u.x) (u.targetY - u.y) ≤ u.speed
    · simp only [if_pos hclose]
    · simp only [if_neg hclose, checkedDiv_of_ne _ _ hne, Option.bind_eq_bind, Option.some_bind]

theorem resolvePairChecked_eq (hypot : ℚ → ℚ → ℚ) (random : Nat → ℚ) (g : Game)
    (ij : Nat × Nat) :
    resolvePairChecked hypot random g ij = some (resolvePair hypot random g ij) := by
  unfold resolvePairChecked resolvePair
  cases hA : g.gameObjects[ij.1]? with
  | none => rfl
  | some objA =>
    cases hB : g.gameObjects[ij.2]? with
    | none => rfl
    | some objB =>
      have hdist : (if hypot (objB.x - objA.x) (objB.y - objA.y) = 0 then (1 / 10 : ℚ)
          else hypot (objB.x - objA.x) (objB.y - objA.y)) ≠ 0 := by
        split_ifs with h
        · norm_num
        · exact h
      have hsum : (if objA.type = .bunker then BUNKER_PUSH_FACTOR else PUSH_FACTOR) +
          (if objB.type = .bunker then BUNKER_PUSH_FACTOR else PUSH_FACTOR) ≠ 0 :=
        (add_pos (pushWeight_pos objA) (pushWeight_pos objB)).ne'
      dsimp only
      by_cases h1 : objA.health ≤ 0 ∨ objB.health ≤ 0 ∨
          (objA.type = .bunker ∧ objB.type = .bunker)
      · rw [if_pos h1, if_pos h1]
      · rw [if_neg h1, if_neg h1]
        by_cases h2 : checkUnitCollision objA objB = true
        · rw [if_pos h2, if_pos h2]
          by_cases h3 : objA.size / 2 + objB.size / 2 -
              (if hypot (objB.x - objA.x) (objB.y - objA.y) = 0 then 1 / 10
                else hypot (objB.x - objA.x) (objB.y - objA.y)) > 0
          · rw [if_pos h3, if_pos h3, checkedDiv_of_ne _ _ hdist, checkedDiv_of_ne _ _ hdist,
              checkedDiv_of_ne _ _ hsum, checkedDiv_of_ne _ _ hsum]
            rfl
          · rw [if_neg h3, if_neg h3]
        · rw [if_neg h2, if_neg h2]

theorem foldlM_some {α β : Type} (f : β → α → Option β) (k : β → α → β)
    (h : ∀ b a, f b a = some (k b a)) (l : List α) (b : β) :
    l.foldlM f b = some (l.foldl k b) := by
  induction l generalizing b with
  | nil => rfl
  | cons a l ih =>
    rw [List.foldlM_cons, h, List.foldl_cons]
    exact ih (k b a)

theorem resolveUnitCollisionsChecked_eq (hypot : ℚ → ℚ → ℚ) (random : Nat → ℚ) (g : Game) :
    resolveUnitCollisionsChecked hypot random g = some (resolveUnitCollisions hypot random g) :=
  foldlM_some _ _ (resolvePairChecked_eq hypot random) _ g

/-- C22: `checkedDiv` flags exactly the zero divisors, and with a `Math.hypot` that vanishes
only at (0, 0) no checked division of the simulation core is flagged: for every population the
collision pass with its divisions by `distance` and by `pushA + pushB` checked returns the
result of `resolveUnitCollisions` (also pair by pair), and for every unit state, whatever its
speed, `performMovement` with its divisions by `distance` checked returns the result of
`performMovement`. -/
theorem C22_no_zero_divisor (hypot : ℚ → ℚ → ℚ)
    (hz : ∀ p q : ℚ, hypot p q = 0 → p = 0 ∧ q = 0) :
    (∀ a b : ℚ, checkedDiv a b = none ↔ b = 0) ∧
    (∀ (random : Nat → ℚ) (g : Game) (ij : Nat × Nat),
      resolvePairChecked hypot random g ij = some (resolvePair hypot random g ij)) ∧
    (∀ (random : Nat → ℚ) (g : Game),
      resolveUnitCollisionsChecked hypot random g =
        some (resolveUnitCollisions hypot random g)) ∧
    (∀ u : Entity, Unit.performMovementChecked hypot u = some (Unit.performMovement hypot u)) := by
  refine ⟨fun a b => ?_, resolvePairChecked_eq hypot, resolveUnitCollisionsChecked_eq hypot,
    fun u => performMovementChecked_eq hypot u (hz _ _)⟩
  unfold checkedDiv
  by_cases h : b = 0
  · rw [if_pos h]
    exact ⟨fun _ => h, fun _ => rfl⟩
  · rw [if_neg h]
    exact ⟨fun h2 => (by cases h2), fun h2 => absurd h2 h⟩

/-- With the instance `hypotQ`: the pass over two units with the same centre, and the movement
of a unit with a negative speed, evaluate no division by zero. -/
theorem C22_no_zero_divisor_witness :
    resolveUnitCollisionsChecked hypotQ (fun _ => 0) scenarioCoincident =
        some (resolveUnitCollisions hypotQ (fun _ => 0) scenarioCoincident) ∧
    Unit.performMovementChecked hypotQ backwardMover =
        some (Unit.performMovement hypotQ backwardMover) :=
  ⟨(C22_no_zero_divisor hypotQ hypotQ_eq_zero).2.2.1 (fun _ => 0) scenarioCoincident,
   (C22_no_zero_divisor hypotQ hypotQ_eq_zero).2.2.2 backwardMover⟩

theorem findNearestEnemyInRange_eq (unit : Entity) (range : ℚ) (l : List Entity) :
    findNearestEnemyInRange unit range l =
      (l.foldl (nearestStep unit range) (none, range * range)).1 := rfl

theorem lt_length_of_getElem? {l : List Entity} {k : Nat} {e : Entity}
    (h : l[k]? = some e) : k < l.length := by
  by_contra hn
  rw [List.getElem?_eq_none (not_lt.mp hn)] at h
  cases h

theorem nearestStep_skip (unit : Entity) (range : ℚ) (acc : Option Entity × ℚ) (o : Entity)
    (h : unit.id = o.id ∨ o.health ≤ 0 ∨ o.playerId = unit.playerId) :
    nearestStep unit range acc o = acc := by
  unfold nearestStep
  rw [if_pos h]

theorem nearestStep_enemy (unit : Entity) (range : ℚ) (acc : Option Entity × ℚ) (o : Entity)
    (hr : 0 ≤ range) (hs : 0 ≤ unit.size / 2 + o.size / 2) (hacc : acc.2 ≤ range * range)
    (h : ¬ (unit.id = o.id ∨ o.health ≤ 0 ∨ o.playerId = unit.playerId)) :
    nearestStep unit range acc o =
      if distanceSq unit o < acc.2 then (some o, distanceSq unit o) else acc := by
  unfold nearestStep
  rw [if_neg h]
  dsimp only
  by_cases hlt : distanceSq unit o < acc.2
  · have hle : distanceSq unit o ≤
        (range + (unit.size / 2 + o.size / 2)) * (range + (unit.size / 2 + o.size / 2)) := by
      have h1 : range * range ≤
          (range + (unit.size / 2 + o.size / 2)) * (range + (unit.size / 2 + o.size / 2)) :=
        mul_self_le_mul_self hr (by linarith)
      linarith
    rw [if_pos hlt]
    exact if_pos ⟨hle, hlt⟩
  · rw [if_neg hlt]
    exact if_neg (fun h2 => hlt h2.2)

theorem nearestSoFar_nil (unit : Entity) (range : ℚ) :
    NearestSoFar unit range [] (none, range * range) := by
  refine ⟨le_refl _, fun _ => ⟨rfl, fun o ho => ?_⟩, fun e he => ?_⟩
  · cases ho
  · cases he

theorem nearestSoFar_snoc (unit : Entity) (range : ℚ) (l : List Entity)
    (acc : Option Entity × ℚ) (o : Entity) (hr : 0 ≤ range)
    (hs : 0 ≤ unit.size / 2 + o.size / 2) (h : NearestSoFar unit range l acc) :
    NearestSoFar unit range (l ++ [o]) (nearestStep unit range acc o) := by
  obtain ⟨hle, hnone, hsome⟩ := h
  have hmem : ∀ x, x ∈ l ++ [o] → x ∈ l ∨ x = o := by
    intro x hx
    rcases List.mem_append.mp hx with h1 | h1
    · exact Or.inl h1
    · exact Or.inr (List.mem_singleton.mp h1)
  have hold : ∀ (k : Nat) (e : Entity), l[k]? = some e → (l ++ [o])[k]? = some e := by
    intro k e hk
    rw [List.getElem?_append_left (lt_length_of_getElem? hk)]
    exact hk
  have hback : ∀ (k k2 : Nat) (e x : Entity), l[k]? = some e → k2 < k →
      (l ++ [o])[k2]? = some x → l[k2]? = some x := by
    intro k k2 e x hk hlt hx
    rw [List.getElem?_append_left (lt_trans hlt (lt_length_of_getElem? hk))] at hx
    exact hx
  -- the invariant is kept when the pair is left as it is and `o` is no nearer enemy in range
  have hkeep : (EnemyInRange unit range o → acc.2 ≤ distanceSq unit o ∧ acc.1 ≠ none) →
      NearestSoFar unit range (l ++ [o]) acc := by
    intro ho
    refine ⟨hle, fun hn => ⟨(hnone hn).1, fun x hx hc => ?_⟩, fun e he => ?_⟩
    · rcases hmem x hx with h1 | h1
      · exact (hnone hn).2 x h1 hc
      · rw [h1] at hc
        exact (ho hc).2 hn
    · obtain ⟨k, hk, hce, hd, hmin, hfirst⟩ := hsome e he
      refine ⟨k, hold k e hk, hce, hd, fun x hx hc => ?_, fun k2 x hlt hx hc => ?_⟩
      · rcases hmem x hx with h1 | h1
        · exact hmin x h1 hc
        · rw [h1] at hc ⊢
          exact (ho hc).1
      · exact hfirst k2 x hlt (hback k k2 e x hk hlt hx) hc
  by_cases hskip : unit.id = o.id ∨ o.health ≤ 0 ∨ o.playerId = unit.playerId
  · rw [nearestStep_skip unit range acc o hskip]
    apply hkeep
    intro hc
    rcases hskip with h1 | h1 | h1
    · exact absurd h1 hc.1
    · exact absurd hc.2.1 (not_lt.mpr h1)
    · exact absurd h1 hc.2.2.1
  · rw [nearestStep_enemy unit range acc o hr hs hle hskip]
    have hbasic : unit.id ≠ o.id ∧ 0 < o.health ∧ o.playerId ≠ unit.playerId := by
      push_neg at hskip
      exact hskip
    by_cases hlt : distanceSq unit o < acc.2
    · rw [if_pos hlt]
      have hco : EnemyInRange unit range o :=
        ⟨hbasic.1, hbasic.2.1, hbasic.2.2, lt_of_lt_of_le hlt hle⟩
      have hprev : ∀ x ∈ l, EnemyInRange unit range x → acc.2 ≤ distanceSq unit x := by
        intro x hx hc
        cases hacc : acc.1 with
        | none => exact absurd hc ((hnone hacc).2 x hx)
        | some e =>
          obtain ⟨_, _, _, _, hmin, _⟩ := hsome e hacc
          exact hmin x hx hc
      refine ⟨le_of_lt (lt_of_lt_of_le hlt hle), fun hn => (by cases hn), fun e he => ?_⟩
      have heo : o = e := by
        cases he
        rfl
      subst heo
      refine ⟨l.length, by simp, hco, rfl, fun x hx hc => ?_, fun k2 x hk2 hx hc => ?_⟩
      · rcases hmem x hx with h1 | h1
        · exact le_trans (le_of_lt hlt) (hprev x h1 hc)
        · rw [h1]
      · rw [List.getElem?_append_left hk2] at hx
        exact lt_of_lt_of_le hlt (hprev x (List.getElem?_mem hx) hc)
    · rw [if_neg hlt]
      apply hkeep
      intro hc
      refine ⟨not_lt.mp hlt, fun hn => ?_⟩
      have h1 := (hnone hn).1
      rw [h1] at hlt
      exact hlt hc.2.2.2

theorem nearestSoFar_foldl (unit : Entity) (range : ℚ) (l : List Entity) (hr : 0 ≤ range)
    (hs : ∀ o ∈ l, 0 ≤ unit.size / 2 + o.size / 2) :
    NearestSoFar unit range l (l.foldl (nearestStep unit range) (none, range * range)) := by
  induction l using List.reverseRecOn with
  | nil => exact nearestSoFar_nil unit range
  | append_singleton l o ih =>
    rw [List.foldl_append]
    exact nearestSoFar_snoc unit range l _ o hr (hs o (by simp))
      (ih (fun x hx => hs x (by simp [hx])))

/-- C23: for a unit and a population with non-negative sizes and a range `>= 0`,
`findNearestEnemyInRange` returns `null` exactly when the population has no enemy in range
(an object that is not the unit itself, has `health > 0`, another owner, and a squared centre
distance strictly below `range * range`); an object it returns stands at some index `k` of the
population, is an enemy in range, is at most as far as every enemy in range, is strictly
nearer than every enemy in range at an index before `k`, and its centre distance is strictly
below `range`. -/
theorem C23_nearest_enemy (unit : Entity) (range : ℚ) (objs : List Entity) (hr : 0 ≤ range)
    (hu : 0 ≤ unit.size) (hs : ∀ o ∈ objs, 0 ≤ o.size) :
    (findNearestEnemyInRange unit range objs = none ↔
      ∀ o ∈ objs, ¬ EnemyInRange unit range o) ∧
    (∀ e, findNearestEnemyInRange unit range objs = some e →
      ∃ k : Nat, objs[k]? = some e ∧ EnemyInRange unit range e ∧
        (∀ o ∈ objs, EnemyInRange unit range o → distanceSq unit e ≤ distanceSq unit o) ∧
        (∀ (k2 : Nat) (o : Entity), k2 < k → objs[k2]? = some o → EnemyInRange unit range o →
          distanceSq unit e < distanceSq unit o) ∧
        (∀ D : ℚ, 0 ≤ D → D * D = distanceSq unit e → D < range)) := by
  have hinv := nearestSoFar_foldl unit range objs hr
    (fun o ho => by have := hs o ho; linarith)
  rw [findNearestEnemyInRange_eq]
  generalize objs.foldl (nearestStep unit range) (none, range * range) = acc at hinv
  obtain ⟨_, hnone, hsome⟩ := hinv
  refine ⟨⟨fun hn => (hnone hn).2, fun hall => ?_⟩, fun e he => ?_⟩
  · cases hacc : acc.1 with
    | none => rfl
    | some e =>
      obtain ⟨k, hk, hce, _⟩ := hsome e hacc
      exact absurd hce (hall e (List.getElem?_mem hk))
  · obtain ⟨k, hk, hce, hd, hmin, hfirst⟩ := hsome e he
    refine ⟨k, hk, hce, fun o ho hc => ?_, fun k2 o hlt ho hc => ?_, fun D hD hDsq => ?_⟩
    · rw [hd]
      exact hmin o ho hc
    · rw [hd]
      exact hfirst k2 o hlt ho hc
    · by_contra hge
      have h1 : range * range ≤ D * D := mul_self_le_mul_self hr (not_lt.mp hge)
      have h2 := hce.2.2.2
      rw [hDsq] at h1
      linarith

/-- The searcher with range 150 in `searchPopulation`: the search returns an object, and the
properties of the result hold for it. -/
theorem C23_nearest_enemy_witness :
    (findNearestEnemyInRange searcher 150 searchPopulation = none ↔
      ∀ o ∈ searchPopulation, ¬ EnemyInRange searcher 150 o) ∧
    (∀ e, findNearestEnemyInRange searcher 150 searchPopulation = some e →
      ∃ k : Nat, searchPopulation[k]? = some e ∧ EnemyInRange searcher 150 e ∧
        (∀ o ∈ searchPopulation, EnemyInRange searcher 150 o →
          distanceSq searcher e ≤ distanceSq searcher o) ∧
        (∀ (k2 : Nat) (o : Entity), k2 < k → searchPopulation[k2]? = some o →
          EnemyInRange searcher 150 o → distanceSq searcher e < distanceSq searcher o) ∧
        (∀ D : ℚ, 0 ≤ D → D * D = distanceSq searcher e → D < 150)) :=
  C23_nearest_enemy searcher 150 searchPopulation (by norm_num)
    (by norm_num [searcher, Unit.init])
    (by
      intro o ho
      simp only [searchPopulation, List.mem_cons, List.mem_singleton, List.not_mem_nil,
        or_false] at ho
      rcases ho with rfl | rfl | rfl | rfl <;> norm_num [searcher, Unit.init])

/-- The search in `searchPopulation` returns the first of the two enemies that are 120 away. -/
theorem searchPopulation_result :
    findNearestEnemyInRange searcher 150 searchPopulation =
      some (Unit.init 220 100 2 2 30 2) := by
  norm_num [findNearestEnemyInRange, searchPopulation, searcher, Unit.init]

/-- Claim C9, amended (scenario C): an attacker at index `i` and a target (referenced by
`target`, found at index `t`) whose centre distance, as `Math.hypot` gives it, is
`<= attackRange + (attacker.size + target.size) / 2`.  After `handleCombat` the attacker's
position is unchanged and its movement target is its position.  If
`now - lastAttackTime >= attackCooldown` the target's health is `max(0, health - attackDamage)`,
which is `health - attackDamage` when `health >= attackDamage`, and `lastAttackTime` is `now`;
if the cooldown has not elapsed the target's health and `lastAttackTime` are unchanged. -/
theorem C9_combat_in_range (hypot : ℚ → ℚ → ℚ) (now : ℚ) (i target t : Nat) (g : Game)
    (self tgt : Entity) (hself : g.gameObjects[i]? = some self)
    (ht : indexOfId g.gameObjects target = t) (htgt : g.gameObjects[t]? = some tgt)
    (hin : hypot (tgt.x - self.x) (tgt.y - self.y) ≤
      self.attackRange + (self.size + tgt.size) / 2) :
    ∃ self' tgt' : Entity,
      (Unit.handleCombat hypot now i target g).gameObjects[i]? = some self' ∧
      (Unit.handleCombat hypot now i target g).gameObjects[t]? = some tgt' ∧
      self'.x = self.x ∧ self'.y = self.y ∧ self'.targetX = self.x ∧ self'.targetY = self.y ∧
      (now - self.lastAttackTime ≥ self.attackCooldown →
        tgt'.health = max 0 (tgt.health - self.attackDamage) ∧
        (tgt.health ≥ self.attackDamage → tgt'.health = tgt.health - self.attackDamage) ∧
        self'.lastAttackTime = now) ∧
      (¬ now - self.lastAttackTime ≥ self.attackCooldown →
        tgt'.health = tgt.health ∧ self'.lastAttackTime = self.lastAttackTime) := by
  subst ht
  have hin' : hypot (tgt.x - self.x) (tgt.y - self.y) ≤
      self.attackRange + (self.size / 2 + tgt.size / 2) := by
    have e : self.size / 2 + tgt.size / 2 = (self.size + tgt.size) / 2 := by ring
    rw [e]
    exact hin
  by_cases hready : now - self.lastAttackTime ≥ self.attackCooldown
  · rw [handleCombat_ready hypot now i target g self tgt hself htgt hin' hready]
    by_cases hti : indexOfId g.gameObjects target = i
    · rw [hti] at htgt ⊢
      rw [hself] at htgt
      cases htgt
      have hobj : (((g.modifyObj i (fun u => { u with targetX := u.x, targetY := u.y })).modifyObj
          i (fun e => e.takeDamage self.attackDamage)).modifyObj
          i (fun u => { u with lastAttackTime := now })).gameObjects[i]? =
          some { ({ self with targetX := self.x, targetY := self.y } : Entity).takeDamage
            self.attackDamage with lastAttackTime := now } := by
        rw [getElem?_modifyObj_self, getElem?_modifyObj_self, getElem?_modifyObj_self, hself]
        rfl
      refine ⟨_, _, hobj, hobj, ?_⟩
      rw [Entity.entity_takeDamage_eq]
      exact ⟨rfl, rfl, rfl, rfl,
        fun _ => ⟨damageHealth_eq_max _ _, fun hge => damageHealth_of_le hge, rfl⟩,
        fun h => absurd hready h⟩
    · have hobj1 : (((g.modifyObj i (fun u => { u with targetX := u.x, targetY := u.y })).modifyObj
          (indexOfId g.gameObjects target) (fun e => e.takeDamage self.attackDamage)).modifyObj
          i (fun u => { u with lastAttackTime := now })).gameObjects[i]? =
          some { ({ self with targetX := self.x, targetY := self.y } : Entity) with
            lastAttackTime := now } := by
        rw [getElem?_modifyObj_self, getElem?_modifyObj_ne _ _ hti, getElem?_modifyObj_self, hself]
        rfl
      have hobj2 : (((g.modifyObj i (fun u => { u with targetX := u.x, targetY := u.y })).modifyObj
          (indexOfId g.gameObjects target) (fun e => e.takeDamage self.attackDamage)).modifyObj
          i (fun u => { u with lastAttackTime := now })).gameObjects[
            indexOfId g.gameObjects target]? = some (tgt.takeDamage self.attackDamage) := by
        rw [getElem?_modifyObj_ne _ _ (Ne.symm hti), getElem?_modifyObj_self,
          getElem?_modifyObj_ne _ _ (Ne.symm hti), htgt]
        rfl
      refine ⟨_, _, hobj1, hobj2, rfl, rfl, rfl, rfl, fun _ => ⟨?_, fun hge => ?_, rfl⟩,
        fun h => absurd hready h⟩
      · rw [Entity.entity_takeDamage_eq]
        exact damageHealth_eq_max _ _
      · rw [Entity.entity_takeDamage_eq]
        exact damageHealth_of_le hge
  · rw [handleCombat_wait hypot now i target g self tgt hself htgt hin' hready]
    have hobj1 : (g.modifyObj i (fun u => { u with targetX := u.x, targetY := u.y })).gameObjects[i]? =
        some { self with targetX := self.x, targetY := self.y } := by
      rw [getElem?_modifyObj_self, hself]
      rfl
    by_cases hti : indexOfId g.gameObjects target = i
    · rw [hti] at htgt ⊢
      rw [hself] at htgt
      cases htgt
      exact ⟨_, _, hobj1, hobj1, rfl, rfl, rfl, rfl, fun h => absurd h hready,
        fun _ => ⟨rfl, rfl⟩⟩
    · have hobj2 : (g.modifyObj i (fun u => { u with targetX := u.x, targetY := u.y })).gameObjects[
          indexOfId g.gameObjects target]? = some tgt := by
        rw [getElem?_modifyObj_ne _ _ (Ne.symm hti), htgt]
      exact ⟨_, _, hobj1, hobj2, rfl, rfl, rfl, rfl, fun h => absurd h hready,
        fun _ => ⟨rfl, rfl⟩⟩

theorem scenarioC_inRange :
    hypotQ (targetC.x - attackerC.x) (targetC.y - attackerC.y) ≤
      attackerC.attackRange + (attackerC.size + targetC.size) / 2 := by
  have h120 : hypotQ (targetC.x - attackerC.x) (targetC.y - attackerC.y) = 120 :=
    hypotQ_of_sq (by norm_num) (by norm_num [targetC, attackerC, Unit.init])
  rw [h120]
  norm_num [targetC, attackerC, Unit.init]

/-- Witness of claim C9: scenario C (distance 120, range 100 + 30) at time 1000, when the
cooldown of 1000 has elapsed: the target goes from 100 to 90 health. -/
theorem C9_combat_in_range_witness :
    ∃ self' tgt' : Entity,
      (Unit.handleCombat hypotQ 1000 0 1 scenarioC).gameObjects[0]? = some self' ∧
      (Unit.handleCombat hypotQ 1000 0 1 scenarioC).gameObjects[1]? = some tgt' ∧
      self'.x = attackerC.x ∧ self'.y = attackerC.y ∧ self'.targetX = attackerC.x ∧
      self'.targetY = attackerC.y ∧
      (1000 - attackerC.lastAttackTime ≥ attackerC.attackCooldown →
        tgt'.health = max 0 (targetC.health - attackerC.attackDamage) ∧
        (targetC.health ≥ attackerC.attackDamage →
          tgt'.health = targetC.health - attackerC.attackDamage) ∧
        self'.lastAttackTime = 1000) ∧
      (¬ 1000 - attackerC.lastAttackTime ≥ attackerC.attackCooldown →
        tgt'.health = targetC.health ∧ self'.lastAttackTime = attackerC.lastAttackTime) :=
  C9_combat_in_range hypotQ 1000 0 1 1 scenarioC attackerC targetC rfl rfl rfl
    scenarioC_inRange

/-- Claim C9, counterexample: the attacker of scenario C (alive, `attackDamage` 10, cooldown
1000 elapsed at time 1000) in range of a live target with 5 health.  The condition
`now - lastAttackTime >= attackCooldown and target.health >= attackDamage` is false, and yet
the target's health is not unchanged: `handleCombat` sets it to 0. -/
theorem C9_counterexample :
    ∃ tgt' : Entity,
      scenarioWeakTarget.gameObjects[0]? = some attackerC ∧
      scenarioWeakTarget.gameObjects[1]? = some weakTarget ∧
      0 < attackerC.health ∧ 0 < weakTarget.health ∧
      hypotQ (weakTarget.x - attackerC.x) (weakTarget.y - attackerC.y) ≤
        attackerC.attackRange + (attackerC.size + weakTarget.size) / 2 ∧
      ¬ (1000 - attackerC.lastAttackTime ≥ attackerC.attackCooldown ∧
          weakTarget.health ≥ attackerC.attackDamage) ∧
      (Unit.handleCombat hypotQ 1000 0 1 scenarioWeakTarget).gameObjects[1]? = some tgt' ∧
      tgt'.health = 0 ∧ tgt'.health ≠ weakTarget.health := by
  have hready : 1000 - attackerC.lastAttackTime ≥ attackerC.attackCooldown := by
    norm_num [attackerC, Unit.init]
  have hin : hypotQ (weakTarget.x - attackerC.x) (weakTarget.y - attackerC.y) ≤
      attackerC.attackRange + (attackerC.size / 2 + weakTarget.size / 2) := by
    have e : attackerC.size / 2 + targetC.size / 2 = (attackerC.size + targetC.size) / 2 := by
      ring
    show hypotQ (targetC.x - attackerC.x) (targetC.y - attackerC.y) ≤
      attackerC.attackRange + (attackerC.size / 2 + targetC.size / 2)
    rw [e]
    exact scenarioC_inRange
  have h1 : (Unit.handleCombat hypotQ 1000 0 1 scenarioWeakTarget).gameObjects[1]? =
      some (weakTarget.takeDamage attackerC.attackDamage) := by
    rw [handleCombat_ready hypotQ 1000 0 1 scenarioWeakTarget attackerC weakTarget rfl rfl hin
      hready]
    have ht : indexOfId scenarioWeakTarget.gameObjects 1 = 1 := rfl
    rw [ht]
    dsimp only
    rw [getElem?_modifyObj_ne _ _ (by decide), getElem?_modifyObj_self,
      getElem?_modifyObj_ne _ _ (by decide)]
    rfl
  have h0 : (weakTarget.takeDamage attackerC.attackDamage).health = 0 := by
    rw [Entity.entity_takeDamage_eq]
    show damageHealth 5 attackerC.attackDamage = 0
    norm_num [damageHealth, attackerC, Unit.init]
  refine ⟨_, rfl, rfl, by norm_num [attackerC, Unit.init], by norm_num [weakTarget],
    scenarioC_inRange, ?_, h1, h0, ?_⟩
  · norm_num [attackerC, weakTarget, Unit.init]
  · rw [h0]
    norm_num [weakTarget]

/-! ## The calls of `takeDamage` -/

theorem handleCombatLogged_fst (hypot : ℚ → ℚ → ℚ) (now : ℚ) (i target : Nat) (g : Game) :
    (Unit.handleCombatLogged hypot now i target g).1 = Unit.handleCombat hypot now i target g := by
  unfold Unit.handleCombatLogged Unit.handleCombat
  dsimp only
  cases g.gameObjects[i]? with
  | none => rfl
  | some self =>
    cases g.gameObjects[indexOfId g.gameObjects target]? with
    | none => rfl
    | some tgt =>
      dsimp only
      split_ifs <;> rfl

theorem updateLogged_fst (hypot : ℚ → ℚ → ℚ) (now : ℚ) (i : Nat) (g : Game) :
    (Unit.updateLogged hypot now i g).1 = Unit.update hypot now i g := by
  unfold Unit.updateLogged Unit.update
  cases g.gameObjects[i]? with
  | none => rfl
  | some self0 =>
    dsimp only
    by_cases hdead : self0.health ≤ 0
    · rw [if_pos hdead, if_pos hdead]
    · rw [if_neg hdead, if_neg hdead]
      have key : ∀ (self : Entity) (g1 : Game),
          (match self.commandState with
          | .idle => (g1, [])
          | .moving =>
            (g1.modifyObj i (fun u =>
              let u1 := Unit.performMovement hypot { u with targetUnit := none }
              arriveAt u1.targetX u1.targetY u1), [])
          | .attacking =>
            match self.targetUnit with
            | none => (g1.modifyObj i (fun u => { u with commandState := .idle }), [])
            | some tid => Unit.handleCombatLogged hypot now i tid g1
          | .attackMoving =>
            match self.targetUnit with
            | some tid => Unit.handleCombatLogged hypot now i tid g1
            | none =>
              match findNearestEnemyInRange self self.targetAcquisitionRange g1.gameObjects with
              | some enemy =>
                Unit.handleCombatLogged hypot now i enemy.id
                  (g1.modifyObj i (fun u => { u with targetUnit := some enemy.id }))
              | none =>
                (g1.modifyObj i (fun u =>
                  let u1 := Unit.performMovement hypot
                    { u with targetX := u.aMoveTargetX, targetY := u.aMoveTargetY }
                  arriveAt u1.aMoveTargetX u1.aMoveTargetY u1),
                  ([] : List (Nat × ℚ)))).1 =
          (match self.commandState with
          | .idle => g1
          | .moving =>
            g1.modifyObj i (fun u =>
              let u1 := Unit.performMovement hypot { u with targetUnit := none }
              arriveAt u1.targetX u1.targetY u1)
          | .attacking =>
            match self.targetUnit with
            | none => g1.modifyObj i (fun u => { u with commandState := .idle })
            | some tid => Unit.handleCombat hypot now i tid g1
          | .attackMoving =>
            match self.targetUnit with
            | some tid => Unit.handleCombat hypot now i tid g1
            | none =>
              match findNearestEnemyInRange self self.targetAcquisitionRange g1.gameObjects with
              | some enemy =>
                Unit.handleCombat hypot now i enemy.id
                  (g1.modifyObj i (fun u => { u with targetUnit := some enemy.id }))
              | none =>
                g1.modifyObj i (fun u =>
                  let u1 := Unit.performMovement hypot
                    { u with targetX := u.aMoveTargetX, targetY := u.aMoveTargetY }
                  arriveAt u1.aMoveTargetX u1.aMoveTargetY u1)) := by
        intro self g1
        cases self.commandState with
        | idle => rfl
        | moving => rfl
        | attacking =>
          dsimp only
          cases self.targetUnit with
          | none => rfl
          | some tid => exact handleCombatLogged_fst hypot now i tid g1
        | attackMoving =>
          dsimp only
          cases self.targetUnit with
          | some tid => exact handleCombatLogged_fst hypot now i tid g1
          | none =>
            dsimp only
            cases findNearestEnemyInRange self self.targetAcquisitionRange g1.gameObjects with
            | none => rfl
            | some enemy => exact handleCombatLogged_fst hypot now i enemy.id _
      exact key _ _

theorem keepsCombat_of {f : Entity → Entity} (hb : Benign f) (ht : KeepsTimer f) :
    KeepsCombat f := fun e =>
  ⟨(hb e).2, (ht e).1, (ht e).2, (hb e).1.attackDamage⟩

theorem healthAt_modifyObj_keep (g : Game) (i k : Nat) {f : Entity → Entity}
    (hf : ∀ e, (f e).health = e.health) : healthAt (g.modifyObj i f) k = healthAt g k := by
  unfold healthAt
  rw [getElem?_modifyObj]
  split_ifs
  · cases g.gameObjects[k]? with
    | none => rfl
    | some e => exact congrArg some (hf e)
  · rfl

theorem timerAt_modifyObj_keep (g : Game) (i k : Nat) {f : Entity → Entity}
    (hf : ∀ e, (f e).lastAttackTime = e.lastAttackTime ∧
      (f e).attackCooldown = e.attackCooldown ∧ (f e).attackDamage = e.attackDamage) :
    timerAt (g.modifyObj i f) k = timerAt g k := by
  unfold timerAt
  rw [getElem?_modifyObj]
  split_ifs
  · cases g.gameObjects[k]? with
    | none => rfl
    | some e =>
      show some ((f e).lastAttackTime, (f e).attackCooldown, (f e).attackDamage) = _
      rw [(hf e).1, (hf e).2.1, (hf e).2.2]
      rfl
  · rfl

theorem healthAt_takeDamage (g : Game) (t k : Nat) (d : ℚ) :
    healthAt (g.modifyObj t (fun e => e.takeDamage d)) k =
      if t = k then (healthAt g k).map (fun h => damageHealth h d) else healthAt g k := by
  unfold healthAt
  rw [getElem?_modifyObj]
  split_ifs
  · cases g.gameObjects[k]? with
    | none => rfl
    | some e =>
      show some (e.takeDamage d).health = some (damageHealth e.health d)
      rw [Entity.entity_takeDamage_eq]
  · rfl

theorem timerAt_takeDamage (g : Game) (t k : Nat) (d : ℚ) :
    timerAt (g.modifyObj t (fun e => e.takeDamage d)) k = timerAt g k := by
  apply timerAt_modifyObj_keep
  intro e
  show (e.takeDamage d).lastAttackTime = _ ∧
    (e.takeDamage d).attackCooldown = _ ∧ (e.takeDamage d).attackDamage = _
  rw [Entity.entity_takeDamage_eq]
  exact ⟨rfl, rfl, rfl⟩

theorem timerAt_setLast (g : Game) (i : Nat) (now : ℚ) :
    timerAt (g.modifyObj i (fun u => { u with lastAttackTime := now })) i =
      (timerAt g i).map (fun p => (now, p.2.1, p.2.2)) := by
  unfold timerAt
  rw [getElem?_modifyObj_self]
  cases g.gameObjects[i]? with
  | none => rfl
  | some e => rfl

theorem damageStep_pre {now : ℚ} {i : Nat} {g g1 : Game} {r : Game × List (Nat × ℚ)}
    (hh : ∀ k, healthAt g1 k = healthAt g k) (ht : timerAt g1 i = timerAt g i)
    (h : DamageStep now i g1 r) : DamageStep now i g r := by
  unfold DamageStep at h ⊢
  rcases h with ⟨h1, h2, h3⟩ | ⟨t, last, cool, dmg, h1, h2, h3, h4, h5, h6, h7⟩
  · exact Or.inl ⟨h1, fun k => (h2 k).trans (hh k), h3.trans ht⟩
  · refine Or.inr ⟨t, last, cool, dmg, h1, ht ▸ h2, h3, h4, ?_, ?_, fun k hk => ?_⟩
    · rw [h5, hh]
    · rw [← hh]
      exact h6
    · rw [h7 k hk, hh]

theorem damageStep_quiet (now : ℚ) (i : Nat) (g : Game) {f : Entity → Entity}
    (hf : KeepsCombat f) : DamageStep now i g (g.modifyObj i f, []) :=
  Or.inl ⟨rfl, fun k => healthAt_modifyObj_keep g i k (fun e => (hf e).1),
    timerAt_modifyObj_keep g i i (fun e => (hf e).2)⟩

theorem damageStep_refl (now : ℚ) (i : Nat) (g : Game) : DamageStep now i g (g, []) :=
  Or.inl ⟨rfl, fun _ => rfl, rfl⟩

theorem handleCombatLogged_damageStep (hypot : ℚ → ℚ → ℚ) (now : ℚ) (i target : Nat)
    (g : Game) : DamageStep now i g (Unit.handleCombatLogged hypot now i target g) := by
  unfold Unit.handleCombatLogged
  dsimp only
  cases hself : g.gameObjects[i]? with
  | none => exact damageStep_refl now i g
  | some self =>
    cases htgt : g.gameObjects[indexOfId g.gameObjects target]? with
    | none => exact damageStep_refl now i g
    | some tgt =>
      dsimp only
      have hset1 : KeepsCombat (fun u : Entity => { u with targetX := u.x, targetY := u.y }) :=
        fun _ => ⟨rfl, rfl, rfl, rfl⟩
      have hset3 : KeepsCombat
          (fun u : Entity => { u with targetX := tgt.x, targetY := tgt.y }) :=
        fun _ => ⟨rfl, rfl, rfl, rfl⟩
      have hlast : ∀ e : Entity,
          ({ e with lastAttackTime := now } : Entity).health = e.health := fun _ => rfl
      by_cases hin : hypot (tgt.x - self.x) (tgt.y - self.y) ≤
          self.attackRange + (self.size / 2 + tgt.size / 2)
      · rw [if_pos hin]
        by_cases hready : now - self.lastAttackTime ≥ self.attackCooldown
        · rw [if_pos hready]
          have htimer : timerAt g i =
              some (self.lastAttackTime, self.attackCooldown, self.attackDamage) := by
            unfold timerAt
            rw [hself]
            rfl
          have hhealth : healthAt g (indexOfId g.gameObjects target) ≠ none := by
            unfold healthAt
            rw [htgt]
            exact fun h => by cases h
          refine Or.inr ⟨indexOfId g.gameObjects target, self.lastAttackTime,
            self.attackCooldown, self.attackDamage, rfl, htimer, hready, ?_, ?_, hhealth,
            fun k hk => ?_⟩
          · show timerAt ((_ : Game).modifyObj i _) i = _
            rw [timerAt_setLast, timerAt_takeDamage,
              timerAt_modifyObj_keep g i i (fun e => (hset1 e).2), htimer]
            rfl
          · show healthAt ((_ : Game).modifyObj i _) _ = _
            rw [healthAt_modifyObj_keep _ i _ hlast, healthAt_takeDamage, if_pos rfl,
              healthAt_modifyObj_keep g i _ (fun e => (hset1 e).1)]
          · show healthAt ((_ : Game).modifyObj i _) k = _
            rw [healthAt_modifyObj_keep _ i _ hlast, healthAt_takeDamage,
              if_neg (fun h => hk h.symm), healthAt_modifyObj_keep g i _ (fun e => (hset1 e).1)]
        · rw [if_neg hready]
          exact damageStep_quiet now i g hset1
      · rw [if_neg hin]
        have hmove : KeepsCombat (Unit.performMovement hypot) :=
          keepsCombat_of (benign_performMovement hypot) (keepsTimer_performMovement hypot)
        refine Or.inl ⟨rfl, fun k => ?_, ?_⟩
        · show healthAt ((g.modifyObj i _).modifyObj i _) k = _
          rw [healthAt_modifyObj_keep _ i k (fun e => (hmove e).1),
            healthAt_modifyObj_keep g i k (fun e => (hset3 e).1)]
        · show timerAt ((g.modifyObj i _).modifyObj i _) i = _
          rw [timerAt_modifyObj_keep _ i i (fun e => (hmove e).2),
            timerAt_modifyObj_keep g i i (fun e => (hset3 e).2)]

theorem updateLogged_damageStep (hypot : ℚ → ℚ → ℚ) (now : ℚ) (i : Nat) (g : Game) :
    DamageStep now i g (Unit.updateLogged hypot now i g) := by
  unfold Unit.updateLogged
  split
  · exact damageStep_refl now i g
  · rename_i self0 hself0
    have hidle : KeepsCombat
        (fun u : Entity => { u with commandState := CommandState.idle }) :=
      fun _ => ⟨rfl, rfl, rfl, rfl⟩
    have hclear : KeepsCombat clearTarget := fun _ => ⟨rfl, rfl, rfl, rfl⟩
    split_ifs with hdead
    · exact damageStep_quiet now i g hidle
    · simp only
      generalize hst : (match self0.targetUnit with
        | some tid => refDead g.gameObjects tid
        | none => false) = stale
      have hg1 : (∀ k, healthAt (if stale = true then g.modifyObj i clearTarget else g) k =
            healthAt g k) ∧
          timerAt (if stale = true then g.modifyObj i clearTarget else g) i = timerAt g i := by
        split_ifs
        · exact ⟨fun k => healthAt_modifyObj_keep g i k (fun e => (hclear e).1),
            timerAt_modifyObj_keep g i i (fun e => (hclear e).2)⟩
        · exact ⟨fun _ => rfl, rfl⟩
      generalize (if stale = true then g.modifyObj i clearTarget else g) = g1 at hg1 ⊢
      generalize (if stale = true then clearTarget self0 else self0) = self
      have hquiet : ∀ {f : Entity → Entity}, KeepsCombat f →
          DamageStep now i g (g1.modifyObj i f, []) :=
        fun hf => damageStep_pre hg1.1 hg1.2 (damageStep_quiet now i g1 hf)
      split
      · exact damageStep_pre hg1.1 hg1.2 (damageStep_refl now i g1)
      · exact hquiet (keepsCombat_of (benign_moveStep hypot) (keepsTimer_moveStep hypot))
      · split
        · exact hquiet hidle
        · exact damageStep_pre hg1.1 hg1.2 (handleCombatLogged_damageStep hypot now i _ g1)
      · split
        · exact damageStep_pre hg1.1 hg1.2 (handleCombatLogged_damageStep hypot now i _ g1)
        · split
          · rename_i enemy _
            have hset : KeepsCombat
                (fun u : Entity => { u with targetUnit := some enemy.id }) :=
              fun _ => ⟨rfl, rfl, rfl, rfl⟩
            refine damageStep_pre hg1.1 hg1.2 (damageStep_pre
              (fun k => healthAt_modifyObj_keep g1 i k (fun e => (hset e).1))
              (timerAt_modifyObj_keep g1 i i (fun e => (hset e).2))
              (handleCombatLogged_damageStep hypot now i _ _))
          · exact hquiet (keepsCombat_of (benign_attackMoveStep hypot)
              (keepsTimer_attackMoveStep hypot))

theorem updateLogged_other_timer (hypot : ℚ → ℚ → ℚ) (now : ℚ) (i j : Nat) (g : Game)
    (hij : i ≠ j) : timerAt (Unit.update hypot now j g) i = timerAt g i := by
  unfold timerAt
  cases he : g.gameObjects[i]? with
  | none =>
    have hlen := (Unit.update_step (fun _ => True) hypot now j g (fun _ _ => trivial)).objs.1
    have h1 : g.gameObjects.length ≤ i := by
      by_contra hcon
      rw [List.getElem?_eq_getElem (not_le.mp hcon)] at he
      cases he
    rw [List.getElem?_eq_none (by rw [hlen]; exact h1)]
  | some e =>
    obtain ⟨e', he', r⟩ := (Unit.update_step (fun _ => True) hypot now j g
      (fun _ _ => trivial)).objs.2 i e he
    have ho := r.2 hij
    rw [he', ho]
    rfl

theorem damageRun_chain (hypot : ℚ → ℚ → ℚ) (i : Nat) (steps : List (ℚ × Nat)) :
    ∀ (g : Game) (last cool dmg : ℚ), timerAt g i = some (last, cool, dmg) →
      List.Chain (fun a b => cool ≤ b - a) last (damageRun hypot i steps g).1 := by
  induction steps with
  | nil => exact fun _ _ _ _ _ => List.Chain.nil
  | cons step rest ih =>
    obtain ⟨now, j⟩ := step
    intro g last cool dmg ht
    simp only [damageRun]
    by_cases hj : j = i
    · subst hj
      rcases updateLogged_damageStep hypot now j g with ⟨h1, _, h3⟩ |
        ⟨t, last', cool', dmg', h1, h2, h3, h4, _⟩
      · rw [if_neg (fun h => h.2 h1)]
        exact ih _ last cool dmg (h3.trans ht)
      · rw [ht] at h2
        cases h2
        rw [if_pos ⟨rfl, by rw [h1]; exact List.cons_ne_nil _ _⟩]
        exact List.Chain.cons h3 (ih _ now cool dmg h4)
    · rw [if_neg (fun h => hj h.1)]
      refine ih _ last cool dmg ?_
      rw [updateLogged_fst, updateLogged_other_timer hypot now i j g (Ne.symm hj)]
      exact ht

theorem healthAt_eq_some {g g' : Game} {k : Nat} {e : Entity} (h : healthAt g' k = healthAt g k)
    (he : g.gameObjects[k]? = some e) :
    ∃ e', g'.gameObjects[k]? = some e' ∧ e'.health = e.health := by
  unfold healthAt at h
  rw [he] at h
  cases he' : g'.gameObjects[k]? with
  | none =>
    rw [he'] at h
    cases h
  | some e' =>
    rw [he'] at h
    exact ⟨e', rfl, Option.some.inj h⟩

/-- Claim C8: `Unit.updateLogged` is `Unit.update` with an entry in its log exactly where
`takeDamage` is called.  Take any sequence of `Unit.update` calls (of the attacker at index `i`
and of other objects, at any times, in particular at non-decreasing ones): the times at which
the update of the attacker calls `takeDamage`, preceded by its initial `lastAttackTime`,
differ successively by at least its `attackCooldown`.  For a single update of the attacker at
time `now`: if it calls `takeDamage` then it makes exactly one call, with the attacker's
`attackDamage`, `now - lastAttackTime >= attackCooldown` holds, `lastAttackTime` is `now`
afterwards, the health `h` of the target has become `max(0, h - attackDamage)` and no other
health has changed; if it makes no call, no health has changed at all. -/
theorem C8_attack_cooldown (hypot : ℚ → ℚ → ℚ) (i : Nat) (steps : List (ℚ × Nat)) (g : Game)
    (self : Entity) (hself : g.gameObjects[i]? = some self) :
    (∀ (now : ℚ) (j : Nat) (G : Game),
      (Unit.updateLogged hypot now j G).1 = Unit.update hypot now j G) ∧
    List.Chain' (fun a b => self.attackCooldown ≤ b - a)
      (self.lastAttackTime :: (damageRun hypot i steps g).1) ∧
    ∀ now : ℚ,
      ((Unit.updateLogged hypot now i g).2 = [] →
        ∀ (k : Nat) (e : Entity), g.gameObjects[k]? = some e →
          ∃ e', (Unit.update hypot now i g).gameObjects[k]? = some e' ∧ e'.health = e.health) ∧
      (∀ (t : Nat) (d : ℚ), (t, d) ∈ (Unit.updateLogged hypot now i g).2 →
        (Unit.updateLogged hypot now i g).2 = [(t, d)] ∧ d = self.attackDamage ∧
        now - self.lastAttackTime ≥ self.attackCooldown ∧
        (∃ self', (Unit.update hypot now i g).gameObjects[i]? = some self' ∧
          self'.lastAttackTime = now ∧ self'.attackCooldown = self.attackCooldown) ∧
        (∃ tgt tgt', g.gameObjects[t]? = some tgt ∧
          (Unit.update hypot now i g).gameObjects[t]? = some tgt' ∧
          tgt'.health = max 0 (tgt.health - d)) ∧
        ∀ (k : Nat) (e : Entity), k ≠ t → g.gameObjects[k]? = some e →
          ∃ e', (Unit.update hypot now i g).gameObjects[k]? = some e' ∧
            e'.health = e.health) := by
  have htimer : timerAt g i =
      some (self.lastAttackTime, self.attackCooldown, self.attackDamage) := by
    unfold timerAt
    rw [hself]
    rfl
  refine ⟨updateLogged_fst hypot, damageRun_chain hypot i steps g _ _ _ htimer, fun now => ?_⟩
  have hstep := updateLogged_damageStep hypot now i g
  rw [← updateLogged_fst]
  rcases hstep with ⟨h1, h2, _⟩ | ⟨t, last, cool, dmg, h1, h2, h3, h4, h5, h6, h7⟩
  · refine ⟨fun _ k e he => healthAt_eq_some (h2 k) he, fun t d hmem => ?_⟩
    rw [h1] at hmem
    cases hmem
  · rw [htimer] at h2
    cases h2
    refine ⟨fun hnil => ?_, fun t' d hmem => ?_⟩
    · rw [h1] at hnil
      cases hnil
    · rw [h1, List.mem_singleton] at hmem
      cases hmem
      refine ⟨h1, rfl, h3, ?_, ?_, fun k e hk he => healthAt_eq_some (h7 k hk) he⟩
      · unfold timerAt at h4
        cases hs : (Unit.updateLogged hypot now i g).1.gameObjects[i]? with
        | none =>
          rw [hs] at h4
          cases h4
        | some self' =>
          rw [hs] at h4
          have h4' := Option.some.inj h4
          exact ⟨self', rfl, congrArg Prod.fst h4', congrArg (fun p => p.2.1) h4'⟩
      · unfold healthAt at h5 h6
        cases htg : g.gameObjects[t]? with
        | none =>
          rw [htg] at h6
          exact absurd rfl h6
        | some tgt =>
          rw [htg] at h5
          cases htg' : (Unit.updateLogged hypot now i g).1.gameObjects[t]? with
          | none =>
            rw [htg'] at h5
            cases h5
          | some tgt' =>
            rw [htg'] at h5
            refine ⟨tgt, tgt', rfl, rfl, ?_⟩
            rw [← damageHealth_eq_max]
            exact Option.some.inj h5

theorem updateLogged_attacking (hypot : ℚ → ℚ → ℚ) (now : ℚ) (i tid : Nat) (g : Game)
    (self : Entity) (hself : g.gameObjects[i]? = some self) (halive : 0 < self.health)
    (htu : self.targetUnit = some tid) (hlive : refDead g.gameObjects tid = false)
    (hcs : self.commandState = .attacking) :
    Unit.updateLogged hypot now i g = Unit.handleCombatLogged hypot now i tid g := by
  unfold Unit.updateLogged
  rw [hself]
  simp only [not_le.2 halive, if_false, htu, hlive, hcs, Bool.false_eq_true]

theorem handleCombatLogged_ready (hypot : ℚ → ℚ → ℚ) (now : ℚ) (i target : Nat) (g : Game)
    (self tgt : Entity) (hself : g.gameObjects[i]? = some self)
    (htgt : g.gameObjects[indexOfId g.gameObjects target]? = some tgt)
    (hin : hypot (tgt.x - self.x) (tgt.y - self.y) ≤
      self.attackRange + (self.size / 2 + tgt.size / 2))
    (hready : now - self.lastAttackTime ≥ self.attackCooldown) :
    (Unit.handleCombatLogged hypot now i target g).2 =
      [(indexOfId g.gameObjects target, self.attackDamage)] := by
  unfold Unit.handleCombatLogged
  simp only [hself, htgt, hin, if_true, hready]

/-- The attacker of scenario C, ordered to attack the target and updated at time 1000, calls
`takeDamage(10)` on the object at index 1. -/
theorem scenarioC_logs_hit :
    (Unit.updateLogged hypotQ 1000 0 ((Command.attackUnit 0 1).apply scenarioC)).2 =
      [(1, 10)] := by
  have h0 : ((Command.attackUnit 0 1).apply scenarioC).gameObjects[0]? =
      some (Unit.attackUnit attackerC 1) := rfl
  have h1 : ((Command.attackUnit 0 1).apply scenarioC).gameObjects[
      indexOfId ((Command.attackUnit 0 1).apply scenarioC).gameObjects 1]? = some targetC := rfl
  have hlive : refDead ((Command.attackUnit 0 1).apply scenarioC).gameObjects 1 = false := by
    unfold refDead
    rw [h1]
    norm_num [targetC, Unit.init]
  rw [updateLogged_attacking hypotQ 1000 0 1 _ (Unit.attackUnit attackerC 1) h0
      (by norm_num [Unit.attackUnit, attackerC, Unit.init]) rfl hlive rfl,
    handleCombatLogged_ready hypotQ 1000 0 1 _ (Unit.attackUnit attackerC 1) targetC h0 h1
      (by
        have e : (Unit.attackUnit attackerC 1).size / 2 + targetC.size / 2 =
            (attackerC.size + targetC.size) / 2 := by
          norm_num [Unit.attackUnit, attackerC, targetC, Unit.init]
        rw [e]
        exact scenarioC_inRange)
      (by norm_num [Unit.attackUnit, attackerC, Unit.init])]
  rfl

/-- Witness of claim C8: the attacker of scenario C, ordered to attack the target, updated at
times 1000, 1500 and 2000. -/
theorem C8_attack_cooldown_witness :
    ((Command.attackUnit 0 1).apply scenarioC).gameObjects[0]? =
        some (Unit.attackUnit attackerC 1) ∧
    List.Chain' (fun a b => (Unit.attackUnit attackerC 1).attackCooldown ≤ b - a)
      ((Unit.attackUnit attackerC 1).lastAttackTime ::
        (damageRun hypotQ 0 [(1000, 0), (1500, 0), (2000, 0)]
          ((Command.attackUnit 0 1).apply scenarioC)).1) :=
  ⟨rfl, (C8_attack_cooldown hypotQ 0 [(1000, 0), (1500, 0), (2000, 0)]
    ((Command.attackUnit 0 1).apply scenarioC) (Unit.attackUnit attackerC 1) rfl).2.1⟩

/-! ## Claim C6: the units appended by the update pass -/

theorem spawnData_refl (b : Entity) : SpawnData b b := ⟨rfl, fun _ => ⟨rfl, rfl, rfl, rfl, rfl⟩⟩

theorem spawnData_onlyHealth {b0 b b' : Entity} (h : SpawnData b0 b) (ho : OnlyHealth b b') :
    SpawnData b0 b' := by
  unfold OnlyHealth at ho
  rw [ho]
  exact h

theorem spawnData_setLast {b0 b : Entity} (h : SpawnData b0 b) (now : ℚ) :
    SpawnData b0 { b with lastSpawnTime := now } := h

theorem spawnData_unit {b0 b b' : Entity} (h : SpawnData b0 b) (hu : b.type = .unit)
    (ht : b'.type = b.type) : SpawnData b0 b' := by
  refine ⟨ht.trans h.1, fun hb => ?_⟩
  rw [← h.1, hu] at hb
  cases hb

theorem spawnedUnit_congr {b0 b : Entity} (h : SpawnData b0 b) (hb : b0.type = .bunker)
    (id : Nat) : spawnedUnit b id = spawnedUnit b0 id := by
  obtain ⟨hx, hy, hs, hp, hr⟩ := h.2 hb
  unfold spawnedUnit
  rw [hx, hy, hs, hp, hr]

theorem duringPass_refl (g : Game) : DuringPass g g := by
  refine ⟨le_rfl, by simp, fun k b0 h => ⟨b0, h, spawnData_refl b0⟩, fun k e hk he => ?_⟩
  rw [List.getElem?_eq_none hk] at he
  cases he

theorem duringPass_updateObj (hypot : ℚ → ℚ → ℚ) (now : ℚ) (g G : Game) (j : Nat)
    (hj : j < g.gameObjects.length) (h : DuringPass g G) :
    DuringPass g (updateObj hypot now G j) := by
  obtain ⟨hlen, hid, hold, hnew⟩ := h
  unfold updateObj
  cases hobj : G.gameObjects[j]? with
  | none => exact ⟨hlen, hid, hold, hnew⟩
  | some obj =>
    dsimp only
    obtain ⟨b0j, hb0j⟩ : ∃ b0j, g.gameObjects[j]? = some b0j :=
      ⟨_, List.getElem?_eq_getElem hj⟩
    obtain ⟨b, hb, hdata⟩ := hold j b0j hb0j
    rw [hobj] at hb
    cases hb
    cases htype : obj.type with
    | bunker =>
      dsimp only
      rcases Bunker.update_cases hypot now j G with hc | ⟨_, _, _, _, _, _, _, hc⟩ |
        ⟨self, ps, hself, _, _, _, _, _, hc⟩
      · rw [hc]
        exact ⟨hlen, hid, hold, hnew⟩
      · rw [hc]
        refine ⟨by simpa [Game.modifyObj] using hlen, by simpa [Game.modifyObj] using hid,
          fun k b0 hk => ?_, fun k e hk he => ?_⟩
        · obtain ⟨b, hb, hd⟩ := hold k b0 hk
          rw [getElem?_modifyObj, hb]
          split_ifs
          · exact ⟨_, rfl, spawnData_setLast hd now⟩
          · exact ⟨b, rfl, hd⟩
        · rw [getElem?_modifyObj_ne G _ (by omega)] at he
          have hres := hnew k e hk he
          simpa [Game.modifyObj] using hres
      · rw [hobj] at hself
        cases hself
        rw [hc]
        have hobjs : (spawnResult now j obj ps G).gameObjects =
            List.modify (fun b => { b with lastSpawnTime := now }) j G.gameObjects ++
              [spawnedUnit obj G.nextId] := rfl
        have hlen' : (spawnResult now j obj ps G).gameObjects.length =
            G.gameObjects.length + 1 := by
          rw [hobjs]
          simp
        have hnext : (spawnResult now j obj ps G).nextId = G.nextId + 1 := rfl
        refine ⟨by omega, by rw [hnext, hlen', hid]; omega, fun k b0 hk => ?_,
          fun k e hk he => ?_⟩
        · obtain ⟨b, hb, hd⟩ := hold k b0 hk
          have hklt : k < G.gameObjects.length := lt_length_of_getElem? hb
          rw [hobjs, List.getElem?_append_left (by simpa using hklt), List.getElem?_modify, hb]
          split_ifs
          · exact ⟨_, rfl, spawnData_setLast hd now⟩
          · exact ⟨b, rfl, hd⟩
        · rw [hobjs] at he
          by_cases hlt : k < G.gameObjects.length
          · rw [List.getElem?_append_left (by simpa using hlt),
              List.getElem?_modify_ne _ _ (by omega)] at he
            exact hnew k e hk he
          · rw [List.getElem?_append_right (by simpa using hlt)] at he
            have hmem := List.getElem?_mem he
            rw [List.mem_singleton] at hmem
            have hkeq : k = G.gameObjects.length := by
              have := lt_length_of_getElem? he
              simp at this
              omega
            have hb0 : b0j.type = .bunker := by
              rw [← hdata.1]
              exact htype
            refine ⟨j, b0j, hb0j, hb0, ?_⟩
            rw [hmem, spawnedUnit_congr hdata hb0, hid, hkeq]
            exact OnlyHealth.onlyHealth_refl _
    | unit =>
      dsimp only
      have hstep := Unit.update_step (fun _ => True) hypot now j G (fun _ _ => trivial)
      refine ⟨by rw [hstep.objs.1]; exact hlen, by rw [hstep.nextId, hstep.objs.1]; exact hid,
        fun k b0 hk => ?_, fun k e hk he => ?_⟩
      · obtain ⟨b, hb, hd⟩ := hold k b0 hk
        obtain ⟨b', hb', r⟩ := hstep.objs.2 k b hb
        refine ⟨b', hb', ?_⟩
        by_cases hkj : k = j
        · subst hkj
          rw [hobj] at hb
          cases hb
          exact spawnData_unit hd htype r.1.1.type
        · exact spawnData_onlyHealth hd (r.2 hkj)
      · have hklt : k < G.gameObjects.length := by
          have := lt_length_of_getElem? he
          rw [hstep.objs.1] at this
          exact this
        obtain ⟨e2, he2, r⟩ := hstep.objs.2 k _ (List.getElem?_eq_getElem hklt)
        rw [he] at he2
        cases he2
        obtain ⟨i, b0, hi, hb0, ho⟩ := hnew k _ hk (List.getElem?_eq_getElem hklt)
        exact ⟨i, b0, hi, hb0, ho.onlyHealth_trans (r.2 (by omega))⟩

theorem duringPass_updatePrefix (hypot : ℚ → ℚ → ℚ) (now : ℚ) (g : Game) (j : Nat)
    (hj : j ≤ g.gameObjects.length) : DuringPass g (updatePrefix hypot now j g) := by
  induction j with
  | zero => exact duringPass_refl g
  | succ j ih =>
    rw [updatePrefix_succ]
    exact duringPass_updateObj hypot now g _ j (by omega) (ih (by omega))

/-- Claim C6, amended: the objects that the update pass of a frame appends to the population
are not updated in that pass.  The object at an index `k` beyond the population `g` the pass
started with is, at the end of the pass, the unit that a bunker of `g` spawns, exactly as
`Bunker.update` created it up to health lost to attackers: a unit of the bunker's owner with
the reference `g.nextId + (k - length)`, at the spawn point of that bunker
(`x + size / 2 + 20`, `y`), `attackMoving` to the bunker's rally point, without target. -/
theorem C6_spawned_units_not_updated (hypot : ℚ → ℚ → ℚ) (now : ℚ) (g : Game) (k : Nat)
    (e : Entity) (hk : g.gameObjects.length ≤ k)
    (he : (updatePass hypot now g).gameObjects[k]? = some e) :
    ∃ (i : Nat) (bunker : Entity), g.gameObjects[i]? = some bunker ∧ bunker.type = .bunker ∧
      e = { spawnedUnit bunker (g.nextId + (k - g.gameObjects.length)) with
            health := e.health } ∧
      e.type = .unit ∧ e.id = g.nextId + (k - g.gameObjects.length) ∧
      e.playerId = bunker.playerId ∧
      e.x = bunker.x + (bunker.size / 2 + 20) ∧ e.y = bunker.y ∧
      e.commandState = .attackMoving ∧ e.targetUnit = none ∧
      e.targetX = bunker.rallyPoint.1 ∧ e.targetY = bunker.rallyPoint.2 ∧
      e.aMoveTargetX = bunker.rallyPoint.1 ∧ e.aMoveTargetY = bunker.rallyPoint.2 := by
  rw [updatePass_eq_updatePrefix] at he
  obtain ⟨i, bunker, hi, hb, ho⟩ :=
    (duringPass_updatePrefix hypot now g g.gameObjects.length le_rfl).2.2.2 k e hk he
  unfold OnlyHealth at ho
  refine ⟨i, bunker, hi, hb, ho, ?_, ?_, ?_, ?_, ?_, ?_, ?_, ?_, ?_, ?_, ?_⟩
  all_goals
    rw [ho]
    rfl

/-- Witness of the amended claim C6: the unit spawned in scenario B by the pass at time
1500 is the unit the bunker at index 0 spawns under the reference 1. -/
theorem C6_spawned_units_not_updated_witness :
    (scenarioB.gameObjects.length ≤ 1 ∧
      (updatePass hypotQ 1500 scenarioB).gameObjects[1]? =
        some (spawnedUnit (Bunker.init 80 80 1 0 80) 1)) ∧
    ∃ (i : Nat) (bunker : Entity), scenarioB.gameObjects[i]? = some bunker ∧
      bunker.type = .bunker ∧
      spawnedUnit (Bunker.init 80 80 1 0 80) 1 =
        { spawnedUnit bunker (scenarioB.nextId + (1 - scenarioB.gameObjects.length)) with
          health := (spawnedUnit (Bunker.init 80 80 1 0 80) 1).health } ∧
      (spawnedUnit (Bunker.init 80 80 1 0 80) 1).type = .unit ∧
      (spawnedUnit (Bunker.init 80 80 1 0 80) 1).id =
        scenarioB.nextId + (1 - scenarioB.gameObjects.length) ∧
      (spawnedUnit (Bunker.init 80 80 1 0 80) 1).playerId = bunker.playerId ∧
      (spawnedUnit (Bunker.init 80 80 1 0 80) 1).x = bunker.x + (bunker.size / 2 + 20) ∧
      (spawnedUnit (Bunker.init 80 80 1 0 80) 1).y = bunker.y ∧
      (spawnedUnit (Bunker.init 80 80 1 0 80) 1).commandState = .attackMoving ∧
      (spawnedUnit (Bunker.init 80 80 1 0 80) 1).targetUnit = none ∧
      (spawnedUnit (Bunker.init 80 80 1 0 80) 1).targetX = bunker.rallyPoint.1 ∧
      (spawnedUnit (Bunker.init 80 80 1 0 80) 1).targetY = bunker.rallyPoint.2 ∧
      (spawnedUnit (Bunker.init 80 80 1 0 80) 1).aMoveTargetX = bunker.rallyPoint.1 ∧
      (spawnedUnit (Bunker.init 80 80 1 0 80) 1).aMoveTargetY = bunker.rallyPoint.2 :=
  ⟨⟨le_rfl, scenarioB_pass⟩,
   C6_spawned_units_not_updated hypotQ 1500 scenarioB 1 _ le_rfl scenarioB_pass⟩

/-! ## Claims C12, C13, C20 and C21: what the push and the movement step guarantee -/

theorem hypotUp_one_one : hypotUp 1 1 = ROOT_TWO_UP := by
  have h2 : ((1 : ℚ) * 1 + 1 * 1) = 2 := by norm_num
  have hs : Nat.sqrt (2 * 1 * 2 ^ 104) = 6369051672525772 := by
    symm
    rw [Nat.eq_sqrt]
    constructor <;> norm_num
  unfold hypotUp sqrtUp ROOT_TWO_UP
  rw [h2]
  have hn : (2 : ℚ).num = 2 := rfl
  have hd : (2 : ℚ).den = 1 := rfl
  have ht : Int.toNat 2 = 2 := rfl
  simp only [hn, hd, ht]
  rw [hs]
  norm_num
/-- Arithmetic of the push: with a positive distance `d`, a positive overlap `ov` and shares
`mA`, `mB` that are not both zero, each centre moves away from the other on each axis (or
not at all on that axis) and the squared centre distance strictly increases. -/
theorem away_facts (px py qx qy d ov mA mB ax ay bx bY : ℚ) (hd : 0 < d) (hov : 0 < ov)
    (hmA : 0 ≤ mA) (hmB : 0 ≤ mB) (hm : 0 < mA + mB)
    (hne : qx - px ≠ 0 ∨ qy - py ≠ 0)
    (hax : ax = px - (qx - px) / d * ov * mA) (hay : ay = py - (qy - py) / d * ov * mA)
    (hbx : bx = qx + (qx - px) / d * ov * mB) (hby : bY = qy + (qy - py) / d * ov * mB) :
    (ax - px) * (qx - px) ≤ 0 ∧ (ay - py) * (qy - py) ≤ 0 ∧
    0 ≤ (bx - qx) * (qx - px) ∧ 0 ≤ (bY - qy) * (qy - py) ∧
    (qx - px) ^ 2 + (qy - py) ^ 2 < (bx - ax) ^ 2 + (bY - ay) ^ 2 := by
  have hcA : 0 ≤ ov * mA / d := div_nonneg (mul_nonneg hov.le hmA) hd.le
  have hcB : 0 ≤ ov * mB / d := div_nonneg (mul_nonneg hov.le hmB) hd.le
  have hc : 0 < ov * (mA + mB) / d := div_pos (mul_pos hov hm) hd
  have hd0 : d ≠ 0 := ne_of_gt hd
  have e1 : (ax - px) * (qx - px) = -((qx - px) ^ 2 * (ov * mA / d)) := by
    rw [hax]
    field_simp
    ring
  have e2 : (ay - py) * (qy - py) = -((qy - py) ^ 2 * (ov * mA / d)) := by
    rw [hay]
    field_simp
    ring
  have e3 : (bx - qx) * (qx - px) = (qx - px) ^ 2 * (ov * mB / d) := by
    rw [hbx]
    field_simp
    ring
  have e4 : (bY - qy) * (qy - py) = (qy - py) ^ 2 * (ov * mB / d) := by
    rw [hby]
    field_simp
    ring
  have e5 : (bx - ax) ^ 2 + (bY - ay) ^ 2 =
      ((qx - px) ^ 2 + (qy - py) ^ 2) * (1 + ov * (mA + mB) / d) ^ 2 := by
    rw [hax, hay, hbx, hby]
    field_simp
    ring
  have hsq : 0 < (qx - px) ^ 2 + (qy - py) ^ 2 := by
    rcases hne with h | h
    · have := pow_pos (abs_pos.mpr h) 2
      rw [sq_abs] at this
      have h2 := sq_nonneg (qy - py)
      linarith
    · have := pow_pos (abs_pos.mpr h) 2
      rw [sq_abs] at this
      have h2 := sq_nonneg (qx - px)
      linarith
  refine ⟨?_, ?_, ?_, ?_, ?_⟩
  · rw [e1]
    exact neg_nonpos.mpr (mul_nonneg (sq_nonneg _) hcA)
  · rw [e2]
    exact neg_nonpos.mpr (mul_nonneg (sq_nonneg _) hcA)
  · rw [e3]
    exact mul_nonneg (sq_nonneg _) hcB
  · rw [e4]
    exact mul_nonneg (sq_nonneg _) hcB
  · rw [e5]
    generalize ov * (mA + mB) / d = c at hc
    have h1 : (1 : ℚ) < (1 + c) ^ 2 := by nlinarith
    calc (qx - px) ^ 2 + (qy - py) ^ 2 = ((qx - px) ^ 2 + (qy - py) ^ 2) * 1 := (mul_one _).symm
      _ < ((qx - px) ^ 2 + (qy - py) ^ 2) * (1 + c) ^ 2 := mul_lt_mul_of_pos_left h1 hsq

/-- The step of a pair of distinct objects whose centres differ: each of the two keeps
everything but its position, a bunker keeps its position too, on each axis each of the two has
moved away from the other or not at all, the squared centre distance has increased unless both
are unchanged, and both are unchanged when the computed distance is not below the sum of the
half-sizes. -/
theorem resolvePair_away (hypot : ℚ → ℚ → ℚ) (random : Nat → ℚ) (g : Game) (i j : Nat)
    (a b a' b' : Entity) (hij : i ≠ j)
    (ha : g.gameObjects[i]? = some a) (hb : g.gameObjects[j]? = some b)
    (hnn : 0 ≤ hypot (b.x - a.x) (b.y - a.y))
    (hz : hypot (b.x - a.x) (b.y - a.y) = 0 → b.x - a.x = 0 ∧ b.y - a.y = 0)
    (hd : b.x - a.x ≠ 0 ∨ b.y - a.y ≠ 0)
    (ha' : (resolvePair hypot random g (i, j)).gameObjects[i]? = some a')
    (hb' : (resolvePair hypot random g (i, j)).gameObjects[j]? = some b') :
    a' = { a with x := a'.x, y := a'.y } ∧ b' = { b with x := b'.x, y := b'.y } ∧
    (a.type = .bunker → a' = a) ∧ (b.type = .bunker → b' = b) ∧
    (a'.x - a.x) * (b.x - a.x) ≤ 0 ∧ (a'.y - a.y) * (b.y - a.y) ≤ 0 ∧
    0 ≤ (b'.x - b.x) * (b.x - a.x) ∧ 0 ≤ (b'.y - b.y) * (b.y - a.y) ∧
    (b.x - a.x) ^ 2 + (b.y - a.y) ^ 2 ≤ (b'.x - a'.x) ^ 2 + (b'.y - a'.y) ^ 2 ∧
    ((b'.x - a'.x) ^ 2 + (b'.y - a'.y) ^ 2 = (b.x - a.x) ^ 2 + (b.y - a.y) ^ 2 →
      a' = a ∧ b' = b) ∧
    (a.size / 2 + b.size / 2 ≤ hypot (b.x - a.x) (b.y - a.y) → a' = a ∧ b' = b) := by
  have hsame : resolvePair hypot random g (i, j) = g →
      a' = { a with x := a'.x, y := a'.y } ∧ b' = { b with x := b'.x, y := b'.y } ∧
      (a.type = .bunker → a' = a) ∧ (b.type = .bunker → b' = b) ∧
      (a'.x - a.x) * (b.x - a.x) ≤ 0 ∧ (a'.y - a.y) * (b.y - a.y) ≤ 0 ∧
      0 ≤ (b'.x - b.x) * (b.x - a.x) ∧ 0 ≤ (b'.y - b.y) * (b.y - a.y) ∧
      (b.x - a.x) ^ 2 + (b.y - a.y) ^ 2 ≤ (b'.x - a'.x) ^ 2 + (b'.y - a'.y) ^ 2 ∧
      ((b'.x - a'.x) ^ 2 + (b'.y - a'.y) ^ 2 = (b.x - a.x) ^ 2 + (b.y - a.y) ^ 2 →
        a' = a ∧ b' = b) ∧
      (a.size / 2 + b.size / 2 ≤ hypot (b.x - a.x) (b.y - a.y) → a' = a ∧ b' = b) := by
    intro h
    rw [h, ha] at ha'
    rw [h, hb] at hb'
    cases ha'
    cases hb'
    refine ⟨rfl, rfl, fun _ => rfl, fun _ => rfl, ?_, ?_, ?_, ?_, le_refl _,
      fun _ => ⟨rfl, rfl⟩, fun _ => ⟨rfl, rfl⟩⟩
    · rw [sub_self, zero_mul]
    · rw [sub_self, zero_mul]
    · rw [sub_self, zero_mul]
    · rw [sub_self, zero_mul]
  by_cases hskip : checkUnitCollision a b = false ∨ (a.type = .bunker ∧ b.type = .bunker)
  · exact hsame (resolvePair_skip hypot random g i j a b ha hb hskip)
  have hc : checkUnitCollision a b = true := by
    cases h : checkUnitCollision a b
    · exact absurd (Or.inl h) hskip
    · rfl
  have hbb : ¬ (a.type = .bunker ∧ b.type = .bunker) := fun h => hskip (Or.inr h)
  have hd0 : hypot (b.x - a.x) (b.y - a.y) ≠ 0 := by
    intro h0
    obtain ⟨hx, hy⟩ := hz h0
    rcases hd with h | h
    · exact h hx
    · exact h hy
  by_cases hov : a.size / 2 + b.size / 2 - hypot (b.x - a.x) (b.y - a.y) > 0
  swap
  · exact hsame (resolvePair_apart hypot random g i j a b ha hb hd0 hov)
  have hdpos : 0 < hypot (b.x - a.x) (b.y - a.y) := lt_of_le_of_ne hnn (Ne.symm hd0)
  obtain ⟨pa, pb⟩ := resolvePair_push_at hypot random g i j a b _ hij ha hb hc hbb rfl hd0 hov
  rw [ha'] at pa
  rw [hb'] at pb
  have pa2 := Option.some.inj pa
  have pb2 := Option.some.inj pb
  have hwa := pushWeight_pos a
  have hwb := pushWeight_pos b
  have hra : 0 < pushWeight b / (pushWeight a + pushWeight b) := div_pos hwb (add_pos hwa hwb)
  have hrb : 0 < pushWeight a / (pushWeight a + pushWeight b) := div_pos hwa (add_pos hwa hwb)
  have hnle : ¬ a.size / 2 + b.size / 2 ≤ hypot (b.x - a.x) (b.y - a.y) := by
    intro h
    linarith
  generalize hypot (b.x - a.x) (b.y - a.y) = d at hov hdpos pa2 pb2 hnle
  generalize pushWeight b / (pushWeight a + pushWeight b) = ra at hra pa2
  generalize pushWeight a / (pushWeight a + pushWeight b) = rb at hrb pb2
  have hu : ∀ e : Entity, ¬ e.type = .unit → e.type = .bunker := by
    intro e h
    cases h2 : e.type
    · exact absurd h2 h
    · rfl
  have hnb : ∀ e : Entity, e.type = .unit → ¬ e.type = .bunker := by
    intro e h h2
    rw [h] at h2
    exact EntityType.noConfusion h2
  by_cases hta : a.type = .unit <;> by_cases htb : b.type = .unit
  · rw [if_pos hta] at pa2
    rw [if_pos htb] at pb2
    subst pa2
    subst pb2
    obtain ⟨f1, f2, f3, f4, f5⟩ := away_facts a.x a.y b.x b.y d _ ra rb _ _ _ _ hdpos hov
      hra.le hrb.le (add_pos hra hrb) hd rfl rfl rfl rfl
    exact ⟨rfl, rfl, fun h => absurd h (hnb a hta), fun h => absurd h (hnb b htb),
      f1, f2, f3, f4, f5.le, fun h => absurd h (ne_of_gt f5), fun h => absurd h hnle⟩
  · rw [if_pos hta] at pa2
    rw [if_neg htb] at pb2
    subst pa2
    subst pb2
    obtain ⟨f1, f2, f3, f4, f5⟩ := away_facts a.x a.y b'.x b'.y d _ ra 0 _ _ b'.x b'.y hdpos hov
      hra.le (le_refl 0) (by linarith) hd rfl rfl (by ring) (by ring)
    exact ⟨rfl, rfl, fun h => absurd h (hnb a hta), fun _ => rfl,
      f1, f2, f3, f4, f5.le, fun h => absurd h (ne_of_gt f5), fun h => absurd h hnle⟩
  · rw [if_neg hta] at pa2
    rw [if_pos htb] at pb2
    subst pa2
    subst pb2
    obtain ⟨f1, f2, f3, f4, f5⟩ := away_facts a'.x a'.y b.x b.y d _ 0 rb a'.x a'.y _ _ hdpos hov
      (le_refl 0) hrb.le (by linarith) hd (by ring) (by ring) rfl rfl
    exact ⟨rfl, rfl, fun _ => rfl, fun h => absurd h (hnb b htb),
      f1, f2, f3, f4, f5.le, fun h => absurd h (ne_of_gt f5), fun h => absurd h hnle⟩
  · exact absurd ⟨hu a hta, hu b htb⟩ hbb
theorem list_pair {α : Type} (l : List α) (p q : α) (hlen : l.length = 2)
    (h0 : l[0]? = some p) (h1 : l[1]? = some q) : l = [p, q] := by
  match l, hlen with
  | [p0, q0], _ =>
    simp only [List.getElem?_cons_zero, List.getElem?_cons_succ] at h0 h1
    cases h0
    cases h1
    rfl

/-- Scenario E, for every `Math.hypot` that is exact at (10, 0): the pass puts the two units at
x = 90 and x = 120 and changes nothing else. -/
theorem scenarioE_pass (hypot : ℚ → ℚ → ℚ) (random : Nat → ℚ) (h : hypot 10 0 = 10) :
    (resolveUnitCollisions hypot random scenarioE).gameObjects =
      [{ Unit.init 100 100 1 0 30 2 with x := 90 },
       { Unit.init 110 100 2 1 30 2 with x := 120 }] := by
  have hd : hypot ((Unit.init 110 100 2 1 30 2).x - (Unit.init 100 100 1 0 30 2).x)
      ((Unit.init 110 100 2 1 30 2).y - (Unit.init 100 100 1 0 30 2).y) = 10 := by
    have e1 : (Unit.init 110 100 2 1 30 2).x - (Unit.init 100 100 1 0 30 2).x = 10 := by
      norm_num [Unit.init]
    have e2 : (Unit.init 110 100 2 1 30 2).y - (Unit.init 100 100 1 0 30 2).y = 0 := by
      norm_num [Unit.init]
    rw [e1, e2]
    exact h
  rw [resolveUnitCollisions_two hypot random scenarioE rfl,
    resolvePair_push hypot random scenarioE 0 1
      (Unit.init 100 100 1 0 30 2) (Unit.init 110 100 2 1 30 2) 10 rfl rfl
      (by norm_num [checkUnitCollision, Unit.init]) (by simp [Unit.init]) hd (by norm_num)
      (by norm_num [Unit.init])]
  have ht1 : (Unit.init 100 100 1 0 30 2).type = .unit := rfl
  have ht2 : (Unit.init 110 100 2 1 30 2).type = .unit := rfl
  simp only [ht1, ht2, if_true, reduceCtorEq, if_false]
  rw [(modifyObj_pair scenarioE _ _ rfl _ _).1]
  norm_num [Unit.init, PUSH_FACTOR]

theorem snug_apart (random : Nat → ℚ) (g : Game) (b : Entity)
    (hobjs : g.gameObjects = [snugUnitA, b]) (hx : b.x = 101) (hy : b.y = 101)
    (hs : b.size = ROOT_TWO_UP) :
    resolveUnitCollisions hypotUp random g = g := by
  have hxa : snugUnitA.x = 100 := rfl
  have hya : snugUnitA.y = 100 := rfl
  have hsa : snugUnitA.size = ROOT_TWO_UP := rfl
  have hD : hypotUp (b.x - snugUnitA.x) (b.y - snugUnitA.y) = ROOT_TWO_UP := by
    rw [hx, hy, hxa, hya]
    have e : (101 : ℚ) - 100 = 1 := by norm_num
    rw [e]
    exact hypotUp_one_one
  rw [resolveUnitCollisions_two hypotUp random g (by rw [hobjs]; rfl)]
  refine resolvePair_apart hypotUp random g 0 1 snugUnitA b (by rw [hobjs]; rfl)
    (by rw [hobjs]; rfl) ?_ ?_
  · rw [hD]
    norm_num [ROOT_TWO_UP]
  · rw [hD, hsa, hs]
    norm_num

/-- Claim C12, counterexample: two live units of size 1.4142135623730951 (the double that
`Math.hypot(1, 1)` returns) at (100, 100) and (101, 101). Their boxes overlap and their centre
distance, the square root of 2, is positive and below the sum of the half-sizes (its square 2
is below the square of that sum), yet the distance that the pass computes is that sum itself:
the computed overlap is 0 and the pass moves neither unit, so the centre distance is not
greater afterwards. -/
theorem C12_counterexample :
    snugUnitA.type = .unit ∧ snugUnitB.type = .unit ∧
    0 < snugUnitA.health ∧ 0 < snugUnitB.health ∧
    checkUnitCollision snugUnitA snugUnitB = true ∧
    0 < (snugUnitB.x - snugUnitA.x) ^ 2 + (snugUnitB.y - snugUnitA.y) ^ 2 ∧
    0 < (snugUnitA.size + snugUnitB.size) / 2 ∧
    (snugUnitB.x - snugUnitA.x) ^ 2 + (snugUnitB.y - snugUnitA.y) ^ 2 <
      ((snugUnitA.size + snugUnitB.size) / 2) ^ 2 ∧
    scenarioSnugUnits.gameObjects = [snugUnitA, snugUnitB] ∧
    ∀ random : Nat → ℚ,
      resolveUnitCollisions hypotUp random scenarioSnugUnits = scenarioSnugUnits := by
  refine ⟨rfl, rfl, ?_, ?_, ?_, ?_, ?_, ?_, rfl, fun random => ?_⟩
  · norm_num [snugUnitA, Unit.init]
  · norm_num [snugUnitB, Unit.init]
  · norm_num [checkUnitCollision, snugUnitA, snugUnitB, Unit.init, ROOT_TWO_UP]
  · norm_num [snugUnitA, snugUnitB, Unit.init]
  · norm_num [snugUnitA, snugUnitB, Unit.init, ROOT_TWO_UP]
  · norm_num [snugUnitA, snugUnitB, Unit.init, ROOT_TWO_UP]
  · exact snug_apart random scenarioSnugUnits snugUnitB rfl rfl rfl rfl

/-- Claim C12, amended: one `resolveUnitCollisions` pass over a population of just two units
whose centres differ (`Math.hypot` non-negative, and zero only at (0, 0)) brings neither unit
closer to the other, whether or not their boxes overlap. Each unit keeps everything but its position;
on each axis each unit has moved away from the other or not at all; the squared centre
distance has not decreased, and it is strictly greater (the overlap strictly smaller, the
sizes being kept) unless neither unit has moved at all; neither moves when the distance
computed by `Math.hypot` is not below the sum of the half-sizes. In Scenario E itself (size
30, centres 10 apart on the x axis, `Math.hypot` exact at (10, 0)) the units end at x = 90 and
x = 120, the sum of their half-sizes apart. -/
theorem C12_two_units_not_closer (hypot : ℚ → ℚ → ℚ) (random : Nat → ℚ) (g : Game)
    (a b : Entity) (hobjs : g.gameObjects = [a, b])
    (hta : a.type = .unit) (htb : b.type = .unit)
    (hnn : 0 ≤ hypot (b.x - a.x) (b.y - a.y))
    (hz : hypot (b.x - a.x) (b.y - a.y) = 0 → b.x - a.x = 0 ∧ b.y - a.y = 0)
    (hd : b.x - a.x ≠ 0 ∨ b.y - a.y ≠ 0) :
    (∃ a' b' : Entity,
      (resolveUnitCollisions hypot random g).gameObjects = [a', b'] ∧
      a'.type = .unit ∧ b'.type = .unit ∧
      a' = { a with x := a'.x, y := a'.y } ∧ b' = { b with x := b'.x, y := b'.y } ∧
      (a'.x - a.x) * (b.x - a.x) ≤ 0 ∧ (a'.y - a.y) * (b.y - a.y) ≤ 0 ∧
      0 ≤ (b'.x - b.x) * (b.x - a.x) ∧ 0 ≤ (b'.y - b.y) * (b.y - a.y) ∧
      (b.x - a.x) ^ 2 + (b.y - a.y) ^ 2 ≤ (b'.x - a'.x) ^ 2 + (b'.y - a'.y) ^ 2 ∧
      ((b'.x - a'.x) ^ 2 + (b'.y - a'.y) ^ 2 = (b.x - a.x) ^ 2 + (b.y - a.y) ^ 2 →
        a' = a ∧ b' = b) ∧
      (a.size / 2 + b.size / 2 ≤ hypot (b.x - a.x) (b.y - a.y) → a' = a ∧ b' = b)) ∧
    (∀ (hypotE : ℚ → ℚ → ℚ) (randomE : Nat → ℚ), hypotE 10 0 = 10 →
      (resolveUnitCollisions hypotE randomE scenarioE).gameObjects =
        [{ Unit.init 100 100 1 0 30 2 with x := 90 },
         { Unit.init 110 100 2 1 30 2 with x := 120 }]) := by
  refine ⟨?_, fun hypotE randomE h => scenarioE_pass hypotE randomE h⟩
  have hlen : g.gameObjects.length = 2 := by rw [hobjs]; rfl
  have h0 : g.gameObjects[0]? = some a := by rw [hobjs]; rfl
  have h1 : g.gameObjects[1]? = some b := by rw [hobjs]; rfl
  have hlen' := (resolvePair_frame (fun _ => True) hypot random g (0, 1)).objs.1
  obtain ⟨a', ha', -⟩ := (resolvePair_frame (fun _ => True) hypot random g (0, 1)).objs.2 0 a h0
  obtain ⟨b', hb', -⟩ := (resolvePair_frame (fun _ => True) hypot random g (0, 1)).objs.2 1 b h1
  obtain ⟨f1, f2, -, -, f3, f4, f5, f6, f7, f8, f9⟩ :=
    resolvePair_away hypot random g 0 1 a b a' b' (by decide) h0 h1 hnn hz hd ha' hb'
  rw [resolveUnitCollisions_two hypot random g hlen]
  refine ⟨a', b', ?_, ?_, ?_, f1, f2, f3, f4, f5, f6, f7, f8, f9⟩
  · exact list_pair _ a' b' (hlen'.trans hlen) ha' hb'
  · rw [f1]
    exact hta
  · rw [f2]
    exact htb
/-- Witness of the amended claim C12: Scenario E, with the computable `hypotQ`. -/
theorem C12_two_units_not_closer_witness :
    (scenarioE.gameObjects = [Unit.init 100 100 1 0 30 2, Unit.init 110 100 2 1 30 2] ∧
      ((Unit.init 110 100 2 1 30 2).x - (Unit.init 100 100 1 0 30 2).x ≠ 0 ∨
        (Unit.init 110 100 2 1 30 2).y - (Unit.init 100 100 1 0 30 2).y ≠ 0)) ∧
    ∃ a' b' : Entity,
      (resolveUnitCollisions hypotQ (fun _ => 0) scenarioE).gameObjects = [a', b'] ∧
      ((110 : ℚ) - 100) ^ 2 + (100 - 100) ^ 2 ≤ (b'.x - a'.x) ^ 2 + (b'.y - a'.y) ^ 2 := by
  have hd : (Unit.init 110 100 2 1 30 2).x - (Unit.init 100 100 1 0 30 2).x ≠ 0 ∨
      (Unit.init 110 100 2 1 30 2).y - (Unit.init 100 100 1 0 30 2).y ≠ 0 :=
    Or.inl (by norm_num [Unit.init])
  have hD : hypotQ ((Unit.init 110 100 2 1 30 2).x - (Unit.init 100 100 1 0 30 2).x)
      ((Unit.init 110 100 2 1 30 2).y - (Unit.init 100 100 1 0 30 2).y) = 10 :=
    hypotQ_of_sq (by norm_num) (by norm_num [Unit.init])
  obtain ⟨a', b', h1, -, -, -, -, -, -, -, -, h2, -, -⟩ :=
    (C12_two_units_not_closer hypotQ (fun _ => 0) scenarioE (Unit.init 100 100 1 0 30 2)
      (Unit.init 110 100 2 1 30 2) rfl rfl rfl (by rw [hD]; norm_num)
      (fun h => hypotQ_eq_zero _ _ h) hd).1
  exact ⟨⟨rfl, hd⟩, a', b', h1, h2⟩
theorem sqrtQ_nonneg (q : ℚ) : 0 ≤ sqrtQ q := by
  unfold sqrtQ
  exact div_nonneg (Nat.cast_nonneg _) (Nat.cast_nonneg _)

theorem hypotQ_sound (p q : ℚ) : 0 ≤ hypotQ p q ∧ (hypotQ p q = 0 → p = 0 ∧ q = 0) :=
  ⟨sqrtQ_nonneg _, hypotQ_eq_zero p q⟩

/-- The unit of size 30 whose centre is 10 to the left of the centre of a bunker of size 80,
for every `Math.hypot` that is exact at (10, 0): the pass moves the unit 45/6 to the left and
leaves the bunker as it is. -/
theorem scenarioUnitBunker_pass (hypot : ℚ → ℚ → ℚ) (random : Nat → ℚ) (h : hypot 10 0 = 10) :
    (resolveUnitCollisions hypot random scenarioUnitBunker).gameObjects =
      [{ unitNearBunker with x := 185 / 2 }, bunkerNearUnit] := by
  have hd : hypot (bunkerNearUnit.x - unitNearBunker.x) (bunkerNearUnit.y - unitNearBunker.y) =
      10 := by
    have e1 : bunkerNearUnit.x - unitNearBunker.x = 10 := by
      norm_num [unitNearBunker, bunkerNearUnit, Unit.init, Bunker.init]
    have e2 : bunkerNearUnit.y - unitNearBunker.y = 0 := by
      norm_num [unitNearBunker, bunkerNearUnit, Unit.init, Bunker.init]
    rw [e1, e2]
    exact h
  rw [resolveUnitCollisions_two hypot random scenarioUnitBunker rfl,
    resolvePair_push hypot random scenarioUnitBunker 0 1 unitNearBunker bunkerNearUnit 10 rfl rfl
      (by norm_num [checkUnitCollision, unitNearBunker, bunkerNearUnit, Unit.init, Bunker.init])
      (by simp [unitNearBunker, Unit.init]) hd (by norm_num)
      (by norm_num [unitNearBunker, bunkerNearUnit, Unit.init, Bunker.init])]
  have ht1 : unitNearBunker.type = .unit := rfl
  have ht2 : bunkerNearUnit.type = .bunker := rfl
  simp only [ht1, ht2, if_true, reduceCtorEq, if_false]
  rw [(modifyObj_pair scenarioUnitBunker _ _ rfl _ (fun e => e)).2.1]
  norm_num [unitNearBunker, bunkerNearUnit, Unit.init, Bunker.init, PUSH_FACTOR,
    BUNKER_PUSH_FACTOR]

/-- Claim C13, counterexample: a live unit at (100, 100) and a live bunker at (101, 101), both
of size 1.4142135623730951 (the double that `Math.hypot(1, 1)` returns). Their boxes overlap
and their centre distance, the square root of 2, is positive and below the sum of the
half-sizes (its square 2 is below the square of that sum), yet the pass computes an overlap of
0 and leaves the unit where it is: its displacement is zero, not strictly positive. -/
theorem C13_counterexample :
    snugUnitA.type = .unit ∧ snugBunker.type = .bunker ∧
    0 < snugUnitA.health ∧ 0 < snugBunker.health ∧
    checkUnitCollision snugUnitA snugBunker = true ∧
    0 < (snugBunker.x - snugUnitA.x) ^ 2 + (snugBunker.y - snugUnitA.y) ^ 2 ∧
    0 < snugUnitA.size / 2 + snugBunker.size / 2 ∧
    (snugBunker.x - snugUnitA.x) ^ 2 + (snugBunker.y - snugUnitA.y) ^ 2 <
      (snugUnitA.size / 2 + snugBunker.size / 2) ^ 2 ∧
    scenarioSnugBunker.gameObjects = [snugUnitA, snugBunker] ∧
    ∀ random : Nat → ℚ,
      (resolveUnitCollisions hypotUp random scenarioSnugBunker).gameObjects =
        [snugUnitA, snugBunker] := by
  refine ⟨rfl, rfl, ?_, ?_, ?_, ?_, ?_, ?_, rfl, fun random => ?_⟩
  · norm_num [snugUnitA, Unit.init]
  · norm_num [snugBunker, Bunker.init]
  · norm_num [checkUnitCollision, snugUnitA, snugBunker, Unit.init, Bunker.init, ROOT_TWO_UP]
  · norm_num [snugUnitA, snugBunker, Unit.init, Bunker.init]
  · norm_num [snugUnitA, snugBunker, Unit.init, Bunker.init, ROOT_TWO_UP]
  · norm_num [snugUnitA, snugBunker, Unit.init, Bunker.init, ROOT_TWO_UP]
  · rw [snug_apart random scenarioSnugBunker snugBunker rfl rfl rfl rfl]
    rfl

/-- Claim C13, amended: a collision pass leaves every bunker as it is, in every population. In
a population of one unit `u` and one bunker `c` whose centres differ (`Math.hypot`
non-negative, and zero only at (0, 0)), whichever of the two comes first and whether or not
their boxes overlap, the pass leaves the bunker as it is and never brings the unit closer to
it: the unit keeps everything but its position, on each axis it has moved away from the centre
of the bunker or not at all, and its squared distance to that centre has strictly increased
unless the unit has not moved; it does not move when the distance computed by `Math.hypot` is
not below the sum of the half-sizes. The unit of size 30 whose centre is 10 to the left of the
centre of a bunker of size 80 is moved to the left, the bunker not at all, `Math.hypot` being
exact at (10, 0). -/
theorem C13_bunkers_never_move (hypot : ℚ → ℚ → ℚ) (random : Nat → ℚ) (u c : Entity)
    (htu : u.type = .unit) (htc : c.type = .bunker) :
    (∀ (g : Game) (k : Nat) (e : Entity), g.gameObjects[k]? = some e → e.type = .bunker →
      (resolveUnitCollisions hypot random g).gameObjects[k]? = some e) ∧
    ((∀ p q : ℚ, 0 ≤ hypot p q ∧ (hypot p q = 0 → p = 0 ∧ q = 0)) →
      (u.x - c.x ≠ 0 ∨ u.y - c.y ≠ 0) → ∀ g : Game, g.gameObjects = [u, c] →
      ∃ u' : Entity, (resolveUnitCollisions hypot random g).gameObjects = [u', c] ∧
        u'.type = .unit ∧ u' = { u with x := u'.x, y := u'.y } ∧
        0 ≤ (u'.x - u.x) * (u.x - c.x) ∧ 0 ≤ (u'.y - u.y) * (u.y - c.y) ∧
        (u.x - c.x) ^ 2 + (u.y - c.y) ^ 2 ≤ (u'.x - c.x) ^ 2 + (u'.y - c.y) ^ 2 ∧
        ((u'.x - c.x) ^ 2 + (u'.y - c.y) ^ 2 = (u.x - c.x) ^ 2 + (u.y - c.y) ^ 2 → u' = u) ∧
        (u.size / 2 + c.size / 2 ≤ hypot (c.x - u.x) (c.y - u.y) → u' = u)) ∧
    ((∀ p q : ℚ, 0 ≤ hypot p q ∧ (hypot p q = 0 → p = 0 ∧ q = 0)) →
      (u.x - c.x ≠ 0 ∨ u.y - c.y ≠ 0) → ∀ g : Game, g.gameObjects = [c, u] →
      ∃ u' : Entity, (resolveUnitCollisions hypot random g).gameObjects = [c, u'] ∧
        u'.type = .unit ∧ u' = { u with x := u'.x, y := u'.y } ∧
        0 ≤ (u'.x - u.x) * (u.x - c.x) ∧ 0 ≤ (u'.y - u.y) * (u.y - c.y) ∧
        (u.x - c.x) ^ 2 + (u.y - c.y) ^ 2 ≤ (u'.x - c.x) ^ 2 + (u'.y - c.y) ^ 2 ∧
        ((u'.x - c.x) ^ 2 + (u'.y - c.y) ^ 2 = (u.x - c.x) ^ 2 + (u.y - c.y) ^ 2 → u' = u) ∧
        (c.size / 2 + u.size / 2 ≤ hypot (u.x - c.x) (u.y - c.y) → u' = u)) ∧
    (∀ (hypotE : ℚ → ℚ → ℚ) (randomE : Nat → ℚ), hypotE 10 0 = 10 →
      ∃ u' : Entity,
        (resolveUnitCollisions hypotE randomE scenarioUnitBunker).gameObjects =
          [u', bunkerNearUnit] ∧
        u'.x < unitNearBunker.x ∧ u'.y = unitNearBunker.y) := by
  refine ⟨fun g k e hk hb => resolveUnitCollisions_bunker hypot random g k e hk hb,
    fun hhyp hd g hobjs => ?_, fun hhyp hd g hobjs => ?_, fun hypotE randomE h => ?_⟩
  · have hlen : g.gameObjects.length = 2 := by rw [hobjs]; rfl
    have h0 : g.gameObjects[0]? = some u := by rw [hobjs]; rfl
    have h1 : g.gameObjects[1]? = some c := by rw [hobjs]; rfl
    have hlen' := (resolvePair_frame (fun _ => True) hypot random g (0, 1)).objs.1
    obtain ⟨u', hu', -⟩ :=
      (resolvePair_frame (fun _ => True) hypot random g (0, 1)).objs.2 0 u h0
    obtain ⟨c', hc', -⟩ :=
      (resolvePair_frame (fun _ => True) hypot random g (0, 1)).objs.2 1 c h1
    have hd' : c.x - u.x ≠ 0 ∨ c.y - u.y ≠ 0 := by
      rcases hd with h | h
      · exact Or.inl (fun h2 => h (by linarith))
      · exact Or.inr (fun h2 => h (by linarith))
    obtain ⟨f1, -, -, fc, f3, f4, -, -, f7, f8, f9⟩ :=
      resolvePair_away hypot random g 0 1 u c u' c' (by decide) h0 h1 (hhyp _ _).1
        (hhyp _ _).2 hd' hu' hc'
    have hcc : c' = c := fc htc
    rw [hcc] at hc' f7 f8 f9
    rw [resolveUnitCollisions_two hypot random g hlen]
    refine ⟨u', list_pair _ u' c (hlen'.trans hlen) hu' hc', by rw [f1]; exact htu, f1,
      by linarith, by linarith, ?_, ?_, fun h => (f9 h).1⟩
    · have e1 : (u.x - c.x) ^ 2 + (u.y - c.y) ^ 2 = (c.x - u.x) ^ 2 + (c.y - u.y) ^ 2 := by ring
      have e2 : (u'.x - c.x) ^ 2 + (u'.y - c.y) ^ 2 = (c.x - u'.x) ^ 2 + (c.y - u'.y) ^ 2 := by
        ring
      rw [e1, e2]
      exact f7
    · intro h
      refine (f8 ?_).1
      linear_combination h
  · have hlen : g.gameObjects.length = 2 := by rw [hobjs]; rfl
    have h0 : g.gameObjects[0]? = some c := by rw [hobjs]; rfl
    have h1 : g.gameObjects[1]? = some u := by rw [hobjs]; rfl
    have hlen' := (resolvePair_frame (fun _ => True) hypot random g (0, 1)).objs.1
    obtain ⟨c', hc', -⟩ :=
      (resolvePair_frame (fun _ => True) hypot random g (0, 1)).objs.2 0 c h0
    obtain ⟨u', hu', -⟩ :=
      (resolvePair_frame (fun _ => True) hypot random g (0, 1)).objs.2 1 u h1
    obtain ⟨-, f2, fc, -, -, -, f5, f6, f7, f8, f9⟩ :=
      resolvePair_away hypot random g 0 1 c u c' u' (by decide) h0 h1 (hhyp _ _).1
        (hhyp _ _).2 hd hc' hu'
    have hcc : c' = c := fc htc
    rw [hcc] at hc' f7 f8 f9
    rw [resolveUnitCollisions_two hypot random g hlen]
    exact ⟨u', list_pair _ c u' (hlen'.trans hlen) hc' hu', by rw [f2]; exact htu, f2, f5, f6, f7,
      fun h => (f8 h).2, fun h => (f9 h).2⟩
  · refine ⟨_, scenarioUnitBunker_pass hypotE randomE h, ?_, rfl⟩
    norm_num [unitNearBunker, Unit.init]

/-- Witness of the amended claim C13: the unit of size 30 whose centre is 10 to the left of the
centre of a bunker of size 80, with the computable `hypotQ`; the bunker comes first. -/
theorem C13_bunkers_never_move_witness :
    (unitNearBunker.type = .unit ∧ bunkerNearUnit.type = .bunker ∧
      (unitNearBunker.x - bunkerNearUnit.x ≠ 0 ∨ unitNearBunker.y - bunkerNearUnit.y ≠ 0)) ∧
    ∃ u' : Entity,
      (resolveUnitCollisions hypotQ (fun _ => 0)
        { initialGame with gameObjects := [bunkerNearUnit, unitNearBunker] }).gameObjects =
          [bunkerNearUnit, u'] ∧
      0 ≤ (u'.x - unitNearBunker.x) * (unitNearBunker.x - bunkerNearUnit.x) := by
  have hd : unitNearBunker.x - bunkerNearUnit.x ≠ 0 ∨
      unitNearBunker.y - bunkerNearUnit.y ≠ 0 :=
    Or.inl (by norm_num [unitNearBunker, bunkerNearUnit, Unit.init, Bunker.init])
  obtain ⟨u', h1, -, -, h2, -⟩ :=
    (C13_bunkers_never_move hypotQ (fun _ => 0) unitNearBunker bunkerNearUnit rfl
      rfl).2.2.1 hypotQ_sound hd
      { initialGame with gameObjects := [bunkerNearUnit, unitNearBunker] } rfl
  exact ⟨⟨rfl, rfl, hd⟩, u', h1, h2⟩
/-- No rational number has square 2. -/
theorem rat_sq_ne_two (q : ℚ) : q * q ≠ 2 := by
  intro h
  have h2 : ((|q| : ℚ) : ℝ) = Real.sqrt 2 := by
    symm
    rw [Real.sqrt_eq_iff_mul_self_eq (by norm_num) (by exact_mod_cast abs_nonneg q)]
    have : |q| * |q| = 2 := by rw [abs_mul_abs_self]; exact h
    exact_mod_cast this.symm
  exact irrational_sqrt_two ⟨|q|, h2⟩
/-- Claim C20, counterexample: a unit of speed 2 at (100, 100) on its way to (200, 200).
Whatever rational value `Math.hypot` returns for the remaining distance (every double is
rational), the pre-clamp position is not the old position advanced by exactly `speed`: the
squared length of the step is never 4. With the computable `hypotQ` the unit is in the branch
of the claim in which it would have to be (the computed distance exceeds the speed). -/
theorem C20_counterexample :
    ¬ (diagonalMover.x = diagonalMover.targetX ∧ diagonalMover.y = diagonalMover.targetY) ∧
    0 ≤ diagonalMover.speed ∧
    ¬ hypotQ (diagonalMover.targetX - diagonalMover.x)
        (diagonalMover.targetY - diagonalMover.y) ≤ diagonalMover.speed ∧
    ∀ hypot : ℚ → ℚ → ℚ,
      ((preClamp hypot diagonalMover).1 - diagonalMover.x) ^ 2 +
        ((preClamp hypot diagonalMover).2 - diagonalMover.y) ^ 2 ≠ diagonalMover.speed ^ 2 := by
  have hx : diagonalMover.x = 100 := rfl
  have hy : diagonalMover.y = 100 := rfl
  have htx : diagonalMover.targetX = 200 := rfl
  have hty : diagonalMover.targetY = 200 := rfl
  have hs : diagonalMover.speed = 2 := rfl
  refine ⟨?_, ?_, ?_, fun hypot => ?_⟩
  · rw [hx, htx]
    norm_num
  · rw [hs]
    norm_num
  · rw [hx, hy, htx, hty, hs]
    have e : hypotQ (200 - 100) (200 - 100) = 141 := by
      unfold hypotQ sqrtQ
      have h2 : ((200 : ℚ) - 100) * (200 - 100) + (200 - 100) * (200 - 100) = 20000 := by
        norm_num
      rw [h2]
      have hn : (20000 : ℚ).num = 20000 := rfl
      have hd : (20000 : ℚ).den = 1 := rfl
      have ht : Int.toNat 20000 = 20000 := rfl
      have hsq : Nat.sqrt (20000 * 1) = 141 := by
        symm
        rw [Nat.eq_sqrt]
        constructor <;> norm_num
      simp only [hn, hd, ht]
      rw [hsq]
      norm_num
    rw [e]
    norm_num
  · unfold preClamp
    dsimp only
    rw [hx, hy, htx, hty, hs]
    have e1 : (200 : ℚ) - 100 = 100 := by norm_num
    rw [e1]
    generalize hypot 100 100 = D
    by_cases hle : D ≤ 2
    · simp only [hle, if_true]
      norm_num
    · simp only [hle, if_false]
      have hD : D ≠ 0 := by
        intro h
        rw [h] at hle
        exact hle (by norm_num)
      intro h
      have h2 : (100 / D) * (100 / D) = 1 / 2 := by
        have h3 : (100 + 100 / D * 2 - 100) ^ 2 + (100 + 100 / D * 2 - 100) ^ 2 =
            8 * ((100 / D) * (100 / D)) := by ring
        rw [h3] at h
        linarith
      have h5 : (D / 100) * (D / 100) = 2 := by
        have h6 : (D / 100) * (D / 100) * ((100 / D) * (100 / D)) = 1 := by
          field_simp
        rw [h2] at h6
        linarith
      exact rat_sq_ne_two _ h5

/-- The unit of speed 2 at (100, 100) on its way to (200, 100), for every `Math.hypot` that is
exact at (100, 0): the step is (2, 0). -/
theorem axisMover_step (hypot : ℚ → ℚ → ℚ) (h : hypot 100 0 = 100) :
    preClamp hypot axisMover = (102, 100) := by
  have hx : axisMover.x = 100 := rfl
  have hy : axisMover.y = 100 := rfl
  have htx : axisMover.targetX = 200 := rfl
  have hty : axisMover.targetY = 100 := rfl
  have hs : axisMover.speed = 2 := rfl
  unfold preClamp
  dsimp only
  rw [hx, hy, htx, hty, hs]
  have e1 : (200 : ℚ) - 100 = 100 := by norm_num
  have e2 : (100 : ℚ) - 100 = 0 := by norm_num
  rw [e1, e2, h]
  norm_num

/-- Claim C20, amended: for a unit with `speed >= 0` that is not at its movement target, with
`D` the value that `Math.hypot` returns for the remaining distance. If `D <= speed` the
pre-clamp position is exactly the target. Otherwise the step goes, on each axis, towards the
target or nowhere. When `D >= 2 * speed` the pre-clamp position has not passed the target on
either axis. The new position is the pre-clamp position clamped to
`[size/2, 1000 - size/2] x [size/2, 700 - size/2]`, nothing but the position changes, and the
clamp changes nothing when the pre-clamp position lies in that box. The step has length
exactly `speed` where the arithmetic is exact, as for the unit of speed 2 at (100, 100) on its
way to (200, 100), whose pre-clamp and new position is (102, 100), leaving a distance of
`100 - 2`. -/
theorem C20_movement_step (hypot : ℚ → ℚ → ℚ) (u : Entity)
    (hne : ¬ (u.x = u.targetX ∧ u.y = u.targetY)) (hspeed : 0 ≤ u.speed) :
    (hypot (u.targetX - u.x) (u.targetY - u.y) ≤ u.speed →
      preClamp hypot u = (u.targetX, u.targetY)) ∧
    (¬ hypot (u.targetX - u.x) (u.targetY - u.y) ≤ u.speed →
      0 ≤ ((preClamp hypot u).1 - u.x) * (u.targetX - u.x) ∧
      0 ≤ ((preClamp hypot u).2 - u.y) * (u.targetY - u.y)) ∧
    (2 * u.speed ≤ hypot (u.targetX - u.x) (u.targetY - u.y) →
      0 ≤ (u.targetX - (preClamp hypot u).1) * (u.targetX - u.x) ∧
      0 ≤ (u.targetY - (preClamp hypot u).2) * (u.targetY - u.y)) ∧
    (Unit.performMovement hypot u).x =
      max (u.size / 2) (min (1000 - u.size / 2) (preClamp hypot u).1) ∧
    (Unit.performMovement hypot u).y =
      max (u.size / 2) (min (700 - u.size / 2) (preClamp hypot u).2) ∧
    Unit.performMovement hypot u =
      { u with x := (Unit.performMovement hypot u).x, y := (Unit.performMovement hypot u).y } ∧
    (u.size / 2 ≤ (preClamp hypot u).1 → (preClamp hypot u).1 ≤ 1000 - u.size / 2 →
      u.size / 2 ≤ (preClamp hypot u).2 → (preClamp hypot u).2 ≤ 700 - u.size / 2 →
      (Unit.performMovement hypot u).x = (preClamp hypot u).1 ∧
      (Unit.performMovement hypot u).y = (preClamp hypot u).2) ∧
    (∀ hypotE : ℚ → ℚ → ℚ, hypotE 100 0 = 100 →
      preClamp hypotE axisMover = (102, 100) ∧
      (Unit.performMovement hypotE axisMover).x = 102 ∧
      (Unit.performMovement hypotE axisMover).y = 100 ∧
      axisMover.targetX - (Unit.performMovement hypotE axisMover).x = 100 - axisMover.speed ∧
      axisMover.targetY - (Unit.performMovement hypotE axisMover).y = 0) := by
  obtain ⟨hx, hy⟩ := performMovement_preClamp hypot u hne
  unfold MAP_WIDTH at hx
  unfold MAP_HEIGHT at hy
  refine ⟨fun hle => ?_, fun hgt => ?_, fun h2 => ?_, hx, hy, performMovement_eq hypot u,
    fun h1 h2 h3 h4 => ?_, fun hypotE h => ?_⟩
  · unfold preClamp
    simp only [hle, if_true]
  · have hlt : u.speed < hypot (u.targetX - u.x) (u.targetY - u.y) := not_le.mp hgt
    have hD : 0 < hypot (u.targetX - u.x) (u.targetY - u.y) := lt_of_le_of_lt hspeed hlt
    unfold preClamp
    dsimp only
    simp only [hgt, if_false]
    generalize hypot (u.targetX - u.x) (u.targetY - u.y) = D at hlt hD
    have hr0 : 0 ≤ u.speed / D := div_nonneg hspeed hD.le
    have hD0 : D ≠ 0 := ne_of_gt hD
    have e1 : (u.x + (u.targetX - u.x) / D * u.speed - u.x) * (u.targetX - u.x) =
        (u.targetX - u.x) ^ 2 * (u.speed / D) := by
      field_simp
      ring
    have e3 : (u.y + (u.targetY - u.y) / D * u.speed - u.y) * (u.targetY - u.y) =
        (u.targetY - u.y) ^ 2 * (u.speed / D) := by
      field_simp
      ring
    rw [e1, e3]
    exact ⟨mul_nonneg (sq_nonneg _) hr0, mul_nonneg (sq_nonneg _) hr0⟩
  · by_cases hle : hypot (u.targetX - u.x) (u.targetY - u.y) ≤ u.speed
    · unfold preClamp
      simp only [hle, if_true, sub_self, zero_mul, le_refl, and_self]
    · have hlt : u.speed < hypot (u.targetX - u.x) (u.targetY - u.y) := not_le.mp hle
      have hD : 0 < hypot (u.targetX - u.x) (u.targetY - u.y) := lt_of_le_of_lt hspeed hlt
      unfold preClamp
      dsimp only
      simp only [hle, if_false]
      generalize hypot (u.targetX - u.x) (u.targetY - u.y) = D at hlt hD
      have hr1 : 0 ≤ 1 - u.speed / D := by
        rw [sub_nonneg, div_le_one hD]
        exact hlt.le
      have hD0 : D ≠ 0 := ne_of_gt hD
      have e2 : (u.targetX - (u.x + (u.targetX - u.x) / D * u.speed)) * (u.targetX - u.x) =
          (u.targetX - u.x) ^ 2 * (1 - u.speed / D) := by
        field_simp
        ring
      have e4 : (u.targetY - (u.y + (u.targetY - u.y) / D * u.speed)) * (u.targetY - u.y) =
          (u.targetY - u.y) ^ 2 * (1 - u.speed / D) := by
        field_simp
        ring
      rw [e2, e4]
      exact ⟨mul_nonneg (sq_nonneg _) hr1, mul_nonneg (sq_nonneg _) hr1⟩
  · rw [hx, hy]
    exact ⟨clamp_mid h1 h2, clamp_mid h3 h4⟩
  · have hne2 : ¬ (axisMover.x = axisMover.targetX ∧ axisMover.y = axisMover.targetY) := by
      have hx2 : axisMover.x = 100 := rfl
      have htx2 : axisMover.targetX = 200 := rfl
      rw [hx2, htx2]
      norm_num
    obtain ⟨hx2, hy2⟩ := performMovement_preClamp hypotE axisMover hne2
    have hst := axisMover_step hypotE h
    rw [hst] at hx2 hy2
    have hsz : axisMover.size = 30 := rfl
    have hX : (Unit.performMovement hypotE axisMover).x = 102 := by
      rw [hx2, hsz]
      norm_num [MAP_WIDTH]
    have hY : (Unit.performMovement hypotE axisMover).y = 100 := by
      rw [hy2, hsz]
      norm_num [MAP_HEIGHT]
    have htx : axisMover.targetX = 200 := rfl
    have hty : axisMover.targetY = 100 := rfl
    have hs : axisMover.speed = 2 := rfl
    refine ⟨hst, hX, hY, ?_, ?_⟩
    · rw [hX, htx, hs]
      norm_num
    · rw [hY, hty]
      norm_num

/-- Witness of the amended claim C20: the unit of scenario A inside the arena, at (100, 100)
on its way to (110, 100) with speed 2. -/
theorem C20_movement_step_witness :
    (¬ ((Unit.moveTo (Unit.init 100 100 1 0 30 2) 110 100).x =
          (Unit.moveTo (Unit.init 100 100 1 0 30 2) 110 100).targetX ∧
        (Unit.moveTo (Unit.init 100 100 1 0 30 2) 110 100).y =
          (Unit.moveTo (Unit.init 100 100 1 0 30 2) 110 100).targetY) ∧
      0 ≤ (Unit.moveTo (Unit.init 100 100 1 0 30 2) 110 100).speed) ∧
    (Unit.performMovement hypotQ (Unit.moveTo (Unit.init 100 100 1 0 30 2) 110 100)).x =
      max ((Unit.moveTo (Unit.init 100 100 1 0 30 2) 110 100).size / 2)
        (min (1000 - (Unit.moveTo (Unit.init 100 100 1 0 30 2) 110 100).size / 2)
          (preClamp hypotQ (Unit.moveTo (Unit.init 100 100 1 0 30 2) 110 100)).1) := by
  have hne : ¬ ((Unit.moveTo (Unit.init 100 100 1 0 30 2) 110 100).x =
        (Unit.moveTo (Unit.init 100 100 1 0 30 2) 110 100).targetX ∧
      (Unit.moveTo (Unit.init 100 100 1 0 30 2) 110 100).y =
        (Unit.moveTo (Unit.init 100 100 1 0 30 2) 110 100).targetY) := by
    norm_num [Unit.moveTo, Unit.init]
  have hsp : 0 ≤ (Unit.moveTo (Unit.init 100 100 1 0 30 2) 110 100).speed := by
    norm_num [Unit.moveTo, Unit.init]
  exact ⟨⟨hne, hsp⟩, (C20_movement_step hypotQ _ hne hsp).2.2.2.1⟩
/-- Claim C21, counterexample: two live units of size 30 at (100, 100) and (101, 101). Their
boxes overlap and their centre distance, the square root of 2, is positive and below the sum
of the half-sizes, 30. Whatever non-zero rational value `Math.hypot` returns for that distance
(every double is rational), the centre distance after the step of the pair is not the sum of
the half-sizes: its square is never 900. So the two units have not each moved by exactly half
of the overlap. -/
theorem C21_counterexample :
    scenarioDiagonal.gameObjects = [Unit.init 100 100 1 0 30 2, Unit.init 101 101 2 1 30 2] ∧
    checkUnitCollision (Unit.init 100 100 1 0 30 2) (Unit.init 101 101 2 1 30 2) = true ∧
    (0 : ℚ) < (101 - 100) ^ 2 + (101 - 100) ^ 2 ∧
    ((101 : ℚ) - 100) ^ 2 + (101 - 100) ^ 2 < (30 / 2 + 30 / 2) ^ 2 ∧
    ∀ (hypot : ℚ → ℚ → ℚ) (random : Nat → ℚ), hypot 1 1 ≠ 0 →
      ∀ a' b' : Entity,
        (resolvePair hypot random scenarioDiagonal (0, 1)).gameObjects = [a', b'] →
        (b'.x - a'.x) ^ 2 + (b'.y - a'.y) ^ 2 ≠ (30 / 2 + 30 / 2) ^ 2 := by
  have hc : checkUnitCollision (Unit.init 100 100 1 0 30 2) (Unit.init 101 101 2 1 30 2) =
      true := by norm_num [checkUnitCollision, Unit.init]
  refine ⟨rfl, hc, by norm_num, by norm_num, fun hypot random h0 a' b' hres => ?_⟩
  have hd : hypot ((Unit.init 101 101 2 1 30 2).x - (Unit.init 100 100 1 0 30 2).x)
      ((Unit.init 101 101 2 1 30 2).y - (Unit.init 100 100 1 0 30 2).y) = hypot 1 1 := by
    have e1 : (Unit.init 101 101 2 1 30 2).x - (Unit.init 100 100 1 0 30 2).x = 1 := by
      norm_num [Unit.init]
    have e2 : (Unit.init 101 101 2 1 30 2).y - (Unit.init 100 100 1 0 30 2).y = 1 := by
      norm_num [Unit.init]
    rw [e1, e2]
  by_cases hov : (Unit.init 100 100 1 0 30 2).size / 2 + (Unit.init 101 101 2 1 30 2).size / 2 -
      hypot 1 1 > 0
  · rw [resolvePair_push hypot random scenarioDiagonal 0 1 (Unit.init 100 100 1 0 30 2)
      (Unit.init 101 101 2 1 30 2) (hypot 1 1) rfl rfl hc (by simp [Unit.init]) hd h0 hov] at hres
    have ht1 : (Unit.init 100 100 1 0 30 2).type = .unit := rfl
    have ht2 : (Unit.init 101 101 2 1 30 2).type = .unit := rfl
    simp only [ht1, ht2, if_true, reduceCtorEq, if_false] at hres
    rw [(modifyObj_pair scenarioDiagonal _ _ rfl _ _).1] at hres
    generalize hypot 1 1 = D at h0 hres
    injection hres with ha hrest
    injection hrest with hb
    subst ha
    subst hb
    norm_num [Unit.init, PUSH_FACTOR]
    intro h
    have h2 : (101 + D⁻¹ * (30 - D) * (1 / 2) - (100 - D⁻¹ * (30 - D) * (1 / 2))) = 30 / D := by
      field_simp
      ring
    have h3 : (30 / D) * (30 / D) = 450 := by
      rw [h2] at h
      linarith
    have h5 : D * D = 2 := by
      have h6 : D * D * ((30 / D) * (30 / D)) = 900 := by
        field_simp
        ring
      rw [h3] at h6
      linarith
    exact rat_sq_ne_two _ h5
  · rw [resolvePair_apart hypot random scenarioDiagonal 0 1 (Unit.init 100 100 1 0 30 2)
      (Unit.init 101 101 2 1 30 2) rfl rfl (by rw [hd]; exact h0) (by rw [hd]; exact hov)] at hres
    have hres2 : [Unit.init 100 100 1 0 30 2, Unit.init 101 101 2 1 30 2] = [a', b'] := hres
    injection hres2 with ha hrest
    injection hrest with hb
    subst ha
    subst hb
    norm_num [Unit.init]
/-- The step of a pair whose computed distance is not zero leaves every object other than the
two of the pair as it is. -/
theorem resolvePair_rest (hypot : ℚ → ℚ → ℚ) (random : Nat → ℚ) (g : Game) (i j k : Nat)
    (a b : Entity) (ha : g.gameObjects[i]? = some a) (hb : g.gameObjects[j]? = some b)
    (hd0 : hypot (b.x - a.x) (b.y - a.y) ≠ 0) (hki : i ≠ k) (hkj : j ≠ k) :
    (resolvePair hypot random g (i, j)).gameObjects[k]? = g.gameObjects[k]? := by
  by_cases hskip : checkUnitCollision a b = false ∨ (a.type = .bunker ∧ b.type = .bunker)
  · rw [resolvePair_skip hypot random g i j a b ha hb hskip]
  have hc : checkUnitCollision a b = true := by
    cases h : checkUnitCollision a b
    · exact absurd (Or.inl h) hskip
    · rfl
  have hbb : ¬ (a.type = .bunker ∧ b.type = .bunker) := fun h => hskip (Or.inr h)
  by_cases hov : a.size / 2 + b.size / 2 - hypot (b.x - a.x) (b.y - a.y) > 0
  · rw [resolvePair_push hypot random g i j a b _ ha hb hc hbb rfl hd0 hov]
    by_cases hta : a.type = .unit <;> by_cases htb : b.type = .unit
    · rw [if_pos htb, if_pos hta, getElem?_modifyObj_ne _ _ hkj, getElem?_modifyObj_ne _ _ hki]
    · rw [if_neg htb, if_pos hta, getElem?_modifyObj_ne _ _ hki]
    · rw [if_pos htb, if_neg hta, getElem?_modifyObj_ne _ _ hkj]
    · rw [if_neg htb, if_neg hta]
  · rw [resolvePair_apart hypot random g i j a b ha hb hd0 hov]

/-- Claim C21, amended: the resolution step of a pair of distinct objects whose centres differ
(`Math.hypot` non-negative, and zero only at (0, 0)), in any population, displaces only the
units of the pair: every other object and a bunker of the pair are unchanged, each of the two
keeps everything but its position, and on each axis a unit of the pair has moved away from the
other participant or not at all; nothing moves when the distance computed by `Math.hypot` is
not below the sum of the half-sizes. The amounts `overlap / 2` (unit against unit) and
`overlap / 6` (unit against bunker, weights 0.5 and 0.1) are exact where the arithmetic is
(`Math.hypot` exact at (10, 0)): in Scenario E (size 30, centres 10 apart on the x axis,
overlap 20) each unit moves by exactly 10 and the centre distance becomes exactly 30, the sum
of the half-sizes; the unit of size 30 whose centre is 10 to the left of the centre of a
bunker of size 80 (overlap 45) moves by exactly 45/6 and the bunker stays. -/
theorem C21_displacement_split (hypot : ℚ → ℚ → ℚ) (random : Nat → ℚ) (g : Game) (i j : Nat)
    (a b : Entity) (hij : i ≠ j)
    (ha : g.gameObjects[i]? = some a) (hb : g.gameObjects[j]? = some b)
    (hhyp : ∀ p q : ℚ, 0 ≤ hypot p q ∧ (hypot p q = 0 → p = 0 ∧ q = 0))
    (hd : b.x - a.x ≠ 0 ∨ b.y - a.y ≠ 0) :
    (∃ a' b' : Entity,
      (resolvePair hypot random g (i, j)).gameObjects[i]? = some a' ∧
      (resolvePair hypot random g (i, j)).gameObjects[j]? = some b' ∧
      (∀ k : Nat, i ≠ k → j ≠ k →
        (resolvePair hypot random g (i, j)).gameObjects[k]? = g.gameObjects[k]?) ∧
      a' = { a with x := a'.x, y := a'.y } ∧ b' = { b with x := b'.x, y := b'.y } ∧
      (a.type = .bunker → a' = a) ∧ (b.type = .bunker → b' = b) ∧
      (a'.x - a.x) * (b.x - a.x) ≤ 0 ∧ (a'.y - a.y) * (b.y - a.y) ≤ 0 ∧
      0 ≤ (b'.x - b.x) * (b.x - a.x) ∧ 0 ≤ (b'.y - b.y) * (b.y - a.y) ∧
      (a.size / 2 + b.size / 2 ≤ hypot (b.x - a.x) (b.y - a.y) → a' = a ∧ b' = b)) ∧
    (∀ (hypotE : ℚ → ℚ → ℚ) (randomE : Nat → ℚ), hypotE 10 0 = 10 →
      (∃ a' b' : Entity,
        (resolvePair hypotE randomE scenarioE (0, 1)).gameObjects = [a', b'] ∧
        100 - a'.x = (30 / 2 + 30 / 2 - 10) / 2 ∧ a'.y = 100 ∧
        b'.x - 110 = (30 / 2 + 30 / 2 - 10) / 2 ∧ b'.y = 100 ∧
        b'.x - a'.x = 30 / 2 + 30 / 2) ∧
      (∃ u' : Entity,
        (resolvePair hypotE randomE scenarioUnitBunker (0, 1)).gameObjects =
          [u', bunkerNearUnit] ∧
        100 - u'.x = (30 / 2 + 80 / 2 - 10) / 6 ∧ u'.y = 100)) := by
  constructor
  · have hd0 : hypot (b.x - a.x) (b.y - a.y) ≠ 0 := by
      intro h0
      obtain ⟨hx, hy⟩ := (hhyp _ _).2 h0
      rcases hd with h | h
      · exact h hx
      · exact h hy
    obtain ⟨a', ha', -⟩ :=
      (resolvePair_frame (fun _ => True) hypot random g (i, j)).objs.2 i a ha
    obtain ⟨b', hb', -⟩ :=
      (resolvePair_frame (fun _ => True) hypot random g (i, j)).objs.2 j b hb
    obtain ⟨f1, f2, fa, fb, f3, f4, f5, f6, -, -, f9⟩ :=
      resolvePair_away hypot random g i j a b a' b' hij ha hb (hhyp _ _).1 (hhyp _ _).2 hd
        ha' hb'
    exact ⟨a', b', ha', hb',
      fun k hki hkj => resolvePair_rest hypot random g i j k a b ha hb hd0 hki hkj,
      f1, f2, fa, fb, f3, f4, f5, f6, f9⟩
  · intro hypotE randomE h
    constructor
    · refine ⟨{ Unit.init 100 100 1 0 30 2 with x := 90 },
        { Unit.init 110 100 2 1 30 2 with x := 120 }, ?_, ?_, rfl, ?_, rfl, ?_⟩
      · rw [← resolveUnitCollisions_two hypotE randomE scenarioE rfl]
        exact scenarioE_pass hypotE randomE h
      · norm_num
      · norm_num
      · norm_num
    · refine ⟨{ unitNearBunker with x := 185 / 2 }, ?_, ?_, rfl⟩
      · rw [← resolveUnitCollisions_two hypotE randomE scenarioUnitBunker rfl]
        exact scenarioUnitBunker_pass hypotE randomE h
      · norm_num

/-- Witness of the amended claim C21: the pair of Scenario E, with the computable `hypotQ`. -/
theorem C21_displacement_split_witness :
    (scenarioE.gameObjects[0]? = some (Unit.init 100 100 1 0 30 2) ∧
      scenarioE.gameObjects[1]? = some (Unit.init 110 100 2 1 30 2) ∧
      ((Unit.init 110 100 2 1 30 2).x - (Unit.init 100 100 1 0 30 2).x ≠ 0 ∨
        (Unit.init 110 100 2 1 30 2).y - (Unit.init 100 100 1 0 30 2).y ≠ 0)) ∧
    ∃ a' b' : Entity,
      (resolvePair hypotQ (fun _ => 0) scenarioE (0, 1)).gameObjects[0]? = some a' ∧
      (resolvePair hypotQ (fun _ => 0) scenarioE (0, 1)).gameObjects[1]? = some b' ∧
      (a'.x - (Unit.init 100 100 1 0 30 2).x) *
        ((Unit.init 110 100 2 1 30 2).x - (Unit.init 100 100 1 0 30 2).x) ≤ 0 := by
  have hd : (Unit.init 110 100 2 1 30 2).x - (Unit.init 100 100 1 0 30 2).x ≠ 0 ∨
      (Unit.init 110 100 2 1 30 2).y - (Unit.init 100 100 1 0 30 2).y ≠ 0 :=
    Or.inl (by norm_num [Unit.init])
  obtain ⟨a', b', h1, h2, -, -, -, -, -, h3, -⟩ :=
    (C21_displacement_split hypotQ (fun _ => 0) scenarioE 0 1 (Unit.init 100 100 1 0 30 2)
      (Unit.init 110 100 2 1 30 2) (by decide) rfl rfl hypotQ_sound hd).1
  exact ⟨⟨rfl, rfl, hd⟩, a', b', h1, h2, h3⟩

end CollisionAndAttack
